import Mathlib

/-!
nspire_emu: CPU state, exceptions, flag arithmetic, instruction classes, NAND device, NAND
controller and ECC.

A shallow embedding of parts of `cpu.c` and `flash.c`.

Conventions of the embedding.
* C `uint32_t`/`uint8_t`/`int` values are natural numbers; 32-bit wrap-around is written
  `% 2 ^ 32` where the C arithmetic can overflow.
* C arrays are total functions `Nat → Nat` indexed from 0; `memcpy`/`memset` become
  pointwise updates on an index range.
* `error(...)` does not return (it aborts the emulator): every function that can reach it
  returns an `Option`, and `none` is the abort.  `warn(...)` only logs and has no effect on
  the modelled state.
* Functions of other translation units (`mem.c`) are parameters of the definitions that
  call them; calls of functions whose effect lies outside the modelled state are counted.
-/

namespace NspireEmu

/-! ## Constants of `cpu.h` and `emu.h` -/

/-- Modelled from the spec: the processor mode numbers of `cpu.h` (not part of the sources),
as listed in the glossary: USR is 0x10. -/
abbrev MODE_USR : Nat := 0x10
/-- Modelled from the spec: FIQ mode number (glossary), `cpu.h` is not part of the sources. -/
abbrev MODE_FIQ : Nat := 0x11
/-- Modelled from the spec: IRQ mode number (glossary), `cpu.h` is not part of the sources. -/
abbrev MODE_IRQ : Nat := 0x12
/-- Modelled from the spec: SVC mode number (glossary), `cpu.h` is not part of the sources. -/
abbrev MODE_SVC : Nat := 0x13
/-- Modelled from the spec: ABT mode number (glossary), `cpu.h` is not part of the sources. -/
abbrev MODE_ABT : Nat := 0x17
/-- Modelled from the spec: UND mode number (glossary), `cpu.h` is not part of the sources. -/
abbrev MODE_UND : Nat := 0x1B
/-- Modelled from the spec: SYS mode number (glossary), `cpu.h` is not part of the sources. -/
abbrev MODE_SYS : Nat := 0x1F

/-- Modelled from the spec: exception numbers of `cpu.h` (not part of the sources); the
number is the index into the `flags` table of `cpu_exception` and the vector is `4 * number`. -/
abbrev EX_RESET : Nat := 0
/-- Modelled from the spec: Undefined-instruction exception number. -/
abbrev EX_UNDEFINED : Nat := 1
/-- Modelled from the spec: software-interrupt exception number. -/
abbrev EX_SWI : Nat := 2
/-- Modelled from the spec: prefetch-abort exception number. -/
abbrev EX_PREFETCH_ABORT : Nat := 3
/-- Modelled from the spec: data-abort exception number. -/
abbrev EX_DATA_ABORT : Nat := 4
/-- Modelled from the spec: IRQ exception number. -/
abbrev EX_IRQ : Nat := 6
/-- Modelled from the spec: FIQ exception number. -/
abbrev EX_FIQ : Nat := 7

/-- Event bit `EVENT_IRQ` of `emu.h`. -/
abbrev EVENT_IRQ : Nat := 1
/-- Event bit `EVENT_FIQ` of `emu.h`. -/
abbrev EVENT_FIQ : Nat := 2
/-- Event bit `EVENT_WAITING` of `emu.h`. -/
abbrev EVENT_WAITING : Nat := 16

/-- C `~x` on a 32-bit unsigned value. -/
def not32 (x : Nat) : Nat := 0xFFFFFFFF - x % 2 ^ 32

/-- The value of a 32-bit word read as a two's complement `int32_t`. -/
def sint32 (x : Nat) : Int := if x % 2 ^ 32 < 2 ^ 31 then (x % 2 ^ 32 : Nat) else (x % 2 ^ 32 : Nat) - 2 ^ 32

/-- Arithmetic right shift of a 32-bit word: `(int32_t)x >> n` for `n < 32`. -/
def asr32 (x n : Nat) : Nat :=
  if x % 2 ^ 32 < 2 ^ 31 then (x % 2 ^ 32) >>> n
  else ((x % 2 ^ 32) >>> n) ||| (0xFFFFFFFF - (0xFFFFFFFF >>> n))

/-- The call `memcpy(&dst[doff], &src[soff], 4 * n)` on arrays of 32-bit words. -/
def copy_words (dst : Nat → Nat) (doff : Nat) (src : Nat → Nat) (soff n : Nat) : Nat → Nat :=
  fun i => if doff ≤ i ∧ i < doff + n then src (soff + (i - doff)) else dst i

/-- Assignment `arr[idx] = v`. -/
def set_elem (arr : Nat → Nat) (idx v : Nat) : Nat → Nat :=
  fun i => if i = idx then v else arr i

/-! ## Processor state -/

/-- The record `struct arm_state` (the global `arm`), with the fields `cpu.c` uses. -/
structure arm_state where
  reg : Nat → Nat
  cpsr_low28 : Nat
  cpsr_n : Nat
  cpsr_z : Nat
  cpsr_c : Nat
  cpsr_v : Nat
  control : Nat
  translation_table_base : Nat
  domain_access_control : Nat
  data_fault_status : Nat
  instruction_fault_status : Nat
  fault_address : Nat
  r8_usr : Nat → Nat
  r13_usr : Nat → Nat
  r8_fiq : Nat → Nat
  r13_fiq : Nat → Nat
  spsr_fiq : Nat
  r13_irq : Nat → Nat
  spsr_irq : Nat
  r13_svc : Nat → Nat
  spsr_svc : Nat
  r13_abt : Nat → Nat
  spsr_abt : Nat
  r13_und : Nat → Nat
  spsr_und : Nat
  interrupts : Nat

/-- The globals the CPU core touches: `arm`, the event word `cpu_events`, the number of
calls of `addr_cache_flush()` made so far (the address cache itself lives outside `cpu.c`),
the scheduler's `cycle_count_delta` (a C `int`), and the bytes `mem` of guest memory that
the accessors of `mem.h` read and write. -/
structure Cpu where
  arm : arm_state
  cpu_events : Nat
  addr_cache_flushes : Nat
  cycle_count_delta : Int
  mem : Nat → Nat

/-- The accessors of `mem.h` and the entry `debugger(DBG_EXEC_BREAKPOINT, 0)` of `debug.h`,
which `cpu.c` calls: they belong to other modules and are parameters.  A read returns the
value and the machine after the access; `none` stands for a call that does not return to the
instruction (an `error`, or an abort that leaves it). -/
structure mem_ops where
  read_byte : Nat → Cpu → Option (Nat × Cpu)
  read_half : Nat → Cpu → Option (Nat × Cpu)
  read_word : Nat → Cpu → Option (Nat × Cpu)
  read_word_ldr : Nat → Cpu → Option (Nat × Cpu)
  write_byte : Nat → Nat → Cpu → Option Cpu
  write_half : Nat → Nat → Cpu → Option Cpu
  write_word : Nat → Nat → Cpu → Option Cpu
  debugger : Cpu → Option Cpu

/-- The external `addr_cache_flush()`: recorded as a call count. -/
def addr_cache_flush (s : Cpu) : Cpu :=
  { s with addr_cache_flushes := s.addr_cache_flushes + 1 }

/-- Function `cpu_int_check`: post the unmasked IRQ/FIQ lines to the event word. -/
def cpu_int_check (s : Cpu) : Cpu :=
  let ev := s.cpu_events
  let ev := if s.arm.interrupts &&& not32 s.arm.cpsr_low28 &&& 0x80 ≠ 0
            then ev ||| EVENT_IRQ else ev &&& not32 EVENT_IRQ
  let ev := if s.arm.interrupts &&& not32 s.arm.cpsr_low28 &&& 0x40 ≠ 0
            then ev ||| EVENT_FIQ else ev &&& not32 EVENT_FIQ
  { s with cpu_events := ev }

/-- Function `get_cpsr`: pack N, Z, C, V into bits 31..28 above `cpsr_low28`. -/
def get_cpsr (s : Cpu) : Nat :=
  (s.arm.cpsr_n <<< 31 ||| s.arm.cpsr_z <<< 30 ||| s.arm.cpsr_c <<< 29
    ||| s.arm.cpsr_v <<< 28 ||| s.arm.cpsr_low28) % 2 ^ 32

/-- First half of the mode switch of `set_cpsr_full`: swap out the registers of the old mode
(the mode in `arm.cpsr_low28`).  `none` is the `error` of the `default:` case. -/
def swap_out (a : arm_state) : Option arm_state :=
  let a1 : arm_state :=
    if a.cpsr_low28 &&& 0x1F = MODE_FIQ
    then { a with r8_fiq := copy_words a.r8_fiq 0 a.reg 8 5 }
    else { a with r8_usr := copy_words a.r8_usr 0 a.reg 8 5 }
  let m := a.cpsr_low28 &&& 0x1F
  if m = MODE_USR ∨ m = MODE_SYS then some { a1 with r13_usr := copy_words a1.r13_usr 0 a1.reg 13 2 }
  else if m = MODE_FIQ then some { a1 with r13_fiq := copy_words a1.r13_fiq 0 a1.reg 13 2 }
  else if m = MODE_IRQ then some { a1 with r13_irq := copy_words a1.r13_irq 0 a1.reg 13 2 }
  else if m = MODE_SVC then some { a1 with r13_svc := copy_words a1.r13_svc 0 a1.reg 13 2 }
  else if m = MODE_ABT then some { a1 with r13_abt := copy_words a1.r13_abt 0 a1.reg 13 2 }
  else if m = MODE_UND then some { a1 with r13_und := copy_words a1.r13_und 0 a1.reg 13 2 }
  else none

/-- Second half of the mode switch of `set_cpsr_full`: swap in the registers of the new mode
(the mode in `cpsr`).  `none` is the `error` of the `default:` case. -/
def swap_in (cpsr : Nat) (a : arm_state) : Option arm_state :=
  let a1 : arm_state :=
    if cpsr &&& 0x1F = MODE_FIQ
    then { a with reg := copy_words a.reg 8 a.r8_fiq 0 5 }
    else { a with reg := copy_words a.reg 8 a.r8_usr 0 5 }
  let m := cpsr &&& 0x1F
  if m = MODE_USR ∨ m = MODE_SYS then some { a1 with reg := copy_words a1.reg 13 a1.r13_usr 0 2 }
  else if m = MODE_FIQ then some { a1 with reg := copy_words a1.reg 13 a1.r13_fiq 0 2 }
  else if m = MODE_IRQ then some { a1 with reg := copy_words a1.reg 13 a1.r13_irq 0 2 }
  else if m = MODE_SVC then some { a1 with reg := copy_words a1.reg 13 a1.r13_svc 0 2 }
  else if m = MODE_ABT then some { a1 with reg := copy_words a1.reg 13 a1.r13_abt 0 2 }
  else if m = MODE_UND then some { a1 with reg := copy_words a1.reg 13 a1.r13_und 0 2 }
  else none

/-- Function `set_cpsr_full(cpsr)`: switch register banks when the mode changes, reject the J bit,
unpack the flags, mask the reserved bits, re-evaluate the pending interrupts. -/
def set_cpsr_full (cpsr : Nat) (s : Cpu) : Option Cpu := do
  let s1 ←
    if (cpsr ^^^ s.arm.cpsr_low28) &&& 0x1F ≠ 0 then do
      let a1 ← swap_out s.arm
      let a2 ← swap_in cpsr a1
      let s' : Cpu := { s with arm := a2 }
      if s.arm.cpsr_low28 &&& 3 = 0 ∨ cpsr &&& 3 = 0 then pure (addr_cache_flush s')
      else pure s'
    else pure s
  if cpsr &&& 0x01000000 ≠ 0 then none
  else
    pure (cpu_int_check
      { s1 with arm :=
        { s1.arm with
          cpsr_n := cpsr >>> 31 &&& 1
          cpsr_z := cpsr >>> 30 &&& 1
          cpsr_c := cpsr >>> 29 &&& 1
          cpsr_v := cpsr >>> 28 &&& 1
          cpsr_low28 := cpsr &&& 0x090000FF } })

/-- The five banked SPSR words a `uint32_t *` returned by `ptr_spsr` can point to. -/
inductive spsr_slot where
  | fiq | irq | svc | abt | und
  deriving DecidableEq, Repr

/-- The `switch` of `ptr_spsr` on a mode number; `none` is the `error` after the switch. -/
def spsr_of_mode (m : Nat) : Option spsr_slot :=
  if m = MODE_FIQ then some .fiq
  else if m = MODE_IRQ then some .irq
  else if m = MODE_SVC then some .svc
  else if m = MODE_ABT then some .abt
  else if m = MODE_UND then some .und
  else none

/-- Function `ptr_spsr`: the SPSR of the current mode. -/
def ptr_spsr (s : Cpu) : Option spsr_slot :=
  spsr_of_mode (s.arm.cpsr_low28 &&& 0x1F)

/-- Read through a pointer returned by `ptr_spsr`. -/
def read_spsr (a : arm_state) : spsr_slot → Nat
  | .fiq => a.spsr_fiq
  | .irq => a.spsr_irq
  | .svc => a.spsr_svc
  | .abt => a.spsr_abt
  | .und => a.spsr_und

/-- Write through a pointer returned by `ptr_spsr`. -/
def write_spsr (a : arm_state) (v : Nat) : spsr_slot → arm_state
  | .fiq => { a with spsr_fiq := v }
  | .irq => { a with spsr_irq := v }
  | .svc => { a with spsr_svc := v }
  | .abt => { a with spsr_abt := v }
  | .und => { a with spsr_und := v }

/-- Function `get_spsr`: read the SPSR of the current mode. -/
def get_spsr (s : Cpu) : Option Nat :=
  (ptr_spsr s).map (read_spsr s.arm)

/-- Function `set_spsr_full`: write the SPSR of the current mode. -/
def set_spsr_full (spsr : Nat) (s : Cpu) : Option Cpu :=
  (ptr_spsr s).map (fun p => { s with arm := write_spsr s.arm spsr p })

/-- Macro `ADD_OVERFLOW(left, right, sum)`: the sign bit of `(left ^ sum) & (right ^ sum)`. -/
def ADD_OVERFLOW (left right sum : Nat) : Nat :=
  if 2 ^ 31 ≤ ((left ^^^ sum) &&& (right ^^^ sum)) % 2 ^ 32 then 1 else 0

/-- Function `add(left, right, carry, setcc)`: the returned sum and the state after the call. -/
def add (left right carry setcc : Nat) (s : Cpu) : Nat × Cpu :=
  let sum := (left + right + carry) % 2 ^ 32
  if setcc ≠ 0 then
    let carry := if sum < left then 1 else carry
    let carry := if sum > left then 0 else carry
    (sum, { s with arm := { s.arm with cpsr_c := carry, cpsr_v := ADD_OVERFLOW left right sum } })
  else (sum, s)

/-- The table `flags[]` of `cpu_exception`: target mode and interrupt-disable bits. -/
def exception_flags : List Nat :=
  [ MODE_SVC ||| 0xC0, MODE_UND ||| 0x80, MODE_SVC ||| 0x80, MODE_ABT ||| 0x80,
    MODE_ABT ||| 0x80, 0, MODE_IRQ ||| 0x80, MODE_FIQ ||| 0xC0 ]

/-- Function `cpu_exception(type)`.  An index outside the table `flags[]` (undefined behaviour in C)
is `none`, as is every `error`. -/
def cpu_exception (type : Nat) (s : Cpu) : Option Cpu := do
  let fl ← exception_flags[type]?
  let old_cpsr := get_cpsr s
  let s1 ← set_cpsr_full ((old_cpsr &&& not32 0x3F) ||| fl) s
  let s2 ← set_spsr_full old_cpsr s1
  let r := set_elem s2.arm.reg 14 (s2.arm.reg 15)
  let r := set_elem r 15 ((type <<< 2) % 2 ^ 32)
  let r := if s2.arm.control &&& 0x2000 ≠ 0 then set_elem r 15 ((r 15 + 0xFFFF0000) % 2 ^ 32) else r
  pure { s2 with arm := { s2.arm with reg := r } }

/-- The classes of the top-level `if`/`else if` chain of `cpu_interpret_instruction` whose
bodies use the memory accessors of `mem.h` or are not needed below; the interpreter takes
their semantics as a parameter. -/
inductive arm_class where
  | mul_half_transfer
  | miscellaneous
  | data_processing
  | ldr_str
  | ldm_stm
  | branch
  | mcr_p15
  | mrc_p15
  deriving DecidableEq, Repr

/-- The value of `exec` computed by the `switch (insn >> 29)` of `cpu_interpret_instruction`
(the `default:` case sets it to 1). -/
def cond_exec (insn : Nat) (a : arm_state) : Nat :=
  let top := insn >>> 29
  if top = 0 then a.cpsr_z
  else if top = 1 then a.cpsr_c
  else if top = 2 then a.cpsr_n
  else if top = 3 then a.cpsr_v
  else if top = 4 then (if a.cpsr_z = 0 ∧ a.cpsr_c ≠ 0 then 1 else 0)
  else if top = 5 then (if a.cpsr_n = a.cpsr_v then 1 else 0)
  else if top = 6 then (if a.cpsr_z = 0 ∧ a.cpsr_n = a.cpsr_v then 1 else 0)
  else 1

/-- Function `cpu_interpret_instruction(insn)` for a 32-bit instruction word: the condition check, the
unconditional space (PLD, BLX immediate), and the top-level decode chain down to SWI and
`bad_insn`.  `body` gives the effect of the eight classes in front of SWI. -/
def cpu_interpret_instruction (body : arm_class → Nat → Cpu → Option Cpu) (insn : Nat)
    (s : Cpu) : Option Cpu :=
  if 7 ≤ insn >>> 29 ∧ insn &&& (1 <<< 28) ≠ 0 then
    if insn &&& 0xFD70F000 = 0xF550F000 then
      some s
    else if insn &&& 0xFE000000 = 0xFA000000 then
      let r := set_elem s.arm.reg 14 (s.arm.reg 15)
      let r := set_elem r 15
        ((r 15 + (4 + asr32 ((insn <<< 8) % 2 ^ 32) 6 + (insn >>> 23 &&& 2))) % 2 ^ 32)
      some { s with arm := { s.arm with reg := r, cpsr_low28 := s.arm.cpsr_low28 ||| 0x20 } }
    else none
  else if cond_exec insn s.arm ^^^ (insn >>> 28 &&& 1) = 0 then some s
  else if insn &&& 0xE000090 = 0x0000090 then body .mul_half_transfer insn s
  else if insn &&& 0xD900000 = 0x1000000 then body .miscellaneous insn s
  else if insn &&& 0xC000000 = 0 then body .data_processing insn s
  else if insn &&& 0xC000000 = 0x4000000 then body .ldr_str insn s
  else if insn &&& 0xE000000 = 0x8000000 then body .ldm_stm insn s
  else if insn &&& 0xE000000 = 0xA000000 then body .branch insn s
  else if insn &&& 0xF100F10 = 0xE000F10 then body .mcr_p15 insn s
  else if insn &&& 0xF100F10 = 0xE100F10 then body .mrc_p15 insn s
  else if insn &&& 0xF000000 = 0xF000000 then cpu_exception EX_SWI s
  else none

/-! ## Register accessors, shifter and the modelled instruction classes -/

/-- Function `set_cpsr(cpsr, mask)`: in user mode the privileged and execution-state bits are
taken out of the mask; setting T is an `error`. -/
def set_cpsr (cpsr mask : Nat) (s : Cpu) : Option Cpu :=
  let mask := if s.arm.cpsr_low28 &&& 0x0F = 0 then mask &&& not32 0x010000FF else mask
  let cpsr := (cpsr &&& mask) ||| (get_cpsr s &&& not32 mask)
  if cpsr &&& 0x20 ≠ 0 then none
  else set_cpsr_full cpsr s

/-- Function `set_spsr(spsr, mask)`: `*ptr_spsr() ^= (*ptr_spsr() ^ spsr) & mask`. -/
def set_spsr (spsr mask : Nat) (s : Cpu) : Option Cpu :=
  (ptr_spsr s).map (fun p =>
    let old := read_spsr s.arm p
    { s with arm := write_spsr s.arm (old ^^^ ((old ^^^ spsr) &&& mask)) p })

/-- Function `get_reg_pc(rn)`: reading R15 gives the next instruction plus 4. -/
def get_reg_pc (rn : Nat) (s : Cpu) : Nat :=
  (s.arm.reg rn + (if rn = 15 then 4 else 0)) % 2 ^ 32

/-- Function `set_reg_pc(rn, value)`. -/
def set_reg_pc (rn value : Nat) (s : Cpu) : Cpu :=
  { s with arm := { s.arm with reg := set_elem s.arm.reg rn value } }

/-- Function `set_reg_pc_bx(rn, value)`: a write to R15 with bit 0 set enters THUMB state. -/
def set_reg_pc_bx (rn value : Nat) (s : Cpu) : Cpu :=
  if rn = 15 ∧ value &&& 1 ≠ 0 then
    { s with arm := { s.arm with
        reg := set_elem s.arm.reg 15 (value - 1),
        cpsr_low28 := s.arm.cpsr_low28 ||| 0x20 } }
  else
    { s with arm := { s.arm with reg := set_elem s.arm.reg rn value } }

/-- Function `get_reg(rn)`: `error` on R15. -/
def get_reg (rn : Nat) (s : Cpu) : Option Nat :=
  if rn = 15 then none else some (s.arm.reg rn)

/-- Function `set_reg(rn, value)`: `error` on R15. -/
def set_reg (rn value : Nat) (s : Cpu) : Option Cpu :=
  if rn = 15 then none
  else some { s with arm := { s.arm with reg := set_elem s.arm.reg rn value } }

/-- Function `set_nz_flags(value)` for a 32-bit `value`. -/
def set_nz_flags (value : Nat) (s : Cpu) : Cpu :=
  { s with arm := { s.arm with
      cpsr_n := value >>> 31,
      cpsr_z := if value = 0 then 1 else 0 } }

/-- The expression `val >> count | val << (32 - count)` on a 32-bit word, `count ≤ 32`.  For
`count = 0` the C expression shifts left by 32; the x86 host shifts by `32 mod 32`, and both
readings give `val`, as does this definition. -/
def ror32 (val count : Nat) : Nat :=
  ((val >>> count) ||| (val <<< (32 - count))) % 2 ^ 32

/-- Function `get_shifted_immed(insn, setcc)`: the rotated 8-bit immediate and the state. -/
def get_shifted_immed (insn setcc : Nat) (s : Cpu) : Nat × Cpu :=
  let count := insn >>> 7 &&& 30
  let val := ror32 (insn &&& 0xFF) count
  if count ≠ 0 ∧ setcc ≠ 0 then
    (val, { s with arm := { s.arm with cpsr_c := if 2 ^ 31 ≤ val then 1 else 0 } })
  else (val, s)

/-- The assignment `if (setcc) arm.cpsr_c = c`. -/
def set_c_if (setcc c : Nat) (s : Cpu) : Cpu :=
  if setcc ≠ 0 then { s with arm := { s.arm with cpsr_c := c } } else s

/-- Function `shift(type, res, count, setcc)`: the shifted 32-bit word and the state. -/
def shift (type res count setcc : Nat) (s : Cpu) : Nat × Cpu :=
  if count = 0 then (res, s)
  else if type = 1 then
    if 32 ≤ count then (0, set_c_if setcc (if count = 32 then res >>> 31 else 0) s)
    else (res >>> count, set_c_if setcc (res >>> (count - 1) &&& 1) s)
  else if type = 2 then
    if 32 ≤ count then (asr32 res 31, set_c_if setcc (res >>> 31) s)
    else (asr32 res count, set_c_if setcc (res >>> (count - 1) &&& 1) s)
  else if type = 3 then
    let r := ror32 res (count &&& 31)
    (r, set_c_if setcc (r >>> 31) s)
  else
    if 32 ≤ count then (0, set_c_if setcc (if count = 32 then res &&& 1 else 0) s)
    else ((res <<< count) % 2 ^ 32, set_c_if setcc (res >>> (32 - count) &&& 1) s)

/-- Function `get_shifted_reg(insn, setcc)`; `none` is an `error` (shift by register with
bit 7 set, or R15 as the count register). -/
def get_shifted_reg (insn setcc : Nat) (s : Cpu) : Option (Nat × Cpu) :=
  let res := get_reg_pc (insn &&& 15) s
  let type := insn >>> 5 &&& 3
  if insn &&& (1 <<< 4) ≠ 0 then
    if insn &&& (1 <<< 7) ≠ 0 then none
    else (get_reg (insn >>> 8 &&& 15) s).map (fun r => shift type res (r &&& 0xFF) setcc s)
  else
    let count := insn >>> 7 &&& 31
    if count = 0 then
      if type = 0 then some (res, s)
      else if type = 1 then some (shift type res 32 setcc s)
      else if type = 2 then some (shift type res 32 setcc s)
      else
        some ((s.arm.cpsr_c <<< 31 ||| res >>> 1) % 2 ^ 32, set_c_if setcc (res &&& 1) s)
    else some (shift type res count setcc s)

/-- The `switch (opcode)` of the data-processing instructions: the result and the state
(`add` sets C and V when `setcc` is set); `c` is the carry flag saved before the shifter. -/
def data_processing_alu (opcode left right c setcc : Nat) (s : Cpu) : Nat × Cpu :=
  if opcode = 1 then (left ^^^ right, s)
  else if opcode = 2 then add left (not32 right) 1 setcc s
  else if opcode = 3 then add (not32 left) right 1 setcc s
  else if opcode = 4 then add left right 0 setcc s
  else if opcode = 5 then add left right c setcc s
  else if opcode = 6 then add left (not32 right) c setcc s
  else if opcode = 7 then add (not32 left) right c setcc s
  else if opcode = 8 then (left &&& right, s)
  else if opcode = 9 then (left ^^^ right, s)
  else if opcode = 10 then add left (not32 right) 1 setcc s
  else if opcode = 11 then add left right 0 setcc s
  else if opcode = 12 then (left ||| right, s)
  else if opcode = 13 then (right, s)
  else if opcode = 14 then (left &&& not32 right, s)
  else if opcode = 15 then (not32 right, s)
  else (left &&& right, s)

/-- The data-processing branch of `cpu_interpret_instruction`. -/
def arm_data_processing (insn : Nat) (s : Cpu) : Option Cpu :=
  let setcc := insn >>> 20 &&& 1
  let opcode := insn >>> 21 &&& 15
  let dest_reg := insn >>> 12 &&& 15
  let c := s.arm.cpsr_c
  let left := get_reg_pc (insn >>> 16 &&& 15) s
  (if insn &&& (1 <<< 25) ≠ 0 then some (get_shifted_immed insn setcc s)
   else get_shifted_reg insn setcc s).bind fun sh =>
  let r := data_processing_alu opcode left sh.1 c setcc sh.2
  (if opcode &&& 12 = 8 then (if dest_reg ≠ 0 then none else some r.2)
   else some (set_reg_pc dest_reg r.1 r.2)).bind fun s3 =>
  if setcc ≠ 0 then
    let s4 := set_nz_flags r.1 s3
    if dest_reg = 15 then (get_spsr s4).bind (fun sp => set_cpsr_full sp s4)
    else some s4
  else some s3

/-- The "Miscellaneous" branch of `cpu_interpret_instruction`: B(L)X, MRS and MSR; the
remaining sub-branches (signed multiplies, saturated arithmetic, CLZ, BKPT, `bad_insn`) are
given by `rest`. -/
def arm_miscellaneous (rest : Nat → Cpu → Option Cpu) (insn : Nat) (s : Cpu) : Option Cpu :=
  if insn &&& 0xFFFFFD0 = 0x12FFF10 then
    let target := get_reg_pc (insn &&& 15) s
    let s1 : Cpu :=
      if insn &&& 0x20 ≠ 0 then
        { s with arm := { s.arm with reg := set_elem s.arm.reg 14 (s.arm.reg 15) } }
      else s
    some (set_reg_pc_bx 15 target s1)
  else if insn &&& 0xFBF0FFF = 0x10F0000 then
    (if insn &&& 0x0400000 ≠ 0 then get_spsr s else some (get_cpsr s)).bind fun v =>
    set_reg (insn >>> 12 &&& 15) v s
  else if insn &&& 0xFB0FFF0 = 0x120F000 ∨ insn &&& 0xFB0F000 = 0x320F000 then
    (if insn &&& 0x2000000 ≠ 0 then some (get_shifted_immed insn 0 s)
     else (get_reg (insn &&& 15) s).map (fun v => (v, s))).bind fun vs =>
    let mask := 0
    let mask := if insn &&& 0x0080000 ≠ 0 then mask ||| 0xFF000000 else mask
    let mask := if insn &&& 0x0040000 ≠ 0 then mask ||| 0x00FF0000 else mask
    let mask := if insn &&& 0x0020000 ≠ 0 then mask ||| 0x0000FF00 else mask
    let mask := if insn &&& 0x0010000 ≠ 0 then mask ||| 0x000000FF else mask
    if insn &&& 0x0400000 ≠ 0 then set_spsr vs.1 mask vs.2
    else set_cpsr vs.1 mask vs.2
  else rest insn s

/-- The B/BL branch of `cpu_interpret_instruction`. -/
def arm_branch (insn : Nat) (s : Cpu) : Option Cpu :=
  let r := if insn &&& (1 <<< 24) ≠ 0 then set_elem s.arm.reg 14 (s.arm.reg 15) else s.arm.reg
  some { s with arm := { s.arm with
    reg := set_elem r 15 ((r 15 + (4 + asr32 ((insn <<< 8) % 2 ^ 32) 6)) % 2 ^ 32) } }

/-- The `MCR p15` branch of `cpu_interpret_instruction`.  An unknown key only warns. -/
def arm_mcr_p15 (insn : Nat) (s : Cpu) : Option Cpu :=
  (get_reg (insn >>> 12 &&& 15) s).bind fun value =>
  let key := insn &&& 0xEF00EF
  if key = 0x010000 then
    let change := value ^^^ s.arm.control
    if value &&& 0xFFFF8CF8 ≠ 0x00050078 then none
    else
      let s1 : Cpu := { s with arm := { s.arm with control := value } }
      if change &&& 1 ≠ 0 then some (addr_cache_flush s1) else some s1
  else if key = 0x020000 then
    some (addr_cache_flush
      { s with arm := { s.arm with translation_table_base := value &&& not32 0x3FFF } })
  else if key = 0x030000 then
    some (addr_cache_flush { s with arm := { s.arm with domain_access_control := value } })
  else if key = 0x050000 then
    some { s with arm := { s.arm with data_fault_status := value } }
  else if key = 0x050020 then
    some { s with arm := { s.arm with instruction_fault_status := value } }
  else if key = 0x060000 then
    some { s with arm := { s.arm with fault_address := value } }
  else if key = 0x070080 then
    let s1 : Cpu := { s with cycle_count_delta := 0 }
    if s1.arm.interrupts = 0 then
      some { s1 with
        arm := { s1.arm with
          reg := set_elem s1.arm.reg 15 ((s1.arm.reg 15 + 0xFFFFFFFC) % 2 ^ 32) },
        cpu_events := s1.cpu_events ||| EVENT_WAITING }
    else some s1
  else if key = 0x080025 ∨ key = 0x080026 ∨ key = 0x080007 then
    some (addr_cache_flush s)
  else if key = 0x070005 ∨ key = 0x070025 ∨ key = 0x070007 ∨ key = 0x07002A ∨ key = 0x07008A
      ∨ key = 0x0F0000 then
    some s
  else some s

/-- The `switch (insn & 0xEF00EF)` of the `MRC p15` branch: the value read.  The case labels
are the constants of the source; an unknown key warns and reads 0. -/
def mrc_p15_value (insn : Nat) (s : Cpu) : Nat :=
  let key := insn &&& 0xEF00EF
  if key = 0x000000 then 0x41069264
  else if key = 0x000010 then 0x1D112152
  else if key = 0x000020 then 0
  else if key = 0x010000 then s.arm.control
  else if key = 0x020000 then s.arm.translation_table_base
  else if key = 0x030000 then s.arm.domain_access_control
  else if key = 0x050000 then s.arm.data_fault_status
  else if key = 0x050020 then s.arm.instruction_fault_status
  else if key = 0x060000 then s.arm.fault_address
  else if key = 0x07006A then 1 <<< 30
  else if key = 0x07006E then 1 <<< 30
  else if key = 0x0F0000 then 0
  else 0

/-- The `MRC p15` branch of `cpu_interpret_instruction`: destination R15 sets the flags. -/
def arm_mrc_p15 (insn : Nat) (s : Cpu) : Option Cpu :=
  let value := mrc_p15_value insn s
  if insn >>> 12 &&& 15 = 15 then
    some { s with arm := { s.arm with
      cpsr_n := value >>> 31 &&& 1,
      cpsr_z := value >>> 30 &&& 1,
      cpsr_c := value >>> 29 &&& 1,
      cpsr_v := value >>> 28 &&& 1 } }
  else
    some { s with arm := { s.arm with reg := set_elem s.arm.reg (insn >>> 12 &&& 15) value } }

/-- Function `get_reg_pc_store(rn)`: a store of R15 writes the next instruction plus 8. -/
def get_reg_pc_store (rn : Nat) (s : Cpu) : Nat :=
  (s.arm.reg rn + (if rn = 15 then 8 else 0)) % 2 ^ 32

/-- Function `get_reg_pc_thumb(rn)`: in THUMB state R15 reads as the next instruction plus 2. -/
def get_reg_pc_thumb (rn : Nat) (s : Cpu) : Nat :=
  (s.arm.reg rn + (if rn = 15 then 2 else 0)) % 2 ^ 32

/-- The loop `for (i = 0; i < k; i++) count += (insn >> i & 1)` started with `count = 0`. -/
def count_bits (insn : Nat) : Nat → Nat
  | 0 => 0
  | k + 1 => count_bits insn k + (insn >>> k &&& 1)

/-- What the pointer `reg_ptr` of the LDM/STM loop can point to: `arm.reg[i]`,
`arm.r13_usr[i]`, `arm.r8_usr[i]`, or the local `new_base`. -/
inductive reg_ref where
  | reg (i : Nat)
  | r13_usr (i : Nat)
  | r8_usr (i : Nat)
  | new_base
  deriving DecidableEq, Repr

/-- The value `*reg_ptr`. -/
def reg_ref_read (p : reg_ref) (new_base : Nat) (a : arm_state) : Nat :=
  match p with
  | .reg i => a.reg i
  | .r13_usr i => a.r13_usr i
  | .r8_usr i => a.r8_usr i
  | .new_base => new_base

/-- The assignment `*reg_ptr = v`: the local `new_base` and the machine afterwards. -/
def reg_ref_write (p : reg_ref) (v new_base : Nat) (s : Cpu) : Nat × Cpu :=
  match p with
  | .reg i => (new_base, { s with arm := { s.arm with reg := set_elem s.arm.reg i v } })
  | .r13_usr i => (new_base, { s with arm := { s.arm with r13_usr := set_elem s.arm.r13_usr i v } })
  | .r8_usr i => (new_base, { s with arm := { s.arm with r8_usr := set_elem s.arm.r8_usr i v } })
  | .new_base => (v, s)

/-- The pointer `reg_ptr` that the LDM/STM loop sets up for register `i`: with the S bit set
on a store, or on a load without R15 in the list, the user-mode copy of a banked register. -/
def ldm_stm_reg_ptr (insn i : Nat) (s : Cpu) : reg_ref :=
  if insn &&& (1 <<< 22) ≠ 0 ∧ not32 insn &&& ((1 <<< 20) ||| (1 <<< 15)) ≠ 0 then
    let mode := s.arm.cpsr_low28 &&& 0x1F
    if i ≥ 13 then
      if mode ≠ MODE_USR ∧ mode ≠ MODE_SYS then .r13_usr (i - 13) else .reg i
    else if i ≥ 8 then
      if mode = MODE_FIQ then .r8_usr (i - 8) else .reg i
    else .reg i
  else .reg i

/-- The body of the LDM/STM loop for a register `i` of the list, apart from `addr += 4`: the
transfer of the register at `addr`.  It works on the local `new_base` and the machine; `none`
is an `error` (a load with writeback into the base register) or an access that does not
return. -/
def ldm_stm_transfer (ops : mem_ops) (insn base_reg i addr : Nat) (st : Nat × Cpu) :
    Option (Nat × Cpu) :=
  let ptr := ldm_stm_reg_ptr insn i st.2
  if insn &&& (1 <<< 20) ≠ 0 then
    (if ptr = .reg base_reg then
      (if insn &&& (1 <<< 21) ≠ 0 then none else some reg_ref.new_base)
     else some ptr).bind fun ptr =>
    (ops.read_word addr st.2).map fun r => reg_ref_write ptr r.1 st.1 r.2
  else
    (ops.write_word addr (reg_ref_read ptr st.1 st.2.arm) st.2).map fun s1 => (st.1, s1)

/-- The first `k` iterations of `for (i = 0; i < 15; i++)` of LDM/STM on the locals `addr`
and `new_base` and the machine. -/
def ldm_stm_loop (ops : mem_ops) (insn base_reg : Nat) :
    Nat → Nat × Nat × Cpu → Option (Nat × Nat × Cpu)
  | 0, st => some st
  | k + 1, st =>
    (ldm_stm_loop ops insn base_reg k st).bind fun r =>
    if insn >>> k &&& 1 ≠ 0 then
      (ldm_stm_transfer ops insn base_reg k r.1 r.2).map fun t => ((r.1 + 4) % 2 ^ 32, t)
    else some r

/-- The locals `addr` and `new_base` of LDM/STM when the loop starts, from the base register
value `addr`: the block `if (insn & (1 << 23)) { ... } else { ... }` with
`count = count_bits insn 16`. -/
def ldm_stm_setup (insn addr : Nat) : Nat × Nat :=
  let new_base := addr
  let count := count_bits insn 16
  if insn &&& (1 <<< 23) ≠ 0 then
    (if insn &&& (1 <<< 24) ≠ 0 then (addr + 4) % 2 ^ 32 else addr,
      if insn &&& (1 <<< 21) ≠ 0 then (new_base + count * 4) % 2 ^ 32 else new_base)
  else
    let addr := (addr + (2 ^ 32 - count * 4)) % 2 ^ 32
    (if ¬ insn &&& (1 <<< 24) ≠ 0 then (addr + 4) % 2 ^ 32 else addr,
      if insn &&& (1 <<< 21) ≠ 0 then addr else new_base)

/-- The LDM/STM branch of `cpu_interpret_instruction`. -/
def arm_ldm_stm (ops : mem_ops) (insn : Nat) (s : Cpu) : Option Cpu :=
  let base_reg := insn >>> 16 &&& 15
  (get_reg base_reg s).bind fun addr =>
  let start := ldm_stm_setup insn addr
  (ldm_stm_loop ops insn base_reg 15 (start.1, start.2, s)).bind fun r =>
  (if insn &&& (1 <<< 15) ≠ 0 then
    if insn &&& (1 <<< 20) ≠ 0 then
      (ops.read_word r.1 r.2.2).map fun v => set_reg_pc_bx 15 v.1 v.2
    else ops.write_word r.1 (get_reg_pc_store 15 r.2.2) r.2.2
   else some r.2.2).bind fun s2 =>
  let s3 : Cpu := { s2 with arm := { s2.arm with reg := set_elem s2.arm.reg base_reg r.2.1 } }
  if not32 insn &&& (1 <<< 22 ||| 1 <<< 20 ||| 1 <<< 15) = 0 then
    (get_spsr s3).bind fun sp => set_cpsr_full sp s3
  else some s3

/-- Function `set_nz_flags_64(value)` for a 64-bit `value`. -/
def set_nz_flags_64 (value : Nat) (s : Cpu) : Cpu :=
  { s with arm := { s.arm with
      cpsr_n := value >>> 63,
      cpsr_z := if value = 0 then 1 else 0 } }

/-- Macro `SUB_OVERFLOW(left, right, sum)`: the sign bit of `(left ^ right) & (left ^ sum)`. -/
def SUB_OVERFLOW (left right sum : Nat) : Nat :=
  if 2 ^ 31 ≤ ((left ^^^ right) &&& (left ^^^ sum)) % 2 ^ 32 then 1 else 0

/-- The conversion `(int8_t)v` widened to `uint32_t`: the low byte of `v`, sign extended. -/
def sext8 (v : Nat) : Nat :=
  if 0x80 ≤ v % 0x100 then v % 0x100 + 0xFFFFFF00 else v % 0x100

/-- The conversion `(int16_t)v` widened to `uint32_t`: the low halfword, sign extended. -/
def sext16 (v : Nat) : Nat :=
  if 0x8000 ≤ v % 0x10000 then v % 0x10000 + 0xFFFF0000 else v % 0x10000

/-- The value of the low halfword of `x` read as a two's complement `int16_t`. -/
def sint16 (x : Nat) : Int :=
  if x % 2 ^ 16 < 2 ^ 15 then (x % 2 ^ 16 : Nat) else (x % 2 ^ 16 : Nat) - 2 ^ 16

/-- The conversion of an integer to `uint32_t` (also the bits of an `int32_t`). -/
def to_u32 (z : Int) : Nat := (z % 2 ^ 32).toNat

/-- The conversion of an integer to `uint64_t` (also the bits of an `int64_t`). -/
def to_u64 (z : Int) : Nat := (z % 2 ^ 64).toNat

/-- The loop `for (zeros = 0; zeros < 32 && value >= 0; zeros++) value <<= 1` of CLZ on an
`int32_t value` held as a 32-bit word, run for at most `fuel` iterations; it returns `zeros`. -/
def clz_loop (value zeros : Nat) : Nat → Nat
  | 0 => zeros
  | fuel + 1 =>
    if zeros < 32 ∧ value % 2 ^ 32 < 2 ^ 31 then clz_loop ((value <<< 1) % 2 ^ 32) (zeros + 1) fuel
    else zeros

/-- The branch `(insn & 0xE000090) == 0x0000090` of `cpu_interpret_instruction`: multiplies,
SWP and the halfword, signed and doubleword transfers. -/
def arm_mul_half_transfer (ops : mem_ops) (insn : Nat) (s : Cpu) : Option Cpu :=
  let type := insn >>> 5 &&& 3
  if type = 0 then
    if insn &&& 0xFC000F0 = 0x0000090 then
      (get_reg (insn &&& 15) s).bind fun a =>
      (get_reg (insn >>> 8 &&& 15) s).bind fun b =>
      let res := (a * b) % 2 ^ 32
      (if insn &&& 0x0200000 ≠ 0 then
        (get_reg (insn >>> 12 &&& 15) s).map fun c => (res + c) % 2 ^ 32
       else some res).bind fun res =>
      (set_reg (insn >>> 16 &&& 15) res s).map fun s1 =>
      if insn &&& 0x0100000 ≠ 0 then set_nz_flags res s1 else s1
    else if insn &&& 0xF8000F0 = 0x0800090 then
      (get_reg (insn &&& 15) s).bind fun left =>
      (get_reg (insn >>> 8 &&& 15) s).bind fun right =>
      let reg_lo := insn >>> 12 &&& 15
      let reg_hi := insn >>> 16 &&& 15
      if reg_lo = reg_hi then none
      else
        let res :=
          if insn &&& 0x0400000 ≠ 0 then to_u64 (sint32 left * sint32 right)
          else (left * right) % 2 ^ 64
        (if insn &&& 0x0200000 ≠ 0 then
          (get_reg reg_hi s).bind fun hi =>
          (get_reg reg_lo s).map fun lo => (res + ((hi <<< 32) % 2 ^ 64 ||| lo)) % 2 ^ 64
         else some res).bind fun res =>
        (set_reg reg_lo (res % 2 ^ 32) s).bind fun s1 =>
        (set_reg reg_hi (res >>> 32 % 2 ^ 32) s1).map fun s2 =>
        if insn &&& 0x0100000 ≠ 0 then set_nz_flags_64 res s2 else s2
    else if insn &&& 0xFB00FF0 = 0x1000090 then
      (get_reg (insn >>> 16 &&& 15) s).bind fun addr =>
      (get_reg (insn &&& 15) s).bind fun st =>
      (if insn &&& 0x0400000 ≠ 0 then
        (ops.read_byte addr s).bind fun r =>
        (ops.write_byte addr (st % 2 ^ 8) r.2).map fun s1 => (r.1, s1)
       else
        (ops.read_word_ldr addr s).bind fun r =>
        (ops.write_word addr st r.2).map fun s1 => (r.1, s1)).bind fun r =>
      set_reg (insn >>> 12 &&& 15) r.1 r.2
    else none
  else
    let base_reg := insn >>> 16 &&& 15
    let data_reg := insn >>> 12 &&& 15
    (if insn &&& (1 <<< 22) ≠ 0 then some ((insn &&& 0x0F) ||| (insn >>> 4 &&& 0xF0))
     else get_reg (insn &&& 15) s).bind fun offset =>
    let addr := get_reg_pc base_reg s
    let offset := if ¬ insn &&& (1 <<< 23) ≠ 0 then (2 ^ 32 - offset % 2 ^ 32) % 2 ^ 32 else offset
    (if insn &&& (1 <<< 24) ≠ 0 then
      some ((addr + offset) % 2 ^ 32, 0, decide (insn &&& (1 <<< 21) ≠ 0))
     else if insn &&& (1 <<< 21) ≠ 0 then none
     else some (addr, offset, true)).bind fun (m : Nat × Nat × Bool) =>
    let addr := m.1
    let offset := m.2.1
    let writeback := m.2.2
    (if insn &&& (1 <<< 20) ≠ 0 then
      if base_reg = data_reg ∧ writeback = true then none
      else
        (if type = 1 then ops.read_half addr s
         else if type = 2 then (ops.read_byte addr s).map fun r => (sext8 r.1, r.2)
         else (ops.read_half addr s).map fun r => (sext16 r.1, r.2)).bind fun r =>
        set_reg data_reg r.1 r.2
     else if type = 1 then
      (get_reg data_reg s).bind fun v => ops.write_half addr (v % 2 ^ 16) s
     else if data_reg &&& 1 ≠ 0 then none
     else if type = 2 then
      if base_reg &&& not32 1 = data_reg ∧ writeback = true then none
      else
        (ops.read_word addr s).bind fun low =>
        (ops.read_word ((addr + 4) % 2 ^ 32) low.2).bind fun high =>
        (set_reg data_reg low.1 high.2).bind fun s1 =>
        set_reg (data_reg + 1) high.1 s1
     else
      (get_reg data_reg s).bind fun v0 =>
      (ops.write_word addr v0 s).bind fun s1 =>
      (get_reg (data_reg + 1) s1).bind fun v1 =>
      ops.write_word ((addr + 4) % 2 ^ 32) v1 s1).bind fun s2 =>
    if writeback = true then set_reg base_reg ((addr + offset) % 2 ^ 32) s2 else some s2

/-- The sub-branches of "Miscellaneous" after MSR: the signed multiplies SMUL, SMLA, SMULW,
SMLAW and SMLAL, the saturated arithmetic QADD, QSUB, QDADD and QDSUB, CLZ, BKPT, and
`bad_insn`.  Signed values are held as 32-bit words. -/
def arm_misc_rest (ops : mem_ops) (insn : Nat) (s : Cpu) : Option Cpu :=
  if insn &&& 0xF900090 = 0x1000080 then
    (get_reg (insn &&& 15) s).bind fun l =>
    (get_reg (insn >>> 8 &&& 15) s).bind fun r =>
    let left : Int := sint32 l
    let right : Int := sint16 (r >>> (if insn &&& 0x40 ≠ 0 then 16 else 0))
    let type := insn >>> 21 &&& 3
    let product : Nat :=
      if type = 1 then to_u32 (left * right / 2 ^ 16)
      else to_u32 (sint16 (to_u32 (left / 2 ^ (if insn &&& 0x20 ≠ 0 then 16 else 0))) * right)
    if (type = 1 ∧ ¬ insn &&& 0x20 ≠ 0) ∨ (¬ type = 1 ∧ ¬ type = 2 ∧ type = 0) then
      (get_reg (insn >>> 12 &&& 15) s).bind fun acc =>
      let sum := (product + acc) % 2 ^ 32
      let s1 : Cpu := { s with arm := { s.arm with
        cpsr_low28 := s.arm.cpsr_low28 ||| ADD_OVERFLOW product acc sum <<< 27 } }
      set_reg (insn >>> 16 &&& 15) sum s1
    else if type = 2 then
      let reg_lo := insn >>> 12 &&& 15
      let reg_hi := insn >>> 16 &&& 15
      if reg_lo = reg_hi then none
      else
        (get_reg reg_hi s).bind fun hi =>
        (get_reg reg_lo s).bind fun lo =>
        let sum := to_u64 (sint32 product + (((hi <<< 32) % 2 ^ 64 ||| lo : Nat) : Int))
        (set_reg reg_lo (sum % 2 ^ 32) s).bind fun s1 =>
        set_reg reg_hi (sum >>> 32 % 2 ^ 32) s1
    else set_reg (insn >>> 16 &&& 15) product s
  else if insn &&& 0xF900FF0 = 0x1000050 then
    (get_reg (insn &&& 15) s).bind fun left =>
    (get_reg (insn >>> 16 &&& 15) s).bind fun right =>
    let d : Nat × Cpu :=
      if insn &&& 0x400000 ≠ 0 then
        let res := (right <<< 1) % 2 ^ 32
        if ADD_OVERFLOW right right res ≠ 0 then
          (if 2 ^ 31 ≤ res then 0x7FFFFFFF else 0x80000000,
            { s with arm := { s.arm with cpsr_low28 := s.arm.cpsr_low28 ||| 1 <<< 27 } })
        else (res, s)
      else (right, s)
    let right := d.1
    let s := d.2
    let res := if ¬ insn &&& 0x200000 ≠ 0 then (left + right) % 2 ^ 32
               else (left + (2 ^ 32 - right % 2 ^ 32)) % 2 ^ 32
    let overflow := if ¬ insn &&& 0x200000 ≠ 0 then ADD_OVERFLOW left right res
                    else SUB_OVERFLOW left right res
    if overflow ≠ 0 then
      set_reg (insn >>> 12 &&& 15) (if 2 ^ 31 ≤ res then 0x7FFFFFFF else 0x80000000)
        { s with arm := { s.arm with cpsr_low28 := s.arm.cpsr_low28 ||| 1 <<< 27 } }
    else set_reg (insn >>> 12 &&& 15) res s
  else if insn &&& 0xFFF0FF0 = 0x16F0F10 then
    (get_reg (insn &&& 15) s).bind fun value =>
    set_reg (insn >>> 12 &&& 15) (clz_loop value 0 32) s
  else if insn &&& 0xFFF000F0 = 0xE1200070 then ops.debugger s
  else none

/-- The LDR(B)/STR(B) branch of `cpu_interpret_instruction`. -/
def arm_ldr_str (ops : mem_ops) (insn : Nat) (s : Cpu) : Option Cpu :=
  let base_reg := insn >>> 16 &&& 15
  let data_reg := insn >>> 12 &&& 15
  (if insn &&& (1 <<< 25) ≠ 0 then
    if insn &&& (1 <<< 4) ≠ 0 then none
    else get_shifted_reg insn 0 s
   else some (insn &&& 0xFFF, s)).bind fun o =>
  let offset := o.1
  let s := o.2
  let addr := get_reg_pc base_reg s
  let offset := if ¬ insn &&& (1 <<< 23) ≠ 0 then (2 ^ 32 - offset % 2 ^ 32) % 2 ^ 32 else offset
  (if insn &&& (1 <<< 24) ≠ 0 then
    some ((addr + offset) % 2 ^ 32, 0, decide (insn &&& (1 <<< 21) ≠ 0))
   else if insn &&& (1 <<< 21) ≠ 0 then none
   else some (addr, offset, true)).bind fun (m : Nat × Nat × Bool) =>
  let addr := m.1
  let offset := m.2.1
  let writeback := m.2.2
  (if insn &&& (1 <<< 20) ≠ 0 then
    if data_reg = base_reg ∧ writeback = true then none
    else if insn &&& (1 <<< 22) ≠ 0 then
      (ops.read_byte addr s).map fun r => set_reg_pc_bx data_reg r.1 r.2
    else (ops.read_word_ldr addr s).map fun r => set_reg_pc_bx data_reg r.1 r.2
   else if insn &&& (1 <<< 22) ≠ 0 then
    ops.write_byte addr (get_reg_pc_store data_reg s % 2 ^ 8) s
   else ops.write_word addr (get_reg_pc_store data_reg s) s).bind fun s2 =>
  if writeback = true then set_reg base_reg ((addr + offset) % 2 ^ 32) s2 else some s2

/-- The bodies of the instruction classes that `arm_body` leaves open, over the accessors
`ops`: `cpu_interpret_instruction (arm_body (arm_ext ops))` is the whole interpreter. -/
def arm_ext (ops : mem_ops) : arm_class → Nat → Cpu → Option Cpu
  | .mul_half_transfer, insn, s => arm_mul_half_transfer ops insn s
  | .miscellaneous, insn, s => arm_misc_rest ops insn s
  | .ldr_str, insn, s => arm_ldr_str ops insn s
  | .ldm_stm, insn, s => arm_ldm_stm ops insn s
  | _, _, _ => none

/-- The instruction bodies modelled here, by class: miscellaneous (B(L)X, MRS, MSR), data
processing, branch, MCR and MRC on p15.  The classes that use the memory accessors of
`mem.h`, and the sub-branches of "Miscellaneous" not modelled, are given by `ext`. -/
def arm_body (ext : arm_class → Nat → Cpu → Option Cpu) : arm_class → Nat → Cpu → Option Cpu
  | .miscellaneous, insn, s => arm_miscellaneous (ext .miscellaneous) insn s
  | .data_processing, insn, s => arm_data_processing insn s
  | .branch, insn, s => arm_branch insn s
  | .mcr_p15, insn, s => arm_mcr_p15 insn s
  | .mrc_p15, insn, s => arm_mrc_p15 insn s
  | .mul_half_transfer, insn, s => ext .mul_half_transfer insn s
  | .ldr_str, insn, s => ext .ldr_str insn s
  | .ldm_stm, insn, s => ext .ldm_stm insn s

/-- The loop `for (i = 0; i < k; i++) if (insn >> i & 1) write_word(addr, arm.reg[i]),
addr += 4;` of THUMB PUSH and STMIA, on `addr` and the machine. -/
def thumb_store_loop (ops : mem_ops) (insn : Nat) : Nat → Nat × Cpu → Option (Nat × Cpu)
  | 0, st => some st
  | k + 1, st =>
    (thumb_store_loop ops insn k st).bind fun r =>
    if insn >>> k &&& 1 ≠ 0 then
      (ops.write_word r.1 (r.2.arm.reg k) r.2).map fun s1 => ((r.1 + 4) % 2 ^ 32, s1)
    else some r

/-- The loop `for (i = 0; i < k; i++) if (insn >> i & 1) arm.reg[i] = read_word(addr),
addr += 4;` of THUMB POP, on `addr` and the machine. -/
def thumb_pop_loop (ops : mem_ops) (insn : Nat) : Nat → Nat × Cpu → Option (Nat × Cpu)
  | 0, st => some st
  | k + 1, st =>
    (thumb_pop_loop ops insn k st).bind fun r =>
    if insn >>> k &&& 1 ≠ 0 then
      (ops.read_word r.1 r.2).map fun v => ((r.1 + 4) % 2 ^ 32, set_reg_pc k v.1 v.2)
    else some r

/-- The loop of THUMB LDMIA on `addr`, `tmp` and the machine: the word for the base register
goes to `tmp`. -/
def thumb_ldmia_loop (ops : mem_ops) (insn : Nat) :
    Nat → Nat × Nat × Cpu → Option (Nat × Nat × Cpu)
  | 0, st => some st
  | k + 1, st =>
    (thumb_ldmia_loop ops insn k st).bind fun r =>
    if insn >>> k &&& 1 ≠ 0 then
      (ops.read_word r.1 r.2.2).map fun v =>
        if k = insn >>> 8 &&& 7 then ((r.1 + 4) % 2 ^ 32, v.1, v.2)
        else ((r.1 + 4) % 2 ^ 32, r.2.1, set_reg_pc k v.1 v.2)
    else some r

/-- The loop `for (i = k - 1; i >= 0; i--) addr -= (insn >> i & 1) * 4` of THUMB PUSH. -/
def thumb_push_base (insn : Nat) : Nat → Nat → Nat
  | 0, addr => addr
  | k + 1, addr => thumb_push_base insn k ((addr + (2 ^ 32 - (insn >>> k &&& 1) * 4)) % 2 ^ 32)

/-- The `switch (insn >> 6 & 15)` of the THUMB cases `0x40..0x43`: the value `res`, whether
the operation assigns it to `*dst`, and the machine after the calls of `shift` and `add`. -/
def thumb_alu_op (insn : Nat) (s : Cpu) : Nat × Bool × Cpu :=
  let dst := s.arm.reg (insn &&& 7)
  let src := s.arm.reg (insn >>> 3 &&& 7)
  let op := insn >>> 6 &&& 15
  if op = 0x1 then (dst ^^^ src, true, s)
  else if op = 0x2 then
    let t := shift 0 dst (src &&& 0xFF) 1 s
    (t.1, true, t.2)
  else if op = 0x3 then
    let t := shift 1 dst (src &&& 0xFF) 1 s
    (t.1, true, t.2)
  else if op = 0x4 then
    let t := shift 2 dst (src &&& 0xFF) 1 s
    (t.1, true, t.2)
  else if op = 0x5 then
    let t := add dst src s.arm.cpsr_c 1 s
    (t.1, true, t.2)
  else if op = 0x6 then
    let t := add dst (not32 src) s.arm.cpsr_c 1 s
    (t.1, true, t.2)
  else if op = 0x7 then
    let t := shift 3 dst (src &&& 0xFF) 1 s
    (t.1, true, t.2)
  else if op = 0x8 then (dst &&& src, false, s)
  else if op = 0x9 then
    let t := add 0 (not32 src) 1 1 s
    (t.1, true, t.2)
  else if op = 0xA then
    let t := add dst (not32 src) 1 1 s
    (t.1, false, t.2)
  else if op = 0xB then
    let t := add dst src 0 1 s
    (t.1, false, t.2)
  else if op = 0xC then (dst ||| src, true, s)
  else if op = 0xD then ((dst * src) % 2 ^ 32, true, s)
  else if op = 0xE then (dst &&& not32 src, true, s)
  else if op = 0xF then (not32 src, true, s)
  else (dst &&& src, true, s)

/-- The THUMB cases `0x40..0x43`: the register ALU operations. -/
def thumb_alu (insn : Nat) (s : Cpu) : Cpu :=
  let r := thumb_alu_op insn s
  let s1 := if r.2.1 = true then set_reg_pc (insn &&& 7) r.1 r.2.2 else r.2.2
  set_nz_flags r.1 s1

/-- The condition of the THUMB conditional branch `0xD0 + cond`, `cond` in 0..13. -/
def thumb_branch_cond (cond : Nat) (a : arm_state) : Bool :=
  if cond = 0 then decide (a.cpsr_z ≠ 0)
  else if cond = 1 then decide (a.cpsr_z = 0)
  else if cond = 2 then decide (a.cpsr_c ≠ 0)
  else if cond = 3 then decide (a.cpsr_c = 0)
  else if cond = 4 then decide (a.cpsr_n ≠ 0)
  else if cond = 5 then decide (a.cpsr_n = 0)
  else if cond = 6 then decide (a.cpsr_v ≠ 0)
  else if cond = 7 then decide (a.cpsr_v = 0)
  else if cond = 8 then decide (a.cpsr_c > a.cpsr_z)
  else if cond = 9 then decide (a.cpsr_c ≤ a.cpsr_z)
  else if cond = 10 then decide (a.cpsr_n = a.cpsr_v)
  else if cond = 11 then decide (a.cpsr_n ≠ a.cpsr_v)
  else if cond = 12 then decide (a.cpsr_z = 0 ∧ a.cpsr_n = a.cpsr_v)
  else decide (a.cpsr_z ≠ 0 ∨ a.cpsr_n ≠ a.cpsr_v)

/-- The THUMB cases `0x48..0x9F`: the loads and stores of one register. -/
def thumb_load_store (ops : mem_ops) (insn : Nat) (s : Cpu) : Option Cpu :=
  let op := insn >>> 8
  let r0 := insn &&& 7
  let r8 := insn >>> 8 &&& 7
  let reg3 := s.arm.reg (insn >>> 3 &&& 7)
  let reg6 := s.arm.reg (insn >>> 6 &&& 7)
  if op < 0x50 then
    (ops.read_word_ldr
      ((((s.arm.reg 15 + 2) % 2 ^ 32 &&& 0xFFFFFFFC) + ((insn &&& 0xFF) <<< 2)) % 2 ^ 32) s).map
      fun v => set_reg_pc r8 v.1 v.2
  else if op < 0x52 then ops.write_word ((reg3 + reg6) % 2 ^ 32) (s.arm.reg r0) s
  else if op < 0x54 then ops.write_half ((reg3 + reg6) % 2 ^ 32) (s.arm.reg r0 % 2 ^ 16) s
  else if op < 0x56 then ops.write_byte ((reg3 + reg6) % 2 ^ 32) (s.arm.reg r0 % 2 ^ 8) s
  else if op < 0x58 then
    (ops.read_byte ((reg3 + reg6) % 2 ^ 32) s).map fun v => set_reg_pc r0 (sext8 v.1) v.2
  else if op < 0x5A then
    (ops.read_word_ldr ((reg3 + reg6) % 2 ^ 32) s).map fun v => set_reg_pc r0 v.1 v.2
  else if op < 0x5C then
    (ops.read_half ((reg3 + reg6) % 2 ^ 32) s).map fun v => set_reg_pc r0 v.1 v.2
  else if op < 0x5E then
    (ops.read_byte ((reg3 + reg6) % 2 ^ 32) s).map fun v => set_reg_pc r0 v.1 v.2
  else if op < 0x60 then
    (ops.read_half ((reg3 + reg6) % 2 ^ 32) s).map fun v => set_reg_pc r0 (sext16 v.1) v.2
  else if op < 0x68 then
    ops.write_word ((reg3 + (insn >>> 4 &&& 124)) % 2 ^ 32) (s.arm.reg r0) s
  else if op < 0x70 then
    (ops.read_word_ldr ((reg3 + (insn >>> 4 &&& 124)) % 2 ^ 32) s).map
      fun v => set_reg_pc r0 v.1 v.2
  else if op < 0x78 then
    ops.write_byte ((reg3 + (insn >>> 6 &&& 31)) % 2 ^ 32) (s.arm.reg r0 % 2 ^ 8) s
  else if op < 0x80 then
    (ops.read_byte ((reg3 + (insn >>> 6 &&& 31)) % 2 ^ 32) s).map fun v => set_reg_pc r0 v.1 v.2
  else if op < 0x88 then
    ops.write_half ((reg3 + (insn >>> 5 &&& 62)) % 2 ^ 32) (s.arm.reg r0 % 2 ^ 16) s
  else if op < 0x90 then
    (ops.read_half ((reg3 + (insn >>> 5 &&& 62)) % 2 ^ 32) s).map fun v => set_reg_pc r0 v.1 v.2
  else if op < 0x98 then
    ops.write_word ((s.arm.reg 13 + ((insn &&& 0xFF) <<< 2)) % 2 ^ 32) (s.arm.reg r8) s
  else
    (ops.read_word_ldr ((s.arm.reg 13 + ((insn &&& 0xFF) <<< 2)) % 2 ^ 32) s).map
      fun v => set_reg_pc r8 v.1 v.2

/-- The `switch (insn >> 8)` of `cpu_thumb_loop` for a 16-bit instruction; the cases that
end in `return` are those that clear the T bit, and SWI.  `none` is the `error` of the
`default:` case or of a called function, or an access that does not return. -/
def thumb_switch (ops : mem_ops) (insn : Nat) (s : Cpu) : Option Cpu :=
  let op := insn >>> 8
  let r0 := insn &&& 7
  let r8 := insn >>> 8 &&& 7
  let reg3 := s.arm.reg (insn >>> 3 &&& 7)
  let reg6 := s.arm.reg (insn >>> 6 &&& 7)
  let reg8 := s.arm.reg r8
  if op < 0x18 then
    let t := shift (insn >>> 11) reg3 (insn >>> 6 &&& 31) 1 s
    some (set_nz_flags t.1 (set_reg_pc r0 t.1 t.2))
  else if op < 0x1A then
    let t := add reg3 reg6 0 1 s
    some (set_nz_flags t.1 (set_reg_pc r0 t.1 t.2))
  else if op < 0x1C then
    let t := add reg3 (not32 reg6) 1 1 s
    some (set_nz_flags t.1 (set_reg_pc r0 t.1 t.2))
  else if op < 0x1E then
    let t := add reg3 (insn >>> 6 &&& 7) 0 1 s
    some (set_nz_flags t.1 (set_reg_pc r0 t.1 t.2))
  else if op < 0x20 then
    let t := add reg3 (not32 (insn >>> 6 &&& 7)) 1 1 s
    some (set_nz_flags t.1 (set_reg_pc r0 t.1 t.2))
  else if op < 0x28 then
    some (set_nz_flags (insn &&& 0xFF) (set_reg_pc r8 (insn &&& 0xFF) s))
  else if op < 0x30 then
    let t := add reg8 (not32 (insn &&& 0xFF)) 1 1 s
    some (set_nz_flags t.1 t.2)
  else if op < 0x38 then
    let t := add reg8 (insn &&& 0xFF) 0 1 s
    some (set_nz_flags t.1 (set_reg_pc r8 t.1 t.2))
  else if op < 0x40 then
    let t := add reg8 (not32 (insn &&& 0xFF)) 1 1 s
    some (set_nz_flags t.1 (set_reg_pc r8 t.1 t.2))
  else if op < 0x44 then some (thumb_alu insn s)
  else if op = 0x44 then
    let left := (insn >>> 4 &&& 8) ||| (insn &&& 7)
    let right := insn >>> 3 &&& 15
    some (set_reg_pc left ((get_reg_pc_thumb left s + get_reg_pc_thumb right s) % 2 ^ 32) s)
  else if op = 0x45 then
    let left := (insn >>> 4 &&& 8) ||| (insn &&& 7)
    let right := insn >>> 3 &&& 15
    (get_reg left s).map fun l =>
      let t := add l (not32 (get_reg_pc_thumb right s)) 1 1 s
      set_nz_flags t.1 t.2
  else if op = 0x46 then
    let left := (insn >>> 4 &&& 8) ||| (insn &&& 7)
    let right := insn >>> 3 &&& 15
    some (set_reg_pc left (get_reg_pc_thumb right s) s)
  else if op = 0x47 then
    let target := get_reg_pc_thumb (insn >>> 3 &&& 15) s
    let s1 := if insn &&& 0x80 ≠ 0 then set_reg_pc 14 ((s.arm.reg 15 + 1) % 2 ^ 32) s else s
    let s2 := set_reg_pc 15 (target &&& not32 1) s1
    if ¬ target &&& 1 ≠ 0 then
      some { s2 with arm := { s2.arm with cpsr_low28 := s2.arm.cpsr_low28 &&& not32 0x20 } }
    else some s2
  else if op < 0xA0 then thumb_load_store ops insn s
  else if op < 0xA8 then
    some (set_reg_pc r8
      ((((s.arm.reg 15 + 2) % 2 ^ 32 &&& 0xFFFFFFFC) + ((insn &&& 0xFF) <<< 2)) % 2 ^ 32) s)
  else if op < 0xB0 then
    some (set_reg_pc r8 ((s.arm.reg 13 + ((insn &&& 0xFF) <<< 2)) % 2 ^ 32) s)
  else if op = 0xB0 then
    some (set_reg_pc 13
      (if insn &&& 0x80 ≠ 0 then (s.arm.reg 13 + (2 ^ 32 - ((insn &&& 0x7F) <<< 2))) % 2 ^ 32
       else (s.arm.reg 13 + ((insn &&& 0x7F) <<< 2)) % 2 ^ 32) s)
  else if op = 0xB4 ∨ op = 0xB5 then
    let sp := thumb_push_base insn 9 (s.arm.reg 13)
    (thumb_store_loop ops insn 8 (sp, s)).bind fun r =>
    (if insn &&& 0x100 ≠ 0 then ops.write_word r.1 (r.2.arm.reg 14) r.2 else some r.2).map
      fun s1 => set_reg_pc 13 sp s1
  else if op = 0xBC ∨ op = 0xBD then
    (thumb_pop_loop ops insn 8 (s.arm.reg 13, s)).bind fun r =>
    if insn &&& 0x100 ≠ 0 then
      (ops.read_word r.1 r.2).map fun v =>
        let addr := (r.1 + 4) % 2 ^ 32
        let s1 := set_reg_pc 15 (v.1 &&& not32 1) v.2
        if ¬ v.1 &&& 1 ≠ 0 then
          set_reg_pc 13 addr
            { s1 with arm := { s1.arm with cpsr_low28 := s1.arm.cpsr_low28 &&& not32 0x20 } }
        else set_reg_pc 13 addr s1
    else some (set_reg_pc 13 r.1 r.2)
  else if op = 0xBE then ops.debugger s
  else if op < 0xC0 then none
  else if op < 0xC8 then
    (thumb_store_loop ops insn 8 (reg8, s)).map fun r => set_reg_pc r8 r.1 r.2
  else if op < 0xD0 then
    (thumb_ldmia_loop ops insn 8 (reg8, 0, s)).map fun r =>
      let s1 := set_reg_pc r8 r.1 r.2.2
      if insn >>> (insn >>> 8 &&& 7) &&& 1 ≠ 0 then set_reg_pc r8 r.2.1 s1 else s1
  else if op < 0xDE then
    if thumb_branch_cond (op - 0xD0) s.arm = true then
      some (set_reg_pc 15 ((s.arm.reg 15 + 2 + (sext8 insn <<< 1)) % 2 ^ 32) s)
    else some s
  else if op = 0xDF then cpu_exception EX_SWI s
  else if op < 0xE0 then none
  else if op < 0xE8 then
    some (set_reg_pc 15 ((s.arm.reg 15 + 2 + asr32 ((insn <<< 21) % 2 ^ 32) 20) % 2 ^ 32) s)
  else if op < 0xF0 then
    let target := (s.arm.reg 14 + ((insn &&& 0x7FF) <<< 1)) % 2 ^ 32 &&& not32 3
    let s1 := set_reg_pc 14 ((s.arm.reg 15 + 1) % 2 ^ 32) s
    let s2 := set_reg_pc 15 target s1
    some { s2 with arm := { s2.arm with cpsr_low28 := s2.arm.cpsr_low28 &&& not32 0x20 } }
  else if op < 0xF8 then
    some (set_reg_pc 14 ((s.arm.reg 15 + 2 + asr32 ((insn <<< 21) % 2 ^ 32) 9) % 2 ^ 32) s)
  else if op < 0x100 then
    let target := (s.arm.reg 14 + ((insn &&& 0x7FF) <<< 1)) % 2 ^ 32
    let s1 := set_reg_pc 14 ((s.arm.reg 15 + 1) % 2 ^ 32) s
    some (set_reg_pc 15 target s1)
  else none

/-- One iteration of `cpu_thumb_loop` after the fetch of the 16-bit `insn`, when no event is
pending and no breakpoint is hit: `arm.reg[15] += 2; cycle_count_delta++;` and the switch. -/
def cpu_thumb_instruction (ops : mem_ops) (insn : Nat) (s : Cpu) : Option Cpu :=
  thumb_switch ops insn
    { s with
      arm := { s.arm with reg := set_elem s.arm.reg 15 ((s.arm.reg 15 + 2) % 2 ^ 32) },
      cycle_count_delta := s.cycle_count_delta + 1 }

/-! ## NAND device (`flash.c`) -/

/-- The record `struct nand_metrics`. -/
structure nand_metrics where
  chip_manuf : Nat
  chip_model : Nat
  page_size : Nat
  log2_pages_per_block : Nat
  num_pages : Nat
  deriving DecidableEq, Repr

/-- The table `chips[]`, indexed by the `bool large` of `nand_initialize`. -/
def chips (large : Bool) : nand_metrics :=
  if large then ⟨0xEC, 0xA1, 0x840, 6, 0x10000⟩ else ⟨0x20, 0x35, 0x210, 5, 0x10000⟩

/-- The globals of the NAND device.  `metrics` is the global `nand_metrics`;
`nand_block_modified` holds only `true`/`false`. -/
structure Nand where
  metrics : nand_metrics
  nand_data : Nat → Nat
  nand_block_modified : Nat → Bool
  nand_writable : Bool
  nand_state : Nat
  nand_addr_state : Nat
  nand_area_pointer : Nat
  nand_row : Nat
  nand_column : Nat
  nand_buffer : Nat → Nat
  nand_buffer_pos : Nat

/-- The call `memset(&arr[off], v, len)` on a byte array. -/
def fill_bytes (arr : Nat → Nat) (off len v : Nat) : Nat → Nat :=
  fun i => if off ≤ i ∧ i < off + len then v else arr i

/-- The loop `for (i = 0; i < n; i++) pagedata[i] &= buf[i]` with `pagedata = &arr[off]`. -/
def and_bytes (arr : Nat → Nat) (off : Nat) (buf : Nat → Nat) (n : Nat) : Nat → Nat :=
  fun i => if off ≤ i ∧ i < off + n then arr i &&& buf (i - off) else arr i

/-- Function `nand_write_command_byte(command)`; `none` is `error` (program or erase with write
protect on), the `unknown:` label only warns. -/
def nand_write_command_byte (command : Nat) (d : Nand) : Option Nand :=
  if (command = 0x01 ∨ command = 0x50) ∧ 0x800 ≤ d.metrics.page_size then
    some d
  else if command = 0x01 ∨ command = 0x50 ∨ command = 0x00 then
    some { d with
      nand_area_pointer := if command = 0x50 then 2 else command
      nand_addr_state := 0
      nand_state := 0x00 }
  else if command = 0x10 then
    if d.nand_state = 0x80 then
      if ¬ d.nand_writable then none
      else
        some { d with
          nand_data := and_bytes d.nand_data
            ((d.nand_row * d.metrics.page_size + d.nand_column) % 2 ^ 32)
            d.nand_buffer d.nand_buffer_pos
          nand_block_modified := fun b =>
            if b = d.nand_row >>> d.metrics.log2_pages_per_block then true
            else d.nand_block_modified b
          nand_state := 0xFF }
    else some d
  else if command = 0x30 then
    some d
  else if command = 0x60 then
    some { d with nand_addr_state := 2, nand_state := command }
  else if command = 0x80 then
    some { d with nand_buffer_pos := 0, nand_addr_state := 0, nand_state := command }
  else if command = 0xD0 then
    if d.nand_state = 0x60 then
      let block_bits := ((1 <<< d.metrics.log2_pages_per_block) - 1) % 2 ^ 32
      if ¬ d.nand_writable then none
      else
        let row := if d.nand_row &&& block_bits ≠ 0 then d.nand_row &&& not32 block_bits
                   else d.nand_row
        some { d with
          nand_row := row
          nand_data := fill_bytes d.nand_data ((row * d.metrics.page_size) % 2 ^ 32)
            (d.metrics.page_size <<< d.metrics.log2_pages_per_block) 0xFF
          nand_block_modified := fun b =>
            if b = row >>> d.metrics.log2_pages_per_block then true
            else d.nand_block_modified b
          nand_state := 0xFF }
    else some d
  else if command = 0xFF then
    some { d with
      nand_row := 0
      nand_column := 0
      nand_area_pointer := 0
      nand_addr_state := 6
      nand_state := command }
  else if command = 0x70 ∨ command = 0x90 then
    some { d with nand_addr_state := 6, nand_state := command }
  else
    some d

/-- Function `nand_write_address_byte(byte)` for an 8-bit `byte`.  The `switch` is on the
address state before the increment; `bit` is computed from the state after it. -/
def nand_write_address_byte (byte : Nat) (d : Nand) : Nand :=
  if 6 ≤ d.nand_addr_state then d
  else
    let st := d.nand_addr_state
    let d1 : Nand := { d with nand_addr_state := (st + 1) % 256 }
    if st = 0 then
      let d2 : Nand :=
        if d1.metrics.page_size < 0x800 then
          { d1 with
            nand_column := d1.nand_area_pointer <<< 8
            nand_addr_state := 2
            nand_area_pointer := d1.nand_area_pointer &&& 0xFE }
        else d1
      { d2 with nand_column := (d2.nand_column &&& not32 0xFF) ||| byte }
    else if st = 1 then
      { d1 with nand_column := (d1.nand_column &&& 0xFF) ||| (byte <<< 8) }
    else
      let bit := (d1.nand_addr_state - 3) * 8
      let row := ((d1.nand_row &&& not32 (0xFF <<< bit)) ||| (byte <<< bit)) % 2 ^ 32
      { d1 with nand_row := row &&& ((d1.metrics.num_pages + 0xFFFFFFFF) % 2 ^ 32) }

/-- Function `nand_read_data_byte()`: the byte returned and the device afterwards. -/
def nand_read_data_byte (d : Nand) : Nat × Nand :=
  if d.nand_state = 0x00 then
    if d.nand_column ≥ d.metrics.page_size then (0, d)
    else
      (d.nand_data ((d.nand_row * d.metrics.page_size + d.nand_column) % 2 ^ 32),
        { d with nand_column := (d.nand_column + 1) % 2 ^ 32 })
  else if d.nand_state = 0x70 then (0x40 ||| ((if d.nand_writable then 1 else 0) <<< 7), d)
  else if d.nand_state = 0x90 then (d.metrics.chip_manuf, { d with nand_state := d.nand_state + 1 })
  else if d.nand_state = 0x90 + 1 then (d.metrics.chip_model, { d with nand_state := 0xFF })
  else (0, d)

/-- Function `nand_write_data_byte(value)`; both `warn` paths leave the device as it is. -/
def nand_write_data_byte (value : Nat) (d : Nand) : Nand :=
  if d.nand_state = 0x80 then
    if (d.nand_buffer_pos + d.nand_column) % 2 ^ 32 ≥ d.metrics.page_size then d
    else
      { d with
        nand_buffer := set_elem d.nand_buffer d.nand_buffer_pos value
        nand_buffer_pos := d.nand_buffer_pos + 1 }
  else d

/-- The first `n` of successive calls of `nand_read_data_byte()`: the bytes returned, in order,
and the device afterwards. -/
def nand_read_bytes : Nat → Nand → List Nat × Nand
  | 0, d => ([], d)
  | n + 1, d =>
    let r := nand_read_bytes n d
    let b := nand_read_data_byte r.2
    (r.1 ++ [b.1], b.2)

/-- The calls `nand_write_data_byte(b 0)`, ..., `nand_write_data_byte(b (n - 1))` in order. -/
def nand_write_bytes (b : Nat → Nat) : Nat → Nand → Nand
  | 0, d => d
  | n + 1, d => nand_write_data_byte (b n) (nand_write_bytes b n d)

/-- The calls `nand_write_address_byte(a 0)`, ..., `nand_write_address_byte(a (n - 1))` in
order. -/
def nand_write_address_bytes (a : Nat → Nat) : Nat → Nand → Nand
  | 0, d => d
  | n + 1, d => nand_write_address_byte (a n) (nand_write_address_bytes a n d)

/-- The four bytes of `*(uint32_t *)&arr[off]` on the little-endian host, as a word. -/
def load_le32 (arr : Nat → Nat) (off : Nat) : Nat :=
  arr off ||| arr (off + 1) <<< 8 ||| arr (off + 2) <<< 16 ||| arr (off + 3) <<< 24

/-- The two bytes of `*(uint16_t *)&arr[off]` on the little-endian host, as a halfword. -/
def load_le16 (arr : Nat → Nat) (off : Nat) : Nat :=
  arr off ||| arr (off + 1) <<< 8

/-- The store `*(uint32_t *)&arr[off] = v` (also `memcpy(&arr[off], &v, 4)`) on the
little-endian host. -/
def store_le32 (arr : Nat → Nat) (off v : Nat) : Nat → Nat :=
  fun i =>
    if i = off then v % 256
    else if i = off + 1 then v >>> 8 % 256
    else if i = off + 2 then v >>> 16 % 256
    else if i = off + 3 then v >>> 24 % 256
    else arr i

/-- The store `*(uint16_t *)&arr[off] = v` on the little-endian host. -/
def store_le16 (arr : Nat → Nat) (off v : Nat) : Nat → Nat :=
  fun i =>
    if i = off then v % 256
    else if i = off + 1 then v >>> 8 % 256
    else arr i

/-- Function `nand_read_data_word()`: the word returned and the device afterwards.  The index
`nand_row * page_size + (nand_column += 4) - 4` is computed in `uint32_t`, where subtracting 4
is adding `2 ^ 32 - 4`. -/
def nand_read_data_word (d : Nand) : Nat × Nand :=
  if d.nand_state = 0x00 then
    if (d.nand_column + 4) % 2 ^ 32 > d.metrics.page_size then (0, d)
    else
      (load_le32 d.nand_data
          ((d.nand_row * d.metrics.page_size + (d.nand_column + 4) % 2 ^ 32 + (2 ^ 32 - 4))
            % 2 ^ 32),
        { d with nand_column := (d.nand_column + 4) % 2 ^ 32 })
  else if d.nand_state = 0x70 then (0x40 ||| ((if d.nand_writable then 1 else 0) <<< 7), d)
  else if d.nand_state = 0x90 then
    (d.metrics.chip_model <<< 8 ||| d.metrics.chip_manuf, { d with nand_state := 0xFF })
  else (0, d)

/-- Function `nand_write_data_word(value)`; both `warn` paths leave the device as it is. -/
def nand_write_data_word (value : Nat) (d : Nand) : Nand :=
  if d.nand_state = 0x80 then
    if (d.nand_buffer_pos + d.nand_column + 4) % 2 ^ 32 > d.metrics.page_size then d
    else
      { d with
        nand_buffer := store_le32 d.nand_buffer d.nand_buffer_pos value
        nand_buffer_pos := d.nand_buffer_pos + 4 }
  else d

/-- The loop `for (; addr_bytes != 0; addr_bytes--) { nand_write_address_byte(value);
value >>= 8; }` of `nand_cx_write_word`; the argument is converted to `uint8_t`. -/
def nand_cx_address_loop : Nat → Nat → Nand → Nand
  | 0, _, d => d
  | n + 1, value, d => nand_cx_address_loop n (value >>> 8) (nand_write_address_byte (value % 256) d)

/-- Function `nand_cx_write_word(addr, value)`.  The function `bad_write_word` belongs to
`mem.c` and is a parameter; `none` is an `error`.  The command arguments are converted to
`uint8_t`. -/
def nand_cx_write_word (bad_write_word : Nat → Nat → Nand → Option Nand) (addr value : Nat)
    (d : Nand) : Option Nand :=
  if 0x81000000 ≤ addr ∧ addr < 0x82000000 then
    (if addr &&& 0x080000 ≠ 0 then some (nand_write_data_word value d)
     else
      let addr_bytes := addr >>> 21 &&& 7
      if addr_bytes > 4 then none
      else
        (nand_write_command_byte ((addr >>> 3) % 256) d).map
          (nand_cx_address_loop addr_bytes value)).bind fun d1 =>
    if addr &&& 0x100000 ≠ 0 then nand_write_command_byte ((addr >>> 11) % 256) d1
    else some d1
  else bad_write_word addr value d

/-- One call of the NAND device interface; the arguments are converted to the parameter type
(`uint8_t`, or `uint32_t` for a data word) at the call. -/
inductive nand_op where
  | command (b : Nat)
  | address (b : Nat)
  | read_byte
  | read_word
  | write_byte (v : Nat)
  | write_word (v : Nat)
  deriving DecidableEq, Repr

/-- The device after one call; `none` is an `error`. -/
def nand_apply : nand_op → Nand → Option Nand
  | .command b, d => nand_write_command_byte (b % 256) d
  | .address b, d => some (nand_write_address_byte (b % 256) d)
  | .read_byte, d => some (nand_read_data_byte d).2
  | .read_word, d => some (nand_read_data_word d).2
  | .write_byte v, d => some (nand_write_data_byte (v % 256) d)
  | .write_word v, d => some (nand_write_data_word (v % 2 ^ 32) d)

/-- The device after a sequence of calls, in order. -/
def nand_run : List nand_op → Nand → Option Nand
  | [], d => some d
  | op :: ops, d => (nand_apply op d).bind (nand_run ops)

/-- The device after `nand_initialize(large)` when both allocations succeed: the metrics of
the chip, the allocated `nand_data` (its content is whatever the caller then puts there),
the zeroed `nand_block_modified`, and the other globals at their initial values
(`nand_state = 0xFF`, the rest zero unless `nand_writable` has been set). -/
def nand_initial (large writable : Bool) (data : Nat → Nat) : Nand :=
  { metrics := chips large
    nand_data := data
    nand_block_modified := fun _ => false
    nand_writable := writable
    nand_state := 0xFF
    nand_addr_state := 0
    nand_area_pointer := 0
    nand_row := 0
    nand_column := 0
    nand_buffer := fun _ => 0
    nand_buffer_pos := 0 }

/-! ## ECC (`flash.c`) -/

/-- Function `parity(word)`: the parity of the 32 bits of `word`, by folding. -/
def parity (word : Nat) : Nat :=
  let word := word ^^^ (word >>> 16)
  let word := word ^^^ (word >>> 8)
  let word := word ^^^ (word >>> 4)
  (0x6996 >>> (word &&& 15)) &&& 1

/-- The word `((uint32_t *)page)[i]` of a byte array on the little-endian host. -/
def load_word (page : Nat → Nat) (i : Nat) : Nat :=
  page (4 * i) ||| page (4 * i + 1) <<< 8 ||| page (4 * i + 2) <<< 16 ||| page (4 * i + 3) <<< 24

/-- The inner loop of `ecc_calculate` after `n` iterations:
`for (i = 0; i < n; i++) { words ^= in[i]; temp[i] = in[i] ^ in[i + j]; }` started with
`words = 0`.  When `in` and `temp` are the same array, iteration `i` only reads elements at
indices `i` and above, which no earlier iteration has written, so the reads are taken from
the array as it was when the loop started. -/
def ecc_inner (inp : Nat → Nat) (j : Nat) (temp : Nat → Nat) : Nat → Nat × (Nat → Nat)
  | 0 => (0, temp)
  | n + 1 =>
    let r := ecc_inner inp j temp n
    (r.1 ^^^ inp n, set_elem r.2 n (inp n ^^^ inp (n + j)))

/-- The outer loop `for (j = ...; j != 0; j >>= 1)` of `ecc_calculate` from the current
`j`, `in`, `temp` and `ecc`; it returns the final `temp` and `ecc`. -/
def ecc_fold (j : Nat) (inp temp : Nat → Nat) (ecc : Nat) : (Nat → Nat) × Nat :=
  if h : j = 0 then (temp, ecc)
  else
    let r := ecc_inner inp j temp j
    ecc_fold (j >>> 1) r.2 r.2 ((ecc <<< 2 ||| parity r.1) % 2 ^ 32)
termination_by j
decreasing_by
  rw [Nat.shiftRight_eq_div_pow]
  exact Nat.div_lt_self (Nat.pos_of_ne_zero h) (by decide)

/-- Function `ecc_calculate(page)` for a 512-byte array. -/
def ecc_calculate (page : Nat → Nat) : Nat :=
  let r := ecc_fold 64 (load_word page) (fun _ => 0) 0
  let words := r.1 0
  let ecc := r.2
  let ecc := (ecc <<< 2 ||| parity (words &&& 0x0000FFFF)) % 2 ^ 32
  let ecc := (ecc <<< 2 ||| parity (words &&& 0x00FF00FF)) % 2 ^ 32
  let ecc := (ecc <<< 2 ||| parity (words &&& 0x0F0F0F0F)) % 2 ^ 32
  let ecc := (ecc <<< 2 ||| parity (words &&& 0x33333333)) % 2 ^ 32
  let ecc := (ecc <<< 2 ||| parity (words &&& 0x55555555)) % 2 ^ 32
  (ecc ||| (ecc <<< 1) % 2 ^ 32) ^^^ (if parity words ≠ 0 then 0x555555 else 0xFFFFFF)

/-! ## Flash image creation and settings (`flash.c`) -/

/-- Function `nand_initialize(large)`: the metrics are copied from `chips[large]`, `nand_data`
is allocated (`data` is the content of the fresh allocation) and `nand_block_modified` is
allocated zeroed.  Whether `malloc` and `calloc` succeed is given by `data_ok` and
`modified_ok`; the result is `false` when one fails. -/
def nand_initialize (data_ok modified_ok large : Bool) (data : Nat → Nat) (d : Nand) :
    Bool × Nand :=
  let d1 : Nand := { d with metrics := chips large }
  if ¬ data_ok then (false, d1)
  else
    let d2 : Nand := { d1 with nand_data := data }
    if ¬ modified_ok then (false, d2)
    else (true, { d2 with nand_block_modified := fun _ => false })

/-- Function `ecc_fix(page)`: the ECC bytes of the page (of each 512-byte quarter of a large
page) are recomputed and stored, converted to `uint8_t`.  Each `ecc_calculate` reads the 512
data bytes only, which no store of this function touches. -/
def ecc_fix (page : Nat) (d : Nand) : Nand :=
  let off := page * d.metrics.page_size
  if d.metrics.page_size < 0x800 then
    let ecc := ecc_calculate (fun i => d.nand_data (off + i))
    let a := set_elem d.nand_data (off + 0x206) (ecc >>> 6 % 256)
    let a := set_elem a (off + 0x207) (ecc >>> 14 % 256)
    let a := set_elem a (off + 0x208) ((ecc >>> 22 ||| ecc <<< 2) % 256)
    { d with nand_data := a }
  else
    let step := fun (a : Nat → Nat) (i : Nat) =>
      let ecc := ecc_calculate (fun k => a (off + i * 0x200 + k))
      let a := set_elem a (off + 0x808 + i * 0x10) (ecc >>> 6 % 256)
      let a := set_elem a (off + 0x809 + i * 0x10) (ecc >>> 14 % 256)
      set_elem a (off + 0x80A + i * 0x10) ((ecc >>> 22 ||| ecc <<< 2) % 256)
    { d with nand_data := step (step (step (step d.nand_data 0) 1) 2) 3 }

/-- The stores of `flash_create_new` into `struct manuf_data_804` at `&nand_data[0x844]`
when no image is preloaded; the field offsets are those of the structure on the host
(`product` 0, `revision` 2, `ext.signature` 20, `ext.features` 24, `ext.default_keypad` 28,
`ext.lcd_width` 32, `ext.lcd_height` 34, `ext.lcd_bpp` 36, `ext.lcd_color` 38,
`ext.offset_diags` 40, `ext.offset_boot2` 44, `ext.offset_bootdata` 48,
`ext.offset_filesys` 52, `ext.config_clocks` 56, `ext.config_sdram` 60, `ext.lcd_spi_count` 64,
`ext.lcd_light_min` 132, `ext.lcd_light_max` 134, `ext.lcd_light_default` 136,
`ext.lcd_light_incr` 138, `bootgfx_count` 140). -/
def write_manuf (product : Nat) (large_sdram : Bool) (d : Nand) : Nand :=
  let m := 0x844
  let a := store_le16 d.nand_data m (product >>> 4)
  let a := store_le16 a (m + 2) (product &&& 0xF)
  if load_le16 a m ≥ 0x0F then
    let a := store_le32 a (m + 20) 0x4C9E5F91
    let a := store_le32 a (m + 24) 5
    let a := store_le32 a (m + 28) 76
    let a := store_le16 a (m + 32) 320
    let a := store_le16 a (m + 34) 240
    let a := store_le16 a (m + 36) 16
    let a := store_le16 a (m + 38) 1
    let small := decide (d.metrics.page_size < 0x800)
    let a := store_le32 a (m + 40) (if small then 0x160000 else 0x320000)
    let a := store_le32 a (m + 44) (if small then 0x004000 else 0x020000)
    let a := store_le32 a (m + 48) (if small then 0x150000 else 0x2C0000)
    let a := store_le32 a (m + 52) (if small then 0x200000 else 0x400000)
    let a := store_le32 a (m + 56) 0x561002
    let a := store_le32 a (m + 60) (if large_sdram then 0xFC018012 else 0xFE018011)
    let a := store_le32 a (m + 64) 0
    let a := store_le16 a (m + 132) 0x11A
    let a := store_le16 a (m + 134) 0x1CE
    let a := store_le16 a (m + 136) 0x16A
    let a := store_le16 a (m + 138) 0x14
    let a := set_elem a (m + 140) 0
    { d with nand_data := a }
  else { d with nand_data := a }

/-- Function `flash_create_new(flag_large_nand, preload_file, product, large_sdram)`:
`preload_file i` tells whether `preload_file[i]` is a file name.  The functions `load_file`
(offset, index of the file) and `preload` (block, index of the file; it returns the next
block) read files and are parameters, as is the outcome of the allocations.  In this function
`emulate_casplus` tests the parameter `product`. -/
def flash_create_new (load_file : Nat → Nat → Nand → Nand)
    (preload : Nat → Nat → Nand → Nat × Nand) (data_ok modified_ok : Bool) (data : Nat → Nat)
    (flag_large_nand : Bool) (preload_file : Nat → Bool) (product : Nat) (large_sdram : Bool)
    (d : Nand) : Bool × Nand :=
  let r := nand_initialize data_ok modified_ok flag_large_nand data d
  if ¬ r.1 then (false, r.2)
  else
    let d := r.2
    let d : Nand := { d with
      nand_data := fill_bytes d.nand_data 0 (d.metrics.page_size * d.metrics.num_pages) 0xFF }
    let d : Nand :=
      if preload_file 0 then load_file 0 0 d
      else if ¬ (product = 0x0C0) then
        let d : Nand := { d with nand_data := store_le32 d.nand_data 0 0x796EB03C }
        let d := ecc_fix 0 d
        let d := write_manuf product large_sdram d
        ecc_fix (if d.metrics.page_size < 0x800 then 4 else 1) d
      else d
    let small := decide (d.metrics.page_size < 0x800)
    let block := if small then 0x200000 else 0x400000
    let d := if preload_file 1 then load_file (if small then 0x004000 else 0x020000) 1 d else d
    let d := if preload_file 2 then load_file (if small then 0x160000 else 0x320000) 2 d else d
    let d := if preload_file 3 then (preload block 3 d).2 else d
    (true, d)

/-- What `flash_read_settings` leaves: its return value, `*sdram_size`, and the globals
`product` and `asic_user_flags`. -/
structure flash_settings where
  ok : Bool
  sdram_size : Nat
  product : Nat
  asic_user_flags : Nat
  deriving DecidableEq, Repr

/-- The table `flags[]` of `flash_read_settings`. -/
def asic_flags_table : List Nat := [1, 0, 0, 1, 0, 3, 2]

/-- Function `flash_read_settings(sdram_size)`; `emulate_cx` tests the global `product`, which
has just been assigned.  The fields of `struct manuf_data_804` are read at their host offsets
from `&nand_data[0x844]`. -/
def flash_read_settings (d : Nand) : flash_settings :=
  let asic_user_flags := 0
  let sdram_size := 32 * 1024 * 1024
  if load_le32 d.nand_data 0 = 0xFFFFFFFF then
    { ok := true, sdram_size := sdram_size, product := 0x0C0, asic_user_flags := asic_user_flags }
  else
    let m := 0x844
    let mproduct := load_le16 d.nand_data m
    let product := mproduct <<< 4 ||| load_le16 d.nand_data (m + 2)
    let asic_user_flags :=
      if 0x0C ≤ mproduct ∧ mproduct ≤ 0x12 then asic_flags_table.getD (mproduct - 0x0C) 0
      else asic_user_flags
    if product ≥ 0x0F0 ∧ load_le32 d.nand_data (m + 20) = 0x4C9E5F91 then
      let cfg := load_le32 d.nand_data (m + 60)
      let logsize := (cfg &&& 7) + (cfg >>> 3 &&& 7)
      if logsize > 4 then
        { ok := false, sdram_size := sdram_size, product := product,
          asic_user_flags := asic_user_flags }
      else
        { ok := true, sdram_size := (4 * 1024 * 1024) <<< logsize, product := product,
          asic_user_flags := asic_user_flags }
    else
      { ok := true, sdram_size := sdram_size, product := product,
        asic_user_flags := asic_user_flags }

/-- The little-endian value of the `n` bytes of a file (a list of bytes) from `pos`, as
`fread` into a packed struct field leaves it on the little-endian host. -/
def file_le (f : List Nat) (pos : Nat) : Nat → Nat
  | 0 => 0
  | n + 1 => f.getD pos 0 + 256 * file_le f (pos + 1) n

/-- The C library `tolower` on a byte (C locale). -/
def tolower (c : Nat) : Nat := if 0x41 ≤ c ∧ c ≤ 0x5A then c + 0x20 else c

/-- The C string in a byte buffer that ends in a NUL: the bytes before the first NUL. -/
def c_string (b : List Nat) : List Nat := b.takeWhile (fun c => decide (c ≠ 0))

/-- The test `strcasecmp(a, b) != 0`: the two C strings differ when case is ignored. -/
def strcasecmp_ne (a b : List Nat) : Bool :=
  decide ((c_string a).map tolower ≠ (c_string b).map tolower)

/-- The loop of `load_zip_entry(offset, f, name)` from file position `pos`, for at most
`fuel` iterations (each one that continues has read a 30-byte header).  `load_file_part`
is the function of that name with the file and its position, then the length, as arguments;
the result is the returned size and the device.  The header fields are those of the packed
struct: `sig` at 0, `comp_size` at 18, `name_length` at 26, `extra_length` at 28.  The
`fseek` distances are sums in `uint32_t`. -/
def load_zip_entry_loop (load_file_part : Nat → List Nat → Nat → Nat → Nand → Nat × Nand)
    (offset : Nat) (f : List Nat) (name : List Nat) : Nat → Nat → Nand → Nat × Nand
  | 0, _, d => (0, d)
  | fuel + 1, pos, d =>
    if pos + 30 ≤ f.length ∧ file_le f pos 4 = 0x04034B50 then
      let comp_size := file_le f (pos + 18) 4
      let name_length := file_le f (pos + 26) 2
      let extra_length := file_le f (pos + 28) 2
      let pos := pos + 30
      if name_length ≥ 16 then
        load_zip_entry_loop load_file_part offset f name fuel
          (pos + (name_length + extra_length + comp_size) % 2 ^ 32) d
      else if ¬ (name_length ≠ 0 ∧ pos + name_length ≤ f.length) then (0, d)
      else
        let namebuf := (f.drop pos).take name_length
        let pos := pos + name_length
        if strcasecmp_ne namebuf name = true then
          load_file_part offset f (pos + extra_length) comp_size d
        else
          load_zip_entry_loop load_file_part offset f name fuel
            (pos + (extra_length + comp_size) % 2 ^ 32) d
    else (0, d)

/-- Function `load_zip_entry(offset, f, name)`: `fseek(f, 0, SEEK_SET)` and the loop; a file
of `n` bytes holds fewer than `n / 30 + 1` headers. -/
def load_zip_entry (load_file_part : Nat → List Nat → Nat → Nat → Nand → Nat × Nand)
    (offset : Nat) (f : List Nat) (name : List Nat) (d : Nand) : Nat × Nand :=
  load_zip_entry_loop load_file_part offset f name (f.length / 30 + 1) 0 d

/-! ## NAND controller of the original models (`flash.c`) -/

/-- The record `nand_phx`; `address` is the array `uint8_t address[7]`. -/
structure nand_phx_regs where
  operation : Nat
  address : Nat → Nat
  op_size : Nat
  ram_address : Nat
  ecc : Nat

/-- What `nand_phx_write_word` works on: the NAND device, the record `nand_phx`, the host
memory `ram` that the pointers returned by `phys_mem_ptr` point into, and the number of
calls of `nand_write_data_byte` and of `nand_read_data_byte` that the controller has made. -/
structure Phx where
  nand : Nand
  nand_phx : nand_phx_regs
  ram : Nat → Nat
  data_byte_writes : Nat
  data_byte_reads : Nat

/-- The loop `for (i = 0; i < n; i++) nand_write_data_byte(ptr[i])` with `ptr = &ram[p]`. -/
def phx_write_loop (p : Nat) : Nat → Phx → Phx
  | 0, w => w
  | n + 1, w =>
    let w1 := phx_write_loop p n w
    { w1 with
      nand := nand_write_data_byte (w1.ram (p + n)) w1.nand
      data_byte_writes := w1.data_byte_writes + 1 }

/-- The loop `for (i = 0; i < n; i++) ptr[i] = nand_read_data_byte()` with `ptr = &ram[p]`. -/
def phx_read_loop (p : Nat) : Nat → Phx → Phx
  | 0, w => w
  | n + 1, w =>
    let w1 := phx_read_loop p n w
    let r := nand_read_data_byte w1.nand
    { w1 with
      nand := r.2
      ram := set_elem w1.ram (p + n) r.1
      data_byte_reads := w1.data_byte_reads + 1 }

/-- Function `nand_phx_write_word(addr, value)`.  The functions `phys_mem_ptr` (the offset
in `ram` of a guest physical range, if it lies in RAM) and `bad_write_word` belong to `mem.c`
and are parameters; `none` is an `error`. -/
def nand_phx_write_word (phys_mem_ptr : Nat → Nat → Option Nat)
    (bad_write_word : Nat → Nat → Phx → Option Phx) (addr value : Nat) (w : Phx) :
    Option Phx :=
  let reg := addr &&& 0x3FFFFFF
  if reg = 0x00 then some w
  else if reg = 0x04 then some { w with nand := { w.nand with nand_writable := decide (value ≠ 0) } }
  else if reg = 0x08 then
    if value ≠ 1 then none
    else
      let op := w.nand_phx.operation
      (nand_write_command_byte (op % 256) w.nand).bind fun d1 =>
      let d2 := nand_write_address_bytes w.nand_phx.address (op >>> 8 &&& 7) d1
      let w2 : Phx := { w with nand := d2 }
      (if op &&& 0x400800 ≠ 0 then
        (phys_mem_ptr w2.nand_phx.ram_address w2.nand_phx.op_size).map fun p =>
          let w3 :=
            if op &&& 0x000800 ≠ 0 then phx_write_loop p w2.nand_phx.op_size w2
            else phx_read_loop p w2.nand_phx.op_size w2
          if w3.nand_phx.op_size ≥ 0x200 then
            if w3.nand.nand_data 0x206 = 0xFF ∧ w3.nand.nand_data 0x207 = 0xFF
                ∧ w3.nand.nand_data 0x208 = 0xFF then
              { w3 with nand_phx := { w3.nand_phx with ecc := 0xFFFFFF } }
            else
              { w3 with nand_phx := { w3.nand_phx with
                  ecc := ecc_calculate (fun i => w3.ram (p + i)) } }
          else w3
       else some w2).bind fun w4 =>
      if op &&& 0x100000 ≠ 0 then
        (nand_write_command_byte ((op >>> 12) % 256) w4.nand).map fun d5 =>
          { w4 with nand := d5 }
      else some w4
  else if reg = 0x0C then some { w with nand_phx := { w.nand_phx with operation := value } }
  else if reg = 0x10 then
    some { w with nand_phx := { w.nand_phx with
      address := set_elem w.nand_phx.address 0 (value % 256) } }
  else if reg = 0x14 then
    some { w with nand_phx := { w.nand_phx with
      address := set_elem w.nand_phx.address 1 (value % 256) } }
  else if reg = 0x18 then
    some { w with nand_phx := { w.nand_phx with
      address := set_elem w.nand_phx.address 2 (value % 256) } }
  else if reg = 0x1C then
    some { w with nand_phx := { w.nand_phx with
      address := set_elem w.nand_phx.address 3 (value % 256) } }
  else if reg = 0x20 then some w
  else if reg = 0x24 then some { w with nand_phx := { w.nand_phx with op_size := value } }
  else if reg = 0x28 then some { w with nand_phx := { w.nand_phx with ram_address := value } }
  else if reg = 0x2C ∨ reg = 0x30 ∨ reg = 0x40 ∨ reg = 0x44 ∨ reg = 0x48 ∨ reg = 0x4C
      ∨ reg = 0x50 ∨ reg = 0x54 then some w
  else bad_write_word addr value w

/-- The byte array `page` with bit `p` flipped (bit `p % 8` of byte `p / 8`). -/
def flip_bit (page : Nat → Nat) (p : Nat) : Nat → Nat :=
  fun i => if i = p / 8 then page i ^^^ (1 <<< (p % 8)) else page i

/-! ## Predicates and tables used to state the properties -/

/-- The flag fields hold single bits and `cpsr_low28` has no bit outside `0x080000FF`
(mode, T, F, I and Q; the J bit is rejected by `set_cpsr_full`, the rest is masked off). -/
def cpsr_wf (s : Cpu) : Prop :=
  s.arm.cpsr_n ≤ 1 ∧ s.arm.cpsr_z ≤ 1 ∧ s.arm.cpsr_c ≤ 1 ∧ s.arm.cpsr_v ≤ 1 ∧
    s.arm.cpsr_low28 &&& 0x080000FF = s.arm.cpsr_low28

/-- The seven processor mode numbers. -/
def is_mode (m : Nat) : Prop :=
  m = MODE_USR ∨ m = MODE_FIQ ∨ m = MODE_IRQ ∨ m = MODE_SVC ∨ m = MODE_ABT ∨ m = MODE_UND
    ∨ m = MODE_SYS

instance (m : Nat) : Decidable (is_mode m) := by unfold is_mode; infer_instance

instance (s : Cpu) : Decidable (cpsr_wf s) := by unfold cpsr_wf; infer_instance

/-- The mode bits of `cpsr_low28` name one of the seven modes. -/
def valid_mode (s : Cpu) : Prop := is_mode (s.arm.cpsr_low28 &&& 0x1F)

instance (s : Cpu) : Decidable (valid_mode s) := by unfold valid_mode; infer_instance

/-- A well-formed processor state: single-bit flags, no reserved CPSR bit set, and exactly
one (valid) mode active. -/
def well_formed (s : Cpu) : Prop := cpsr_wf s ∧ valid_mode s

instance (s : Cpu) : Decidable (well_formed s) := by unfold well_formed; infer_instance

/-- The r8..r12 bank that belongs to mode `m`: the FIQ bank for FIQ, the USR bank otherwise. -/
def r8_bank (m : Nat) (a : arm_state) : Nat → Nat :=
  if m = MODE_FIQ then a.r8_fiq else a.r8_usr

/-- The r13/r14 bank that belongs to mode `m` (USR and SYS share `r13_usr`). -/
def r13_bank (m : Nat) (a : arm_state) : Nat → Nat :=
  if m = MODE_FIQ then a.r13_fiq
  else if m = MODE_IRQ then a.r13_irq
  else if m = MODE_SVC then a.r13_svc
  else if m = MODE_ABT then a.r13_abt
  else if m = MODE_UND then a.r13_und
  else a.r13_usr

/-- Modes `m` and `m'` use the same r8..r12 bank. -/
def same8 (m m' : Nat) : Prop := (m = MODE_FIQ ↔ m' = MODE_FIQ)

/-- Modes `m` and `m'` use the same r13/r14 bank. -/
def same13 (m m' : Nat) : Prop :=
  m = m' ∨ (m = MODE_USR ∧ m' = MODE_SYS) ∨ (m = MODE_SYS ∧ m' = MODE_USR)

instance (m m' : Nat) : Decidable (same8 m m') := by unfold same8; infer_instance

instance (m m' : Nat) : Decidable (same13 m m') := by unfold same13; infer_instance

/-- Fields of `arm` that a register-bank switch never touches. -/
def same_sys (a b : arm_state) : Prop :=
  a.cpsr_low28 = b.cpsr_low28 ∧ a.cpsr_n = b.cpsr_n ∧ a.cpsr_z = b.cpsr_z ∧ a.cpsr_c = b.cpsr_c
  ∧ a.cpsr_v = b.cpsr_v ∧ a.control = b.control ∧ a.spsr_fiq = b.spsr_fiq ∧ a.spsr_irq = b.spsr_irq
  ∧ a.spsr_svc = b.spsr_svc ∧ a.spsr_abt = b.spsr_abt ∧ a.spsr_und = b.spsr_und
  ∧ a.interrupts = b.interrupts

/-- The exception kinds: Reset 0, Undefined 1, SWI 2, PrefetchAbort 3, DataAbort 4, IRQ 6,
FIQ 7 (5 is reserved). -/
def is_exception (k : Nat) : Prop :=
  k = EX_RESET ∨ k = EX_UNDEFINED ∨ k = EX_SWI ∨ k = EX_PREFETCH_ABORT ∨ k = EX_DATA_ABORT
    ∨ k = EX_IRQ ∨ k = EX_FIQ

instance (k : Nat) : Decidable (is_exception k) := by unfold is_exception; infer_instance

/-- The exception-entry table of the specification: the mode an exception kind enters. -/
def exception_mode (k : Nat) : Nat :=
  if k = EX_RESET then MODE_SVC
  else if k = EX_UNDEFINED then MODE_UND
  else if k = EX_SWI then MODE_SVC
  else if k = EX_PREFETCH_ABORT then MODE_ABT
  else if k = EX_DATA_ABORT then MODE_ABT
  else if k = EX_IRQ then MODE_IRQ
  else MODE_FIQ

/-- The ARM condition table for the condition codes 0..14 (EQ, NE, CS, CC, MI, PL, VS, VC,
HI, LS, GE, LT, GT, LE, AL) on a flag state. -/
def condition_passed (cond : Nat) (a : arm_state) : Bool :=
  match cond with
  | 0 => decide (a.cpsr_z = 1)
  | 1 => decide (a.cpsr_z = 0)
  | 2 => decide (a.cpsr_c = 1)
  | 3 => decide (a.cpsr_c = 0)
  | 4 => decide (a.cpsr_n = 1)
  | 5 => decide (a.cpsr_n = 0)
  | 6 => decide (a.cpsr_v = 1)
  | 7 => decide (a.cpsr_v = 0)
  | 8 => decide (a.cpsr_c = 1 ∧ a.cpsr_z = 0)
  | 9 => decide (a.cpsr_c = 0 ∨ a.cpsr_z = 1)
  | 10 => decide (a.cpsr_n = a.cpsr_v)
  | 11 => decide (a.cpsr_n ≠ a.cpsr_v)
  | 12 => decide (a.cpsr_z = 0 ∧ a.cpsr_n = a.cpsr_v)
  | 13 => decide (a.cpsr_z = 1 ∨ a.cpsr_n ≠ a.cpsr_v)
  | _ => true

/-- XOR of `f 0`, ..., `f (n - 1)`. -/
def xor_upto (f : Nat → Nat) : Nat → Nat
  | 0 => 0
  | n + 1 => xor_upto f n ^^^ f n

/-- The register banks and saved status words of two `arm` records agree. -/
def same_banks (a b : arm_state) : Prop :=
  a.r8_usr = b.r8_usr ∧ a.r13_usr = b.r13_usr ∧ a.r8_fiq = b.r8_fiq ∧ a.r13_fiq = b.r13_fiq
  ∧ a.r13_irq = b.r13_irq ∧ a.r13_svc = b.r13_svc ∧ a.r13_abt = b.r13_abt
  ∧ a.r13_und = b.r13_und ∧ a.spsr_fiq = b.spsr_fiq ∧ a.spsr_irq = b.spsr_irq
  ∧ a.spsr_svc = b.spsr_svc ∧ a.spsr_abt = b.spsr_abt ∧ a.spsr_und = b.spsr_und

/-- The exact integer result of the subtracting data-processing opcodes: SUB (2) and CMP (10)
`a - b`, RSB (3) `b - a`, SBC (6) `a - b - (1 - C)`, RSC (7) `b - a - (1 - C)`. -/
def sub_exact (opcode a b cin : Nat) : Int :=
  if opcode = 2 ∨ opcode = 10 then (a : Int) - b
  else if opcode = 3 then (b : Int) - a
  else if opcode = 6 then (a : Int) - b - (1 - cin)
  else (b : Int) - a - (1 - cin)

/-- The command sequence that a word write to the CX NAND controller at address `a` stands
for, as the specification words it: fatal for more than 4 address bytes; otherwise the command
byte in bits 10..3 of `a`, then bytes 0..n-1 of `value` (least significant first) as address
bytes, where `n` is bits 23..21 of `a`, then, iff bit 20 of `a` is set, the command byte in
bits 18..11 of `a`. -/
def cx_command_sequence (a value : Nat) (d : Nand) : Option Nand :=
  let n := a >>> 21 &&& 7
  if n > 4 then none
  else
    (nand_write_command_byte (a >>> 3 &&& 0xFF) d).bind fun d1 =>
    let d2 := nand_write_address_bytes (fun i => value >>> (8 * i) &&& 0xFF) n d1
    if a >>> 20 &&& 1 = 1 then nand_write_command_byte (a >>> 11 &&& 0xFF) d2
    else some d2

/-- What holds of the NAND device after every call: the metrics are those of the chip, the
row is below `num_pages`, the address state is at most 6, the column and the area pointer
are in range, and the buffer position is at most the page size. -/
def nand_inv (large : Bool) (d : Nand) : Prop :=
  d.metrics = chips large ∧ d.nand_row < d.metrics.num_pages ∧ d.nand_addr_state ≤ 6
    ∧ d.nand_column ≤ 0xFFFF ∧ d.nand_area_pointer ≤ 2
    ∧ d.nand_buffer_pos ≤ d.metrics.page_size ∧ d.metrics.page_size ≤ 0x840

instance (large : Bool) (d : Nand) : Decidable (nand_inv large d) := by
  unfold nand_inv; infer_instance

/-- The lowest transfer address of an LDM/STM with base value `B` and `n` registers in the
list, as the instruction set words it: `B` for increment-after, `B + 4` for increment-before,
`B - 4n + 4` for decrement-after and `B - 4n` for decrement-before, modulo `2 ^ 32`. -/
def ldm_stm_first_address (insn B n : Nat) : Nat :=
  if insn >>> 23 &&& 1 = 1 then
    if insn >>> 24 &&& 1 = 1 then (B + 4) % 2 ^ 32 else B
  else
    if insn >>> 24 &&& 1 = 1 then (B + 2 ^ 32 - 4 * n) % 2 ^ 32
    else (B + 2 ^ 32 - 4 * n + 4) % 2 ^ 32

/-- The base register value that an LDM/STM writes back: `B + 4n` for increment and `B - 4n`
for decrement with writeback, `B` without. -/
def ldm_stm_written_base (insn B n : Nat) : Nat :=
  if insn >>> 21 &&& 1 = 1 then
    if insn >>> 23 &&& 1 = 1 then (B + 4 * n) % 2 ^ 32 else (B + 2 ^ 32 - 4 * n) % 2 ^ 32
  else B

/-- The transfers of the first `k` registers of an LDM/STM list with the address written in
closed form: listed register `i` is transferred at `L + 4 * (number of listed registers
below i)`. -/
def ldm_stm_at (ops : mem_ops) (insn base_reg L : Nat) : Nat → Nat × Cpu → Option (Nat × Cpu)
  | 0, st => some st
  | k + 1, st =>
    (ldm_stm_at ops insn base_reg L k st).bind fun r =>
    if insn >>> k &&& 1 = 1 then
      ldm_stm_transfer ops insn base_reg k ((L + 4 * count_bits insn k) % 2 ^ 32) r
    else some r

/-- LDM/STM with every address in closed form: the listed registers below R15 at
`L, L + 4, ...` in ascending order, R15 (if listed) at the next address, then the base
register written, then (for a load of R15 with the S bit) the CPSR restored. -/
def ldm_stm_spec (ops : mem_ops) (insn : Nat) (s : Cpu) : Option Cpu :=
  let base_reg := insn >>> 16 &&& 15
  if base_reg = 15 then none
  else
    let B := s.arm.reg base_reg
    let n := count_bits insn 16
    let L := ldm_stm_first_address insn B n
    (ldm_stm_at ops insn base_reg L 15 (ldm_stm_written_base insn B n, s)).bind fun st =>
    (if insn >>> 15 &&& 1 = 1 then
      if insn >>> 20 &&& 1 = 1 then
        (ops.read_word ((L + 4 * count_bits insn 15) % 2 ^ 32) st.2).map
          fun v => set_reg_pc_bx 15 v.1 v.2
      else ops.write_word ((L + 4 * count_bits insn 15) % 2 ^ 32) (get_reg_pc_store 15 st.2) st.2
     else some st.2).bind fun s2 =>
    let s3 : Cpu := { s2 with arm := { s2.arm with reg := set_elem s2.arm.reg base_reg st.1 } }
    if insn >>> 22 &&& 1 = 1 ∧ insn >>> 20 &&& 1 = 1 ∧ insn >>> 15 &&& 1 = 1 then
      (get_spsr s3).bind fun sp => set_cpsr_full sp s3
    else some s3

/-- The functions of the other modules return with the register file `arm` as it was. -/
def mem_ops_keep_arm (ops : mem_ops) : Prop :=
  (∀ a s r, ops.read_byte a s = some r → r.2.arm = s.arm)
  ∧ (∀ a s r, ops.read_half a s = some r → r.2.arm = s.arm)
  ∧ (∀ a s r, ops.read_word a s = some r → r.2.arm = s.arm)
  ∧ (∀ a s r, ops.read_word_ldr a s = some r → r.2.arm = s.arm)
  ∧ (∀ a v s r, ops.write_byte a v s = some r → r.arm = s.arm)
  ∧ (∀ a v s r, ops.write_half a v s = some r → r.arm = s.arm)
  ∧ (∀ a v s r, ops.write_word a v s = some r → r.arm = s.arm)
  ∧ (∀ s r, ops.debugger s = some r → r.arm = s.arm)

/-- Register `i` of the current mode has a separate user-mode copy: r13 and r14 in a
privileged mode other than SYS, r8..r12 in FIQ mode. -/
def user_banked (s : Cpu) (i : Nat) : Prop :=
  (13 ≤ i ∧ s.arm.cpsr_low28 &&& 0x1F ≠ MODE_USR ∧ s.arm.cpsr_low28 &&& 0x1F ≠ MODE_SYS)
  ∨ (8 ≤ i ∧ i < 13 ∧ s.arm.cpsr_low28 &&& 0x1F = MODE_FIQ)

instance (s : Cpu) (i : Nat) : Decidable (user_banked s i) := by
  unfold user_banked; infer_instance

/-- Register `i` as mode `m` sees it in state `s`: the active register when `m` shares the
bank of the current mode (always for r0..r7 and r15), the copy in the bank of `m` otherwise. -/
def mode_reg (m : Nat) (s : Cpu) (i : Nat) : Nat :=
  if 8 ≤ i ∧ i < 13 then
    if same8 m (s.arm.cpsr_low28 &&& 0x1F) then s.arm.reg i else r8_bank m s.arm (i - 8)
  else if 13 ≤ i ∧ i < 15 then
    if same13 m (s.arm.cpsr_low28 &&& 0x1F) then s.arm.reg i else r13_bank m s.arm (i - 13)
  else s.arm.reg i

/-- The saturation `sat(x) = min(max(x, -2^31), 2^31 - 1)` of the QADD family. -/
def sat32 (x : Int) : Int := min (max x (-(2 ^ 31))) (2 ^ 31 - 1)

/-- An 11-bit field read as a two's complement number (`signext11`). -/
def signext11 (x : Nat) : Int := if x % 2 ^ 11 < 2 ^ 10 then (x % 2 ^ 11 : Nat) else (x % 2 ^ 11 : Nat) - 2 ^ 11

/-- The THUMB ALU instruction `op Rd, Rm` (`010000 op Rm Rd`). -/
def thumb_alu_insn (op rd rm : Nat) : Nat := 0x4000 ||| op <<< 6 ||| rm <<< 3 ||| rd

/-- The flag-setting ARM instruction (condition AL) that corresponds to the THUMB ALU
operation `op Rd, Rm`: ANDS, EORS, MOVS with a register-specified shift, ADCS, SBCS,
TST, RSBS with immediate 0, CMP, CMN, ORRS, MULS, BICS and MVNS. -/
def thumb_alu_arm_insn (op rd rm : Nat) : Nat :=
  if op = 0x0 then 0xE0100000 ||| rd <<< 16 ||| rd <<< 12 ||| rm
  else if op = 0x1 then 0xE0300000 ||| rd <<< 16 ||| rd <<< 12 ||| rm
  else if op = 0x2 then 0xE1B00010 ||| rd <<< 12 ||| rm <<< 8 ||| rd
  else if op = 0x3 then 0xE1B00030 ||| rd <<< 12 ||| rm <<< 8 ||| rd
  else if op = 0x4 then 0xE1B00050 ||| rd <<< 12 ||| rm <<< 8 ||| rd
  else if op = 0x5 then 0xE0B00000 ||| rd <<< 16 ||| rd <<< 12 ||| rm
  else if op = 0x6 then 0xE0D00000 ||| rd <<< 16 ||| rd <<< 12 ||| rm
  else if op = 0x7 then 0xE1B00070 ||| rd <<< 12 ||| rm <<< 8 ||| rd
  else if op = 0x8 then 0xE1100000 ||| rd <<< 16 ||| rm
  else if op = 0x9 then 0xE2700000 ||| rm <<< 16 ||| rd <<< 12
  else if op = 0xA then 0xE1500000 ||| rd <<< 16 ||| rm
  else if op = 0xB then 0xE1700000 ||| rd <<< 16 ||| rm
  else if op = 0xC then 0xE1900000 ||| rd <<< 16 ||| rd <<< 12 ||| rm
  else if op = 0xD then 0xE0100090 ||| rd <<< 16 ||| rd <<< 8 ||| rm
  else if op = 0xE then 0xE1D00000 ||| rd <<< 16 ||| rd <<< 12 ||| rm
  else 0xE1F00000 ||| rd <<< 12 ||| rm

/-- The THUMB shift-immediate instruction `LSL/LSR/ASR Rd, Rm, #imm5` (`000 ty imm5 Rm Rd`,
`ty` = 0, 1, 2). -/
def thumb_shift_insn (ty imm5 rd rm : Nat) : Nat := ty <<< 11 ||| imm5 <<< 6 ||| rm <<< 3 ||| rd

/-- The ARM instruction `MOVS Rd, Rm, <shift ty> #imm5` (condition AL) with the same 5-bit
immediate field. -/
def arm_movs_shift_insn (ty imm5 rd rm : Nat) : Nat :=
  0xE1B00000 ||| rd <<< 12 ||| imm5 <<< 7 ||| ty <<< 5 ||| rm

/-- The ARM instruction QADD (`op` = 0), QSUB (1), QDADD (2) or QDSUB (3) `Rd, Rm, Rn` with
condition AL: `cond 00010 op 0 Rn Rd 0000 0101 Rm`. -/
def qadd_insn (op rn rd rm : Nat) : Nat :=
  0xE1000050 ||| op <<< 21 ||| rn <<< 16 ||| rd <<< 12 ||| rm

/-- The second operand of the QADD family as the claim states it: `Rn` for QADD and QSUB,
`sat(2 * Rn)` for QDADD and QDSUB. -/
def qadd_operand (op : Nat) (b : Int) : Int := if op < 2 then b else sat32 (2 * b)

/-- The exact sum or difference that the QADD family saturates: `Rm + operand` for QADD and
QDADD, `Rm - operand` for QSUB and QDSUB. -/
def qadd_exact (op : Nat) (a b : Int) : Int :=
  if op % 2 = 0 then a + qadd_operand op b else a - qadd_operand op b

/-- The predicate of the CPSR invariant: the flag fields `cpsr_n`, `cpsr_z`, `cpsr_c` and
`cpsr_v` hold 0 or 1, and `cpsr_low28` has no bit set outside `0x090000FF`. -/
def cpsr_ok (s : Cpu) : Prop :=
  s.arm.cpsr_n ≤ 1 ∧ s.arm.cpsr_z ≤ 1 ∧ s.arm.cpsr_c ≤ 1 ∧ s.arm.cpsr_v ≤ 1 ∧
    s.arm.cpsr_low28 &&& 0x090000FF = s.arm.cpsr_low28

instance (s : Cpu) : Decidable (cpsr_ok s) := by unfold cpsr_ok; infer_instance

/-- The registers `arm.reg[0..15]` hold 32-bit words, as their C type `uint32_t` says. -/
def regs32 (s : Cpu) : Prop := ∀ i, i < 16 → s.arm.reg i < 2 ^ 32

instance (s : Cpu) : Decidable (regs32 s) := by unfold regs32; infer_instance

/-- The property `P` holds of the result whenever the computation returns one (`none` is an
`error`, which ends the emulator, or a call that does not return to the instruction). -/
def on_return {α : Type} (P : α → Prop) (o : Option α) : Prop := ∀ a, o = some a → P a

/-- The functions of the other modules, when they return, leave the CPSR predicate intact. -/
def mem_ops_keep_cpsr (ops : mem_ops) : Prop :=
  (∀ a s, cpsr_ok s → on_return (fun r => cpsr_ok r.2) (ops.read_byte a s))
  ∧ (∀ a s, cpsr_ok s → on_return (fun r => cpsr_ok r.2) (ops.read_half a s))
  ∧ (∀ a s, cpsr_ok s → on_return (fun r => cpsr_ok r.2) (ops.read_word a s))
  ∧ (∀ a s, cpsr_ok s → on_return (fun r => cpsr_ok r.2) (ops.read_word_ldr a s))
  ∧ (∀ a v s, cpsr_ok s → on_return cpsr_ok (ops.write_byte a v s))
  ∧ (∀ a v s, cpsr_ok s → on_return cpsr_ok (ops.write_half a v s))
  ∧ (∀ a v s, cpsr_ok s → on_return cpsr_ok (ops.write_word a v s))
  ∧ (∀ s, cpsr_ok s → on_return cpsr_ok (ops.debugger s))

/-! ## Concrete states used to instantiate the theorems -/

/-- A user-mode processor state with C set, PC = 0x8004 and high vectors enabled. -/
def arm_example : arm_state where
  reg := fun i => if i = 15 then 0x00008004 else if i = 13 then 0x1000 else 0
  cpsr_low28 := 0x10
  cpsr_n := 0
  cpsr_z := 0
  cpsr_c := 1
  cpsr_v := 0
  control := 0x00052078
  translation_table_base := 0
  domain_access_control := 0
  data_fault_status := 0
  instruction_fault_status := 0
  fault_address := 0
  r8_usr := fun _ => 0
  r13_usr := fun _ => 0
  r8_fiq := fun _ => 0
  r13_fiq := fun _ => 0
  spsr_fiq := 0
  r13_irq := fun _ => 0
  spsr_irq := 0
  r13_svc := fun _ => 0
  spsr_svc := 0
  r13_abt := fun _ => 0
  spsr_abt := 0
  r13_und := fun _ => 0
  spsr_und := 0
  interrupts := 0

/-- The machine around `arm_example`: no pending event, no address-cache flush yet. -/
def cpu_example : Cpu where
  arm := arm_example
  cpu_events := 0
  addr_cache_flushes := 0
  cycle_count_delta := -1
  mem := fun _ => 0

/-- A writable small-page NAND device in state ERASE_SETUP with row 37. -/
def nand_example : Nand where
  metrics := chips false
  nand_data := fun _ => 0
  nand_block_modified := fun _ => false
  nand_writable := true
  nand_state := 0x60
  nand_addr_state := 6
  nand_area_pointer := 0
  nand_row := 37
  nand_column := 0
  nand_buffer := fun _ => 0
  nand_buffer_pos := 0

/-- Bodies for the instruction classes that are not modelled: they return and change nothing. -/
def ext_example : arm_class → Nat → Cpu → Option Cpu := fun _ _ s => some s

/-- The state `cpu_example` in SVC mode: r13 is `0x1000` and every bank holds zeros. -/
def svc_example : Cpu := { cpu_example with arm := { arm_example with cpsr_low28 := 0x13 } }

/-- A user-mode ARM state with r0 = `0x9001`. -/
def bx_example : Cpu :=
  { cpu_example with arm := { arm_example with reg := fun i => if i = 0 then 0x9001 else 0 } }

/-- A user-mode ARM state with r0 = `0x7FFFFFFF`. -/
def adds_example : Cpu :=
  { cpu_example with arm := { arm_example with reg := fun i => if i = 0 then 0x7FFFFFFF else 0 } }

/-- A writable, erased (all `0xFF`) small-page NAND device in state IDLE. -/
def nand_erased_example : Nand where
  metrics := chips false
  nand_data := fun _ => 0xFF
  nand_block_modified := fun _ => false
  nand_writable := true
  nand_state := 0xFF
  nand_addr_state := 6
  nand_area_pointer := 0
  nand_row := 0
  nand_column := 0
  nand_buffer := fun _ => 0
  nand_buffer_pos := 0

/-- An instance of `phys_mem_ptr` in which every range lies in RAM, at the offset of its address. -/
def phys_mem_example : Nat → Nat → Option Nat := fun a _ => some a

/-- An instance of `bad_write_word` that returns and changes nothing. -/
def bad_write_example : Nat → Nat → Phx → Option Phx := fun _ _ w => some w

/-- The controller with the staged operation word `0x800000` (only bit 23 set), `op_size` 4, over the erased device. -/
def phx_example : Phx where
  nand := nand_erased_example
  nand_phx := { operation := 0x800000, address := fun _ => 0, op_size := 4,
                ram_address := 0x10000000, ecc := 0 }
  ram := fun _ => 0
  data_byte_writes := 0
  data_byte_reads := 0

/-- The controller with the staged operation word `0x400300`: command `0x00`, three address bytes, bit 22 set, bits 23 and 11 clear. -/
def phx_read_example : Phx :=
  { phx_example with nand_phx := { phx_example.nand_phx with operation := 0x400300 } }

/-- Accessors over a flat little-endian memory without faults: every access returns, a read
gives the bytes at the address and a write stores them; the debugger entry returns at once. -/
def ram_ops : mem_ops where
  read_byte := fun a s => some (s.mem a, s)
  read_half := fun a s => some (load_le16 s.mem a, s)
  read_word := fun a s => some (load_le32 s.mem a, s)
  read_word_ldr := fun a s => some (load_le32 s.mem a, s)
  write_byte := fun a v s => some { s with mem := set_elem s.mem a (v % 256) }
  write_half := fun a v s => some { s with mem := store_le16 s.mem a v }
  write_word := fun a v s => some { s with mem := store_le32 s.mem a v }
  debugger := fun s => some s

/-- An instance of `bad_write_word` for the CX controller that returns and changes nothing. -/
def bad_write_nand_example : Nat → Nat → Nand → Option Nand := fun _ _ d => some d

/-- An instance of `load_file` that loads nothing. -/
def load_file_example : Nat → Nat → Nand → Nand := fun _ _ d => d

/-- An instance of `preload` that loads nothing and returns the block it was given. -/
def preload_example : Nat → Nat → Nand → Nat × Nand := fun b _ d => (b, d)

/-- The writable small-page device after command `0x80` and one data byte `0xAB` from the
initial state. -/
def nand_program_example : Nand :=
  { nand_initial false true (fun _ => 0) with
    nand_state := 0x80
    nand_buffer := set_elem (fun _ => 0) 0 0xAB
    nand_buffer_pos := 1 }

/-- A state with `r1 = 0x80000000` and the carry flag clear. -/
def lsr_example : Cpu :=
  { cpu_example with arm := { arm_example with
      reg := fun i => if i = 1 then 0x80000000 else 0, cpsr_c := 0 } }

/-- A ZIP local file entry with the given name and stored data (lengths below 256, no extra
field): the 30-byte header, the name, the data. -/
def zip_entry_example (name data : List Nat) : List Nat :=
  [0x50, 0x4B, 0x03, 0x04, 20, 0, 0, 0, 0, 0, 0, 0, 0, 0, 0, 0, 0, 0,
    data.length % 256, 0, 0, 0, data.length % 256, 0, 0, 0, name.length % 256, 0, 0, 0]
    ++ name ++ data

/-- The bytes of the name `boot.img`. -/
def name_boot_example : List Nat := [0x62, 0x6F, 0x6F, 0x74, 0x2E, 0x69, 0x6D, 0x67]

/-- The bytes of the name `phoenix.img`. -/
def name_phoenix_example : List Nat :=
  [0x70, 0x68, 0x6F, 0x65, 0x6E, 0x69, 0x78, 0x2E, 0x69, 0x6D, 0x67]

/-- A ZIP file with the entries `boot.img` (two bytes at offset 38) and `phoenix.img` (four
bytes at offset 81). -/
def zip_example : List Nat :=
  zip_entry_example name_boot_example [9, 9]
    ++ zip_entry_example name_phoenix_example [1, 2, 3, 4]

/-- The operations that fill one byte of the buffer and then move the column and the row:
READ C (`0x50`), PROGRAM (`0x80`), one data byte, three address bytes `0xFF`. -/
def nand_past_page_example : List nand_op :=
  [.command 0x50, .command 0x80, .write_byte 0, .address 0xFF, .address 0xFF, .address 0xFF]

/-! ## Bitwise arithmetic lemmas and the proofs -/

theorem low28_lt (x : Nat) (h : x &&& 0x080000FF = x) : x < 2 ^ 28 := by
  have : x &&& 0x080000FF ≤ 0x080000FF := Nat.and_le_right
  omega

theorem xor_mod_pow (a b k : Nat) : (a ^^^ b) % 2 ^ k = (a % 2 ^ k) ^^^ (b % 2 ^ k) := by
  apply Nat.eq_of_testBit_eq
  intro i
  simp only [Nat.testBit_mod_two_pow, Nat.testBit_xor]
  cases decide (i < k) <;> simp

theorem and_1F (x : Nat) : x &&& 0x1F = x % 32 := Nat.and_pow_two_sub_one_eq_mod x 5

/-- a multiple of `2 ^ k` has no bit in common with a mask below `2 ^ k` -/
theorem high_and_low (k F M : Nat) (hM : M < 2 ^ k) : 2 ^ k * F &&& M = 0 := by
  apply Nat.eq_of_testBit_eq
  intro i
  simp only [Nat.testBit_and, Nat.testBit_mul_pow_two, Nat.zero_testBit]
  by_cases hi : k ≤ i
  · have : M.testBit i = false :=
      Nat.testBit_lt_two_pow (lt_of_lt_of_le hM (Nat.pow_le_pow_right (by decide) hi))
    simp [this]
  · simp [hi]

/-- packing: for flags in {0,1} and low < 2^28 the OR is a sum -/
theorem pack_eq (n z c v l : Nat) (hn : n ≤ 1) (hz : z ≤ 1) (hc : c ≤ 1) (hv : v ≤ 1)
    (hl : l < 2 ^ 28) :
    (n <<< 31 ||| z <<< 30 ||| c <<< 29 ||| v <<< 28 ||| l) % 2 ^ 32
      = 2 ^ 28 * (n * 8 + z * 4 + c * 2 + v) + l := by
  have e : n <<< 31 ||| z <<< 30 ||| c <<< 29 ||| v <<< 28 ||| l
      = 2 ^ 28 * (n * 8 + z * 4 + c * 2 + v) + l := by
    rw [Nat.mul_add_lt_is_or hl]
    congr 1
    interval_cases n <;> interval_cases z <;> interval_cases c <;> interval_cases v <;> rfl
  rw [e]
  omega

theorem get_cpsr_eq (s : Cpu) (h : cpsr_wf s) :
    get_cpsr s = 2 ^ 28 * (s.arm.cpsr_n * 8 + s.arm.cpsr_z * 4 + s.arm.cpsr_c * 2 + s.arm.cpsr_v)
      + s.arm.cpsr_low28 := by
  obtain ⟨hn, hz, hc, hv, hl⟩ := h
  exact pack_eq _ _ _ _ _ hn hz hc hv (low28_lt _ hl)

theorem shr_and_one (x k : Nat) : x >>> k &&& 1 = x / 2 ^ k % 2 := by
  rw [Nat.and_one_is_mod, Nat.shiftRight_eq_div_pow]

/-- masking a packed CPSR with a mask below `2 ^ 28` only sees `cpsr_low28` -/
theorem get_cpsr_and (s : Cpu) (h : cpsr_wf s) (M : Nat) (hM : M < 2 ^ 28) :
    get_cpsr s &&& M = s.arm.cpsr_low28 &&& M := by
  rw [get_cpsr_eq s h, Nat.mul_add_lt_is_or (low28_lt _ h.2.2.2.2), Nat.and_distrib_right,
    high_and_low _ _ _ hM, Nat.zero_or]

theorem low28_and (l M : Nat) (h : l &&& 0x080000FF = l) : l &&& M = l &&& (0x080000FF &&& M) := by
  rw [← Nat.and_assoc, h]

/-- Claim C1: for every processor state whose flag fields are each 0 or 1 and whose
`cpsr_low28` has no bit outside `0x080000FF`, `set_cpsr_full(get_cpsr())` returns and leaves
the whole `arm` record unchanged: every general register, every flag, `cpsr_low28`, every
banked register and every SPSR. -/
theorem set_cpsr_full_get_cpsr_round_trip (s : Cpu) (h : cpsr_wf s) :
    ∃ s', set_cpsr_full (get_cpsr s) s = some s' ∧ s'.arm = s.arm := by
  have e := get_cpsr_eq s h
  have hl := h.2.2.2.2
  have hlt := low28_lt _ hl
  obtain ⟨hn, hz, hc, hv, -⟩ := h
  have h1 : (get_cpsr s ^^^ s.arm.cpsr_low28) &&& 0x1F = 0 := by
    rw [and_1F, show (32 : Nat) = 2 ^ 5 from rfl, xor_mod_pow]
    have : get_cpsr s % 2 ^ 5 = s.arm.cpsr_low28 % 2 ^ 5 := by rw [e]; omega
    rw [this, Nat.xor_self]
  have h2 : get_cpsr s &&& 0x01000000 = 0 := by
    rw [get_cpsr_and s ⟨hn, hz, hc, hv, hl⟩ _ (by decide), low28_and _ _ hl]
    exact Nat.and_zero _
  have h3 : get_cpsr s &&& 0x090000FF = s.arm.cpsr_low28 := by
    rw [get_cpsr_and s ⟨hn, hz, hc, hv, hl⟩ _ (by decide), low28_and _ _ hl]
    exact hl
  have f1 : get_cpsr s >>> 31 &&& 1 = s.arm.cpsr_n := by rw [shr_and_one, e]; omega
  have f2 : get_cpsr s >>> 30 &&& 1 = s.arm.cpsr_z := by rw [shr_and_one, e]; omega
  have f3 : get_cpsr s >>> 29 &&& 1 = s.arm.cpsr_c := by rw [shr_and_one, e]; omega
  have f4 : get_cpsr s >>> 28 &&& 1 = s.arm.cpsr_v := by rw [shr_and_one, e]; omega
  have key : set_cpsr_full (get_cpsr s) s = some (cpu_int_check s) := by
    simp only [set_cpsr_full, h1, h2, f1, f2, f3, f4, h3, ne_eq, not_true_eq_false, if_false,
      ite_false, Option.pure_def, Option.bind_eq_bind, Option.some_bind]
  exact ⟨_, key, rfl⟩


theorem cpu_int_check_arm (s : Cpu) : (cpu_int_check s).arm = s.arm := rfl

theorem get_cpsr_J (s : Cpu) (h : cpsr_wf s) : get_cpsr s &&& 0x01000000 = 0 := by
  rw [get_cpsr_and s h _ (by decide), low28_and _ _ h.2.2.2.2]
  exact Nat.and_zero _

theorem get_cpsr_mode (s : Cpu) (h : cpsr_wf s) : get_cpsr s &&& 0x1F = s.arm.cpsr_low28 &&& 0x1F :=
  get_cpsr_and s h _ (by decide)

theorem xor_and_1F (a b : Nat) : (a ^^^ b) &&& 0x1F = (a &&& 0x1F) ^^^ (b &&& 0x1F) :=
  Nat.and_xor_distrib_right




theorem swap_out_spec (a : arm_state) (h : is_mode (a.cpsr_low28 &&& 0x1F)) :
    ∃ a1, swap_out a = some a1 ∧ a1.reg = a.reg ∧ same_sys a1 a
      ∧ (∀ m j, is_mode m → r8_bank m a1 j =
          if same8 m (a.cpsr_low28 &&& 0x1F) ∧ j < 5 then a.reg (8 + j) else r8_bank m a j)
      ∧ (∀ m j, is_mode m → r13_bank m a1 j =
          if same13 m (a.cpsr_low28 &&& 0x1F) ∧ j < 2 then a.reg (13 + j) else r13_bank m a j) := by
  generalize ho : a.cpsr_low28 &&& 0x1F = o at h
  rcases h with h | h | h | h | h | h | h <;> subst h <;>
  · simp only [swap_out, ho]
    simp only [same_sys, is_mode, r8_bank, r13_bank, same8, same13, copy_words]
    simp
    refine ⟨?_, ?_⟩ <;>
    · intro m j hm
      rcases hm with h | h | h | h | h | h | h <;> subst h <;> simp [copy_words]

theorem swap_in_spec (cpsr : Nat) (a : arm_state) (h : is_mode (cpsr &&& 0x1F)) :
    ∃ a2, swap_in cpsr a = some a2 ∧ same_sys a2 a
      ∧ (∀ m, r8_bank m a2 = r8_bank m a) ∧ (∀ m, r13_bank m a2 = r13_bank m a)
      ∧ (∀ i, a2.reg i =
          if 8 ≤ i ∧ i < 13 then r8_bank (cpsr &&& 0x1F) a (i - 8)
          else if 13 ≤ i ∧ i < 15 then r13_bank (cpsr &&& 0x1F) a (i - 13)
          else a.reg i) := by
  generalize ho : cpsr &&& 0x1F = o at h
  rcases h with h | h | h | h | h | h | h <;> subst h <;>
  · simp only [swap_in, ho]
    simp only [same_sys, is_mode, r8_bank, r13_bank, same8, same13, copy_words]
    simp
    intro i
    simp only [copy_words]
    split_ifs <;> first | rfl | omega | (congr 1; omega)

theorem mode_ne_iff (cpsr l : Nat) :
    (cpsr ^^^ l) &&& 0x1F = 0 ↔ cpsr &&& 0x1F = l &&& 0x1F := by
  rw [xor_and_1F, Nat.xor_eq_zero]

theorem set_cpsr_full_spec (cpsr : Nat) (s : Cpu) (hJ : cpsr &&& 0x01000000 = 0)
    (ho : is_mode (s.arm.cpsr_low28 &&& 0x1F)) (hn : is_mode (cpsr &&& 0x1F)) :
    ∃ s', set_cpsr_full cpsr s = some s'
      ∧ s'.arm.cpsr_low28 = cpsr &&& 0x090000FF
      ∧ s'.arm.cpsr_n = cpsr >>> 31 &&& 1 ∧ s'.arm.cpsr_z = cpsr >>> 30 &&& 1
      ∧ s'.arm.cpsr_c = cpsr >>> 29 &&& 1 ∧ s'.arm.cpsr_v = cpsr >>> 28 &&& 1
      ∧ s'.arm.control = s.arm.control
      ∧ (∀ p, read_spsr s'.arm p = read_spsr s.arm p)
      ∧ (∀ i, s'.arm.reg i =
          if 8 ≤ i ∧ i < 13 then
            (if same8 (cpsr &&& 0x1F) (s.arm.cpsr_low28 &&& 0x1F) then s.arm.reg i
             else r8_bank (cpsr &&& 0x1F) s.arm (i - 8))
          else if 13 ≤ i ∧ i < 15 then
            (if same13 (cpsr &&& 0x1F) (s.arm.cpsr_low28 &&& 0x1F) then s.arm.reg i
             else r13_bank (cpsr &&& 0x1F) s.arm (i - 13))
          else s.arm.reg i)
      ∧ (∀ m j, is_mode m → r8_bank m s'.arm j =
          if cpsr &&& 0x1F ≠ s.arm.cpsr_low28 &&& 0x1F ∧ same8 m (s.arm.cpsr_low28 &&& 0x1F) ∧ j < 5
          then s.arm.reg (8 + j) else r8_bank m s.arm j)
      ∧ (∀ m j, is_mode m → r13_bank m s'.arm j =
          if cpsr &&& 0x1F ≠ s.arm.cpsr_low28 &&& 0x1F ∧ same13 m (s.arm.cpsr_low28 &&& 0x1F) ∧ j < 2
          then s.arm.reg (13 + j) else r13_bank m s.arm j) := by
  by_cases hx : (cpsr ^^^ s.arm.cpsr_low28) &&& 0x1F = 0
  · have hnm := (mode_ne_iff _ _).1 hx
    have hset : set_cpsr_full cpsr s = some (cpu_int_check
        { arm := { s.arm with cpsr_n := cpsr >>> 31 &&& 1, cpsr_z := cpsr >>> 30 &&& 1,
                              cpsr_c := cpsr >>> 29 &&& 1, cpsr_v := cpsr >>> 28 &&& 1,
                              cpsr_low28 := cpsr &&& 0x090000FF },
          cpu_events := s.cpu_events, addr_cache_flushes := s.addr_cache_flushes,
          cycle_count_delta := s.cycle_count_delta, mem := s.mem }) := by
      simp only [set_cpsr_full, hx, hJ, ne_eq, not_true_eq_false, if_false,
        Option.pure_def, Option.bind_eq_bind, Option.some_bind]
    refine ⟨_, hset, rfl, rfl, rfl, rfl, rfl, rfl, fun p => by cases p <;> rfl, ?_, ?_, ?_⟩
    · intro i
      simp [hnm, same8, same13, cpu_int_check_arm]
    · intro m j _
      simp [hnm, r8_bank, cpu_int_check_arm]
    · intro m j _
      simp [hnm, r13_bank, cpu_int_check_arm]
  · have hnm : cpsr &&& 0x1F ≠ s.arm.cpsr_low28 &&& 0x1F := fun h => hx ((mode_ne_iff _ _).2 h)
    obtain ⟨a1, e1, r1, y1, b8, b13⟩ := swap_out_spec s.arm ho
    obtain ⟨a2, e2, y2, c8, c13, r2⟩ := swap_in_spec cpsr a1 hn
    have hset : ∃ f e, set_cpsr_full cpsr s = some
        { arm := { a2 with cpsr_n := cpsr >>> 31 &&& 1, cpsr_z := cpsr >>> 30 &&& 1,
                           cpsr_c := cpsr >>> 29 &&& 1, cpsr_v := cpsr >>> 28 &&& 1,
                           cpsr_low28 := cpsr &&& 0x090000FF },
          cpu_events := e, addr_cache_flushes := f,
          cycle_count_delta := s.cycle_count_delta, mem := s.mem } := by
      by_cases hf : s.arm.cpsr_low28 &&& 3 = 0 ∨ cpsr &&& 3 = 0
      · exact ⟨_, _, by simp only [set_cpsr_full, hx, hJ, e1, e2, hf, ne_eq, not_true_eq_false,
          not_false_eq_true, if_true, if_false, Option.pure_def, Option.bind_eq_bind,
          Option.some_bind]; rfl⟩
      · exact ⟨_, _, by simp only [set_cpsr_full, hx, hJ, e1, e2, hf, ne_eq, not_true_eq_false,
          not_false_eq_true, if_true, if_false, Option.pure_def, Option.bind_eq_bind,
          Option.some_bind]; rfl⟩
    obtain ⟨f, e, hset⟩ := hset
    obtain ⟨-, -, -, -, -, yc, yf, yi, ys, ya, yu, -⟩ := y1
    obtain ⟨-, -, -, -, -, zc, zf, zi, zs, za, zu, -⟩ := y2
    refine ⟨_, hset, rfl, rfl, rfl, rfl, rfl, ?_, ?_, ?_, ?_, ?_⟩
    · show a2.control = _
      rw [zc, yc]
    · intro p
      cases p <;> simp [read_spsr, *]
    · intro i
      show a2.reg i = _
      rw [r2 i]
      split_ifs with h1 h2 h3 h4
      · rw [b8 _ _ hn, if_pos ⟨h2, by omega⟩]; congr 1; omega
      · rw [b8 _ _ hn, if_neg (fun h => h2 h.1)]
      · rw [b13 _ _ hn, if_pos ⟨h4, by omega⟩]; congr 1; omega
      · rw [b13 _ _ hn, if_neg (fun h => h4 h.1)]
      · rw [r1]
    · intro m j hm
      show r8_bank m a2 j = _
      rw [c8, b8 _ _ hm]
      simp [hnm]
    · intro m j hm
      show r13_bank m a2 j = _
      rw [c13, b13 _ _ hm]
      simp [hnm]


theorem same8_symm {m m' : Nat} (h : same8 m m') : same8 m' m := Iff.symm h

theorem same13_symm {m m' : Nat} (h : same13 m m') : same13 m' m := by
  rcases h with h | h | h
  · exact Or.inl h.symm
  · exact Or.inr (Or.inr ⟨h.2, h.1⟩)
  · exact Or.inr (Or.inl ⟨h.2, h.1⟩)

theorem same13_refl (m : Nat) : same13 m m := Or.inl rfl

/-- The word `((c & A) | f) & M` with the constant parts evaluated separately -/
theorem or_and_mask (c A f M R R' : Nat) (h1 : A &&& M = R) (h2 : f &&& M = R') :
    ((c &&& A) ||| f) &&& M = (c &&& R) ||| R' := by
  rw [Nat.and_distrib_right, Nat.and_assoc, h1, h2]

theorem is_mode_and (m : Nat) (hm : is_mode m) : m &&& 0x1F = m ∧ m &&& 0x01000000 = 0 := by
  rcases hm with h | h | h | h | h | h | h <;> subst h <;> decide

/-- Claim C2: from a well-formed state in a valid mode, for every valid mode `m`, calling
`set_cpsr_full` with the current CPSR whose mode bits are replaced by `m` and then
`set_cpsr_full` with the original CPSR both return, and all sixteen general registers
`reg[0..15]` have their original values afterwards. -/
theorem mode_switch_round_trip_restores_registers (s : Cpu) (m : Nat) (h : well_formed s)
    (hm : is_mode m) :
    ∃ s1 s2, set_cpsr_full ((get_cpsr s &&& not32 0x1F) ||| m) s = some s1
      ∧ set_cpsr_full (get_cpsr s) s1 = some s2
      ∧ ∀ i, i < 16 → s2.arm.reg i = s.arm.reg i := by
  obtain ⟨hw, hv⟩ := h
  have hJ := get_cpsr_J s hw
  have hmode := get_cpsr_mode s hw
  obtain ⟨hm1, hm2⟩ := is_mode_and m hm
  have c1m : ((get_cpsr s &&& not32 0x1F) ||| m) &&& 0x1F = m := by
    rw [or_and_mask _ _ _ _ 0 m rfl hm1, Nat.and_zero, Nat.zero_or]
  have c1J : ((get_cpsr s &&& not32 0x1F) ||| m) &&& 0x01000000 = 0 := by
    rw [or_and_mask _ _ _ _ 0x01000000 0 rfl hm2, hJ]; rfl
  obtain ⟨s1, e1, l1, -, -, -, -, -, -, r1, b8, b13⟩ :=
    set_cpsr_full_spec _ s c1J hv (by rw [c1m]; exact hm)
  have l1m : s1.arm.cpsr_low28 &&& 0x1F = m := by
    rw [l1, Nat.and_assoc, show (0x090000FF &&& 0x1F : Nat) = 0x1F from rfl, c1m]
  obtain ⟨s2, e2, -, -, -, -, -, -, -, r2, -, -⟩ :=
    set_cpsr_full_spec (get_cpsr s) s1 hJ (by rw [l1m]; exact hm) (by rw [hmode]; exact hv)
  refine ⟨s1, s2, e1, e2, ?_⟩
  intro i _
  rw [r2 i, l1m, hmode]
  rw [c1m] at r1 b8 b13
  have hv' : is_mode (s.arm.cpsr_low28 &&& 0x1F) := hv
  generalize s.arm.cpsr_low28 &&& 0x1F = o at *
  split_ifs with h1 h2 h3 h4
  · rw [r1 i, if_pos h1, if_pos (same8_symm h2)]
  · rw [b8 o _ hv', if_pos ⟨fun h => h2 (by rw [h]; exact Iff.rfl), Iff.rfl, by omega⟩]
    congr 1; omega
  · rw [r1 i, if_neg h1, if_pos h3, if_pos (same13_symm h4)]
  · rw [b13 o _ hv', if_pos ⟨fun h => h4 (by rw [h]; exact same13_refl o), same13_refl o, by omega⟩]
    congr 1; omega
  · rw [r1 i, if_neg h1, if_neg h3]


theorem shr_and_distrib (a b k : Nat) : (a &&& b) >>> k = a >>> k &&& b >>> k := by
  apply Nat.eq_of_testBit_eq
  intro i
  simp only [Nat.testBit_shiftRight, Nat.testBit_and]

theorem shr_or_distrib (a b k : Nat) : (a ||| b) >>> k = a >>> k ||| b >>> k := by
  apply Nat.eq_of_testBit_eq
  intro i
  simp only [Nat.testBit_shiftRight, Nat.testBit_or]

/-- a flag bit (28..31) of `(c & ~0x3F) | f` for a byte `f` is the flag bit of `c` -/
theorem exc_flag_bit (c f k : Nat) (hf : f < 256) (hk : 28 ≤ k) (hA : not32 0x3F >>> k &&& 1 = 1) :
    ((c &&& not32 0x3F) ||| f) >>> k &&& 1 = c >>> k &&& 1 := by
  have hfk : f >>> k = 0 := by
    rw [Nat.shiftRight_eq_div_pow]
    apply Nat.div_eq_of_lt
    calc f < 2 ^ 8 := hf
      _ ≤ 2 ^ k := Nat.pow_le_pow_right (by decide) (by omega)
  rw [shr_or_distrib, shr_and_distrib, hfk, Nat.or_zero, Nat.and_assoc, hA]

theorem get_cpsr_flags (s : Cpu) (h : cpsr_wf s) :
    get_cpsr s >>> 31 &&& 1 = s.arm.cpsr_n ∧ get_cpsr s >>> 30 &&& 1 = s.arm.cpsr_z
    ∧ get_cpsr s >>> 29 &&& 1 = s.arm.cpsr_c ∧ get_cpsr s >>> 28 &&& 1 = s.arm.cpsr_v := by
  have e := get_cpsr_eq s h
  obtain ⟨hn, hz, hc, hv, hl⟩ := h
  have hl' := low28_lt _ hl
  simp only [shr_and_one, e]
  refine ⟨?_, ?_, ?_, ?_⟩ <;> omega

theorem exc_core (s : Cpu) (h : well_formed s) (k F md : Nat) (slot : spsr_slot)
    (hfl : exception_flags[k]? = some F) (hF1 : F &&& 0x1F = md) (hF2 : F &&& 0x01000000 = 0)
    (hmd : is_mode md) (hslot : spsr_of_mode md = some slot) (hF : F < 256) :
    ∃ s', cpu_exception k s = some s'
      ∧ s'.arm.cpsr_low28 = ((get_cpsr s &&& not32 0x3F) ||| F) &&& 0x090000FF
      ∧ s'.arm.cpsr_n = s.arm.cpsr_n ∧ s'.arm.cpsr_z = s.arm.cpsr_z
      ∧ s'.arm.cpsr_c = s.arm.cpsr_c ∧ s'.arm.cpsr_v = s.arm.cpsr_v
      ∧ read_spsr s'.arm slot = get_cpsr s
      ∧ s'.arm.reg 14 = s.arm.reg 15
      ∧ s'.arm.reg 15 = (if s.arm.control &&& 0x2000 ≠ 0
          then ((k <<< 2) % 2 ^ 32 + 0xFFFF0000) % 2 ^ 32 else (k <<< 2) % 2 ^ 32) := by
  obtain ⟨hw, hv⟩ := h
  have hJ := get_cpsr_J s hw
  obtain ⟨f1, f2, f3, f4⟩ := get_cpsr_flags s hw
  have cm : ((get_cpsr s &&& not32 0x3F) ||| F) &&& 0x1F = md := by
    rw [or_and_mask _ _ _ _ 0 md rfl hF1, Nat.and_zero, Nat.zero_or]
  have cJ : ((get_cpsr s &&& not32 0x3F) ||| F) &&& 0x01000000 = 0 := by
    rw [or_and_mask _ _ _ _ 0x01000000 0 rfl hF2, hJ]; rfl
  obtain ⟨s1, e1, l1, n1, z1, c1, v1, k1, sp1, r1, -, -⟩ :=
    set_cpsr_full_spec _ s cJ hv (by rw [cm]; exact hmd)
  have l1m : s1.arm.cpsr_low28 &&& 0x1F = md := by
    rw [l1, Nat.and_assoc, show (0x090000FF &&& 0x1F : Nat) = 0x1F from rfl, cm]
  have hp : ptr_spsr s1 = some slot := by rw [ptr_spsr, l1m, hslot]
  have r15 : s1.arm.reg 15 = s.arm.reg 15 := by rw [r1 15]; simp
  rw [exc_flag_bit _ _ _ hF (by decide) rfl, f1] at n1
  rw [exc_flag_bit _ _ _ hF (by decide) rfl, f2] at z1
  rw [exc_flag_bit _ _ _ hF (by decide) rfl, f3] at c1
  rw [exc_flag_bit _ _ _ hF (by decide) rfl, f4] at v1
  by_cases hc : s.arm.control &&& 0x2000 = 0
  · refine ⟨_, by simp only [cpu_exception, hfl, e1, set_spsr_full, hp, Option.pure_def,
      Option.bind_eq_bind, Option.some_bind, Option.map_some']; rfl, ?_⟩
    cases slot <;> simp [write_spsr, read_spsr, set_elem, k1, hc, l1, n1, z1, c1, v1, r15]
  · refine ⟨_, by simp only [cpu_exception, hfl, e1, set_spsr_full, hp, Option.pure_def,
      Option.bind_eq_bind, Option.some_bind, Option.map_some']; rfl, ?_⟩
    cases slot <;> simp [write_spsr, read_spsr, set_elem, k1, hc, l1, n1, z1, c1, v1, r15]


theorem exception_cases (k : Nat) (hk : is_exception k) :
    ∃ F slot, exception_flags[k]? = some F ∧ F &&& 0x1F = exception_mode k
      ∧ F &&& 0x01000000 = 0 ∧ is_mode (exception_mode k)
      ∧ spsr_of_mode (exception_mode k) = some slot ∧ F < 256
      ∧ F &&& 0x20 = 0 ∧ F &&& 0x80 = 0x80
      ∧ F &&& 0x40 = (if k = EX_RESET ∨ k = EX_FIQ then 0x40 else 0)
      ∧ (k <<< 2) % 2 ^ 32 = 4 * k ∧ k ≤ 7 := by
  rcases hk with h | h | h | h | h | h | h <;> subst h
  · exact ⟨MODE_SVC ||| 0xC0, .svc, by unfold is_mode; decide⟩
  · exact ⟨MODE_UND ||| 0x80, .und, by unfold is_mode; decide⟩
  · exact ⟨MODE_SVC ||| 0x80, .svc, by unfold is_mode; decide⟩
  · exact ⟨MODE_ABT ||| 0x80, .abt, by unfold is_mode; decide⟩
  · exact ⟨MODE_ABT ||| 0x80, .abt, by unfold is_mode; decide⟩
  · exact ⟨MODE_IRQ ||| 0x80, .irq, by unfold is_mode; decide⟩
  · exact ⟨MODE_FIQ ||| 0xC0, .fiq, by unfold is_mode; decide⟩

/-- Claim C9: for every exception kind `k` and every well-formed state in a valid mode,
`cpu_exception(k)` returns, the SPSR of the target mode (which is the SPSR of the mode now
active) holds the value `get_cpsr()` had before the call, and the active `reg[14]` holds the
value `reg[15]` had before the call. -/
theorem cpu_exception_saves_cpsr_and_return_address (k : Nat) (s : Cpu)
    (h : well_formed s) (hk : is_exception k) :
    ∃ s' slot, cpu_exception k s = some s'
      ∧ spsr_of_mode (exception_mode k) = some slot
      ∧ ptr_spsr s' = some slot
      ∧ read_spsr s'.arm slot = get_cpsr s
      ∧ s'.arm.reg 14 = s.arm.reg 15 := by
  obtain ⟨F, slot, hfl, hF1, hF2, hmd, hslot, hF, -⟩ := exception_cases k hk
  obtain ⟨s', e, l, -, -, -, -, sp, r14, -⟩ := exc_core s h k F _ slot hfl hF1 hF2 hmd hslot hF
  refine ⟨s', slot, e, hslot, ?_, sp, r14⟩
  have cm : ((get_cpsr s &&& not32 0x3F) ||| F) &&& 0x1F = exception_mode k := by
    rw [or_and_mask _ _ _ _ 0 _ rfl hF1, Nat.and_zero, Nat.zero_or]
  rw [ptr_spsr, l, Nat.and_assoc, show (0x090000FF &&& 0x1F : Nat) = 0x1F from rfl, cm, hslot]


theorem and_or_self (x m : Nat) : (x &&& m) ||| m = m := by
  apply Nat.eq_of_testBit_eq
  intro i
  simp only [Nat.testBit_or, Nat.testBit_and]
  cases x.testBit i <;> cases m.testBit i <;> rfl

theorem and_one_shl (x k : Nat) : x &&& (1 <<< k) = (x >>> k &&& 1) <<< k := by
  apply Nat.eq_of_testBit_eq
  intro i
  simp only [Nat.testBit_and, Nat.testBit_shiftLeft, Nat.testBit_shiftRight]
  by_cases hi : k ≤ i
  · have : k + (i - k) = i := by omega
    simp [hi, this]
  · simp [hi]

/-- a masked word differs from `V` as soon as it differs on a sub-mask `S` -/
theorem and_ne_of_sub (x M V S SV : Nat) (hx : x &&& S = SV) (hMS : M &&& S = S)
    (hne : V &&& S ≠ SV) : x &&& M ≠ V := by
  intro h
  apply hne
  rw [← h, Nat.and_assoc, hMS, hx]

theorem and_sub (x M MV S : Nat) (hx : x &&& M = MV) (hS : M &&& S = S) :
    x &&& S = MV &&& S := by
  rw [← hx, Nat.and_assoc, hS]

/-- What `set_cpsr_full` stores is a well-formed `cpsr_low28` -/
theorem low28_wf_of_J (c : Nat) (hJ : c &&& 0x01000000 = 0) :
    (c &&& 0x090000FF) &&& 0x080000FF = c &&& 0x090000FF := by
  rw [Nat.and_assoc, show (0x090000FF &&& 0x080000FF : Nat) = 0x080000FF from rfl,
    show (0x090000FF : Nat) = 0x080000FF ||| 0x01000000 from rfl, Nat.and_or_distrib_left, hJ,
    Nat.or_zero]

/-- decode of an always-executed SWI: the chain reaches `cpu_exception(EX_SWI)` -/
theorem interpret_swi (body : arm_class → Nat → Cpu → Option Cpu) (insn : Nat) (s : Cpu)
    (hc : insn >>> 28 = 14) (hop : insn &&& 0x0F000000 = 0x0F000000) :
    cpu_interpret_instruction body insn s = cpu_exception EX_SWI s := by
  have h29 : insn >>> 29 = 7 := by
    have : insn >>> 29 = (insn >>> 28) >>> 1 := by rw [← Nat.shiftRight_add]
    rw [this, hc]; rfl
  have h28 : insn &&& 268435456 = 0 := by
    have := and_one_shl insn 28
    rw [hc] at this
    exact this
  have hE : insn &&& 0x0E000000 = 0x0E000000 := and_sub _ _ _ _ hop rfl
  have hC : insn &&& 0x0C000000 = 0x0C000000 := and_sub _ _ _ _ hop rfl
  have h1 : insn &&& 0xE000090 ≠ 0x0000090 := and_ne_of_sub _ _ _ _ _ hE rfl (by decide)
  have h2 : insn &&& 0xD900000 ≠ 0x1000000 := and_ne_of_sub _ _ _ _ _ hC rfl (by decide)
  have h3 : insn &&& 0xC000000 ≠ 0 := and_ne_of_sub _ _ _ _ _ hC rfl (by decide)
  have h4 : insn &&& 0xC000000 ≠ 0x4000000 := and_ne_of_sub _ _ _ _ _ hC rfl (by decide)
  have h5 : insn &&& 0xE000000 ≠ 0x8000000 := and_ne_of_sub _ _ _ _ _ hE rfl (by decide)
  have h6 : insn &&& 0xE000000 ≠ 0xA000000 := and_ne_of_sub _ _ _ _ _ hE rfl (by decide)
  have h7 : insn &&& 0xF100F10 ≠ 0xE000F10 := and_ne_of_sub _ _ _ _ _ hop rfl (by decide)
  have h8 : insn &&& 0xF100F10 ≠ 0xE100F10 := and_ne_of_sub _ _ _ _ _ hop rfl (by decide)
  simp [cpu_interpret_instruction, cond_exec, h29, h28, hc, h1, h2, h3, h4, h5, h6, h7, h8, hop]

/-- Claim C10: for every exception kind `k` and every well-formed state, after
`cpu_exception(k)` the CPSR mode bits are the mode of the exception table, T is 0, I is 1,
F is 1 for Reset and FIQ and otherwise keeps its value, N, Z, C, V are unchanged and
`reg[15]` is `4 * k`, plus `0xFFFF0000` when control-register bit 13 is set.  In particular
an always-executed SWI interpreted with PC already advanced to `0x00008004` and high vectors
on gives LR = `0x00008004`, mode SVC, I = 1 and PC = `0xFFFF0008`. -/
theorem cpu_exception_entry_state (k : Nat) (s : Cpu) (h : well_formed s) (hk : is_exception k) :
    (∃ s', cpu_exception k s = some s'
      ∧ get_cpsr s' &&& 0x1F = exception_mode k
      ∧ get_cpsr s' &&& 0x20 = 0
      ∧ get_cpsr s' &&& 0x80 = 0x80
      ∧ get_cpsr s' &&& 0x40 = (if k = EX_RESET ∨ k = EX_FIQ then 0x40 else get_cpsr s &&& 0x40)
      ∧ s'.arm.cpsr_n = s.arm.cpsr_n ∧ s'.arm.cpsr_z = s.arm.cpsr_z
      ∧ s'.arm.cpsr_c = s.arm.cpsr_c ∧ s'.arm.cpsr_v = s.arm.cpsr_v
      ∧ s'.arm.reg 15 = (if s.arm.control &&& 0x2000 ≠ 0 then 4 * k + 0xFFFF0000 else 4 * k))
    ∧ (s.arm.reg 15 = 0x00008004 → s.arm.control &&& 0x2000 ≠ 0 →
        ∀ (body : arm_class → Nat → Cpu → Option Cpu) (insn : Nat),
          insn >>> 28 = 14 → insn &&& 0x0F000000 = 0x0F000000 →
          ∃ s', cpu_interpret_instruction body insn s = some s'
            ∧ s'.arm.reg 14 = 0x00008004 ∧ get_cpsr s' &&& 0x1F = MODE_SVC
            ∧ get_cpsr s' &&& 0x80 = 0x80 ∧ s'.arm.reg 15 = 0xFFFF0008) := by
  have main : ∀ k, is_exception k → ∃ s', cpu_exception k s = some s'
      ∧ get_cpsr s' &&& 0x1F = exception_mode k
      ∧ get_cpsr s' &&& 0x20 = 0
      ∧ get_cpsr s' &&& 0x80 = 0x80
      ∧ get_cpsr s' &&& 0x40 = (if k = EX_RESET ∨ k = EX_FIQ then 0x40 else get_cpsr s &&& 0x40)
      ∧ s'.arm.cpsr_n = s.arm.cpsr_n ∧ s'.arm.cpsr_z = s.arm.cpsr_z
      ∧ s'.arm.cpsr_c = s.arm.cpsr_c ∧ s'.arm.cpsr_v = s.arm.cpsr_v
      ∧ s'.arm.reg 14 = s.arm.reg 15
      ∧ s'.arm.reg 15 = (if s.arm.control &&& 0x2000 ≠ 0 then 4 * k + 0xFFFF0000 else 4 * k) := by
    intro k hk
    obtain ⟨F, slot, hfl, hF1, hF2, hmd, hslot, hF, hT, hI, hFq, hk4, hk7⟩ := exception_cases k hk
    obtain ⟨s', e, l, n', z', c', v', -, r14, r15⟩ :=
      exc_core s h k F _ slot hfl hF1 hF2 hmd hslot hF
    have hJ := get_cpsr_J s h.1
    have cJ : ((get_cpsr s &&& not32 0x3F) ||| F) &&& 0x01000000 = 0 := by
      rw [or_and_mask _ _ _ _ 0x01000000 0 rfl hF2, hJ]; rfl
    have hw' : cpsr_wf s' := by
      obtain ⟨hn, hz, hc, hv, -⟩ := h.1
      refine ⟨by rw [n']; exact hn, by rw [z']; exact hz, by rw [c']; exact hc,
        by rw [v']; exact hv, ?_⟩
      rw [l]; exact low28_wf_of_J _ cJ
    refine ⟨s', e, ?_, ?_, ?_, ?_, n', z', c', v', r14, ?_⟩
    · rw [get_cpsr_and s' hw' _ (by decide), l, Nat.and_assoc,
        show (0x090000FF &&& 0x1F : Nat) = 0x1F from rfl,
        or_and_mask _ _ _ _ 0 _ rfl hF1, Nat.and_zero, Nat.zero_or]
    · rw [get_cpsr_and s' hw' _ (by decide), l, Nat.and_assoc,
        show (0x090000FF &&& 0x20 : Nat) = 0x20 from rfl,
        or_and_mask _ _ _ _ 0 _ rfl hT, Nat.and_zero, Nat.zero_or]
    · rw [get_cpsr_and s' hw' _ (by decide), l, Nat.and_assoc,
        show (0x090000FF &&& 0x80 : Nat) = 0x80 from rfl,
        or_and_mask _ _ _ _ 0x80 _ rfl hI, and_or_self]
    · rw [get_cpsr_and s' hw' _ (by decide), l, Nat.and_assoc,
        show (0x090000FF &&& 0x40 : Nat) = 0x40 from rfl,
        or_and_mask _ _ _ _ 0x40 _ rfl hFq]
      split_ifs
      · exact and_or_self _ _
      · exact Nat.or_zero _
    · rw [r15, hk4]
      split_ifs
      · omega
      · rfl
  refine ⟨?_, ?_⟩
  · obtain ⟨s', e, a, b, c, d, n', z', c', v', -, r15⟩ := main k hk
    exact ⟨s', e, a, b, c, d, n', z', c', v', r15⟩
  · intro hpc hctl body insn hc hop
    obtain ⟨s', e, a, -, c, -, -, -, -, -, r14, r15⟩ :=
      main EX_SWI (by unfold is_exception; decide)
    refine ⟨s', by rw [interpret_swi body insn s hc hop, e], by rw [r14, hpc], a, c, ?_⟩
    rw [r15, if_pos hctl]
    rfl


/-- Claim C3: for every ARM instruction word whose condition field (bits 31..28) is one of
the codes 0..13 and every flag state (flags 0 or 1) in which that condition is false,
`cpu_interpret_instruction` returns the state it was given: registers (with the PC the loop
already advanced), flags, `cpsr_low28`, banks, CP15 registers and the event word are
unchanged, whatever the instruction bodies do. -/
theorem condition_false_changes_nothing (body : arm_class → Nat → Cpu → Option Cpu)
    (insn : Nat) (s : Cpu) (hc : insn >>> 28 ≤ 13)
    (hn : s.arm.cpsr_n ≤ 1) (hz : s.arm.cpsr_z ≤ 1) (hcf : s.arm.cpsr_c ≤ 1) (hv : s.arm.cpsr_v ≤ 1)
    (hfalse : condition_passed (insn >>> 28) s.arm = false) :
    cpu_interpret_instruction body insn s = some s := by
  have h29 : insn >>> 29 = (insn >>> 28) / 2 := by
    have : insn >>> 29 = (insn >>> 28) >>> 1 := by rw [← Nat.shiftRight_add]
    rw [this, Nat.shiftRight_eq_div_pow]
  unfold cpu_interpret_instruction cond_exec
  rw [h29, Nat.and_one_is_mod]
  generalize insn >>> 28 = cnd at *
  generalize hN : s.arm.cpsr_n = n at *
  generalize hZ : s.arm.cpsr_z = z at *
  generalize hC : s.arm.cpsr_c = c at *
  generalize hV : s.arm.cpsr_v = v at *
  interval_cases cnd <;> simp only [condition_passed, hN, hZ, hC, hV] at hfalse <;>
    interval_cases n <;> interval_cases z <;> interval_cases c <;> interval_cases v <;>
    first
      | (exfalso; revert hfalse; decide)
      | simp

theorem testBit31 (x : Nat) (h : x < 2 ^ 32) : x.testBit 31 = decide (2 ^ 31 ≤ x) := by
  rw [Nat.testBit_to_div_mod]
  congr 1
  apply propext
  constructor <;> intro h' <;> omega

theorem sint32_eq (x : Nat) (h : x < 2 ^ 32) :
    sint32 x = (x : Int) - (if 2147483648 ≤ x then 2 ^ 32 else 0) := by
  unfold sint32
  have : x % 2 ^ 32 = x := Nat.mod_eq_of_lt h
  rw [this]
  split_ifs <;> omega

theorem add_spec (a b c : Nat) (s : Cpu) (ha : a < 2 ^ 32) (hb : b < 2 ^ 32)
    (hc : c ≤ 1) :
    (add a b c 1 s).1 = (a + b + c) % 2 ^ 32
    ∧ (add a b c 1 s).2.arm.cpsr_c = (if 2 ^ 32 ≤ a + b + c then 1 else 0)
    ∧ (add a b c 1 s).2.arm.cpsr_v
        = (if sint32 a + sint32 b + (c : Int) < -(2 ^ 31) ∨ 2 ^ 31 - 1 < sint32 a + sint32 b + (c : Int)
           then 1 else 0)
    ∧ (add a b c 0 s).1 = (a + b + c) % 2 ^ 32
    ∧ (add a b c 0 s).2 = s := by
  refine ⟨rfl, ?_, ?_, rfl, rfl⟩
  · show (if (a + b + c) % 2 ^ 32 > a then 0 else if (a + b + c) % 2 ^ 32 < a then 1 else c) = _
    split_ifs <;> omega
  · show ADD_OVERFLOW a b ((a + b + c) % 2 ^ 32) = _
    unfold ADD_OVERFLOW
    have hs : (a + b + c) % 2 ^ 32 < 2 ^ 32 := Nat.mod_lt _ (by decide)
    generalize hS : (a + b + c) % 2 ^ 32 = sum at hs ⊢
    have hx : (a ^^^ sum) &&& (b ^^^ sum) < 2 ^ 32 :=
      Nat.and_lt_two_pow _ (Nat.xor_lt_two_pow hb hs)
    rw [Nat.mod_eq_of_lt hx]
    have hbit := testBit31 _ hx
    rw [Nat.testBit_and, Nat.testBit_xor, Nat.testBit_xor, testBit31 a ha, testBit31 b hb,
      testBit31 sum hs] at hbit
    rw [sint32_eq a ha, sint32_eq b hb]
    by_cases h1 : 2147483648 ≤ a <;> by_cases h2 : 2147483648 ≤ b <;>
      by_cases h3 : 2147483648 ≤ sum <;>
      simp only [h1, h2, h3, if_true, if_false] <;>
      simp [h1, h2, h3] at hbit <;>
      split_ifs <;> omega

/-- Claim C4: for all 32-bit `a`, `b` and carry-in `c` in {0,1}, `add(a, b, c, 1)` returns
`(a + b + c) mod 2^32`, sets C to 1 iff `a + b + c >= 2^32` and V to 1 iff the sum of `a` and
`b` read as signed 32-bit integers plus `c` lies outside `[-2^31, 2^31 - 1]` (and to 0
otherwise); `add(a, b, c, 0)` returns the same sum and leaves the state unchanged. -/
theorem add_sets_carry_and_overflow (a b c : Nat) (s : Cpu) (ha : a < 2 ^ 32) (hb : b < 2 ^ 32)
    (hc : c ≤ 1) :
    (add a b c 1 s).1 = (a + b + c) % 2 ^ 32
    ∧ (add a b c 1 s).2.arm.cpsr_c = (if 2 ^ 32 ≤ a + b + c then 1 else 0)
    ∧ (add a b c 1 s).2.arm.cpsr_v
        = (if sint32 a + sint32 b + (c : Int) < -(2 ^ 31) ∨ 2 ^ 31 - 1 < sint32 a + sint32 b + (c : Int)
           then 1 else 0)
    ∧ (add a b c 0 s).1 = (a + b + c) % 2 ^ 32
    ∧ (add a b c 0 s).2 = s :=
  add_spec a b c s ha hb hc

/-- Claim C8: for every well-formed processor state (single-bit flags, no reserved bit in
`cpsr_low28`), `get_cpsr()` has bit 31 = `cpsr_n`, bit 30 = `cpsr_z`, bit 29 = `cpsr_c`,
bit 28 = `cpsr_v`, bit 5 equal to the T bit of `cpsr_low28`, and its low 28 bits equal
`cpsr_low28`. -/
theorem get_cpsr_bit_layout (s : Cpu) (h : cpsr_wf s) :
    get_cpsr s >>> 31 &&& 1 = s.arm.cpsr_n ∧ get_cpsr s >>> 30 &&& 1 = s.arm.cpsr_z
    ∧ get_cpsr s >>> 29 &&& 1 = s.arm.cpsr_c ∧ get_cpsr s >>> 28 &&& 1 = s.arm.cpsr_v
    ∧ get_cpsr s >>> 5 &&& 1 = s.arm.cpsr_low28 >>> 5 &&& 1
    ∧ get_cpsr s % 2 ^ 28 = s.arm.cpsr_low28 := by
  have e := get_cpsr_eq s h
  obtain ⟨hn, hz, hc, hv, hl⟩ := h
  have hl' := low28_lt _ hl
  simp only [shr_and_one, e]
  refine ⟨?_, ?_, ?_, ?_, ?_, ?_⟩ <;> omega

/-- Claim C6: from every NAND device state, `nand_write_command_byte(0xFF)` returns with
`nand_state = 0xFF` (IDLE), `nand_row = 0`, `nand_column = 0`, `nand_area_pointer = 0`, and
leaves `nand_data` and `nand_block_modified` unchanged. -/
theorem nand_reset_command (d : Nand) :
    ∃ d', nand_write_command_byte 0xFF d = some d'
      ∧ d'.nand_state = 0xFF ∧ d'.nand_row = 0 ∧ d'.nand_column = 0 ∧ d'.nand_area_pointer = 0
      ∧ d'.nand_data = d.nand_data ∧ d'.nand_block_modified = d.nand_block_modified :=
  ⟨_, rfl, rfl, rfl, rfl, rfl, rfl, rfl⟩

theorem and_not32_low (x k : Nat) (hx : x < 2 ^ 32) (hk : k ≤ 32) :
    x &&& not32 (2 ^ k - 1) = x - x % 2 ^ k := by
  have h1 : not32 (2 ^ k - 1) = 2 ^ k * (2 ^ (32 - k) - 1) := by
    unfold not32
    have hp : 2 ^ k * 2 ^ (32 - k) = 2 ^ 32 := by rw [← Nat.pow_add]; congr 1; omega
    have hle : 2 ^ k ≤ 2 ^ 32 := Nat.pow_le_pow_right (by decide) hk
    have hpos : 0 < 2 ^ k := Nat.two_pow_pos k
    rw [Nat.mod_eq_of_lt (by omega), Nat.mul_sub, hp]
    omega
  have h2 : x - x % 2 ^ k = 2 ^ k * (x / 2 ^ k) := by
    have := Nat.div_add_mod x (2 ^ k)
    omega
  rw [h1, h2]
  apply Nat.eq_of_testBit_eq
  intro i
  simp only [Nat.testBit_and, Nat.testBit_mul_pow_two, Nat.testBit_two_pow_sub_one]
  by_cases hi : k ≤ i
  · simp only [hi, decide_True, Bool.true_and]
    have hdiv : (x / 2 ^ k).testBit (i - k) = x.testBit i := by
      rw [← Nat.shiftRight_eq_div_pow, Nat.testBit_shiftRight]
      congr 1; omega
    rw [hdiv]
    by_cases hi2 : i - k < 32 - k
    · simp [hi2]
    · have : x.testBit i = false :=
        Nat.testBit_lt_two_pow (lt_of_lt_of_le hx (Nat.pow_le_pow_right (by decide) (by omega)))
      simp [this]
  · simp [hi]

/-- the erase confirm: on a writable chip in state ERASE_SETUP the block of `nand_row` is
filled with `0xFF` and marked modified, the rest of `nand_data` stays, the state is IDLE -/
theorem nand_erase_spec (d : Nand) (large : Bool) (hm : d.metrics = chips large)
    (hw : d.nand_writable = true) (hs : d.nand_state = 0x60)
    (hr : d.nand_row < d.metrics.num_pages) :
    ∃ d', nand_write_command_byte 0xD0 d = some d'
      ∧ (∀ p j, 2 ^ d.metrics.log2_pages_per_block * (d.nand_row / 2 ^ d.metrics.log2_pages_per_block) ≤ p
          → p < 2 ^ d.metrics.log2_pages_per_block * (d.nand_row / 2 ^ d.metrics.log2_pages_per_block)
                + 2 ^ d.metrics.log2_pages_per_block
          → j < d.metrics.page_size
          → d'.nand_data (p * d.metrics.page_size + j) = 0xFF)
      ∧ d'.nand_block_modified (d.nand_row >>> d.metrics.log2_pages_per_block) = true
      ∧ (∀ a, (a < 2 ^ d.metrics.log2_pages_per_block * (d.nand_row / 2 ^ d.metrics.log2_pages_per_block)
                  * d.metrics.page_size
              ∨ (2 ^ d.metrics.log2_pages_per_block * (d.nand_row / 2 ^ d.metrics.log2_pages_per_block)
                  + 2 ^ d.metrics.log2_pages_per_block) * d.metrics.page_size ≤ a)
          → d'.nand_data a = d.nand_data a)
      ∧ d'.nand_state = 0xFF := by
  have hrow : ∀ k, k ≤ 32 → d.nand_row < 2 ^ 32 →
      (if d.nand_row &&& ((1 <<< k) - 1) % 2 ^ 32 ≠ 0
        then d.nand_row &&& not32 (((1 <<< k) - 1) % 2 ^ 32) else d.nand_row)
      = 2 ^ k * (d.nand_row / 2 ^ k) := by
    intro k hk hx
    have hb : ((1 <<< k) - 1) % 2 ^ 32 = 2 ^ k - 1 := by
      rw [Nat.one_shiftLeft]
      have hle : 2 ^ k ≤ 2 ^ 32 := Nat.pow_le_pow_right (by decide) hk
      have hpos : 0 < 2 ^ k := Nat.two_pow_pos k
      exact Nat.mod_eq_of_lt (by omega)
    have hdm := Nat.div_add_mod d.nand_row (2 ^ k)
    rw [hb, Nat.and_pow_two_sub_one_eq_mod, and_not32_low _ _ hx hk]
    split_ifs <;> omega
  cases large
  · have e1 : d.metrics.page_size = 0x210 := by rw [hm]; rfl
    have e2 : d.metrics.log2_pages_per_block = 5 := by rw [hm]; rfl
    have e3 : d.metrics.num_pages = 0x10000 := by rw [hm]; rfl
    rw [e3] at hr
    have hrow5 := hrow 5 (by decide) (by omega)
    have hdm := Nat.div_add_mod d.nand_row (2 ^ 5)
    simp only [nand_write_command_byte, hs, hw, e1, e2, hrow5]
    simp only [fill_bytes, Nat.shiftRight_eq_div_pow, Nat.shiftLeft_eq]
    refine ⟨_, rfl, ?_, ?_, ?_, rfl⟩
    · intro p j h1 h2 h3
      simp only [fill_bytes]
      rw [if_pos]
      omega
    · simp only []
      rw [if_pos]
      omega
    · intro a ha
      simp only [fill_bytes]
      rw [if_neg]
      omega
  · have e1 : d.metrics.page_size = 0x840 := by rw [hm]; rfl
    have e2 : d.metrics.log2_pages_per_block = 6 := by rw [hm]; rfl
    have e3 : d.metrics.num_pages = 0x10000 := by rw [hm]; rfl
    rw [e3] at hr
    have hrow6 := hrow 6 (by decide) (by omega)
    have hdm := Nat.div_add_mod d.nand_row (2 ^ 6)
    simp only [nand_write_command_byte, hs, hw, e1, e2, hrow6]
    simp only [fill_bytes, Nat.shiftRight_eq_div_pow, Nat.shiftLeft_eq]
    refine ⟨_, rfl, ?_, ?_, ?_, rfl⟩
    · intro p j h1 h2 h3
      simp only [fill_bytes]
      rw [if_pos]
      omega
    · simp only []
      rw [if_pos]
      omega
    · intro a ha
      simp only [fill_bytes]
      rw [if_neg]
      omega

/-- Claim C7: on a writable chip (either variant) in state ERASE_SETUP with
`nand_row < num_pages`, `nand_write_command_byte(0xD0)` returns; every byte of every page of
the block containing `nand_row` (pages from the row with its low `log2_pages_per_block` bits
cleared up to that plus `2^log2_pages_per_block - 1`) is `0xFF`,
`nand_block_modified[row >> log2_pages_per_block]` is true, every byte of `nand_data`
outside that block is unchanged, and the state is IDLE. -/
theorem nand_erase_confirm (d : Nand) (large : Bool) (hm : d.metrics = chips large)
    (hw : d.nand_writable = true) (hs : d.nand_state = 0x60)
    (hr : d.nand_row < d.metrics.num_pages) :
    ∃ d', nand_write_command_byte 0xD0 d = some d'
      ∧ (∀ p j, 2 ^ d.metrics.log2_pages_per_block * (d.nand_row / 2 ^ d.metrics.log2_pages_per_block) ≤ p
          → p < 2 ^ d.metrics.log2_pages_per_block * (d.nand_row / 2 ^ d.metrics.log2_pages_per_block)
                + 2 ^ d.metrics.log2_pages_per_block
          → j < d.metrics.page_size
          → d'.nand_data (p * d.metrics.page_size + j) = 0xFF)
      ∧ d'.nand_block_modified (d.nand_row >>> d.metrics.log2_pages_per_block) = true
      ∧ (∀ a, (a < 2 ^ d.metrics.log2_pages_per_block * (d.nand_row / 2 ^ d.metrics.log2_pages_per_block)
                  * d.metrics.page_size
              ∨ (2 ^ d.metrics.log2_pages_per_block * (d.nand_row / 2 ^ d.metrics.log2_pages_per_block)
                  + 2 ^ d.metrics.log2_pages_per_block) * d.metrics.page_size ≤ a)
          → d'.nand_data a = d.nand_data a)
      ∧ d'.nand_state = 0xFF :=
  nand_erase_spec d large hm hw hs hr

theorem shr_xor_distrib (a b k : Nat) : (a ^^^ b) >>> k = a >>> k ^^^ b >>> k := by
  apply Nat.eq_of_testBit_eq
  intro i
  simp only [Nat.testBit_shiftRight, Nat.testBit_xor]

theorem shl_xor_distrib (a b k : Nat) : (a ^^^ b) <<< k = a <<< k ^^^ b <<< k := by
  apply Nat.eq_of_testBit_eq
  intro i
  simp only [Nat.testBit_shiftLeft, Nat.testBit_xor]
  cases decide (i ≥ k) <;> simp

theorem xor_fold_step (x y k : Nat) :
    (x ^^^ y) ^^^ (x ^^^ y) >>> k = (x ^^^ x >>> k) ^^^ (y ^^^ y >>> k) := by
  rw [shr_xor_distrib]
  apply Nat.eq_of_testBit_eq
  intro i
  simp only [Nat.testBit_xor]
  cases x.testBit i <;> cases y.testBit i <;> cases (x >>> k).testBit i <;>
    cases (y >>> k).testBit i <;> rfl

theorem nibble_parity_xor : ∀ a, a < 16 → ∀ b, b < 16 →
    (0x6996 >>> (a ^^^ b)) &&& 1 = ((0x6996 >>> a) &&& 1) ^^^ ((0x6996 >>> b) &&& 1) := by
  decide

theorem and15_lt (x : Nat) : x &&& 15 < 16 :=
  Nat.lt_succ_of_le Nat.and_le_right

theorem parity_xor (x y : Nat) : parity (x ^^^ y) = parity x ^^^ parity y := by
  unfold parity
  simp only []
  rw [xor_fold_step x y 16]
  generalize x ^^^ x >>> 16 = a
  generalize y ^^^ y >>> 16 = b
  rw [xor_fold_step a b 8]
  generalize a ^^^ a >>> 8 = a'
  generalize b ^^^ b >>> 8 = b'
  rw [xor_fold_step a' b' 4, Nat.and_xor_distrib_right]
  exact nibble_parity_xor _ (and15_lt _) _ (and15_lt _)

theorem parity_bit : ∀ b, b < 32 → parity (1 <<< b) = 1 := by
  decide

theorem parity_le (x : Nat) : parity x ≤ 1 := Nat.and_le_right

theorem parity_flip (x b : Nat) (hb : b < 32) :
    (parity (x ^^^ 1 <<< b) ≠ 0) = ¬ (parity x ≠ 0) := by
  rw [parity_xor, parity_bit b hb]
  have := parity_le x
  generalize parity x = q at *
  interval_cases q <;> simp


theorem xor_upto_congr (f g : Nat → Nat) (n : Nat) (h : ∀ i, i < n → f i = g i) :
    xor_upto f n = xor_upto g n := by
  induction n with
  | zero => rfl
  | succ n ih =>
    simp only [xor_upto]
    rw [ih (fun i hi => h i (by omega)), h n (by omega)]

theorem xor4 (a b c d : Nat) : (a ^^^ b) ^^^ (c ^^^ d) = (a ^^^ c) ^^^ (b ^^^ d) := by
  apply Nat.eq_of_testBit_eq
  intro i
  simp only [Nat.testBit_xor]
  cases a.testBit i <;> cases b.testBit i <;> cases c.testBit i <;> cases d.testBit i <;> rfl

theorem xor_upto_xor (f g : Nat → Nat) (n : Nat) :
    xor_upto (fun i => f i ^^^ g i) n = xor_upto f n ^^^ xor_upto g n := by
  induction n with
  | zero => simp [xor_upto]
  | succ n ih =>
    simp only [xor_upto]
    rw [ih, xor4]

theorem xor_upto_add (f : Nat → Nat) (m n : Nat) :
    xor_upto f (m + n) = xor_upto f m ^^^ xor_upto (fun i => f (m + i)) n := by
  induction n with
  | zero => simp [xor_upto]
  | succ n ih =>
    rw [← Nat.add_assoc]
    simp only [xor_upto]
    rw [ih, Nat.xor_assoc]

theorem xor_upto_halve (f g : Nat → Nat) (j : Nat) :
    xor_upto (fun i => if i < j then f i ^^^ f (i + j) else g i) j = xor_upto f (j + j) := by
  rw [xor_upto_congr _ (fun i => f i ^^^ f (j + i)) j
        (fun i hi => by simp only [if_pos hi]; rw [Nat.add_comm i j]),
    xor_upto_xor, xor_upto_add]

theorem xor_upto_update (f : Nat → Nat) (w m n : Nat) (hw : w < n) :
    xor_upto (fun i => if i = w then f i ^^^ m else f i) n = xor_upto f n ^^^ m := by
  induction n with
  | zero => omega
  | succ n ih =>
    simp only [xor_upto]
    by_cases h : w = n
    · subst h
      rw [xor_upto_congr _ f w (fun i hi => by simp only [if_neg (Nat.ne_of_lt hi)]), if_pos rfl,
        Nat.xor_assoc]
    · rw [ih (by omega), if_neg (Ne.symm h), Nat.xor_assoc, Nat.xor_comm m, ← Nat.xor_assoc]

theorem ecc_inner_eq (inp : Nat → Nat) (j : Nat) (temp : Nat → Nat) (n : Nat) :
    ecc_inner inp j temp n
      = (xor_upto inp n, fun i => if i < n then inp i ^^^ inp (i + j) else temp i) := by
  induction n with
  | zero => simp [ecc_inner, xor_upto]
  | succ n ih =>
    simp only [ecc_inner, ih, xor_upto]
    congr 1
    funext i
    simp only [set_elem]
    by_cases h : i = n
    · subst h; simp
    · by_cases h2 : i < n
      · simp [h, h2, Nat.lt_succ_of_lt h2]
      · simp [h, h2, show ¬ i < n + 1 by omega]

theorem ecc_fold_zero (inp temp : Nat → Nat) (ecc : Nat) : ecc_fold 0 inp temp ecc = (temp, ecc) := by
  rw [ecc_fold]; simp

theorem ecc_fold_pos (j : Nat) (hj : j ≠ 0) (inp temp : Nat → Nat) (ecc : Nat) :
    ecc_fold j inp temp ecc
      = ecc_fold (j >>> 1) (fun i => if i < j then inp i ^^^ inp (i + j) else temp i)
          (fun i => if i < j then inp i ^^^ inp (i + j) else temp i)
          ((ecc <<< 2 ||| parity (xor_upto inp j)) % 2 ^ 32) := by
  rw [ecc_fold]
  simp only [hj, dite_false, ecc_inner_eq]

theorem ecc_step_bound (ecc p B : Nat) (h : 3 * ecc < B) (hp : p ≤ 1) :
    3 * ((ecc <<< 2 ||| p) % 2 ^ 32) < B * 4 := by
  have e : ecc <<< 2 ||| p = 2 ^ 2 * ecc + p := by
    rw [Nat.mul_add_lt_is_or (by omega), Nat.shiftLeft_eq, Nat.mul_comm]
  have := Nat.mod_le (ecc <<< 2 ||| p) (2 ^ 32)
  rw [e] at this ⊢
  omega

/-- the final `temp[0]` is the XOR of all input words, and `ecc` stays two bits per step -/
theorem ecc_fold_pow (k : Nat) : ∀ (inp temp : Nat → Nat) (ecc B : Nat), 3 * ecc < B →
    (ecc_fold (2 ^ k) inp temp ecc).1 0 = xor_upto inp (2 ^ (k + 1))
    ∧ 3 * (ecc_fold (2 ^ k) inp temp ecc).2 < B * 4 ^ (k + 1) := by
  induction k with
  | zero =>
    intro inp temp ecc B hB
    rw [ecc_fold_pos (2 ^ 0) (by decide)]
    have : (2 ^ 0) >>> 1 = 0 := rfl
    rw [this, ecc_fold_zero]
    refine ⟨by simp [xor_upto], ?_⟩
    have := ecc_step_bound ecc (parity (xor_upto inp (2 ^ 0))) B hB (parity_le _)
    simpa using this
  | succ k ih =>
    intro inp temp ecc B hB
    rw [ecc_fold_pos (2 ^ (k + 1)) (by positivity)]
    have : (2 ^ (k + 1)) >>> 1 = 2 ^ k := by
      rw [Nat.shiftRight_eq_div_pow, Nat.pow_succ]; simp
    rw [this]
    obtain ⟨h1, h2⟩ := ih _ (fun i => if i < 2 ^ (k + 1) then inp i ^^^ inp (i + 2 ^ (k + 1)) else temp i)
      _ (B * 4) (ecc_step_bound ecc (parity (xor_upto inp (2 ^ (k + 1)))) B hB (parity_le _))
    refine ⟨?_, ?_⟩
    · rw [h1, xor_upto_halve]
      congr 1
      rw [Nat.pow_succ 2 (k + 1)]; omega
    · rw [Nat.pow_succ 4 (k + 1)]
      calc _ < B * 4 * 4 ^ (k + 1) := h2
        _ = B * (4 ^ (k + 1) * 4) := by ring

theorem ecc_fold_congr (j : Nat) (inp inp' temp : Nat → Nat) (ecc : Nat)
    (h : ∀ i, i < j + j → inp i = inp' i) :
    ecc_fold j inp temp ecc = ecc_fold j inp' temp ecc := by
  by_cases hj : j = 0
  · subst hj; rw [ecc_fold_zero, ecc_fold_zero]
  · rw [ecc_fold_pos j hj, ecc_fold_pos j hj]
    have e1 : (fun i => if i < j then inp i ^^^ inp (i + j) else temp i)
        = (fun i => if i < j then inp' i ^^^ inp' (i + j) else temp i) := by
      funext i
      by_cases hi : i < j
      · simp only [if_pos hi]; rw [h i (by omega), h (i + j) (by omega)]
      · simp only [if_neg hi]
    rw [e1, xor_upto_congr inp inp' j (fun i hi => h i (by omega))]


theorem or_eq_xor_shl (a b k : Nat) (ha : a < 2 ^ k) : a ||| b <<< k = a ^^^ b <<< k := by
  apply Nat.eq_of_testBit_eq
  intro i
  simp only [Nat.testBit_or, Nat.testBit_xor, Nat.testBit_shiftLeft]
  by_cases hi : k ≤ i
  · have : a.testBit i = false :=
      Nat.testBit_lt_two_pow (lt_of_lt_of_le ha (Nat.pow_le_pow_right (by decide) hi))
    simp [this]
  · simp [hi]

theorem bytes_or_eq_xor (b0 b1 b2 b3 : Nat) (h0 : b0 < 256) (h1 : b1 < 256) (h2 : b2 < 256) :
    b0 ||| b1 <<< 8 ||| b2 <<< 16 ||| b3 <<< 24 = b0 ^^^ b1 <<< 8 ^^^ b2 <<< 16 ^^^ b3 <<< 24 := by
  have s1 : b0 ||| b1 <<< 8 = b0 ^^^ b1 <<< 8 := or_eq_xor_shl _ _ 8 h0
  have l1 : b0 ^^^ b1 <<< 8 < 2 ^ 16 :=
    Nat.xor_lt_two_pow (by omega) (by rw [Nat.shiftLeft_eq]; omega)
  have s2 : (b0 ^^^ b1 <<< 8) ||| b2 <<< 16 = (b0 ^^^ b1 <<< 8) ^^^ b2 <<< 16 :=
    or_eq_xor_shl _ _ 16 l1
  have l2 : b0 ^^^ b1 <<< 8 ^^^ b2 <<< 16 < 2 ^ 24 :=
    Nat.xor_lt_two_pow (by omega) (by rw [Nat.shiftLeft_eq]; omega)
  rw [s1, s2, or_eq_xor_shl _ _ 24 l2]

theorem flip_byte_lt (b r : Nat) (hb : b < 256) (hr : r < 8) : b ^^^ 1 <<< r < 256 := by
  have : (1 : Nat) <<< r < 2 ^ 8 := by
    rw [Nat.one_shiftLeft]
    exact Nat.pow_lt_pow_right (by decide) hr
  exact Nat.xor_lt_two_pow (n := 8) hb this

theorem xor_move0 (a b c d m : Nat) : (a ^^^ m) ^^^ b ^^^ c ^^^ d = a ^^^ b ^^^ c ^^^ d ^^^ m := by
  apply Nat.eq_of_testBit_eq
  intro i
  simp only [Nat.testBit_xor]
  cases a.testBit i <;> cases b.testBit i <;> cases c.testBit i <;> cases d.testBit i <;>
    cases m.testBit i <;> rfl

theorem xor_move1 (a b c d m : Nat) : a ^^^ (b ^^^ m) ^^^ c ^^^ d = a ^^^ b ^^^ c ^^^ d ^^^ m := by
  apply Nat.eq_of_testBit_eq
  intro i
  simp only [Nat.testBit_xor]
  cases a.testBit i <;> cases b.testBit i <;> cases c.testBit i <;> cases d.testBit i <;>
    cases m.testBit i <;> rfl

theorem xor_move2 (a b c d m : Nat) : a ^^^ b ^^^ (c ^^^ m) ^^^ d = a ^^^ b ^^^ c ^^^ d ^^^ m := by
  apply Nat.eq_of_testBit_eq
  intro i
  simp only [Nat.testBit_xor]
  cases a.testBit i <;> cases b.testBit i <;> cases c.testBit i <;> cases d.testBit i <;>
    cases m.testBit i <;> rfl

theorem xor_move3 (a b c d m : Nat) : a ^^^ b ^^^ c ^^^ (d ^^^ m) = a ^^^ b ^^^ c ^^^ d ^^^ m := by
  apply Nat.eq_of_testBit_eq
  intro i
  simp only [Nat.testBit_xor]
  cases a.testBit i <;> cases b.testBit i <;> cases c.testBit i <;> cases d.testBit i <;>
    cases m.testBit i <;> rfl

theorem load_word_flip (d : Nat → Nat) (p i : Nat) (hd : ∀ n, n < 512 → d n < 256)
    (hi : i < 128) :
    load_word (flip_bit d p) i
      = if i = p / 32 then load_word d i ^^^ 1 <<< (p % 32) else load_word d i := by
  have hr : p % 8 < 8 := Nat.mod_lt _ (by decide)
  have c0 := hd (4 * i) (by omega)
  have c1 := hd (4 * i + 1) (by omega)
  have c2 := hd (4 * i + 2) (by omega)
  have c3 := hd (4 * i + 3) (by omega)
  by_cases h : i = p / 32
  · rw [if_pos h]
    have hcase : p / 8 = 4 * i ∨ p / 8 = 4 * i + 1 ∨ p / 8 = 4 * i + 2 ∨ p / 8 = 4 * i + 3 := by
      omega
    unfold load_word
    rcases hcase with hc | hc | hc | hc
    · have e0 : flip_bit d p (4 * i) = d (4 * i) ^^^ 1 <<< (p % 8) := by
        unfold flip_bit; rw [if_pos hc.symm]
      have e1 : flip_bit d p (4 * i + 1) = d (4 * i + 1) := by
        unfold flip_bit; rw [if_neg (by omega)]
      have e2 : flip_bit d p (4 * i + 2) = d (4 * i + 2) := by
        unfold flip_bit; rw [if_neg (by omega)]
      have e3 : flip_bit d p (4 * i + 3) = d (4 * i + 3) := by
        unfold flip_bit; rw [if_neg (by omega)]
      have hs : p % 32 = p % 8 := by omega
      rw [e0, e1, e2, e3, bytes_or_eq_xor _ _ _ _ (flip_byte_lt _ _ c0 hr) c1 c2,
        bytes_or_eq_xor _ _ _ _ c0 c1 c2, hs]
      rw [xor_move0]
    · have e0 : flip_bit d p (4 * i) = d (4 * i) := by
        unfold flip_bit; rw [if_neg (by omega)]
      have e1 : flip_bit d p (4 * i + 1) = d (4 * i + 1) ^^^ 1 <<< (p % 8) := by
        unfold flip_bit; rw [if_pos hc.symm]
      have e2 : flip_bit d p (4 * i + 2) = d (4 * i + 2) := by
        unfold flip_bit; rw [if_neg (by omega)]
      have e3 : flip_bit d p (4 * i + 3) = d (4 * i + 3) := by
        unfold flip_bit; rw [if_neg (by omega)]
      have hs : p % 32 = p % 8 + 8 := by omega
      rw [e0, e1, e2, e3, bytes_or_eq_xor _ _ _ _ c0 (flip_byte_lt _ _ c1 hr) c2,
        bytes_or_eq_xor _ _ _ _ c0 c1 c2, hs, shl_xor_distrib, Nat.shiftLeft_add]
      rw [xor_move1]
    · have e0 : flip_bit d p (4 * i) = d (4 * i) := by
        unfold flip_bit; rw [if_neg (by omega)]
      have e1 : flip_bit d p (4 * i + 1) = d (4 * i + 1) := by
        unfold flip_bit; rw [if_neg (by omega)]
      have e2 : flip_bit d p (4 * i + 2) = d (4 * i + 2) ^^^ 1 <<< (p % 8) := by
        unfold flip_bit; rw [if_pos hc.symm]
      have e3 : flip_bit d p (4 * i + 3) = d (4 * i + 3) := by
        unfold flip_bit; rw [if_neg (by omega)]
      have hs : p % 32 = p % 8 + 16 := by omega
      rw [e0, e1, e2, e3, bytes_or_eq_xor _ _ _ _ c0 c1 (flip_byte_lt _ _ c2 hr),
        bytes_or_eq_xor _ _ _ _ c0 c1 c2, hs, shl_xor_distrib, Nat.shiftLeft_add]
      rw [xor_move2]
    · have e0 : flip_bit d p (4 * i) = d (4 * i) := by
        unfold flip_bit; rw [if_neg (by omega)]
      have e1 : flip_bit d p (4 * i + 1) = d (4 * i + 1) := by
        unfold flip_bit; rw [if_neg (by omega)]
      have e2 : flip_bit d p (4 * i + 2) = d (4 * i + 2) := by
        unfold flip_bit; rw [if_neg (by omega)]
      have e3 : flip_bit d p (4 * i + 3) = d (4 * i + 3) ^^^ 1 <<< (p % 8) := by
        unfold flip_bit; rw [if_pos hc.symm]
      have hs : p % 32 = p % 8 + 24 := by omega
      rw [e0, e1, e2, e3, bytes_or_eq_xor _ _ _ _ c0 c1 c2,
        bytes_or_eq_xor _ _ _ _ c0 c1 c2, hs, shl_xor_distrib, Nat.shiftLeft_add]
      rw [xor_move3]
  · rw [if_neg h]
    unfold load_word flip_bit
    rw [if_neg (by omega), if_neg (by omega), if_neg (by omega), if_neg (by omega)]

/-- bits 0 and 1 of the final ECC word encode the parity of the whole region -/
theorem ecc_final_bits (e p0 P : Nat) (hp0 : p0 ≤ 1) :
    (((((e <<< 2 ||| p0) % 2 ^ 32) ||| (((e <<< 2 ||| p0) % 2 ^ 32) <<< 1) % 2 ^ 32)
        ^^^ (if P ≠ 0 then 0x555555 else 0xFFFFFF)).testBit 0
      != ((((e <<< 2 ||| p0) % 2 ^ 32) ||| (((e <<< 2 ||| p0) % 2 ^ 32) <<< 1) % 2 ^ 32)
        ^^^ (if P ≠ 0 then 0x555555 else 0xFFFFFF)).testBit 1)
      = decide (P ≠ 0) := by
  have h1 : p0.testBit 1 = false := Nat.testBit_lt_two_pow (by omega)
  have k0 : Nat.testBit 0xFFFFFF 0 = true := by decide
  have k1 : Nat.testBit 0xFFFFFF 1 = true := by decide
  have k2 : Nat.testBit 0x555555 0 = true := by decide
  have k3 : Nat.testBit 0x555555 1 = false := by decide
  by_cases hP : P = 0
  · simp only [hP, ne_eq, not_true_eq_false, if_false, Nat.testBit_xor, Nat.testBit_or,
      Nat.testBit_mod_two_pow, Nat.testBit_shiftLeft, h1, k0, k1]
    cases p0.testBit 0 <;> simp
  · simp only [hP, ne_eq, not_false_eq_true, if_true, Nat.testBit_xor, Nat.testBit_or,
      Nat.testBit_mod_two_pow, Nat.testBit_shiftLeft, h1, k2, k3]
    cases p0.testBit 0 <;> simp


theorem ecc_fold_64 (inp temp : Nat → Nat) :
    (ecc_fold 64 inp temp 0).1 0 = xor_upto inp 128 ∧ 3 * (ecc_fold 64 inp temp 0).2 < 4 ^ 7 := by
  have h := ecc_fold_pow 6 inp temp 0 1 (by decide)
  simpa using h

theorem ecc_parity_bits (d : Nat → Nat) :
    ((ecc_calculate d).testBit 0 != (ecc_calculate d).testBit 1)
      = decide (parity (xor_upto (load_word d) 128) ≠ 0) := by
  unfold ecc_calculate
  simp only []
  rw [(ecc_fold_64 (load_word d) (fun _ => 0)).1]
  exact ecc_final_bits _ _ _ (parity_le _)

theorem xor_upto_flip (d : Nat → Nat) (p : Nat) (hd : ∀ n, n < 512 → d n < 256) (hp : p < 4096) :
    xor_upto (load_word (flip_bit d p)) 128 = xor_upto (load_word d) 128 ^^^ 1 <<< (p % 32) := by
  rw [xor_upto_congr _ (fun i => if i = p / 32 then load_word d i ^^^ 1 <<< (p % 32) else load_word d i)
    128 (fun i hi => load_word_flip d p i hd hi)]
  exact xor_upto_update (load_word d) (p / 32) _ 128 (by omega)

theorem ecc_bound (d : Nat → Nat) : ecc_calculate d < 2 ^ 24 := by
  unfold ecc_calculate
  simp only []
  have h0 := (ecc_fold_64 (load_word d) (fun _ => 0)).2
  generalize (ecc_fold 64 (load_word d) (fun _ => 0) 0).2 = e0 at h0
  generalize (ecc_fold 64 (load_word d) (fun _ => 0) 0).1 0 = w
  have h1 := ecc_step_bound e0 (parity (w &&& 0x0000FFFF)) _ h0 (parity_le _)
  generalize (e0 <<< 2 ||| parity (w &&& 0x0000FFFF)) % 2 ^ 32 = e1 at h1 ⊢
  have h2 := ecc_step_bound e1 (parity (w &&& 0x00FF00FF)) _ h1 (parity_le _)
  generalize (e1 <<< 2 ||| parity (w &&& 0x00FF00FF)) % 2 ^ 32 = e2 at h2 ⊢
  have h3 := ecc_step_bound e2 (parity (w &&& 0x0F0F0F0F)) _ h2 (parity_le _)
  generalize (e2 <<< 2 ||| parity (w &&& 0x0F0F0F0F)) % 2 ^ 32 = e3 at h3 ⊢
  have h4 := ecc_step_bound e3 (parity (w &&& 0x33333333)) _ h3 (parity_le _)
  generalize (e3 <<< 2 ||| parity (w &&& 0x33333333)) % 2 ^ 32 = e4 at h4 ⊢
  have h5 := ecc_step_bound e4 (parity (w &&& 0x55555555)) _ h4 (parity_le _)
  generalize (e4 <<< 2 ||| parity (w &&& 0x55555555)) % 2 ^ 32 = e5 at h5 ⊢
  have hk : (if parity w ≠ 0 then 0x555555 else 0xFFFFFF) < 2 ^ 24 := by
    split_ifs <;> decide
  have he : e5 < 2 ^ 24 := by omega
  have hs : (e5 <<< 1) % 2 ^ 32 < 2 ^ 24 := by
    rw [Nat.shiftLeft_eq]
    have := Nat.mod_le (e5 * 2 ^ 1) (2 ^ 32)
    omega
  exact Nat.xor_lt_two_pow (Nat.or_lt_two_pow he hs) hk

theorem ecc_congr (d d' : Nat → Nat) (h : ∀ n, n < 512 → d' n = d n) :
    ecc_calculate d' = ecc_calculate d := by
  unfold ecc_calculate
  rw [ecc_fold_congr 64 (load_word d') (load_word d) _ _ (fun i hi => by
    unfold load_word
    rw [h _ (by omega), h _ (by omega), h _ (by omega), h _ (by omega)])]

/-- Claim C5: for every 512-byte region `d` and every bit position `p` in 0..4095,
`ecc_calculate` of `d` with bit `p` flipped differs from `ecc_calculate(d)`; the result
depends on the 512 bytes only and is below `2^24`. -/
theorem ecc_detects_single_bit_flip (d : Nat → Nat) (p : Nat)
    (hd : ∀ n, n < 512 → d n < 256) (hp : p < 4096) :
    ecc_calculate (flip_bit d p) ≠ ecc_calculate d
    ∧ (∀ d' : Nat → Nat, (∀ n, n < 512 → d' n = d n) → ecc_calculate d' = ecc_calculate d)
    ∧ ecc_calculate d < 2 ^ 24 := by
  refine ⟨?_, fun d' h => ecc_congr d d' h, ecc_bound d⟩
  intro heq
  have h1 := ecc_parity_bits (flip_bit d p)
  have h2 := ecc_parity_bits d
  rw [heq, h2, xor_upto_flip d p hd hp] at h1
  have h3 := parity_flip (xor_upto (load_word d) 128) (p % 32) (Nat.mod_lt _ (by decide))
  have hiff := decide_eq_decide.1 h1
  rw [h3] at hiff
  by_cases hq : parity (xor_upto (load_word d) 128) ≠ 0
  · exact (hiff.1 hq) hq
  · exact hq (hiff.2 hq)

/-! ## Instruction decode, MSR, CP15 transfers and the NAND sequences -/

theorem testBit_not32 (x i : Nat) : (not32 x).testBit i = (decide (i < 32) && !x.testBit i) := by
  unfold not32
  have h : x % 2 ^ 32 < 2 ^ 32 := Nat.mod_lt _ (by decide)
  have e : 0xFFFFFFFF - x % 2 ^ 32 = 2 ^ 32 - (x % 2 ^ 32 + 1) := by omega
  rw [e, Nat.testBit_two_pow_sub_succ h, Nat.testBit_mod_two_pow]
  cases decide (i < 32) <;> simp

theorem testBit_of_lt (x k i : Nat) (hx : x < 2 ^ k) (hi : x.testBit i = true) : i < k := by
  by_contra hn
  have : x < 2 ^ i := lt_of_lt_of_le hx (Nat.pow_le_pow_right (by decide) (by omega))
  rw [Nat.testBit_lt_two_pow this] at hi
  exact Bool.noConfusion hi

/-- a word below `2 ^ k` has no bit in common with a mask whose low `k` bits are clear -/
theorem low_and_high (i M k : Nat) (hi : i < 2 ^ k) (hM : M % 2 ^ k = 0) : i &&& M = 0 := by
  apply Nat.eq_of_testBit_eq
  intro j
  rw [Nat.testBit_and, Nat.zero_testBit]
  by_cases hj : j < k
  · have : (M % 2 ^ k).testBit j = false := by rw [hM]; exact Nat.zero_testBit j
    rw [Nat.testBit_mod_two_pow] at this
    simp [hj] at this
    simp [this]
  · have : i.testBit j = false := by
      cases h : i.testBit j
      · rfl
      · exact absurd (testBit_of_lt i k j hi h) hj
    simp [this]

theorem or_low_and_high (A i M k : Nat) (hi : i < 2 ^ k) (hM : M % 2 ^ k = 0) :
    (A ||| i) &&& M = A &&& M := by
  rw [Nat.and_distrib_right, low_and_high i M k hi hM, Nat.or_zero]

theorem or_low_shr (A i k n : Nat) (hi : i < 2 ^ k) (hn : k ≤ n) : (A ||| i) >>> n = A >>> n := by
  rw [shr_or_distrib]
  have : i >>> n = 0 := by
    rw [Nat.shiftRight_eq_div_pow]
    exact Nat.div_eq_of_lt (lt_of_lt_of_le hi (Nat.pow_le_pow_right (by decide) hn))
  rw [this, Nat.or_zero]

theorem or_low_and_low (A i M k : Nat) (hi : i < 2 ^ k) (hA : A % 2 ^ k = 0) (hM : M = 2 ^ k - 1) :
    (A ||| i) &&& M = i := by
  subst hM
  rw [Nat.and_pow_two_sub_one_eq_mod]
  apply Nat.eq_of_testBit_eq
  intro j
  rw [Nat.testBit_mod_two_pow, Nat.testBit_or]
  by_cases hj : j < k
  · have : (A % 2 ^ k).testBit j = false := by rw [hA]; exact Nat.zero_testBit j
    rw [Nat.testBit_mod_two_pow] at this
    simp [hj] at this
    simp [this, hj]
  · have : i.testBit j = false := by
      cases h : i.testBit j
      · rfl
      · exact absurd (testBit_of_lt i k j hi h) hj
    simp [this, hj]

theorem and_shl_mask (x M k : Nat) : x &&& (M <<< k) = (x >>> k &&& M) <<< k := by
  apply Nat.eq_of_testBit_eq
  intro j
  simp only [Nat.testBit_and, Nat.testBit_shiftLeft, Nat.testBit_shiftRight]
  by_cases hj : k ≤ j
  · simp [hj, Nat.add_sub_cancel' hj]
  · simp [hj]

/-- an instruction with condition AL is not in the unconditional space and passes the
condition check -/
theorem cond_al (insn : Nat) (a : arm_state) (hc : insn >>> 28 = 14) :
    ¬ (7 ≤ insn >>> 29 ∧ insn &&& (1 <<< 28) ≠ 0)
    ∧ ¬ (cond_exec insn a ^^^ (insn >>> 28 &&& 1) = 0) := by
  have h29 : insn >>> 29 = 7 := by
    have : insn >>> 29 = (insn >>> 28) >>> 1 := by rw [← Nat.shiftRight_add]
    rw [this, hc]; rfl
  have h28 : insn &&& (1 <<< 28) = 0 := by
    rw [and_one_shl, hc]; rfl
  constructor
  · rw [h28]; simp
  · simp [cond_exec, h29, hc]

/-- an instruction whose condition (one of the codes 0..14) holds is not in the unconditional
space and passes the condition check -/
theorem cond_pass (insn : Nat) (a : arm_state) (hc : insn >>> 28 ≤ 14)
    (hn : a.cpsr_n ≤ 1) (hz : a.cpsr_z ≤ 1) (hcf : a.cpsr_c ≤ 1) (hv : a.cpsr_v ≤ 1)
    (hp : condition_passed (insn >>> 28) a = true) :
    ¬ (7 ≤ insn >>> 29 ∧ insn &&& (1 <<< 28) ≠ 0)
    ∧ ¬ (cond_exec insn a ^^^ (insn >>> 28 &&& 1) = 0) := by
  have h29 : insn >>> 29 = (insn >>> 28) / 2 := by
    have : insn >>> 29 = (insn >>> 28) >>> 1 := by rw [← Nat.shiftRight_add]
    rw [this, Nat.shiftRight_eq_div_pow]
  unfold cond_exec
  rw [and_one_shl, h29, Nat.and_one_is_mod]
  generalize insn >>> 28 = cnd at *
  generalize hN : a.cpsr_n = n at *
  generalize hZ : a.cpsr_z = z at *
  generalize hC : a.cpsr_c = c at *
  generalize hV : a.cpsr_v = v at *
  interval_cases cnd <;> simp only [condition_passed, hN, hZ, hC, hV] at hp <;>
    interval_cases n <;> interval_cases z <;> interval_cases c <;> interval_cases v <;>
    first
      | (exfalso; revert hp; decide)
      | decide

/-- decode of `BX Rm` (`0xE12FFF10 | m`): the interpreter runs the B(L)X branch without link -/
theorem interpret_bx (ext : arm_class → Nat → Cpu → Option Cpu) (m : Nat) (s : Cpu)
    (hm : m ≤ 14) :
    cpu_interpret_instruction (arm_body ext) (0xE12FFF10 ||| m) s
      = some (set_reg_pc_bx 15 (s.arm.reg m % 2 ^ 32) s) := by
  have hm4 : m < 2 ^ 4 := by omega
  have hc : (0xE12FFF10 ||| m) >>> 28 = 14 := by
    rw [or_low_shr _ m 4 28 hm4 (by decide)]; rfl
  obtain ⟨c1, c2⟩ := cond_al _ s.arm hc
  have a1 : (0xE12FFF10 ||| m) &&& 0x80 = 0 := by
    rw [or_low_and_high _ m _ 4 hm4 (by decide)]; rfl
  have h1 : (0xE12FFF10 ||| m) &&& 0xE000090 ≠ 0x0000090 :=
    and_ne_of_sub _ _ _ _ _ a1 rfl (by decide)
  have h2 : (0xE12FFF10 ||| m) &&& 0xD900000 = 0x1000000 := by
    rw [or_low_and_high _ m _ 4 hm4 (by decide)]; rfl
  have h3 : (0xE12FFF10 ||| m) &&& 0xFFFFFD0 = 0x12FFF10 := by
    rw [or_low_and_high _ m _ 4 hm4 (by decide)]; rfl
  have h4 : (0xE12FFF10 ||| m) &&& 0x20 = 0 := by
    rw [or_low_and_high _ m _ 4 hm4 (by decide)]; rfl
  have h5 : (0xE12FFF10 ||| m) &&& 15 = m := or_low_and_low _ m _ 4 hm4 (by decide) rfl
  have h6 : get_reg_pc m s = s.arm.reg m % 2 ^ 32 := by
    have : m ≠ 15 := by omega
    simp [get_reg_pc, this]
  simp only [cpu_interpret_instruction, if_neg c1, if_neg c2, if_neg h1, h2, if_true, arm_body,
    arm_miscellaneous, h3, h4, h5, h6, ne_eq, not_true_eq_false, if_false]

/-- Claim C13: for every register index `m` in 0..14 and every 32-bit value `v` of `reg[m]`,
executing `BX Rm` (`0xE12FFF10 | m`) in ARM state (T clear) returns, sets `reg[15]` to `v`
with bit 0 cleared, sets the T bit iff bit 0 of `v` is 1, and changes no other register, no
other bit of `cpsr_low28` and no flag. -/
theorem bx_register_sets_pc_and_thumb_bit (ext : arm_class → Nat → Cpu → Option Cpu) (m : Nat) (s : Cpu)
    (hm : m ≤ 14) (hT : s.arm.cpsr_low28 &&& 0x20 = 0) (hv : s.arm.reg m < 2 ^ 32) :
    ∃ s', cpu_interpret_instruction (arm_body ext) (0xE12FFF10 ||| m) s = some s'
      ∧ s'.arm.reg 15 = s.arm.reg m - s.arm.reg m % 2
      ∧ s'.arm.cpsr_low28 &&& 0x20 = (if s.arm.reg m % 2 = 1 then 0x20 else 0)
      ∧ s'.arm.cpsr_low28 &&& not32 0x20 = s.arm.cpsr_low28 &&& not32 0x20
      ∧ (∀ i, i ≠ 15 → s'.arm.reg i = s.arm.reg i)
      ∧ s'.arm.cpsr_n = s.arm.cpsr_n ∧ s'.arm.cpsr_z = s.arm.cpsr_z
      ∧ s'.arm.cpsr_c = s.arm.cpsr_c ∧ s'.arm.cpsr_v = s.arm.cpsr_v := by
  refine ⟨_, interpret_bx ext m s hm, ?_⟩
  rw [Nat.mod_eq_of_lt hv]
  by_cases ho : s.arm.reg m % 2 = 1
  · have e : set_reg_pc_bx 15 (s.arm.reg m) s
        = { s with arm := { s.arm with
              reg := set_elem s.arm.reg 15 (s.arm.reg m - 1),
              cpsr_low28 := s.arm.cpsr_low28 ||| 0x20 } } := by
      unfold set_reg_pc_bx
      rw [if_pos ⟨rfl, by rw [Nat.and_one_is_mod]; omega⟩]
    rw [e, if_pos ho]
    refine ⟨?_, ?_, ?_, ?_, rfl, rfl, rfl, rfl⟩
    · show set_elem s.arm.reg 15 (s.arm.reg m - 1) 15 = _
      simp only [set_elem, if_true]
      omega
    · show (s.arm.cpsr_low28 ||| 0x20) &&& 0x20 = 0x20
      rw [Nat.and_distrib_right, hT]; rfl
    · show (s.arm.cpsr_low28 ||| 0x20) &&& not32 0x20 = _
      rw [Nat.and_distrib_right]
      have : (0x20 : Nat) &&& not32 0x20 = 0 := by decide
      rw [this, Nat.or_zero]
    · intro i hi
      show set_elem s.arm.reg 15 (s.arm.reg m - 1) i = _
      simp only [set_elem, if_neg hi]
  · have e : set_reg_pc_bx 15 (s.arm.reg m) s
        = { s with arm := { s.arm with reg := set_elem s.arm.reg 15 (s.arm.reg m) } } := by
      unfold set_reg_pc_bx
      rw [if_neg (fun h => h.2 (by rw [Nat.and_one_is_mod]; omega))]
    rw [e, if_neg ho]
    refine ⟨?_, hT, rfl, ?_, rfl, rfl, rfl, rfl⟩
    · show set_elem s.arm.reg 15 (s.arm.reg m) 15 = _
      simp only [set_elem, if_true]
      omega
    · intro i hi
      show set_elem s.arm.reg 15 (s.arm.reg m) i = _
      simp only [set_elem, if_neg hi]

/-- decode of a coprocessor register transfer on p15 that passes the condition check: the
chain reaches the `MCR p15` branch (bit 20 clear) -/
theorem interpret_mcr (body : arm_class → Nat → Cpu → Option Cpu) (insn : Nat) (s : Cpu)
    (c1 : ¬ (7 ≤ insn >>> 29 ∧ insn &&& (1 <<< 28) ≠ 0))
    (c2 : ¬ (cond_exec insn s.arm ^^^ (insn >>> 28 &&& 1) = 0))
    (hop : insn &&& 0xF100F10 = 0xE000F10) :
    cpu_interpret_instruction body insn s = body .mcr_p15 insn s := by
  have hE : insn &&& 0x0E000000 = 0x0E000000 := and_sub _ _ _ _ hop rfl
  have hC : insn &&& 0x0C000000 = 0x0C000000 := and_sub _ _ _ _ hop rfl
  have h1 : insn &&& 0xE000090 ≠ 0x0000090 := and_ne_of_sub _ _ _ _ _ hE rfl (by decide)
  have h2 : insn &&& 0xD900000 ≠ 0x1000000 := and_ne_of_sub _ _ _ _ _ hC rfl (by decide)
  have h3 : insn &&& 0xC000000 ≠ 0 := and_ne_of_sub _ _ _ _ _ hC rfl (by decide)
  have h4 : insn &&& 0xC000000 ≠ 0x4000000 := and_ne_of_sub _ _ _ _ _ hC rfl (by decide)
  have h5 : insn &&& 0xE000000 ≠ 0x8000000 := and_ne_of_sub _ _ _ _ _ hE rfl (by decide)
  have h6 : insn &&& 0xE000000 ≠ 0xA000000 := and_ne_of_sub _ _ _ _ _ hE rfl (by decide)
  simp only [cpu_interpret_instruction, if_neg c1, if_neg c2, if_neg h1, if_neg h2, if_neg h3,
    if_neg h4, if_neg h5, if_neg h6, hop, if_true]

/-- decode of a coprocessor register transfer on p15 that passes the condition check: the
chain reaches the `MRC p15` branch (bit 20 set) -/
theorem interpret_mrc (body : arm_class → Nat → Cpu → Option Cpu) (insn : Nat) (s : Cpu)
    (c1 : ¬ (7 ≤ insn >>> 29 ∧ insn &&& (1 <<< 28) ≠ 0))
    (c2 : ¬ (cond_exec insn s.arm ^^^ (insn >>> 28 &&& 1) = 0))
    (hop : insn &&& 0xF100F10 = 0xE100F10) :
    cpu_interpret_instruction body insn s = body .mrc_p15 insn s := by
  have hE : insn &&& 0x0E000000 = 0x0E000000 := and_sub _ _ _ _ hop rfl
  have hC : insn &&& 0x0C000000 = 0x0C000000 := and_sub _ _ _ _ hop rfl
  have h1 : insn &&& 0xE000090 ≠ 0x0000090 := and_ne_of_sub _ _ _ _ _ hE rfl (by decide)
  have h2 : insn &&& 0xD900000 ≠ 0x1000000 := and_ne_of_sub _ _ _ _ _ hC rfl (by decide)
  have h3 : insn &&& 0xC000000 ≠ 0 := and_ne_of_sub _ _ _ _ _ hC rfl (by decide)
  have h4 : insn &&& 0xC000000 ≠ 0x4000000 := and_ne_of_sub _ _ _ _ _ hC rfl (by decide)
  have h5 : insn &&& 0xE000000 ≠ 0x8000000 := and_ne_of_sub _ _ _ _ _ hE rfl (by decide)
  have h6 : insn &&& 0xE000000 ≠ 0xA000000 := and_ne_of_sub _ _ _ _ _ hE rfl (by decide)
  have h7 : insn &&& 0xF100F10 ≠ 0xE000F10 := by rw [hop]; decide
  simp only [cpu_interpret_instruction, if_neg c1, if_neg c2, if_neg h1, if_neg h2, if_neg h3,
    if_neg h4, if_neg h5, if_neg h6]
  rw [if_neg h7, if_pos hop]

/-- decode of a coprocessor register transfer on a coprocessor other than 15 that passes the
condition check: no branch of the chain matches and the chain ends in `bad_insn` -/
theorem interpret_cp_other (body : arm_class → Nat → Cpu → Option Cpu) (insn : Nat) (s : Cpu)
    (c1 : ¬ (7 ≤ insn >>> 29 ∧ insn &&& (1 <<< 28) ≠ 0))
    (c2 : ¬ (cond_exec insn s.arm ^^^ (insn >>> 28 &&& 1) = 0))
    (hop : insn &&& 0x0F000010 = 0x0E000010) (hcp : insn >>> 8 &&& 15 ≠ 15) :
    cpu_interpret_instruction body insn s = none := by
  have hE : insn &&& 0x0E000000 = 0x0E000000 := and_sub _ _ _ _ hop rfl
  have hC : insn &&& 0x0C000000 = 0x0C000000 := and_sub _ _ _ _ hop rfl
  have hF : insn &&& 0x0F000000 = 0x0E000000 := and_sub _ _ _ _ hop rfl
  have hcp' : insn &&& 0xF00 ≠ 0xF00 := by
    rw [show (0xF00 : Nat) = 15 <<< 8 from rfl, and_shl_mask]
    intro h
    apply hcp
    have := congrArg (fun x => x >>> 8) h
    simpa [Nat.shiftLeft_shiftRight] using this
  have h1 : insn &&& 0xE000090 ≠ 0x0000090 := and_ne_of_sub _ _ _ _ _ hE rfl (by decide)
  have h2 : insn &&& 0xD900000 ≠ 0x1000000 := and_ne_of_sub _ _ _ _ _ hC rfl (by decide)
  have h3 : insn &&& 0xC000000 ≠ 0 := and_ne_of_sub _ _ _ _ _ hC rfl (by decide)
  have h4 : insn &&& 0xC000000 ≠ 0x4000000 := and_ne_of_sub _ _ _ _ _ hC rfl (by decide)
  have h5 : insn &&& 0xE000000 ≠ 0x8000000 := and_ne_of_sub _ _ _ _ _ hE rfl (by decide)
  have h6 : insn &&& 0xE000000 ≠ 0xA000000 := and_ne_of_sub _ _ _ _ _ hE rfl (by decide)
  have h7 : insn &&& 0xF100F10 ≠ 0xE000F10 := by
    intro h
    exact hcp' (and_sub _ _ _ _ h rfl)
  have h8 : insn &&& 0xF100F10 ≠ 0xE100F10 := by
    intro h
    exact hcp' (and_sub _ _ _ _ h rfl)
  have h9 : insn &&& 0xF000000 ≠ 0xF000000 := by rw [hF]; decide
  simp only [cpu_interpret_instruction, if_neg c1, if_neg c2, if_neg h1, if_neg h2, if_neg h3,
    if_neg h4, if_neg h5, if_neg h6, if_neg h7, if_neg h8, if_neg h9]

/-- Claim C17 (amended): for every coprocessor register-transfer instruction (bits 27..24 =
1110, bit 4 = 1) whose coprocessor number (bits 11..8) is not 15 and whose condition (one of
the codes 0..14) passes, `cpu_interpret_instruction` ends in `bad_insn`, the `error` that
aborts the emulator, whatever the instruction bodies are; no exception is delivered. -/
theorem coprocessor_other_than_15_is_fatal (body : arm_class → Nat → Cpu → Option Cpu)
    (insn : Nat) (s : Cpu) (hc : insn >>> 28 ≤ 14)
    (hn : s.arm.cpsr_n ≤ 1) (hz : s.arm.cpsr_z ≤ 1) (hcf : s.arm.cpsr_c ≤ 1) (hv : s.arm.cpsr_v ≤ 1)
    (hp : condition_passed (insn >>> 28) s.arm = true)
    (hop : insn &&& 0x0F000010 = 0x0E000010) (hcp : insn >>> 8 &&& 15 ≠ 15) :
    cpu_interpret_instruction body insn s = none := by
  obtain ⟨c1, c2⟩ := cond_pass insn s.arm hc hn hz hcf hv hp
  exact interpret_cp_other body insn s c1 c2 hop hcp

/-- Claim C18 (what the code does): `MRC p15, 0, r0, c0, c0, 1` (`0xEE100F30`) writes 0 to
r0, not the Cache Type value `0x1D112152`: the key `insn & 0xEF00EF` of that instruction is
`0x000020`, the case labelled TCM status, and the case `0x000010` that holds `0x1D112152`
can never match because the mask clears bit 4.  `MRC p15, 0, r0, c0, c0, 0` (`0xEE100F10`)
writes `0x41069264` and `MRC p15, 0, r0, c0, c0, 2` (`0xEE100F50`) writes 0. -/
theorem mrc_c0_c0_values (ext : arm_class → Nat → Cpu → Option Cpu) (s : Cpu) :
    cpu_interpret_instruction (arm_body ext) 0xEE100F30 s
        = some { s with arm := { s.arm with reg := set_elem s.arm.reg 0 0 } }
    ∧ cpu_interpret_instruction (arm_body ext) 0xEE100F10 s
        = some { s with arm := { s.arm with reg := set_elem s.arm.reg 0 0x41069264 } }
    ∧ cpu_interpret_instruction (arm_body ext) 0xEE100F50 s
        = some { s with arm := { s.arm with reg := set_elem s.arm.reg 0 0 } } := by
  refine ⟨?_, ?_, ?_⟩
  · obtain ⟨c1, c2⟩ := cond_al 0xEE100F30 s.arm (by decide)
    rw [interpret_mrc _ _ _ c1 c2 (by decide)]
    simp +decide [arm_body, arm_mrc_p15, mrc_p15_value]
    rfl
  · obtain ⟨c1, c2⟩ := cond_al 0xEE100F10 s.arm (by decide)
    rw [interpret_mrc _ _ _ c1 c2 (by decide)]
    simp +decide [arm_body, arm_mrc_p15, mrc_p15_value]
    rfl
  · obtain ⟨c1, c2⟩ := cond_al 0xEE100F50 s.arm (by decide)
    rw [interpret_mrc _ _ _ c1 c2 (by decide)]
    simp +decide [arm_body, arm_mrc_p15, mrc_p15_value]
    rfl

/-- Claim C19 (amended): an `MCR p15` instruction with CRn = c8 and opcode_1 = 0, a destination
register other than r15 and a passing condition returns; it calls `addr_cache_flush` (once,
changing nothing else) exactly when its key `insn & 0xEF00EF` is `0x080025`, `0x080026` or
`0x080007`, and for every other CRm / opcode_2 it changes nothing. -/
theorem mcr_c8_flushes_for_three_keys (ext : arm_class → Nat → Cpu → Option Cpu)
    (insn : Nat) (s : Cpu) (hc : insn >>> 28 ≤ 14)
    (hn : s.arm.cpsr_n ≤ 1) (hz : s.arm.cpsr_z ≤ 1) (hcf : s.arm.cpsr_c ≤ 1) (hv : s.arm.cpsr_v ≤ 1)
    (hp : condition_passed (insn >>> 28) s.arm = true)
    (hop : insn &&& 0xF100F10 = 0xE000F10) (hrd : insn >>> 12 &&& 15 ≠ 15)
    (hc8 : insn &&& 0xEF0000 = 0x080000) :
    cpu_interpret_instruction (arm_body ext) insn s
      = some (if insn &&& 0xEF00EF = 0x080025 ∨ insn &&& 0xEF00EF = 0x080026
                ∨ insn &&& 0xEF00EF = 0x080007
              then { s with addr_cache_flushes := s.addr_cache_flushes + 1 } else s) := by
  obtain ⟨c1, c2⟩ := cond_pass insn s.arm hc hn hz hcf hv hp
  rw [interpret_mcr _ _ _ c1 c2 hop]
  have k1 : insn &&& 0xEF00EF ≠ 0x010000 := and_ne_of_sub _ _ _ _ _ hc8 rfl (by decide)
  have k2 : insn &&& 0xEF00EF ≠ 0x020000 := and_ne_of_sub _ _ _ _ _ hc8 rfl (by decide)
  have k3 : insn &&& 0xEF00EF ≠ 0x030000 := and_ne_of_sub _ _ _ _ _ hc8 rfl (by decide)
  have k4 : insn &&& 0xEF00EF ≠ 0x050000 := and_ne_of_sub _ _ _ _ _ hc8 rfl (by decide)
  have k5 : insn &&& 0xEF00EF ≠ 0x050020 := and_ne_of_sub _ _ _ _ _ hc8 rfl (by decide)
  have k6 : insn &&& 0xEF00EF ≠ 0x060000 := and_ne_of_sub _ _ _ _ _ hc8 rfl (by decide)
  have k7 : insn &&& 0xEF00EF ≠ 0x070080 := and_ne_of_sub _ _ _ _ _ hc8 rfl (by decide)
  simp only [arm_body, arm_mcr_p15, get_reg, if_neg hrd, Option.some_bind, if_neg k1, if_neg k2,
    if_neg k3, if_neg k4, if_neg k5, if_neg k6, if_neg k7, addr_cache_flush]
  split_ifs <;> rfl

/-- the rotation by 0 of `get_shifted_immed` returns the word itself -/
theorem ror32_zero (x : Nat) (hx : x < 2 ^ 32) : ror32 x 0 = x := by
  unfold ror32
  apply Nat.eq_of_testBit_eq
  intro j
  simp only [Nat.testBit_mod_two_pow, Nat.testBit_or, Nat.shiftRight_zero, Nat.testBit_shiftLeft]
  by_cases hj : j < 32
  · have : ¬ (j ≥ 32 - 0) := by omega
    simp [hj, this]
  · have : x.testBit j = false := by
      cases h : x.testBit j
      · rfl
      · exact absurd (testBit_of_lt x 32 j hx h) hj
    simp [hj, this]

/-- the fields of `ADDS r1, r0, #i` (`0xE2901000 | i`) -/
theorem adds_fields (i : Nat) (hi : i < 256) :
    (0xE2901000 ||| i) >>> 28 = 14
    ∧ (0xE2901000 ||| i) &&& 0xE000090 ≠ 0x0000090
    ∧ (0xE2901000 ||| i) &&& 0xD900000 ≠ 0x1000000
    ∧ (0xE2901000 ||| i) &&& 0xC000000 = 0
    ∧ (0xE2901000 ||| i) >>> 20 &&& 1 = 1
    ∧ (0xE2901000 ||| i) >>> 21 &&& 15 = 4
    ∧ (0xE2901000 ||| i) >>> 12 &&& 15 = 1
    ∧ (0xE2901000 ||| i) >>> 16 &&& 15 = 0
    ∧ (0xE2901000 ||| i) &&& (1 <<< 25) ≠ 0
    ∧ (0xE2901000 ||| i) >>> 7 &&& 30 = 0
    ∧ (0xE2901000 ||| i) &&& 0xFF = i := by
  have hi8 : i < 2 ^ 8 := hi
  have a1 : (0xE2901000 ||| i) &&& 0x0E000000 = 0x02000000 := by
    rw [or_low_and_high _ i _ 8 hi8 (by decide)]; rfl
  refine ⟨?_, and_ne_of_sub _ _ _ _ _ a1 rfl (by decide), ?_, ?_, ?_, ?_, ?_, ?_, ?_, ?_,
    or_low_and_low _ i _ 8 hi8 (by decide) rfl⟩
  · rw [or_low_shr _ i 8 28 hi8 (by decide)]; rfl
  · rw [or_low_and_high _ i _ 8 hi8 (by decide)]; decide
  · rw [or_low_and_high _ i _ 8 hi8 (by decide)]; rfl
  · rw [or_low_shr _ i 8 20 hi8 (by decide)]; rfl
  · rw [or_low_shr _ i 8 21 hi8 (by decide)]; rfl
  · rw [or_low_shr _ i 8 12 hi8 (by decide)]; rfl
  · rw [or_low_shr _ i 8 16 hi8 (by decide)]; rfl
  · rw [or_low_and_high _ i _ 8 hi8 (by decide)]; decide
  · rw [shr_or_distrib, Nat.and_distrib_right]
    have : i >>> 7 &&& 30 = 0 := by
      have h2 : i >>> 7 < 2 := by rw [Nat.shiftRight_eq_div_pow]; omega
      generalize i >>> 7 = q at h2
      interval_cases q <;> rfl
    rw [this]; rfl

/-- decode and execution of `ADDS r1, r0, #i`: the data-processing branch runs
`add(r0, i, 0, 1)`, writes r1 and sets N and Z -/
theorem interpret_adds (ext : arm_class → Nat → Cpu → Option Cpu) (i : Nat) (s : Cpu)
    (hi : i < 256) :
    cpu_interpret_instruction (arm_body ext) (0xE2901000 ||| i) s
      = some (set_nz_flags (add (s.arm.reg 0 % 2 ^ 32) i 0 1 s).1
          (set_reg_pc 1 (add (s.arm.reg 0 % 2 ^ 32) i 0 1 s).1
            (add (s.arm.reg 0 % 2 ^ 32) i 0 1 s).2)) := by
  obtain ⟨hc, h1, h2, h3, f1, f2, f3, f4, f5, f6, f7⟩ := adds_fields i hi
  obtain ⟨c1, c2⟩ := cond_al _ s.arm hc
  have hr : ror32 i 0 = i := ror32_zero i (by omega)
  have hl : get_reg_pc 0 s = s.arm.reg 0 % 2 ^ 32 := by simp [get_reg_pc]
  simp only [cpu_interpret_instruction, if_neg c1, if_neg c2, if_neg h1, if_neg h2, h3, if_true,
    arm_body, arm_data_processing, f1, f2, f3, f4, if_pos f5, get_shifted_immed, f6, f7, hr, hl,
    Option.some_bind, data_processing_alu]
  simp +decide

/-- Claim C14: for every 32-bit value `a` of r0 and every 8-bit immediate `i`, executing
`ADDS r1, r0, #i` (`0xE2901000 | i`) returns and sets r1 = `(a + i) mod 2^32`, N = bit 31 of
the result, Z = 1 iff the result is 0, C = 1 iff `a + i >= 2^32`, V = 1 iff the sum of `a` and
`i` read as signed 32-bit integers lies outside `[-2^31, 2^31 - 1]`, and leaves every other
register and `cpsr_low28` unchanged. -/
theorem adds_immediate_result_and_flags (ext : arm_class → Nat → Cpu → Option Cpu) (i : Nat)
    (s : Cpu) (hi : i < 256) (ha : s.arm.reg 0 < 2 ^ 32) :
    ∃ s', cpu_interpret_instruction (arm_body ext) (0xE2901000 ||| i) s = some s'
      ∧ s'.arm.reg 1 = (s.arm.reg 0 + i) % 2 ^ 32
      ∧ s'.arm.cpsr_n = ((s.arm.reg 0 + i) % 2 ^ 32) >>> 31 &&& 1
      ∧ s'.arm.cpsr_z = (if (s.arm.reg 0 + i) % 2 ^ 32 = 0 then 1 else 0)
      ∧ s'.arm.cpsr_c = (if 2 ^ 32 ≤ s.arm.reg 0 + i then 1 else 0)
      ∧ s'.arm.cpsr_v
          = (if sint32 (s.arm.reg 0) + sint32 i < -(2 ^ 31)
                ∨ 2 ^ 31 - 1 < sint32 (s.arm.reg 0) + sint32 i then 1 else 0)
      ∧ (∀ j, j ≠ 1 → s'.arm.reg j = s.arm.reg j)
      ∧ s'.arm.cpsr_low28 = s.arm.cpsr_low28 := by
  refine ⟨_, interpret_adds ext i s hi, ?_⟩
  rw [Nat.mod_eq_of_lt ha]
  obtain ⟨r, c, v, -, -⟩ := add_spec (s.arm.reg 0) i 0 s ha (by omega) (by decide)
  simp only [Nat.add_zero, Int.ofNat_zero, Nat.cast_zero, add_zero] at r c v
  simp only [set_nz_flags, set_reg_pc]
  refine ⟨?_, ?_, ?_, c, v, ?_, rfl⟩
  · rw [r]; simp [set_elem]
  · rw [r, shr_and_one, Nat.shiftRight_eq_div_pow]
    omega
  · rw [r]
  · intro j hj
    simp only [set_elem, if_neg hj]
    rfl

/-- Function `set_cpsr_full` with unchanged mode bits and J clear only unpacks the flags and masks
the low word -/
theorem set_cpsr_full_same_mode (cpsr : Nat) (s : Cpu)
    (hm : cpsr &&& 0x1F = s.arm.cpsr_low28 &&& 0x1F) (hJ : cpsr &&& 0x01000000 = 0) :
    set_cpsr_full cpsr s = some (cpu_int_check
      { s with arm := { s.arm with
          cpsr_n := cpsr >>> 31 &&& 1,
          cpsr_z := cpsr >>> 30 &&& 1,
          cpsr_c := cpsr >>> 29 &&& 1,
          cpsr_v := cpsr >>> 28 &&& 1,
          cpsr_low28 := cpsr &&& 0x090000FF } }) := by
  have h1 : (cpsr ^^^ s.arm.cpsr_low28) &&& 0x1F = 0 := (mode_ne_iff _ _).2 hm
  simp only [set_cpsr_full, h1, hJ, ne_eq, not_true_eq_false, if_false,
    ite_false, Option.pure_def, Option.bind_eq_bind, Option.some_bind]

theorem swap_in_none (cpsr : Nat) (a : arm_state) (h : ¬ is_mode (cpsr &&& 0x1F)) :
    swap_in cpsr a = none := by
  unfold is_mode at h
  simp only [not_or] at h
  obtain ⟨h1, h2, h3, h4, h5, h6, h7⟩ := h
  simp only [swap_in, h1, h2, h3, h4, h5, h6, h7, or_self, if_false]

/-- with a valid current mode, `set_cpsr_full` is fatal exactly when J is set or the new
mode bits are not a valid mode -/
theorem set_cpsr_full_none_iff (cpsr : Nat) (s : Cpu) (ho : is_mode (s.arm.cpsr_low28 &&& 0x1F)) :
    set_cpsr_full cpsr s = none ↔ (cpsr &&& 0x01000000 ≠ 0 ∨ ¬ is_mode (cpsr &&& 0x1F)) := by
  constructor
  · intro hnone
    by_contra hcon
    simp only [not_or, not_not] at hcon
    obtain ⟨s', hs', -⟩ := set_cpsr_full_spec cpsr s hcon.1 ho hcon.2
    rw [hnone] at hs'
    exact Option.noConfusion hs'
  · rintro (hJ | hmode)
    · by_cases hne : (cpsr ^^^ s.arm.cpsr_low28) &&& 0x1F = 0
      · simp only [set_cpsr_full, hne, hJ, ne_eq, not_true_eq_false, not_false_eq_true, if_false,
          if_true, Option.pure_def, Option.bind_eq_bind, Option.some_bind]
      · simp only [set_cpsr_full, hne, hJ, ne_eq, not_false_eq_true, if_true,
          Option.pure_def, Option.bind_eq_bind]
        obtain ⟨a1, ha1, -⟩ := swap_out_spec s.arm ho
        rw [ha1, Option.some_bind]
        cases swap_in cpsr a1 with
        | none => rfl
        | some a2 =>
          simp only [Option.some_bind]
          split_ifs <;> rfl
    · have hne : (cpsr ^^^ s.arm.cpsr_low28) &&& 0x1F ≠ 0 := by
        intro h0
        rw [mode_ne_iff] at h0
        rw [h0] at hmode
        exact hmode ho
      obtain ⟨a1, ha1, -⟩ := swap_out_spec s.arm ho
      simp only [set_cpsr_full, hne, ne_eq, not_false_eq_true, if_true, ha1, swap_in_none _ a1 hmode,
        Option.bind_eq_bind, Option.some_bind, Option.none_bind]

/-- the word `get_cpsr` packs from the fields `set_cpsr_full(c)` stores -/
theorem cpsr_fields_pack (c : Nat) (hc : c < 2 ^ 32) :
    ((c >>> 31 &&& 1) <<< 31 ||| (c >>> 30 &&& 1) <<< 30 ||| (c >>> 29 &&& 1) <<< 29
      ||| (c >>> 28 &&& 1) <<< 28 ||| (c &&& 0x090000FF)) % 2 ^ 32 = c &&& 0xF90000FF := by
  have hl : c &&& 0x090000FF < 2 ^ 28 := lt_of_le_of_lt Nat.and_le_right (by decide)
  have b : ∀ k, c >>> k &&& 1 ≤ 1 := fun k => Nat.and_le_right
  rw [pack_eq _ _ _ _ _ (b 31) (b 30) (b 29) (b 28) hl]
  have e1 : c &&& 0xF90000FF = (c &&& 0xF0000000) ||| (c &&& 0x090000FF) := by
    rw [← Nat.and_or_distrib_left]
    rfl
  have e2 : c &&& 0xF0000000 = c - c % 2 ^ 28 := and_not32_low c 28 hc (by decide)
  have e3 : c - c % 2 ^ 28 = 2 ^ 28 * (c / 2 ^ 28) := by omega
  rw [e1, e2, e3, ← Nat.mul_add_lt_is_or hl]
  simp only [shr_and_one]
  omega

theorem testBit_false_of_ge (x k j : Nat) (hx : x < 2 ^ k) (hj : ¬ j < k) : x.testBit j = false := by
  cases h : x.testBit j
  · rfl
  · exact absurd (testBit_of_lt x k j hx h) hj

/-- composing through a mask leaves the bits outside the mask as they were -/
theorem compose_outside (v g mk : Nat) :
    ((v &&& mk) ||| (g &&& not32 mk)) &&& not32 mk = g &&& not32 mk := by
  apply Nat.eq_of_testBit_eq
  intro j
  simp only [Nat.testBit_and, Nat.testBit_or, testBit_not32]
  cases v.testBit j <;> cases g.testBit j <;> cases mk.testBit j <;> cases decide (j < 32) <;> rfl

/-- composing through a mask from which the bits `K` were taken leaves the bits `K` as they
were -/
theorem compose_keep (v g m K : Nat) (hg : g < 2 ^ 32) :
    ((v &&& (m &&& not32 K)) ||| (g &&& not32 (m &&& not32 K))) &&& K = g &&& K := by
  apply Nat.eq_of_testBit_eq
  intro j
  simp only [Nat.testBit_and, Nat.testBit_or, testBit_not32]
  by_cases hj : j < 32
  · simp only [hj, decide_True]
    cases v.testBit j <;> cases g.testBit j <;> cases m.testBit j <;> cases K.testBit j <;> rfl
  · rw [testBit_false_of_ge g 32 j hg hj]
    simp [hj]

theorem compose_lt (v g mk : Nat) (h : v < 2 ^ 32 ∨ mk < 2 ^ 32) :
    (v &&& mk) ||| (g &&& not32 mk) < 2 ^ 32 := by
  apply Nat.or_lt_two_pow
  · rcases h with h | h
    · exact lt_of_le_of_lt Nat.and_le_left h
    · exact lt_of_le_of_lt Nat.and_le_right h
  · apply lt_of_le_of_lt Nat.and_le_right
    unfold not32
    omega

theorem get_cpsr_lt (s : Cpu) : get_cpsr s < 2 ^ 32 := Nat.mod_lt _ (by decide)

/-- the packed CPSR of a well-formed state has only implemented bits -/
theorem get_cpsr_implemented (s : Cpu) (h : cpsr_wf s) : get_cpsr s &&& 0xF90000FF = get_cpsr s := by
  obtain ⟨f1, f2, f3, f4⟩ := get_cpsr_flags s h
  have f5 : get_cpsr s &&& 0x090000FF = s.arm.cpsr_low28 := by
    rw [get_cpsr_and s h _ (by decide), low28_and _ _ h.2.2.2.2]
    exact h.2.2.2.2
  have := cpsr_fields_pack (get_cpsr s) (get_cpsr_lt s)
  rw [f1, f2, f3, f4, f5] at this
  exact this.symm

theorem and_swap (a b c : Nat) : a &&& b &&& c = a &&& c &&& b := by
  rw [Nat.and_assoc, Nat.and_comm b c, ← Nat.and_assoc]

theorem not32_lt (x : Nat) : not32 x < 2 ^ 32 := by unfold not32; omega

/-- Claim C12 (amended): for every 32-bit value and every mask, `set_cpsr(value, mask)` called
in user mode (mode bits `0x10`, T clear) returns, leaves the low eight bits of CPSR and the J
bit unchanged, leaves `reg[0..15]` and all banks unchanged, and changes only CPSR bits
selected by `mask & ~0x010000FF`; in a privileged mode the new CPSR is
`(value & mask) | (old & ~mask)` restricted to the implemented bits `0xF90000FF`, and the call
is fatal iff that composed value has bit 5 (T) or bit 24 (J) set or its mode bits are not one
of the seven valid modes. -/
theorem set_cpsr_user_and_privileged (value mask : Nat) (s : Cpu) (h : well_formed s)
    (hv : value < 2 ^ 32) :
    (s.arm.cpsr_low28 &&& 0x3F = MODE_USR →
      ∃ s', set_cpsr value mask s = some s'
        ∧ get_cpsr s' &&& 0x010000FF = get_cpsr s &&& 0x010000FF
        ∧ s'.arm.reg = s.arm.reg ∧ same_banks s'.arm s.arm
        ∧ get_cpsr s' &&& not32 (mask &&& not32 0x010000FF)
            = get_cpsr s &&& not32 (mask &&& not32 0x010000FF))
    ∧ (s.arm.cpsr_low28 &&& 0x1F ≠ MODE_USR →
        (set_cpsr value mask s = none ↔
          ((value &&& mask) ||| (get_cpsr s &&& not32 mask)) &&& 0x20 ≠ 0
          ∨ ((value &&& mask) ||| (get_cpsr s &&& not32 mask)) &&& 0x01000000 ≠ 0
          ∨ ¬ is_mode (((value &&& mask) ||| (get_cpsr s &&& not32 mask)) &&& 0x1F))
        ∧ ∀ s', set_cpsr value mask s = some s' →
            get_cpsr s' = ((value &&& mask) ||| (get_cpsr s &&& not32 mask)) &&& 0xF90000FF) := by
  obtain ⟨hwf, hmode⟩ := h
  constructor
  · intro hu
    have hu0 : s.arm.cpsr_low28 &&& 0x0F = 0 := and_sub _ _ _ _ hu rfl
    have huT : s.arm.cpsr_low28 &&& 0x20 = 0 := and_sub _ _ _ _ hu rfl
    have huM : s.arm.cpsr_low28 &&& 0x1F = 0x10 := and_sub _ _ _ _ hu rfl
    generalize hc : (value &&& (mask &&& not32 0x010000FF))
        ||| (get_cpsr s &&& not32 (mask &&& not32 0x010000FF)) = c
    have hclt : c < 2 ^ 32 := by
      rw [← hc]
      exact compose_lt _ _ _ (Or.inr (lt_of_le_of_lt Nat.and_le_right (not32_lt _)))
    have hK : c &&& 0x010000FF = get_cpsr s &&& 0x010000FF := by
      rw [← hc]; exact compose_keep _ _ _ _ (get_cpsr_lt s)
    have hcT : c &&& 0x20 = 0 := by
      rw [and_sub _ _ _ _ hK rfl, Nat.and_assoc, get_cpsr_and s hwf _ (by decide)]
      exact huT
    have hcM : c &&& 0x1F = s.arm.cpsr_low28 &&& 0x1F := by
      rw [and_sub _ _ _ _ hK rfl, Nat.and_assoc, get_cpsr_and s hwf _ (by decide)]
      rfl
    have hcJ : c &&& 0x01000000 = 0 := by
      rw [and_sub _ _ _ _ hK rfl, Nat.and_assoc, get_cpsr_and s hwf _ (by decide),
        low28_and _ _ hwf.2.2.2.2]
      exact Nat.and_zero _
    have hcall : set_cpsr value mask s = set_cpsr_full c s := by
      simp only [set_cpsr, hu0, if_true, hc, hcT, ne_eq, not_true_eq_false, if_false]
    rw [hcall, set_cpsr_full_same_mode c s hcM hcJ]
    refine ⟨_, rfl, ?_, rfl, ⟨rfl, rfl, rfl, rfl, rfl, rfl, rfl, rfl, rfl, rfl, rfl, rfl, rfl⟩, ?_⟩
    · show ((c >>> 31 &&& 1) <<< 31 ||| (c >>> 30 &&& 1) <<< 30 ||| (c >>> 29 &&& 1) <<< 29
        ||| (c >>> 28 &&& 1) <<< 28 ||| (c &&& 0x090000FF)) % 2 ^ 32 &&& 0x010000FF = _
      rw [cpsr_fields_pack c hclt, Nat.and_assoc]
      exact hK
    · show ((c >>> 31 &&& 1) <<< 31 ||| (c >>> 30 &&& 1) <<< 30 ||| (c >>> 29 &&& 1) <<< 29
        ||| (c >>> 28 &&& 1) <<< 28 ||| (c &&& 0x090000FF)) % 2 ^ 32
          &&& not32 (mask &&& not32 0x010000FF) = _
      rw [cpsr_fields_pack c hclt, and_swap, ← hc, compose_outside, and_swap,
        get_cpsr_implemented s hwf]
  · intro hp
    have hp0 : ¬ s.arm.cpsr_low28 &&& 0x0F = 0 := by
      have e : s.arm.cpsr_low28 &&& 0x0F = (s.arm.cpsr_low28 &&& 0x1F) &&& 0x0F := by
        rw [Nat.and_assoc]; rfl
      rw [e]
      unfold valid_mode is_mode at hmode
      rcases hmode with h | h | h | h | h | h | h
      · exact absurd h hp
      all_goals (rw [h]; decide)
    generalize hc : (value &&& mask) ||| (get_cpsr s &&& not32 mask) = c
    have hclt : c < 2 ^ 32 := by
      rw [← hc]
      exact compose_lt _ _ _ (Or.inl hv)
    have hcall : set_cpsr value mask s = if c &&& 0x20 ≠ 0 then none else set_cpsr_full c s := by
      simp only [set_cpsr, if_neg hp0, hc]
    rw [hcall]
    constructor
    · by_cases hT : c &&& 0x20 = 0
      · simp only [hT, ne_eq, not_true_eq_false, if_false, false_or]
        exact set_cpsr_full_none_iff c s hmode
      · simp [hT]
    · intro s' hs'
      by_cases hT : c &&& 0x20 = 0
      · simp only [hT, ne_eq, not_true_eq_false, if_false] at hs'
        have hnn : ¬ (set_cpsr_full c s = none) := by rw [hs']; exact fun h => Option.noConfusion h
        rw [set_cpsr_full_none_iff c s hmode, not_or, not_not, not_not] at hnn
        obtain ⟨s'', e, l, n, z, cc, v, -⟩ := set_cpsr_full_spec c s hnn.1 hmode hnn.2
        rw [hs'] at e
        cases e
        unfold get_cpsr
        rw [l, n, z, cc, v]
        exact cpsr_fields_pack c hclt
      · simp [hT] at hs'

/-- decode of `MSR cpsr_c, #imm` for the two immediates of the mode-switch scenario -/
theorem interpret_msr_cpsr_c (ext : arm_class → Nat → Cpu → Option Cpu) (s : Cpu) :
    cpu_interpret_instruction (arm_body ext) 0xE321F010 s = set_cpsr 0x10 0xFF s
    ∧ cpu_interpret_instruction (arm_body ext) 0xE321F013 s = set_cpsr 0x13 0xFF s := by
  constructor
  · obtain ⟨c1, c2⟩ := cond_al 0xE321F010 s.arm (by decide)
    simp only [cpu_interpret_instruction, if_neg c1, if_neg c2]
    simp +decide [arm_body, arm_miscellaneous, get_shifted_immed]
    rfl
  · obtain ⟨c1, c2⟩ := cond_al 0xE321F013 s.arm (by decide)
    simp only [cpu_interpret_instruction, if_neg c1, if_neg c2]
    simp +decide [arm_body, arm_miscellaneous, get_shifted_immed]
    rfl

/-- Claim C11 (amended): for every well-formed state in SVC mode with r13 = `0x1000` and the
USR bank's r13 = 0, `MSR cpsr_c, #0x10` (`0xE321F010`) enters USR mode, makes r13 the USR
bank's r13 (0) and saves `0x1000` in the SVC bank; after r13 is then written with `0x2000`,
`MSR cpsr_c, #0x13` (`0xE321F013`) executed in USR mode changes nothing, because `set_cpsr`
takes the control field out of the mask in user mode: the processor stays in USR mode with
r13 = `0x2000` and the SVC bank still holds `0x1000`. -/
theorem msr_mode_switch_scenario (ext : arm_class → Nat → Cpu → Option Cpu) (s : Cpu)
    (h : well_formed s) (hm : s.arm.cpsr_low28 &&& 0x1F = MODE_SVC)
    (h13 : s.arm.reg 13 = 0x1000) (hu : s.arm.r13_usr 0 = 0) :
    ∃ s1, cpu_interpret_instruction (arm_body ext) 0xE321F010 s = some s1
      ∧ s1.arm.cpsr_low28 &&& 0x1F = MODE_USR
      ∧ s1.arm.reg 13 = 0
      ∧ s1.arm.r13_svc 0 = 0x1000
      ∧ ∃ s3, cpu_interpret_instruction (arm_body ext) 0xE321F013 (set_reg_pc 13 0x2000 s1)
            = some s3
          ∧ s3.arm.cpsr_low28 &&& 0x1F = MODE_USR
          ∧ s3.arm.reg 13 = 0x2000
          ∧ s3.arm.r13_svc 0 = 0x1000 := by
  obtain ⟨hwf, hmode⟩ := h
  have hp0 : ¬ s.arm.cpsr_low28 &&& 0x0F = 0 := by
    have e : s.arm.cpsr_low28 &&& 0x0F = (s.arm.cpsr_low28 &&& 0x1F) &&& 0x0F := by
      rw [Nat.and_assoc]; rfl
    rw [e, hm]; decide
  rw [(interpret_msr_cpsr_c ext s).1]
  have hcdef : (0x10 &&& 0xFF) ||| (get_cpsr s &&& not32 0xFF)
      = (get_cpsr s &&& not32 0xFF) ||| 0x10 := by
    rw [Nat.or_comm]; rfl
  generalize hc : (get_cpsr s &&& not32 0xFF) ||| 0x10 = c at hcdef
  have hcT : c &&& 0x20 = 0 := by
    rw [← hc, or_and_mask _ _ _ _ 0 0 rfl rfl]; simp
  have hcM : c &&& 0x1F = 0x10 := by
    rw [← hc, or_and_mask _ _ _ _ 0 0x10 rfl rfl]; simp
  have hcJ : c &&& 0x01000000 = 0 := by
    rw [← hc, or_and_mask _ _ _ _ 0x01000000 0 rfl rfl, get_cpsr_J s hwf]
    rfl
  have hcall : set_cpsr 0x10 0xFF s = set_cpsr_full c s := by
    simp only [set_cpsr, if_neg hp0, hcdef, hcT, ne_eq, not_true_eq_false, if_false]
  have hnm : is_mode (c &&& 0x1F) := by rw [hcM]; decide
  obtain ⟨s1, e1, l1, n1, z1, cf1, v1, -, -, r1, -, b1⟩ := set_cpsr_full_spec c s hcJ hmode hnm
  have hs1M : s1.arm.cpsr_low28 &&& 0x1F = 0x10 := by
    rw [l1, Nat.and_assoc]; exact hcM
  have hwf1 : cpsr_wf s1 := by
    refine ⟨?_, ?_, ?_, ?_, ?_⟩
    · rw [n1]; exact Nat.and_le_right
    · rw [z1]; exact Nat.and_le_right
    · rw [cf1]; exact Nat.and_le_right
    · rw [v1]; exact Nat.and_le_right
    · rw [l1]; exact low28_wf_of_J c hcJ
  refine ⟨s1, by rw [hcall, e1], hs1M, ?_, ?_, ?_⟩
  · rw [r1 13, hcM, hm]
    simp +decide [r13_bank, hu]
  · have := b1 MODE_SVC 0 (by decide)
    rw [hcM, hm] at this
    simp +decide [r13_bank] at this
    rw [this, h13]
  · generalize hs2 : set_reg_pc 13 0x2000 s1 = s2
    have a2 : s2.arm = { s1.arm with reg := set_elem s1.arm.reg 13 0x2000 } := by rw [← hs2]; rfl
    have hwf2 : cpsr_wf s2 := by
      unfold cpsr_wf
      rw [a2]
      exact hwf1
    have hl2 : s2.arm.cpsr_low28 = s1.arm.cpsr_low28 := by rw [a2]
    have hu2 : s2.arm.cpsr_low28 &&& 0x0F = 0 := by
      rw [hl2]; exact and_sub _ _ _ _ hs1M rfl
    have hT2 : s2.arm.cpsr_low28 &&& 0x20 = 0 := by
      rw [hl2, l1, Nat.and_assoc]; exact hcT
    have hmask : (0xFF : Nat) &&& not32 0x010000FF = 0 := by decide
    have hg : (0x13 &&& 0) ||| (get_cpsr s2 &&& not32 0) = get_cpsr s2 := by
      rw [Nat.and_zero, Nat.zero_or, show not32 0 = 2 ^ 32 - 1 from rfl,
        Nat.and_pow_two_sub_one_eq_mod, Nat.mod_eq_of_lt (get_cpsr_lt s2)]
    have hgT : get_cpsr s2 &&& 0x20 = 0 := by
      rw [get_cpsr_and s2 hwf2 _ (by decide)]; exact hT2
    have hcall2 : set_cpsr 0x13 0xFF s2 = set_cpsr_full (get_cpsr s2) s2 := by
      simp only [set_cpsr, hu2, if_true, hmask, hg, hgT, ne_eq, not_true_eq_false, if_false]
    rw [(interpret_msr_cpsr_c ext s2).2, hcall2,
      set_cpsr_full_same_mode _ s2 (get_cpsr_mode s2 hwf2) (get_cpsr_J s2 hwf2)]
    refine ⟨_, rfl, ?_, ?_, ?_⟩
    · show (get_cpsr s2 &&& 0x090000FF) &&& 0x1F = _
      rw [Nat.and_assoc, show (0x090000FF : Nat) &&& 0x1F = 0x1F from rfl,
        get_cpsr_mode s2 hwf2, hl2]
      exact hs1M
    · show s2.arm.reg 13 = _
      rw [a2]; rfl
    · show s2.arm.r13_svc 0 = _
      rw [a2]
      have := b1 MODE_SVC 0 (by decide)
      rw [hcM, hm] at this
      simp +decide [r13_bank] at this
      show s1.arm.r13_svc 0 = _
      rw [this, h13]

theorem testBit_FF (j : Nat) : (0xFF : Nat).testBit j = decide (j < 8) :=
  Nat.testBit_two_pow_sub_one 8 j

theorem testBit_FFFF (j : Nat) : (0xFFFF : Nat).testBit j = decide (j < 16) :=
  Nat.testBit_two_pow_sub_one 16 j

/-- two row address bytes written over any previous row of a 65536-page chip -/
theorem row_two_bytes (x r0 r1 : Nat) (h0 : r0 < 256) (h1 : r1 < 256) :
    ((((x &&& not32 (0xFF <<< 0) ||| r0 <<< 0) % 2 ^ 32 &&& 0xFFFF) &&& not32 (0xFF <<< 8)
        ||| r1 <<< 8) % 2 ^ 32) &&& 0xFFFF = r0 ||| r1 <<< 8 := by
  apply Nat.eq_of_testBit_eq
  intro j
  simp only [Nat.testBit_and, Nat.testBit_or, Nat.testBit_mod_two_pow, testBit_not32,
    Nat.testBit_shiftLeft, testBit_FF, testBit_FFFF, Nat.shiftLeft_zero, Nat.sub_zero]
  by_cases a : j < 8
  · have a1 : j < 16 := by omega
    have a2 : j < 32 := by omega
    have a3 : ¬ j ≥ 8 := by omega
    simp [a, a1, a2, a3]
  · have b0 : r0.testBit j = false := testBit_false_of_ge r0 8 j h0 a
    by_cases b : j < 16
    · have a2 : j < 32 := by omega
      have a3 : j ≥ 8 := by omega
      have a4 : j - 8 < 8 := by omega
      simp [a, b, a2, a3, a4, b0]
    · have b1 : r1.testBit (j - 8) = false := testBit_false_of_ge r1 8 (j - 8) h1 (by omega)
      simp [a, b, b0, b1]

/-- In state READ, `n` reads inside the page return the bytes at the column and advance it -/
theorem nand_read_bytes_spec (d : Nand) (hs : d.nand_state = 0x00)
    (hb : d.nand_row * d.metrics.page_size + d.metrics.page_size ≤ 2 ^ 32)
    (hp : d.metrics.page_size < 2 ^ 32) :
    ∀ n, d.nand_column + n ≤ d.metrics.page_size →
      nand_read_bytes n d
        = ((List.range n).map
              (fun i => d.nand_data (d.nand_row * d.metrics.page_size + d.nand_column + i)),
            { d with nand_column := d.nand_column + n }) := by
  intro n
  induction n with
  | zero => intro _; rfl
  | succ n ih =>
    intro hn
    have ihn := ih (by omega)
    have e : nand_read_bytes (n + 1) d
        = ((nand_read_bytes n d).1 ++ [(nand_read_data_byte (nand_read_bytes n d).2).1],
            (nand_read_data_byte (nand_read_bytes n d).2).2) := rfl
    have hlt : ¬ d.nand_column + n ≥ d.metrics.page_size := by omega
    have m1 : (d.nand_row * d.metrics.page_size + (d.nand_column + n)) % 2 ^ 32
        = d.nand_row * d.metrics.page_size + d.nand_column + n := by
      rw [Nat.mod_eq_of_lt (by omega)]; omega
    have m2 : (d.nand_column + n + 1) % 2 ^ 32 = d.nand_column + (n + 1) := by
      rw [Nat.mod_eq_of_lt (by omega)]; omega
    rw [e, ihn]
    simp only [nand_read_data_byte, hs, if_true, hlt, if_false, m1, m2, List.range_succ,
      List.map_append, List.map_cons, List.map_nil]

theorem nand_read_past_page (d : Nand) (hs : d.nand_state = 0x00)
    (hc : d.nand_column ≥ d.metrics.page_size) : nand_read_data_byte d = (0, d) := by
  simp only [nand_read_data_byte, hs, if_true, hc]

/-- the device after command `0x00` and three address bytes on the small-page chip -/
theorem nand_read_setup (d : Nand) (c r0 r1 : Nat) (hm : d.metrics = chips false)
    (h0 : r0 < 256) (h1 : r1 < 256) :
    ∃ d1, nand_write_command_byte 0x00 d = some d1
      ∧ nand_write_address_byte r1 (nand_write_address_byte r0 (nand_write_address_byte c d1))
        = { d with
            nand_area_pointer := 0, nand_addr_state := 4, nand_state := 0x00,
            nand_column := c, nand_row := r0 ||| r1 <<< 8 } := by
  have hps : d.metrics.page_size = 0x210 := by rw [hm]; rfl
  have hnp : d.metrics.num_pages = 0x10000 := by rw [hm]; rfl
  have e1 : nand_write_command_byte 0x00 d
      = some { d with nand_area_pointer := 0, nand_addr_state := 0, nand_state := 0x00 } := by
    simp +decide [nand_write_command_byte, hps]
  refine ⟨_, e1, ?_⟩
  have e2 : nand_write_address_byte c
      { d with nand_area_pointer := 0, nand_addr_state := 0, nand_state := 0x00 }
      = { d with nand_area_pointer := 0, nand_addr_state := 2, nand_state := 0x00,
                 nand_column := c } := by
    have hcol : (0 <<< 8 &&& not32 0xFF) ||| c = c := by
      rw [show (0 <<< 8 &&& not32 0xFF : Nat) = 0 from rfl, Nat.zero_or]
    simp +decide [nand_write_address_byte, hps, hcol]
  have e3 : nand_write_address_byte r0
      { d with nand_area_pointer := 0, nand_addr_state := 2, nand_state := 0x00,
               nand_column := c }
      = { d with nand_area_pointer := 0, nand_addr_state := 3, nand_state := 0x00,
                 nand_column := c,
                 nand_row := (d.nand_row &&& not32 (0xFF <<< 0) ||| r0 <<< 0) % 2 ^ 32 &&& 0xFFFF } := by
    simp +decide [nand_write_address_byte, hnp]
  have e4 : nand_write_address_byte r1
      { d with nand_area_pointer := 0, nand_addr_state := 3, nand_state := 0x00,
               nand_column := c,
               nand_row := (d.nand_row &&& not32 (0xFF <<< 0) ||| r0 <<< 0) % 2 ^ 32 &&& 0xFFFF }
      = { d with nand_area_pointer := 0, nand_addr_state := 4, nand_state := 0x00,
                 nand_column := c,
                 nand_row := ((((d.nand_row &&& not32 (0xFF <<< 0) ||| r0 <<< 0) % 2 ^ 32 &&& 0xFFFF)
                    &&& not32 (0xFF <<< 8) ||| r1 <<< 8) % 2 ^ 32) &&& 0xFFFF } := by
    simp +decide [nand_write_address_byte, hnp]
  rw [e2, e3, e4, row_two_bytes _ r0 r1 h0 h1]

theorem row_bytes_lt (r0 r1 : Nat) (h0 : r0 < 256) (h1 : r1 < 256) : r0 ||| r1 <<< 8 < 2 ^ 16 := by
  apply Nat.or_lt_two_pow (by omega)
  rw [Nat.shiftLeft_eq]
  omega

/-- Claim C15: on the small-page chip (page size `0x210`), from any device state, command
`0x00` returns and after the three address bytes `c`, `r0`, `r1` the column is `c` and the row
is `r0 | (r1 << 8)`; then for every `n` with `c + n <= 0x210`, `n` successive
`nand_read_data_byte` calls return `data[row * 0x210 + c + i]` for `i = 0..n-1` and leave
`nand_column = c + n`, and a read at the end of the page returns 0 and leaves the device as
it is. -/
theorem nand_small_page_read_sequence (d : Nand) (c r0 r1 : Nat) (hm : d.metrics = chips false)
    (hc : c < 256) (h0 : r0 < 256) (h1 : r1 < 256) :
    ∃ d1 d2, nand_write_command_byte 0x00 d = some d1
      ∧ nand_write_address_byte r1 (nand_write_address_byte r0 (nand_write_address_byte c d1)) = d2
      ∧ d2.nand_column = c ∧ d2.nand_row = r0 ||| r1 <<< 8
      ∧ (∀ n, c + n ≤ 0x210 →
          (nand_read_bytes n d2).1
            = (List.range n).map (fun i => d.nand_data ((r0 ||| r1 <<< 8) * 0x210 + c + i))
          ∧ (nand_read_bytes n d2).2.nand_column = c + n)
      ∧ nand_read_data_byte (nand_read_bytes (0x210 - c) d2).2
          = (0, (nand_read_bytes (0x210 - c) d2).2) := by
  obtain ⟨d1, e1, e2⟩ := nand_read_setup d c r0 r1 hm h0 h1
  refine ⟨d1, _, e1, e2, rfl, rfl, ?_⟩
  generalize hd2 : ({ d with
      nand_area_pointer := 0, nand_addr_state := 4, nand_state := 0x00,
      nand_column := c, nand_row := r0 ||| r1 <<< 8 } : Nand) = d2
  have hs : d2.nand_state = 0x00 := by rw [← hd2]
  have hps : d2.metrics.page_size = 0x210 := by rw [← hd2]; show d.metrics.page_size = _; rw [hm]; rfl
  have hcol : d2.nand_column = c := by rw [← hd2]
  have hrow : d2.nand_row = r0 ||| r1 <<< 8 := by rw [← hd2]
  have hdat : d2.nand_data = d.nand_data := by rw [← hd2]
  have hlt := row_bytes_lt r0 r1 h0 h1
  have hb : d2.nand_row * d2.metrics.page_size + d2.metrics.page_size ≤ 2 ^ 32 := by
    rw [hps, hrow]; omega
  have spec := nand_read_bytes_spec d2 hs hb (by rw [hps]; decide)
  rw [hps, hcol, hrow, hdat] at spec
  constructor
  · intro n hn
    rw [spec n hn]
    exact ⟨rfl, rfl⟩
  · rw [spec (0x210 - c) (by omega)]
    apply nand_read_past_page
    · exact hs
    · show c + (0x210 - c) ≥ d2.metrics.page_size
      rw [hps]; omega

/-- The `n` data bytes written in state PROGRAM at column 0 into an empty page buffer -/
theorem nand_write_bytes_spec (b : Nat → Nat) (d : Nand) (hs : d.nand_state = 0x80)
    (hcol : d.nand_column = 0) (hpos : d.nand_buffer_pos = 0)
    (hp : d.metrics.page_size ≤ 2 ^ 32) :
    ∀ n, n ≤ d.metrics.page_size →
      nand_write_bytes b n d
        = { d with
            nand_buffer := fun i => if i < n then b i else d.nand_buffer i,
            nand_buffer_pos := n } := by
  intro n
  induction n with
  | zero =>
    intro _
    show d = _
    cases d
    simp only [Nat.not_lt_zero, if_false] at *
    simp [hpos]
  | succ n ih =>
    intro hn
    have e : nand_write_bytes b (n + 1) d = nand_write_data_byte (b n) (nand_write_bytes b n d) :=
      rfl
    have hlt : ¬ (n + 0) % 2 ^ 32 ≥ d.metrics.page_size := by
      rw [Nat.add_zero, Nat.mod_eq_of_lt (by omega)]; omega
    rw [e, ih (by omega)]
    simp only [nand_write_data_byte, hs, if_true, hcol, hlt, if_false]
    congr 1
    funext i
    simp only [set_elem]
    by_cases h1 : i = n
    · simp [h1]
    · by_cases h2 : i < n
      · have : i < n + 1 := by omega
        simp [h1, h2, this]
      · have : ¬ i < n + 1 := by omega
        simp [h1, h2, this]

/-- five zero address bytes after command `0x80` on the large-page chip -/
theorem nand_program_setup_large (d : Nand) (hm : d.metrics = chips true) :
    nand_write_address_bytes (fun _ => 0) 5
        { d with nand_buffer_pos := 0, nand_addr_state := 0, nand_state := 0x80 }
      = { d with nand_buffer_pos := 0, nand_addr_state := 5, nand_state := 0x80,
                 nand_column := 0, nand_row := 0 } := by
  have hps : d.metrics.page_size = 0x840 := by rw [hm]; rfl
  have hnp : d.metrics.num_pages = 0x10000 := by rw [hm]; rfl
  have e1 : nand_write_address_byte 0
      { d with nand_buffer_pos := 0, nand_addr_state := 0, nand_state := 0x80 }
      = { d with nand_buffer_pos := 0, nand_addr_state := 1, nand_state := 0x80,
                 nand_column := (d.nand_column &&& not32 0xFF) ||| 0 } := by
    simp +decide [nand_write_address_byte, hps]
  have e2 : nand_write_address_byte 0
      { d with nand_buffer_pos := 0, nand_addr_state := 1, nand_state := 0x80,
               nand_column := (d.nand_column &&& not32 0xFF) ||| 0 }
      = { d with nand_buffer_pos := 0, nand_addr_state := 2, nand_state := 0x80,
                 nand_column := 0 } := by
    have hcol : ((d.nand_column &&& not32 0xFF) ||| 0) &&& 0xFF ||| 0 <<< 8 = 0 := by
      rw [or_and_mask _ _ _ _ 0 0 rfl rfl]; simp
    simp +decide only [nand_write_address_byte, hcol]
    simp +decide
  have e3 : nand_write_address_byte 0
      { d with nand_buffer_pos := 0, nand_addr_state := 2, nand_state := 0x80,
               nand_column := 0 }
      = { d with nand_buffer_pos := 0, nand_addr_state := 3, nand_state := 0x80,
                 nand_column := 0,
                 nand_row := (d.nand_row &&& not32 (0xFF <<< 0) ||| 0 <<< 0) % 2 ^ 32 &&& 0xFFFF } := by
    simp +decide [nand_write_address_byte, hnp]
  have e4 : nand_write_address_byte 0
      { d with nand_buffer_pos := 0, nand_addr_state := 3, nand_state := 0x80,
               nand_column := 0,
               nand_row := (d.nand_row &&& not32 (0xFF <<< 0) ||| 0 <<< 0) % 2 ^ 32 &&& 0xFFFF }
      = { d with nand_buffer_pos := 0, nand_addr_state := 4, nand_state := 0x80,
                 nand_column := 0,
                 nand_row := ((((d.nand_row &&& not32 (0xFF <<< 0) ||| 0 <<< 0) % 2 ^ 32 &&& 0xFFFF)
                    &&& not32 (0xFF <<< 8) ||| 0 <<< 8) % 2 ^ 32) &&& 0xFFFF } := by
    simp +decide [nand_write_address_byte, hnp]
  have e5 : nand_write_address_byte 0
      { d with nand_buffer_pos := 0, nand_addr_state := 4, nand_state := 0x80,
               nand_column := 0, nand_row := 0 ||| 0 <<< 8 }
      = { d with nand_buffer_pos := 0, nand_addr_state := 5, nand_state := 0x80,
                 nand_column := 0, nand_row := 0 } := by
    simp +decide [nand_write_address_byte, hnp]
  simp only [nand_write_address_bytes]
  rw [e1, e2, e3, e4, row_two_bytes _ 0 0 (by decide) (by decide), e5]

/-- five zero address bytes after command `0x80` on the small-page chip with area pointer 0 -/
theorem nand_program_setup_small (d : Nand) (hm : d.metrics = chips false)
    (hap : d.nand_area_pointer = 0) :
    nand_write_address_bytes (fun _ => 0) 5
        { d with nand_buffer_pos := 0, nand_addr_state := 0, nand_state := 0x80 }
      = { d with nand_buffer_pos := 0, nand_addr_state := 6, nand_state := 0x80,
                 nand_column := 0, nand_row := 0 } := by
  have hps : d.metrics.page_size = 0x210 := by rw [hm]; rfl
  have hnp : d.metrics.num_pages = 0x10000 := by rw [hm]; rfl
  have e1 : nand_write_address_byte 0
      { d with nand_buffer_pos := 0, nand_addr_state := 0, nand_state := 0x80 }
      = { d with nand_buffer_pos := 0, nand_addr_state := 2, nand_state := 0x80,
                 nand_column := 0 } := by
    simp +decide [nand_write_address_byte, hps, hap]
  have e3 : nand_write_address_byte 0
      { d with nand_buffer_pos := 0, nand_addr_state := 2, nand_state := 0x80,
               nand_column := 0 }
      = { d with nand_buffer_pos := 0, nand_addr_state := 3, nand_state := 0x80,
                 nand_column := 0,
                 nand_row := (d.nand_row &&& not32 (0xFF <<< 0) ||| 0 <<< 0) % 2 ^ 32 &&& 0xFFFF } := by
    simp +decide [nand_write_address_byte, hnp]
  have e4 : nand_write_address_byte 0
      { d with nand_buffer_pos := 0, nand_addr_state := 3, nand_state := 0x80,
               nand_column := 0,
               nand_row := (d.nand_row &&& not32 (0xFF <<< 0) ||| 0 <<< 0) % 2 ^ 32 &&& 0xFFFF }
      = { d with nand_buffer_pos := 0, nand_addr_state := 4, nand_state := 0x80,
                 nand_column := 0,
                 nand_row := ((((d.nand_row &&& not32 (0xFF <<< 0) ||| 0 <<< 0) % 2 ^ 32 &&& 0xFFFF)
                    &&& not32 (0xFF <<< 8) ||| 0 <<< 8) % 2 ^ 32) &&& 0xFFFF } := by
    simp +decide [nand_write_address_byte, hnp]
  have e5 : nand_write_address_byte 0
      { d with nand_buffer_pos := 0, nand_addr_state := 4, nand_state := 0x80,
               nand_column := 0, nand_row := 0 ||| 0 <<< 8 }
      = { d with nand_buffer_pos := 0, nand_addr_state := 5, nand_state := 0x80,
                 nand_column := 0, nand_row := 0 } := by
    simp +decide [nand_write_address_byte, hnp]
  have e6 : nand_write_address_byte 0
      { d with nand_buffer_pos := 0, nand_addr_state := 5, nand_state := 0x80,
               nand_column := 0, nand_row := 0 }
      = { d with nand_buffer_pos := 0, nand_addr_state := 6, nand_state := 0x80,
                 nand_column := 0, nand_row := 0 } := by
    simp +decide [nand_write_address_byte, hnp]
  simp only [nand_write_address_bytes]
  rw [e1, e3, e4, row_two_bytes _ 0 0 (by decide) (by decide), e5, e6]

/-- The 512 data bytes and the confirm command `0x10` from state PROGRAM at row 0, column 0 -/
theorem nand_program_confirm (b : Nat → Nat) (E : Nand) (hs : E.nand_state = 0x80)
    (hcol : E.nand_column = 0) (hrow : E.nand_row = 0) (hpos : E.nand_buffer_pos = 0)
    (hw : E.nand_writable = true) (hp : 512 ≤ E.metrics.page_size)
    (hp2 : E.metrics.page_size ≤ 2 ^ 32) :
    ∃ d3, nand_write_command_byte 0x10 (nand_write_bytes b 512 E) = some d3
      ∧ (∀ i, i < 512 → d3.nand_data i = E.nand_data i &&& b i)
      ∧ (∀ i, 512 ≤ i → d3.nand_data i = E.nand_data i)
      ∧ d3.nand_block_modified 0 = true
      ∧ d3.nand_state = 0xFF := by
  rw [nand_write_bytes_spec b E hs hcol hpos hp2 512 hp]
  have e : nand_write_command_byte 0x10
      { E with nand_buffer := fun i => if i < 512 then b i else E.nand_buffer i,
               nand_buffer_pos := 512 }
      = some { E with
          nand_buffer := fun i => if i < 512 then b i else E.nand_buffer i,
          nand_buffer_pos := 512,
          nand_data := and_bytes E.nand_data 0
            (fun i => if i < 512 then b i else E.nand_buffer i) 512,
          nand_block_modified := fun k =>
            if k = 0 >>> E.metrics.log2_pages_per_block then true else E.nand_block_modified k,
          nand_state := 0xFF } := by
    simp +decide [nand_write_command_byte, hs, hw, hrow, hcol]
  refine ⟨_, e, ?_, ?_, ?_, rfl⟩
  · intro i hi
    simp [and_bytes, hi]
  · intro i hi
    have : ¬ i < 512 := by omega
    simp [and_bytes, this]
  · show (if 0 = 0 >>> E.metrics.log2_pages_per_block then true else E.nand_block_modified 0) = true
    simp

/-- Claim C16 (amended): on a writable chip of either variant, and on the small-page chip only
when the area pointer is 0, the sequence command `0x80`, five address bytes 0, 512 data-byte
writes `b 0 .. b 511`, command `0x10` returns, leaves byte `i` of page 0 equal to its previous
value AND `b i` for every `i < 512`, leaves every other byte of `nand_data` unchanged, sets
`nand_block_modified[0]` and returns `nand_state` to IDLE (`0xFF`); if page 0 was erased and
the `b i` are bytes, its first 512 bytes equal `b 0 .. b 511`. -/
theorem nand_program_sequence (d : Nand) (large : Bool) (b : Nat → Nat)
    (hm : d.metrics = chips large) (hw : d.nand_writable = true)
    (hap : large = false → d.nand_area_pointer = 0) :
    ∃ d1 d3, nand_write_command_byte 0x80 d = some d1
      ∧ nand_write_command_byte 0x10
          (nand_write_bytes b 512 (nand_write_address_bytes (fun _ => 0) 5 d1)) = some d3
      ∧ (∀ i, i < 512 → d3.nand_data i = d.nand_data i &&& b i)
      ∧ (∀ i, 512 ≤ i → d3.nand_data i = d.nand_data i)
      ∧ d3.nand_block_modified 0 = true
      ∧ d3.nand_state = 0xFF
      ∧ ((∀ i, i < d.metrics.page_size → d.nand_data i = 0xFF) → (∀ i, i < 512 → b i < 256) →
          ∀ i, i < 512 → d3.nand_data i = b i) := by
  have e1 : nand_write_command_byte 0x80 d
      = some { d with nand_buffer_pos := 0, nand_addr_state := 0, nand_state := 0x80 } := by
    simp +decide [nand_write_command_byte]
  have main : ∀ E : Nand, E.nand_state = 0x80 → E.nand_column = 0 → E.nand_row = 0 →
      E.nand_buffer_pos = 0 → E.nand_writable = d.nand_writable → E.metrics = d.metrics →
      E.nand_data = d.nand_data →
      ∃ d3, nand_write_command_byte 0x10 (nand_write_bytes b 512 E) = some d3
        ∧ (∀ i, i < 512 → d3.nand_data i = d.nand_data i &&& b i)
        ∧ (∀ i, 512 ≤ i → d3.nand_data i = d.nand_data i)
        ∧ d3.nand_block_modified 0 = true
        ∧ d3.nand_state = 0xFF
        ∧ ((∀ i, i < d.metrics.page_size → d.nand_data i = 0xFF) → (∀ i, i < 512 → b i < 256) →
            ∀ i, i < 512 → d3.nand_data i = b i) := by
    intro E hs hcol hrow hpos hEw hEm hEd
    have hps : 512 ≤ d.metrics.page_size ∧ d.metrics.page_size ≤ 2 ^ 32 := by
      rw [hm]; cases large <;> decide
    obtain ⟨d3, e, p1, p2, p3, p4⟩ := nand_program_confirm b E hs hcol hrow hpos
      (by rw [hEw, hw]) (by rw [hEm]; exact hps.1) (by rw [hEm]; exact hps.2)
    rw [hEd] at p1 p2
    refine ⟨d3, e, p1, p2, p3, p4, ?_⟩
    intro her hb i hi
    rw [p1 i hi, her i (by omega)]
    have := hb i hi
    rw [show (0xFF : Nat) = 2 ^ 8 - 1 from rfl, Nat.and_comm, Nat.and_pow_two_sub_one_eq_mod]
    exact Nat.mod_eq_of_lt this
  have key : ∃ d3, nand_write_command_byte 0x10 (nand_write_bytes b 512
        (nand_write_address_bytes (fun _ => 0) 5
          { d with nand_buffer_pos := 0, nand_addr_state := 0, nand_state := 0x80 })) = some d3
      ∧ (∀ i, i < 512 → d3.nand_data i = d.nand_data i &&& b i)
      ∧ (∀ i, 512 ≤ i → d3.nand_data i = d.nand_data i)
      ∧ d3.nand_block_modified 0 = true
      ∧ d3.nand_state = 0xFF
      ∧ ((∀ i, i < d.metrics.page_size → d.nand_data i = 0xFF) → (∀ i, i < 512 → b i < 256) →
          ∀ i, i < 512 → d3.nand_data i = b i) := by
    cases large with
    | true =>
      rw [nand_program_setup_large d hm]
      exact main _ rfl rfl rfl rfl rfl rfl rfl
    | false =>
      rw [nand_program_setup_small d hm (hap rfl)]
      exact main _ rfl rfl rfl rfl rfl rfl rfl
  obtain ⟨d3, h⟩ := key
  exact ⟨_, d3, e1, h⟩

/-- on a writable device no command is fatal, and the device stays writable -/
theorem nand_command_writable (c : Nat) (d : Nand) (hw : d.nand_writable = true) :
    ∃ d', nand_write_command_byte c d = some d' ∧ d'.nand_writable = true := by
  have nw : ¬ ¬ d.nand_writable = true := fun h => h hw
  unfold nand_write_command_byte
  by_cases h1 : (c = 0x01 ∨ c = 0x50) ∧ 0x800 ≤ d.metrics.page_size
  · rw [if_pos h1]; exact ⟨_, rfl, hw⟩
  rw [if_neg h1]
  by_cases h2 : c = 0x01 ∨ c = 0x50 ∨ c = 0x00
  · rw [if_pos h2]; exact ⟨_, rfl, hw⟩
  rw [if_neg h2]
  by_cases h3 : c = 0x10
  · rw [if_pos h3]
    by_cases h4 : d.nand_state = 0x80
    · rw [if_pos h4, if_neg nw]; exact ⟨_, rfl, hw⟩
    · rw [if_neg h4]; exact ⟨_, rfl, hw⟩
  rw [if_neg h3]
  by_cases h5 : c = 0x30
  · rw [if_pos h5]; exact ⟨_, rfl, hw⟩
  rw [if_neg h5]
  by_cases h6 : c = 0x60
  · rw [if_pos h6]; exact ⟨_, rfl, hw⟩
  rw [if_neg h6]
  by_cases h7 : c = 0x80
  · rw [if_pos h7]; exact ⟨_, rfl, hw⟩
  rw [if_neg h7]
  by_cases h8 : c = 0xD0
  · rw [if_pos h8]
    by_cases h9 : d.nand_state = 0x60
    · rw [if_pos h9]
      simp only [if_neg nw]
      exact ⟨_, rfl, hw⟩
    · rw [if_neg h9]; exact ⟨_, rfl, hw⟩
  rw [if_neg h8]
  by_cases h10 : c = 0xFF
  · rw [if_pos h10]; exact ⟨_, rfl, hw⟩
  rw [if_neg h10]
  by_cases h11 : c = 0x70 ∨ c = 0x90
  · rw [if_pos h11]; exact ⟨_, rfl, hw⟩
  · rw [if_neg h11]; exact ⟨_, rfl, hw⟩

theorem nand_address_byte_writable (b : Nat) (d : Nand) :
    (nand_write_address_byte b d).nand_writable = d.nand_writable := by
  simp only [nand_write_address_byte]
  split_ifs <;> rfl

theorem nand_address_bytes_writable (a : Nat → Nat) (n : Nat) (d : Nand) :
    (nand_write_address_bytes a n d).nand_writable = d.nand_writable := by
  induction n with
  | zero => rfl
  | succ n ih =>
    show (nand_write_address_byte (a n) (nand_write_address_bytes a n d)).nand_writable = _
    rw [nand_address_byte_writable, ih]

theorem nand_write_data_writable (v : Nat) (d : Nand) :
    (nand_write_data_byte v d).nand_writable = d.nand_writable := by
  simp only [nand_write_data_byte]
  split_ifs <;> rfl

theorem nand_read_data_writable (d : Nand) :
    (nand_read_data_byte d).2.nand_writable = d.nand_writable := by
  simp only [nand_read_data_byte]
  split_ifs <;> rfl

/-- the write loop calls `nand_write_data_byte` once per byte -/
theorem phx_write_loop_spec (p n : Nat) (w : Phx) :
    (phx_write_loop p n w).data_byte_writes = w.data_byte_writes + n
    ∧ (phx_write_loop p n w).data_byte_reads = w.data_byte_reads
    ∧ (phx_write_loop p n w).nand.nand_writable = w.nand.nand_writable
    ∧ (phx_write_loop p n w).nand_phx = w.nand_phx := by
  induction n with
  | zero => exact ⟨rfl, rfl, rfl, rfl⟩
  | succ n ih =>
    obtain ⟨h1, h2, h3, h4⟩ := ih
    refine ⟨?_, h2, ?_, h4⟩
    · show (phx_write_loop p n w).data_byte_writes + 1 = _
      rw [h1]; omega
    · show (nand_write_data_byte _ (phx_write_loop p n w).nand).nand_writable = _
      rw [nand_write_data_writable, h3]

/-- the read loop calls `nand_read_data_byte` once per byte -/
theorem phx_read_loop_spec (p n : Nat) (w : Phx) :
    (phx_read_loop p n w).data_byte_writes = w.data_byte_writes
    ∧ (phx_read_loop p n w).data_byte_reads = w.data_byte_reads + n
    ∧ (phx_read_loop p n w).nand.nand_writable = w.nand.nand_writable
    ∧ (phx_read_loop p n w).nand_phx = w.nand_phx := by
  induction n with
  | zero => exact ⟨rfl, rfl, rfl, rfl⟩
  | succ n ih =>
    obtain ⟨h1, h2, h3, h4⟩ := ih
    refine ⟨h1, ?_, ?_, h4⟩
    · show (phx_read_loop p n w).data_byte_reads + 1 = _
      rw [h2]; omega
    · show (nand_read_data_byte (phx_read_loop p n w).nand).2.nand_writable = _
      rw [nand_read_data_writable, h3]

/-- data bytes written in state PROGRAM into an empty page buffer: the bytes that fit between
the column and the end of the page are stored, the rest is dropped -/
theorem nand_write_bytes_clip (b : Nat → Nat) (d : Nand) (hs : d.nand_state = 0x80)
    (hpos : d.nand_buffer_pos = 0) (hc : d.nand_column ≤ d.metrics.page_size)
    (hp : d.metrics.page_size < 2 ^ 32) :
    ∀ n, nand_write_bytes b n d
        = { d with
            nand_buffer := fun i =>
              if i < min n (d.metrics.page_size - d.nand_column) then b i else d.nand_buffer i,
            nand_buffer_pos := min n (d.metrics.page_size - d.nand_column) } := by
  intro n
  induction n with
  | zero =>
    show d = _
    cases d
    simp only [Nat.zero_min, Nat.not_lt_zero, if_false] at *
    simp [hpos]
  | succ n ih =>
    have e : nand_write_bytes b (n + 1) d = nand_write_data_byte (b n) (nand_write_bytes b n d) :=
      rfl
    rw [e, ih]
    by_cases hn : n < d.metrics.page_size - d.nand_column
    · have m1 : min n (d.metrics.page_size - d.nand_column) = n := by omega
      have m2 : min (n + 1) (d.metrics.page_size - d.nand_column) = n + 1 := by omega
      have hlt : ¬ (n + d.nand_column) % 2 ^ 32 ≥ d.metrics.page_size := by
        rw [Nat.mod_eq_of_lt (by omega)]; omega
      rw [m1, m2]
      simp only [nand_write_data_byte, hs, if_true, hlt, if_false]
      congr 1
      funext i
      simp only [set_elem]
      by_cases h1 : i = n
      · simp [h1]
      · by_cases h2 : i < n
        · have : i < n + 1 := by omega
          simp [h1, h2, this]
        · have : ¬ i < n + 1 := by omega
          simp [h1, h2, this]
    · have m1 : min n (d.metrics.page_size - d.nand_column)
          = d.metrics.page_size - d.nand_column := by omega
      have m2 : min (n + 1) (d.metrics.page_size - d.nand_column)
          = d.metrics.page_size - d.nand_column := by omega
      have hge : (d.metrics.page_size - d.nand_column + d.nand_column) % 2 ^ 32
          ≥ d.metrics.page_size := by
        rw [Nat.mod_eq_of_lt (by omega)]; omega
      rw [m1, m2]
      simp only [nand_write_data_byte, hs, if_true, hge]

/-! ## Bank switching, shifter, subtraction, block transfers, the CX controller and the flash image -/

/-- Claim C24: for every pair of distinct valid modes, `set_cpsr_full` to a CPSR with the new
mode (J clear) returns; afterwards the bank of the old mode holds the r13/r14 that were
active (USR and SYS share one bank) and the FIQ bank, if the old mode is FIQ, and the USR
bank otherwise hold the r8..r12 that were active; the active r13/r14 and r8..r12 equal the
banks of the new mode, which are the old active values when the two modes share the bank and
the previous content of the bank otherwise; r0..r7 and r15 are unchanged, r8..r12 are
unchanged when neither mode is FIQ, and a switch between USR and SYS changes no general
register. -/
theorem mode_switch_moves_banks (cpsr : Nat) (s : Cpu)
    (ho : is_mode (s.arm.cpsr_low28 &&& 0x1F)) (hn : is_mode (cpsr &&& 0x1F))
    (hne : cpsr &&& 0x1F ≠ s.arm.cpsr_low28 &&& 0x1F) (hJ : cpsr &&& 0x01000000 = 0) :
    ∃ s', set_cpsr_full cpsr s = some s'
      ∧ (∀ j, j < 2 → r13_bank (s.arm.cpsr_low28 &&& 0x1F) s'.arm j = s.arm.reg (13 + j))
      ∧ (∀ j, j < 5 → r8_bank (s.arm.cpsr_low28 &&& 0x1F) s'.arm j = s.arm.reg (8 + j))
      ∧ (∀ j, j < 2 → s'.arm.reg (13 + j) = r13_bank (cpsr &&& 0x1F) s'.arm j)
      ∧ (∀ j, j < 5 → s'.arm.reg (8 + j) = r8_bank (cpsr &&& 0x1F) s'.arm j)
      ∧ (∀ j, j < 2 → s'.arm.reg (13 + j)
          = if same13 (cpsr &&& 0x1F) (s.arm.cpsr_low28 &&& 0x1F) then s.arm.reg (13 + j)
            else r13_bank (cpsr &&& 0x1F) s.arm j)
      ∧ (∀ j, j < 5 → s'.arm.reg (8 + j)
          = if same8 (cpsr &&& 0x1F) (s.arm.cpsr_low28 &&& 0x1F) then s.arm.reg (8 + j)
            else r8_bank (cpsr &&& 0x1F) s.arm j)
      ∧ (∀ i, i < 8 ∨ i = 15 → s'.arm.reg i = s.arm.reg i)
      ∧ (s.arm.cpsr_low28 &&& 0x1F ≠ MODE_FIQ → cpsr &&& 0x1F ≠ MODE_FIQ →
          ∀ i, 8 ≤ i → i < 13 → s'.arm.reg i = s.arm.reg i)
      ∧ (same13 (cpsr &&& 0x1F) (s.arm.cpsr_low28 &&& 0x1F) →
          ∀ i, i < 16 → s'.arm.reg i = s.arm.reg i) := by
  obtain ⟨s', e, -, -, -, -, -, -, -, r, b8, b13⟩ := set_cpsr_full_spec cpsr s hJ ho hn
  generalize hN : cpsr &&& 0x1F = new at *
  generalize hO : s.arm.cpsr_low28 &&& 0x1F = old at *
  have r13 : ∀ j, j < 2 → s'.arm.reg (13 + j)
      = if same13 new old then s.arm.reg (13 + j) else r13_bank new s.arm j := by
    intro j hj
    rw [r (13 + j)]
    have h1 : ¬ (8 ≤ 13 + j ∧ 13 + j < 13) := by omega
    have h2 : 13 ≤ 13 + j ∧ 13 + j < 15 := by omega
    rw [if_neg h1, if_pos h2, Nat.add_sub_cancel_left]
  have r8 : ∀ j, j < 5 → s'.arm.reg (8 + j)
      = if same8 new old then s.arm.reg (8 + j) else r8_bank new s.arm j := by
    intro j hj
    rw [r (8 + j)]
    have h1 : 8 ≤ 8 + j ∧ 8 + j < 13 := by omega
    rw [if_pos h1, Nat.add_sub_cancel_left]
  have o13 : ∀ j, j < 2 → r13_bank old s'.arm j = s.arm.reg (13 + j) := by
    intro j hj
    rw [b13 old j ho, if_pos ⟨hne, same13_refl old, hj⟩]
  have o8 : ∀ j, j < 5 → r8_bank old s'.arm j = s.arm.reg (8 + j) := by
    intro j hj
    rw [b8 old j ho, if_pos ⟨hne, Iff.rfl, hj⟩]
  refine ⟨s', e, o13, o8, ?_, ?_, r13, r8, ?_, ?_, ?_⟩
  · intro j hj
    rw [r13 j hj, b13 new j hn]
    by_cases hs : same13 new old
    · rw [if_pos hs, if_pos ⟨hne, hs, hj⟩]
    · rw [if_neg hs, if_neg (fun h => hs h.2.1)]
  · intro j hj
    rw [r8 j hj, b8 new j hn]
    by_cases hs : same8 new old
    · rw [if_pos hs, if_pos ⟨hne, hs, hj⟩]
    · rw [if_neg hs, if_neg (fun h => hs h.2.1)]
  · intro i hi
    rw [r i]
    have h1 : ¬ (8 ≤ i ∧ i < 13) := by omega
    have h2 : ¬ (13 ≤ i ∧ i < 15) := by omega
    rw [if_neg h1, if_neg h2]
  · intro hof hnf i h8 h13
    rw [r i, if_pos ⟨h8, h13⟩, if_pos]
    exact ⟨fun h => absurd h hnf, fun h => absurd h hof⟩
  · intro hs i hi
    rw [r i]
    have h8 : same8 new old := by
      rcases hs with h | ⟨h1, h2⟩ | ⟨h1, h2⟩
      · rw [h]; exact Iff.rfl
      · rw [h1, h2]; unfold same8; decide
      · rw [h1, h2]; unfold same8; decide
    split_ifs <;> rfl

theorem set_c_if_one (c : Nat) (s : Cpu) :
    set_c_if 1 c s = { s with arm := { s.arm with cpsr_c := c } } := by
  simp [set_c_if]

theorem ones_shift : ∀ n, n ≤ 31 →
    0xFFFFFFFF - (0xFFFFFFFF >>> n) = 2 ^ (32 - n) * (2 ^ n - 1) := by
  decide

/-- the arithmetic right shift of a 32-bit word is the floor quotient of its signed value -/
theorem asr32_floor (x n : Nat) (hx : x < 2 ^ 32) (hn : n ≤ 31) :
    asr32 x n < 2 ^ 32 ∧ sint32 (asr32 x n) = sint32 x / 2 ^ n := by
  have hP : 0 < 2 ^ n := Nat.two_pow_pos n
  have hK : 2 ^ (32 - n) * 2 ^ n = 2 ^ 32 := by rw [← Nat.pow_add]; congr 1; omega
  have hq : x / 2 ^ n < 2 ^ (32 - n) := by
    rw [Nat.div_lt_iff_lt_mul hP, hK]; exact hx
  have hKpos : 0 < 2 ^ (32 - n) := Nat.two_pow_pos _
  have hKle : 2 ^ (32 - n) ≤ 2 ^ 32 := Nat.pow_le_pow_right (by decide) (by omega)
  have hdm := Nat.div_add_mod x (2 ^ n)
  have hml := Nat.mod_lt x hP
  unfold asr32
  rw [Nat.mod_eq_of_lt hx, Nat.shiftRight_eq_div_pow]
  by_cases hs : x < 2147483648
  · have hs' : x < 2 ^ 31 := hs
    rw [if_pos hs']
    have hlt : x / 2 ^ n < 2 ^ 32 := lt_of_le_of_lt (Nat.div_le_self _ _) hx
    have hlt31 : x / 2 ^ n < 2147483648 := lt_of_le_of_lt (Nat.div_le_self _ _) hs
    refine ⟨hlt, ?_⟩
    rw [sint32_eq _ hlt, sint32_eq x hx, if_neg (by omega), if_neg (by omega)]
    simp only [sub_zero]
    norm_cast
  · have hs' : ¬ x < 2 ^ 31 := hs
    rw [if_neg hs', ones_shift n hn, Nat.or_comm, ← Nat.mul_add_lt_is_or hq]
    have e1 : 2 ^ (32 - n) * (2 ^ n - 1) = 2 ^ 32 - 2 ^ (32 - n) := by
      rw [Nat.mul_sub, hK, Nat.mul_one]
    rw [e1]
    have hlt : 2 ^ 32 - 2 ^ (32 - n) + x / 2 ^ n < 2 ^ 32 := by omega
    refine ⟨hlt, ?_⟩
    have hH : 2 ^ (31 - n) * 2 ^ n = 2 ^ 31 := by rw [← Nat.pow_add]; congr 1; omega
    have hHK : 2 ^ (32 - n) = 2 * 2 ^ (31 - n) := by
      rw [show 32 - n = (31 - n) + 1 by omega, Nat.pow_succ, Nat.mul_comm]
    have hqH : 2 ^ (31 - n) ≤ x / 2 ^ n := by
      rw [Nat.le_div_iff_mul_le hP, hH]; omega
    have hge : 2147483648 ≤ 2 ^ 32 - 2 ^ (32 - n) + x / 2 ^ n := by omega
    rw [sint32_eq _ hlt, sint32_eq x hx, if_pos hge, if_pos (by omega)]
    generalize hPd : 2 ^ n = P at *
    generalize hKd : 2 ^ (32 - n) = K at *
    generalize hqd : x / P = q at *
    generalize hrd : x % P = r at *
    have hdmZ : (P : ℤ) * q + r = x := by exact_mod_cast hdm
    have hKZ : (K : ℤ) * P = 2 ^ 32 := by exact_mod_cast hK
    have hu := (Int.ediv_emod_unique (a := (x : ℤ) - 2 ^ 32) (b := (P : ℤ)) (q := (q : ℤ) - K)
      (r := (r : ℤ)) (by exact_mod_cast hP)).2
      ⟨by linear_combination hdmZ - hKZ, by positivity, by exact_mod_cast hml⟩
    rw [← hPd] at hu
    push_cast at hu ⊢
    rw [hu.1]
    have : (K : ℤ) ≤ 2 ^ 32 := by exact_mod_cast hKle
    omega

theorem testBit_false_of_le (x k j : Nat) (hx : x < 2 ^ k) (hj : k ≤ j) : x.testBit j = false :=
  Nat.testBit_lt_two_pow (lt_of_lt_of_le hx (Nat.pow_le_pow_right (by decide) hj))

/-- the rotation of a 32-bit word moves bit `(i + c) mod 32` to bit `i` -/
theorem ror32_testBit (x c i : Nat) (hx : x < 2 ^ 32) (hc : c < 32) (hi : i < 32) :
    (ror32 x c).testBit i = x.testBit ((i + c) % 32) := by
  unfold ror32
  simp only [Nat.testBit_mod_two_pow, Nat.testBit_or, Nat.testBit_shiftRight,
    Nat.testBit_shiftLeft, hi, decide_True, Bool.true_and]
  by_cases h : i + c < 32
  · have h1 : ¬ (i ≥ 32 - c) := by omega
    rw [Nat.mod_eq_of_lt h, Nat.add_comm c i]
    simp [h1]
  · have h1 : i ≥ 32 - c := by omega
    have h2 : x.testBit (c + i) = false := testBit_false_of_le x 32 _ hx (by omega)
    have h3 : (i + c) % 32 = i - (32 - c) := by omega
    simp [h1, h2, h3]

theorem ror32_lt (x c : Nat) : ror32 x c < 2 ^ 32 := Nat.mod_lt _ (by decide)

theorem shr31_and_one (x : Nat) (hx : x < 2 ^ 32) : x >>> 31 &&& 1 = x >>> 31 := by
  rw [shr_and_one, Nat.shiftRight_eq_div_pow]
  omega

/-- Claim C27: for every 32-bit `x` and every count `n` in 0..255 with `setcc = 1`: a count of 0
returns `x` and the state unchanged for every type; for `n >= 1`, LSL returns
`(x * 2^n) mod 2^32` with C = bit `32 - n` of `x` when `n <= 32` and 0 above, LSR returns
`floor(x / 2^n)` with C = bit `n - 1` of `x` when `n <= 32` and 0 above, ASR returns the
32-bit word whose signed value is the signed value of `x` divided by `2^min(n,31)` rounded
toward minus infinity with C = bit `min(n,32) - 1` of `x`, and ROR returns the 32-bit word
whose bit `i` is bit `(i + n) mod 32` of `x` with C = bit 31 of the result; nothing but C
changes. -/
theorem shift_agrees_with_arm_shifter (x n : Nat) (s : Cpu) (hx : x < 2 ^ 32) (hn : n ≤ 255) :
    (∀ type, shift type x 0 1 s = (x, s))
    ∧ (1 ≤ n →
        shift 0 x n 1 s
          = ((x * 2 ^ n) % 2 ^ 32,
             { s with arm := { s.arm with
                 cpsr_c := if n ≤ 32 then x >>> (32 - n) &&& 1 else 0 } })
        ∧ shift 1 x n 1 s
          = (x / 2 ^ n,
             { s with arm := { s.arm with
                 cpsr_c := if n ≤ 32 then x >>> (n - 1) &&& 1 else 0 } })
        ∧ (shift 2 x n 1 s).1 < 2 ^ 32
        ∧ sint32 (shift 2 x n 1 s).1 = sint32 x / 2 ^ min n 31
        ∧ (shift 2 x n 1 s).2
          = { s with arm := { s.arm with cpsr_c := x >>> (min n 32 - 1) &&& 1 } }
        ∧ (shift 3 x n 1 s).1 < 2 ^ 32
        ∧ (∀ i, i < 32 → (shift 3 x n 1 s).1.testBit i = x.testBit ((i + n) % 32))
        ∧ (shift 3 x n 1 s).2
          = { s with arm := { s.arm with cpsr_c := (shift 3 x n 1 s).1 >>> 31 &&& 1 } }) := by
  refine ⟨fun type => by simp [shift], ?_⟩
  intro h1
  have hn0 : n ≠ 0 := by omega
  refine ⟨?_, ?_, ?_, ?_, ?_, ?_, ?_, ?_⟩
  · -- LSL
    by_cases h32 : 32 ≤ n
    · have hz : (x * 2 ^ n) % 2 ^ 32 = 0 := by
        have : 2 ^ n = 2 ^ 32 * 2 ^ (n - 32) := by rw [← Nat.pow_add]; congr 1; omega
        rw [this, ← Nat.mul_assoc, Nat.mul_comm x, Nat.mul_assoc]
        exact Nat.mul_mod_right _ _
      have hz' : (x * 2 ^ n) % 4294967296 = 0 := hz
      by_cases he : n = 32
      · subst he
        simp [shift, set_c_if_one, hz]
      · have : ¬ n ≤ 32 := by omega
        simp [shift, set_c_if_one, hz, hz', hn0, h32, he, this]
    · have : n ≤ 32 := by omega
      simp [shift, set_c_if_one, hn0, h32, this, Nat.shiftLeft_eq]
  · -- LSR
    by_cases h32 : 32 ≤ n
    · have hz : x / 2 ^ n = 0 :=
        Nat.div_eq_of_lt (lt_of_lt_of_le hx (Nat.pow_le_pow_right (by decide) h32))
      have hz' : x / 4294967296 = 0 := Nat.div_eq_of_lt hx
      by_cases he : n = 32
      · subst he
        simp [shift, set_c_if_one, hz, hz', shr31_and_one x hx]
      · have : ¬ n ≤ 32 := by omega
        simp [shift, set_c_if_one, hz, hz', hn0, h32, he, this]
    · have : n ≤ 32 := by omega
      simp [shift, set_c_if_one, hn0, h32, this, Nat.shiftRight_eq_div_pow]
  · -- ASR, bound
    by_cases h32 : 32 ≤ n
    · simp only [shift, hn0, h32, if_true, if_false]
      exact (asr32_floor x 31 hx (by decide)).1
    · simp [shift, hn0, h32]
      exact (asr32_floor x n hx (by omega)).1
  · -- ASR, value
    by_cases h32 : 32 ≤ n
    · have : min n 31 = 31 := by omega
      simp only [shift, hn0, h32, if_true, if_false, this]
      exact (asr32_floor x 31 hx (by decide)).2
    · have : min n 31 = n := by omega
      simp [shift, hn0, h32, this]
      exact (asr32_floor x n hx (by omega)).2
  · -- ASR, carry
    by_cases h32 : 32 ≤ n
    · have : min n 32 - 1 = 31 := by omega
      simp [shift, hn0, h32, this, set_c_if_one, shr31_and_one x hx]
    · have : min n 32 - 1 = n - 1 := by omega
      simp [shift, hn0, h32, this, set_c_if_one]
  · -- ROR, bound
    simp [shift, hn0]
    exact ror32_lt _ _
  · -- ROR, bits
    intro i hi
    have hc : n &&& 31 = n % 32 := Nat.and_pow_two_sub_one_eq_mod n 5
    have hlt : n % 32 < 32 := Nat.mod_lt _ (by decide)
    simp only [shift, hn0, if_false, hc]
    simp only [show (3 : Nat) ≠ 1 from by decide, show (3 : Nat) ≠ 2 from by decide, if_false,
      if_true]
    rw [ror32_testBit x _ i hx hlt hi]
    congr 1
    omega
  · -- ROR, carry
    simp [shift, hn0, set_c_if_one, shr31_and_one _ (ror32_lt _ _)]

theorem not32_eq (x : Nat) (hx : x < 2 ^ 32) : not32 x = 2 ^ 32 - 1 - x := by
  unfold not32
  rw [Nat.mod_eq_of_lt hx]
  norm_num

/-- the ALU step of SUB, RSB, SBC, RSC and CMP with S = 1: the result is the exact difference
modulo `2 ^ 32` and C is set iff the exact difference is not negative -/
theorem sub_alu_spec (opcode a b cin : Nat) (s : Cpu) (ha : a < 2 ^ 32) (hb : b < 2 ^ 32)
    (hc : cin ≤ 1)
    (hop : opcode = 2 ∨ opcode = 3 ∨ opcode = 6 ∨ opcode = 7 ∨ opcode = 10) :
    ((data_processing_alu opcode a b cin 1 s).1 : Int) = sub_exact opcode a b cin % 2 ^ 32
    ∧ (data_processing_alu opcode a b cin 1 s).2
        = { s with arm := { s.arm with
              cpsr_c := if 0 ≤ sub_exact opcode a b cin then 1 else 0,
              cpsr_v := (data_processing_alu opcode a b cin 1 s).2.arm.cpsr_v } } := by
  have hna := not32_eq a ha
  have hnb := not32_eq b hb
  have hnal : not32 a < 2 ^ 32 := by rw [hna]; omega
  have hnbl : not32 b < 2 ^ 32 := by rw [hnb]; omega
  have key : ∀ x y c : Nat, x < 2 ^ 32 → y < 2 ^ 32 → c ≤ 1 → ∀ e : Int,
      (x : Int) + y + c = e + 2 ^ 32 →
      ((add x y c 1 s).1 : Int) = e % 2 ^ 32
      ∧ (add x y c 1 s).2
        = { s with arm := { s.arm with
              cpsr_c := if 0 ≤ e then 1 else 0,
              cpsr_v := (add x y c 1 s).2.arm.cpsr_v } } := by
    intro x y c hx hy hc' e he
    obtain ⟨h1, h2, -, -, -⟩ := add_spec x y c s hx hy hc'
    constructor
    · rw [h1]
      omega
    · have hcv : (add x y c 1 s).2.arm.cpsr_c = if 0 ≤ e then 1 else 0 := by
        rw [h2]
        split_ifs <;> omega
      have hst : (add x y c 1 s).2
          = { s with arm := { s.arm with
                cpsr_c := (add x y c 1 s).2.arm.cpsr_c,
                cpsr_v := (add x y c 1 s).2.arm.cpsr_v } } := by
        simp [add]
      rw [hst, hcv]
  rcases hop with h | h | h | h | h <;> subst h
  · simp only [data_processing_alu, sub_exact]
    simp +decide only [if_true, if_false]
    exact key a (not32 b) 1 ha hnbl (by decide) _ (by rw [hnb]; omega)
  · simp only [data_processing_alu, sub_exact]
    simp +decide only [if_true, if_false]
    exact key (not32 a) b 1 hnal hb (by decide) _ (by rw [hna]; omega)
  · simp only [data_processing_alu, sub_exact]
    simp +decide only [if_true, if_false]
    exact key a (not32 b) cin ha hnbl hc _ (by rw [hnb]; omega)
  · simp only [data_processing_alu, sub_exact]
    simp +decide only [if_true, if_false]
    exact key (not32 a) b cin hnal hb hc _ (by rw [hna]; omega)
  · simp only [data_processing_alu, sub_exact]
    simp +decide only [if_true, if_false]
    exact key a (not32 b) 1 ha hnbl (by decide) _ (by rw [hnb]; omega)

theorem interpret_subtract (ext : arm_class → Nat → Cpu → Option Cpu)
    (insn b : Nat) (s s1 : Cpu)
    (hcond : insn >>> 28 ≤ 14)
    (hn : s.arm.cpsr_n ≤ 1) (hz : s.arm.cpsr_z ≤ 1) (hc : s.arm.cpsr_c ≤ 1) (hv : s.arm.cpsr_v ≤ 1)
    (hp : condition_passed (insn >>> 28) s.arm = true)
    (hdp : insn &&& 0xC000000 = 0) (hmul : insn &&& 0xE000090 ≠ 0x90)
    (hS : insn >>> 20 &&& 1 = 1)
    (hop : insn >>> 21 &&& 15 = 2 ∨ insn >>> 21 &&& 15 = 3 ∨ insn >>> 21 &&& 15 = 6
      ∨ insn >>> 21 &&& 15 = 7)
    (hrd : insn >>> 12 &&& 15 ≠ 15)
    (hsh : (if insn &&& (1 <<< 25) ≠ 0 then some (get_shifted_immed insn 1 s)
            else get_shifted_reg insn 1 s) = some (b, s1))
    (hb : b < 2 ^ 32) :
    ∃ s', cpu_interpret_instruction (arm_body ext) insn s = some s'
      ∧ (s'.arm.reg (insn >>> 12 &&& 15) : Int)
          = sub_exact (insn >>> 21 &&& 15) (get_reg_pc (insn >>> 16 &&& 15) s) b s.arm.cpsr_c
              % 2 ^ 32
      ∧ s'.arm.cpsr_c
          = (if 0 ≤ sub_exact (insn >>> 21 &&& 15) (get_reg_pc (insn >>> 16 &&& 15) s) b
                  s.arm.cpsr_c then 1 else 0)
      ∧ (data_processing_alu 10 (get_reg_pc (insn >>> 16 &&& 15) s) b s.arm.cpsr_c 1 s1).2.arm.cpsr_c
          = (if b ≤ get_reg_pc (insn >>> 16 &&& 15) s then 1 else 0) := by
  obtain ⟨c1, c2⟩ := cond_pass insn s.arm hcond hn hz hc hv hp
  have ha : get_reg_pc (insn >>> 16 &&& 15) s < 2 ^ 32 := Nat.mod_lt _ (by decide)
  have h20 : insn &&& 0x100000 = 0x100000 := by
    have := and_one_shl insn 20
    simp only [hS] at this
    exact this
  have hmisc : insn &&& 0xD900000 ≠ 0x1000000 := and_ne_of_sub insn 0xD900000 0x1000000 0x100000 0x100000 h20 rfl (by decide)
  have hop' : insn >>> 21 &&& 15 = 2 ∨ insn >>> 21 &&& 15 = 3 ∨ insn >>> 21 &&& 15 = 6
      ∨ insn >>> 21 &&& 15 = 7 ∨ insn >>> 21 &&& 15 = 10 := by omega
  obtain ⟨r1, r2⟩ := sub_alu_spec (insn >>> 21 &&& 15) _ b s.arm.cpsr_c s1 ha hb hc hop'
  obtain ⟨-, q2⟩ := sub_alu_spec 10 _ b s.arm.cpsr_c s1 ha hb hc (by simp)
  have h8 : ¬ ((insn >>> 21 &&& 15) &&& 12 = 8) := by
    rcases hop with h | h | h | h <;> rw [h] <;> decide
  have hrun : cpu_interpret_instruction (arm_body ext) insn s
      = some (set_nz_flags
          (data_processing_alu (insn >>> 21 &&& 15) (get_reg_pc (insn >>> 16 &&& 15) s) b
            s.arm.cpsr_c 1 s1).1
          (set_reg_pc (insn >>> 12 &&& 15)
            (data_processing_alu (insn >>> 21 &&& 15) (get_reg_pc (insn >>> 16 &&& 15) s) b
              s.arm.cpsr_c 1 s1).1
            (data_processing_alu (insn >>> 21 &&& 15) (get_reg_pc (insn >>> 16 &&& 15) s) b
              s.arm.cpsr_c 1 s1).2)) := by
    simp only [cpu_interpret_instruction, if_neg c1, if_neg c2, if_neg hmul, if_neg hmisc, hdp,
      if_true, arm_body, arm_data_processing, hS, hsh, Option.some_bind, if_neg h8]
    simp only [ne_eq, one_ne_zero, not_false_eq_true, if_true, if_neg hrd]
  refine ⟨_, hrun, ?_, ?_, ?_⟩
  · simp only [set_nz_flags, set_reg_pc, set_elem, if_true]
    exact r1
  · simp only [set_nz_flags, set_reg_pc]
    exact congrArg (fun t : Cpu => t.arm.cpsr_c) r2
  · refine (congrArg (fun t : Cpu => t.arm.cpsr_c) q2).trans ?_
    simp [sub_exact]

/-- an address byte put in front of a sequence of address bytes -/
theorem nand_address_bytes_cons (f : Nat → Nat) (n : Nat) (d : Nand) :
    nand_write_address_bytes (fun i => f (i + 1)) n (nand_write_address_byte (f 0) d)
      = nand_write_address_bytes f (n + 1) d := by
  induction n with
  | zero => rfl
  | succ n ih =>
    show nand_write_address_byte (f (n + 1)) (nand_write_address_bytes (fun i => f (i + 1)) n _) = _
    rw [ih]
    rfl

/-- the address loop of `nand_cx_write_word` writes bytes 0..n-1 of `value` in order -/
theorem nand_cx_address_loop_eq (n value : Nat) (d : Nand) :
    nand_cx_address_loop n value d
      = nand_write_address_bytes (fun i => value >>> (8 * i) &&& 0xFF) n d := by
  induction n generalizing value d with
  | zero => rfl
  | succ n ih =>
    show nand_cx_address_loop n (value >>> 8) (nand_write_address_byte (value % 256) d) = _
    rw [ih, ← nand_address_bytes_cons]
    have e0 : value % 256 = value >>> (8 * 0) &&& 0xFF := by
      rw [Nat.mul_zero, Nat.shiftRight_zero]
      exact (Nat.and_pow_two_sub_one_eq_mod value 8).symm
    have e1 : (fun i => value >>> 8 >>> (8 * i) &&& 0xFF)
        = (fun i => value >>> (8 * (i + 1)) &&& 0xFF) := by
      funext i
      rw [← Nat.shiftRight_add]
      congr 2
      ring
    rw [e0, e1]

theorem mod256_eq_and (x : Nat) : x % 256 = x &&& 0xFF :=
  (Nat.and_pow_two_sub_one_eq_mod x 8).symm

/-- a row address byte written in address state 2, 3, 4 or 5 -/
theorem nand_address_row_byte (b : Nat) (d : Nand) (h2 : 2 ≤ d.nand_addr_state)
    (h6 : d.nand_addr_state < 6) :
    nand_write_address_byte b d
      = { d with
          nand_addr_state := d.nand_addr_state + 1
          nand_row := ((d.nand_row &&& not32 (0xFF <<< ((d.nand_addr_state + 1 - 3) * 8)))
              ||| (b <<< ((d.nand_addr_state + 1 - 3) * 8))) % 2 ^ 32
            &&& ((d.metrics.num_pages + 0xFFFFFFFF) % 2 ^ 32) } := by
  have n6 : ¬ 6 ≤ d.nand_addr_state := by omega
  have n0 : ¬ d.nand_addr_state = 0 := by omega
  have n1 : ¬ d.nand_addr_state = 1 := by omega
  have hm : (d.nand_addr_state + 1) % 256 = d.nand_addr_state + 1 := Nat.mod_eq_of_lt (by omega)
  simp only [nand_write_address_byte, if_neg n6, if_neg n0, if_neg n1, hm]

theorem row_third_byte (y b : Nat) (hy : y < 2 ^ 16) :
    ((y &&& not32 (0xFF <<< 16) ||| b <<< 16) % 2 ^ 32) &&& 0xFFFF = y := by
  apply Nat.eq_of_testBit_eq
  intro j
  simp only [Nat.testBit_and, Nat.testBit_or, Nat.testBit_mod_two_pow, testBit_not32,
    Nat.testBit_shiftLeft, testBit_FF, testBit_FFFF]
  by_cases a : j < 16
  · have a2 : j < 32 := by omega
    have a3 : ¬ j ≥ 16 := by omega
    simp [a, a2, a3]
  · have b0 : y.testBit j = false := testBit_false_of_ge y 16 j hy a
    simp [a, b0]

theorem low_two_bytes (x : Nat) (hx : x < 2 ^ 16) :
    (x >>> (8 * 0) &&& 0xFF) ||| (x >>> (8 * 1) &&& 0xFF) <<< 8 = x := by
  apply Nat.eq_of_testBit_eq
  intro j
  simp only [Nat.testBit_and, Nat.testBit_or, Nat.testBit_shiftLeft, Nat.testBit_shiftRight,
    testBit_FF, Nat.mul_zero, Nat.mul_one, Nat.zero_add]
  by_cases a : j < 8
  · have a3 : ¬ j ≥ 8 := by omega
    simp [a, a3]
  · have a3 : j ≥ 8 := by omega
    by_cases b : j < 16
    · have a4 : j - 8 < 8 := by omega
      have a5 : 8 + (j - 8) = j := by omega
      simp [a, a3, a4, a5]
    · have b0 : x.testBit j = false := testBit_false_of_ge x 16 j hx b
      have a4 : ¬ j - 8 < 8 := by omega
      simp [a, a4, b0]

/-- three row address bytes written from address state 2 on a 65536-page chip -/
theorem nand_three_row_bytes (f : Nat → Nat) (d : Nand) (h : d.nand_addr_state = 2)
    (hnp : d.metrics.num_pages = 0x10000) (h0 : f 0 < 256) (h1 : f 1 < 256) :
    nand_write_address_bytes f 3 d
      = { d with nand_addr_state := 5, nand_row := f 0 ||| f 1 <<< 8 } := by
  have e : nand_write_address_bytes f 3 d
      = nand_write_address_byte (f 2) (nand_write_address_byte (f 1)
          (nand_write_address_byte (f 0) d)) := rfl
  rw [e, nand_address_row_byte (f 0) d (by omega) (by omega)]
  rw [nand_address_row_byte (f 1) _ (by simp only [h]; omega) (by simp only [h]; omega)]
  rw [nand_address_row_byte (f 2) _ (by simp only [h]; omega) (by simp only [h]; omega)]
  simp only [h, hnp]
  have k := row_two_bytes d.nand_row (f 0) (f 1) h0 h1
  have hlt : f 0 ||| f 1 <<< 8 < 2 ^ 16 := by
    have : f 1 <<< 8 < 2 ^ 16 := by rw [Nat.shiftLeft_eq]; omega
    exact Nat.or_lt_two_pow (by omega) this
  have k3 := row_third_byte (f 0 ||| f 1 <<< 8) (f 2) hlt
  have hrow : (((((d.nand_row &&& not32 (0xFF <<< 0) ||| f 0 <<< 0) % 2 ^ 32 &&& 0xFFFF)
      &&& not32 (0xFF <<< 8) ||| f 1 <<< 8) % 2 ^ 32 &&& 0xFFFF)
      &&& not32 (0xFF <<< 16) ||| f 2 <<< 16) % 2 ^ 32 &&& 0xFFFF = f 0 ||| f 1 <<< 8 := by
    rw [k]; exact k3
  have hrow' : (((((d.nand_row &&& not32 (0xFF <<< ((2 + 1 - 3) * 8)) ||| f 0 <<< ((2 + 1 - 3) * 8)) % 2 ^ 32
      &&& ((0x10000 + 0xFFFFFFFF) % 2 ^ 32))
      &&& not32 (0xFF <<< ((2 + 1 + 1 - 3) * 8)) ||| f 1 <<< ((2 + 1 + 1 - 3) * 8)) % 2 ^ 32
      &&& ((0x10000 + 0xFFFFFFFF) % 2 ^ 32))
      &&& not32 (0xFF <<< ((2 + 1 + 1 + 1 - 3) * 8)) ||| f 2 <<< ((2 + 1 + 1 + 1 - 3) * 8)) % 2 ^ 32
      &&& ((0x10000 + 0xFFFFFFFF) % 2 ^ 32) = f 0 ||| f 1 <<< 8 := hrow
  rw [hrow']

/-- command `0x60` and the three low bytes of a row below 65536 leave the device in state
ERASE_SETUP at that row -/
theorem nand_erase_setup (d : Nand) (large : Bool) (row : Nat) (hm : d.metrics = chips large)
    (hrow : row < 0x10000) :
    ∃ d1, nand_write_command_byte 0x60 d = some d1
      ∧ nand_write_address_bytes (fun i => row >>> (8 * i) &&& 0xFF) 3 d1
        = { d with nand_addr_state := 5, nand_state := 0x60, nand_row := row } := by
  have hnp : d.metrics.num_pages = 0x10000 := by rw [hm]; cases large <;> rfl
  have e1 : nand_write_command_byte 0x60 d
      = some { d with nand_addr_state := 2, nand_state := 0x60 } := by
    simp +decide [nand_write_command_byte]
  refine ⟨_, e1, ?_⟩
  have h0 : row >>> (8 * 0) &&& 0xFF < 256 := by
    rw [← mod256_eq_and]; exact Nat.mod_lt _ (by decide)
  have h1 : row >>> (8 * 1) &&& 0xFF < 256 := by
    rw [← mod256_eq_and]; exact Nat.mod_lt _ (by decide)
  rw [nand_three_row_bytes (fun i => row >>> (8 * i) &&& 0xFF)
    { d with nand_addr_state := 2, nand_state := 0x60 } rfl hnp h0 h1]
  simp only [low_two_bytes row hrow]

theorem and_bit_ne_zero_iff (x k : Nat) : x &&& (1 <<< k) ≠ 0 ↔ x >>> k &&& 1 = 1 := by
  rw [and_one_shl]
  have h : x >>> k &&& 1 = 0 ∨ x >>> k &&& 1 = 1 := by
    rw [Nat.and_one_is_mod]; omega
  rcases h with h | h
  · rw [h]; simp
  · rw [h]
    simp [Nat.shiftLeft_eq]

/-- Claim C21: for every address `a` in `[0x81000000, 0x82000000)` with bit 19 clear,
`nand_cx_write_word(a, value)` is the command sequence of the specification: fatal when the
address-byte count `n` (bits 23..21) exceeds 4, and otherwise the command byte in bits 10..3,
then bytes 0..n-1 of `value` as address bytes, least significant first, then, iff bit 20 is
set, the command byte in bits 18..11; and on a writable chip one such write with command
`0x60`, `n = 3`, confirm `0xD0` and `value` a block-aligned row below `num_pages` returns,
fills every byte of that block with `0xFF`, marks the block modified, leaves the rest of
`nand_data` as it was and ends in state IDLE. -/
theorem nand_cx_write_word_command_sequence (bad_write_word : Nat → Nat → Nand → Option Nand)
    (a value : Nat) (d : Nand) (h1 : 0x81000000 ≤ a) (h2 : a < 0x82000000)
    (h19 : a &&& 0x080000 = 0) :
    nand_cx_write_word bad_write_word a value d = cx_command_sequence a value d
    ∧ (4 < a >>> 21 &&& 7 → nand_cx_write_word bad_write_word a value d = none)
    ∧ (∀ large, d.metrics = chips large → d.nand_writable = true
        → a >>> 3 &&& 0xFF = 0x60 → a >>> 21 &&& 7 = 3 → a >>> 20 &&& 1 = 1
        → a >>> 11 &&& 0xFF = 0xD0
        → value < d.metrics.num_pages → value % 2 ^ d.metrics.log2_pages_per_block = 0
        → ∃ d', nand_cx_write_word bad_write_word a value d = some d'
            ∧ (∀ p j, value ≤ p → p < value + 2 ^ d.metrics.log2_pages_per_block
                → j < d.metrics.page_size → d'.nand_data (p * d.metrics.page_size + j) = 0xFF)
            ∧ d'.nand_block_modified (value >>> d.metrics.log2_pages_per_block) = true
            ∧ (∀ x, (x < value * d.metrics.page_size
                  ∨ (value + 2 ^ d.metrics.log2_pages_per_block) * d.metrics.page_size ≤ x)
                → d'.nand_data x = d.nand_data x)
            ∧ d'.nand_state = 0xFF) := by
  have hr : 0x81000000 ≤ a ∧ a < 0x82000000 := ⟨h1, h2⟩
  have h19' : ¬ a &&& 0x080000 ≠ 0 := fun h => h h19
  have h20 : a &&& 0x100000 ≠ 0 ↔ a >>> 20 &&& 1 = 1 := and_bit_ne_zero_iff a 20
  have main : nand_cx_write_word bad_write_word a value d = cx_command_sequence a value d := by
    simp only [nand_cx_write_word, cx_command_sequence, if_pos hr, if_neg h19',
      nand_cx_address_loop_eq, mod256_eq_and]
    by_cases hn : a >>> 21 &&& 7 > 4
    · simp only [if_pos hn]
      rfl
    · simp only [if_neg hn]
      cases nand_write_command_byte (a >>> 3 &&& 0xFF) d with
      | none => rfl
      | some d1 =>
        simp only [Option.map_some', Option.some_bind]
        by_cases hb : a >>> 20 &&& 1 = 1
        · rw [if_pos (h20.mpr hb), if_pos hb, nand_cx_address_loop_eq]
        · rw [if_neg (fun h => hb (h20.mp h)), if_neg hb, nand_cx_address_loop_eq]
  refine ⟨main, ?_, ?_⟩
  · intro hn
    rw [main]
    simp only [cx_command_sequence]
    rw [if_pos hn]
  · intro large hm hw c60 n3 b20 cD0 hv hal
    have hnp : d.metrics.num_pages = 0x10000 := by rw [hm]; cases large <;> rfl
    obtain ⟨d1, e1, e3⟩ := nand_erase_setup d large value hm (by omega)
    obtain ⟨d', e, p1, p2, p3, p4⟩ := nand_erase_spec
      { d with nand_addr_state := 5, nand_state := 0x60, nand_row := value } large hm hw rfl hv
    have hdiv : 2 ^ d.metrics.log2_pages_per_block * (value / 2 ^ d.metrics.log2_pages_per_block)
        = value := by
      have := Nat.div_add_mod value (2 ^ d.metrics.log2_pages_per_block)
      omega
    simp only [hdiv] at p1 p3
    refine ⟨d', ?_, p1, p2, p3, p4⟩
    rw [main]
    simp only [cx_command_sequence, n3, c60, cD0, b20, e1, Option.some_bind, e3]
    simp only [if_true]
    have : ¬ 3 > 4 := by decide
    rw [if_neg this]
    exact e

theorem chips_values (large : Bool) :
    (chips large).num_pages = 0x10000
    ∧ ((chips large).page_size = 0x210 ∨ (chips large).page_size = 0x840) := by
  cases large
  · exact ⟨rfl, Or.inl rfl⟩
  · exact ⟨rfl, Or.inr rfl⟩

theorem nand_inv_initial (large writable : Bool) (data : Nat → Nat) :
    nand_inv large (nand_initial large writable data) := by
  have z1 : (0 : Nat) < 0x10000 := by decide
  have z2 : (0 : Nat) ≤ 6 := by decide
  have z3 : (0 : Nat) ≤ 0xFFFF := by decide
  have z4 : (0 : Nat) ≤ 2 := by decide
  have z5 : (0 : Nat) ≤ 0x210 := by decide
  have z6 : (0 : Nat) ≤ 0x840 := by decide
  have z7 : (0x210 : Nat) ≤ 0x840 := by decide
  have z8 : (0x840 : Nat) ≤ 0x840 := by decide
  cases large
  · exact ⟨rfl, z1, z2, z3, z4, z5, z7⟩
  · exact ⟨rfl, z1, z2, z3, z4, z6, z8⟩

/-- a command that returns keeps the device invariant and the transfer buffer -/
theorem nand_command_inv (large : Bool) (c : Nat) (d d' : Nand) (hi : nand_inv large d)
    (h : nand_write_command_byte c d = some d') :
    nand_inv large d' ∧ d'.nand_buffer = d.nand_buffer ∧ d'.nand_writable = d.nand_writable := by
  obtain ⟨hm, hr, ha, hc, hp, hb, hs⟩ := hi
  have z0 : (0 : Nat) ≤ 6 := by decide
  have z2 : (2 : Nat) ≤ 6 := by decide
  have z6 : (6 : Nat) ≤ 6 := by decide
  have y0 : (0 : Nat) ≤ 0xFFFF := by decide
  have y2 : (0 : Nat) ≤ 2 := by decide
  unfold nand_write_command_byte at h
  by_cases h1 : (c = 0x01 ∨ c = 0x50) ∧ 0x800 ≤ d.metrics.page_size
  · rw [if_pos h1] at h; cases h
    exact ⟨⟨hm, hr, ha, hc, hp, hb, hs⟩, rfl, rfl⟩
  rw [if_neg h1] at h
  by_cases h2 : c = 0x01 ∨ c = 0x50 ∨ c = 0x00
  · rw [if_pos h2] at h; cases h
    refine ⟨⟨hm, hr, z0, hc, ?_, hb, hs⟩, rfl, rfl⟩
    show (if c = 0x50 then 2 else c) ≤ 2
    split_ifs <;> omega
  rw [if_neg h2] at h
  by_cases h3 : c = 0x10
  · rw [if_pos h3] at h
    by_cases h4 : d.nand_state = 0x80
    · rw [if_pos h4] at h
      by_cases h5 : ¬ d.nand_writable = true
      · rw [if_pos h5] at h; cases h
      · rw [if_neg h5] at h; cases h
        exact ⟨⟨hm, hr, ha, hc, hp, hb, hs⟩, rfl, rfl⟩
    · rw [if_neg h4] at h; cases h
      exact ⟨⟨hm, hr, ha, hc, hp, hb, hs⟩, rfl, rfl⟩
  rw [if_neg h3] at h
  by_cases h5 : c = 0x30
  · rw [if_pos h5] at h; cases h
    exact ⟨⟨hm, hr, ha, hc, hp, hb, hs⟩, rfl, rfl⟩
  rw [if_neg h5] at h
  by_cases h6 : c = 0x60
  · rw [if_pos h6] at h; cases h
    exact ⟨⟨hm, hr, z2, hc, hp, hb, hs⟩, rfl, rfl⟩
  rw [if_neg h6] at h
  by_cases h7 : c = 0x80
  · rw [if_pos h7] at h; cases h
    exact ⟨⟨hm, hr, z0, hc, hp, Nat.zero_le _, hs⟩, rfl, rfl⟩
  rw [if_neg h7] at h
  by_cases h8 : c = 0xD0
  · rw [if_pos h8] at h
    by_cases h9 : d.nand_state = 0x60
    · rw [if_pos h9] at h
      by_cases h5 : ¬ d.nand_writable = true
      · simp only [if_pos h5] at h; cases h
      · simp only [if_neg h5] at h; cases h
        refine ⟨⟨hm, ?_, ha, hc, hp, hb, hs⟩, rfl, rfl⟩
        show (if _ then _ else _) < d.metrics.num_pages
        split_ifs
        · exact lt_of_le_of_lt Nat.and_le_left hr
        · exact hr
    · rw [if_neg h9] at h; cases h
      exact ⟨⟨hm, hr, ha, hc, hp, hb, hs⟩, rfl, rfl⟩
  rw [if_neg h8] at h
  by_cases h10 : c = 0xFF
  · rw [if_pos h10] at h; cases h
    refine ⟨⟨hm, ?_, z6, y0, y2, hb, hs⟩, rfl, rfl⟩
    show 0 < d.metrics.num_pages
    omega
  rw [if_neg h10] at h
  by_cases h11 : c = 0x70 ∨ c = 0x90
  · rw [if_pos h11] at h; cases h
    exact ⟨⟨hm, hr, z6, hc, hp, hb, hs⟩, rfl, rfl⟩
  · rw [if_neg h11] at h; cases h
    exact ⟨⟨hm, hr, ha, hc, hp, hb, hs⟩, rfl, rfl⟩

theorem and_or_byte_lt (x m b : Nat) (hx : x ≤ 0xFFFF) (hb : b < 256) :
    (x &&& m) ||| b < 2 ^ 16 :=
  Nat.or_lt_two_pow (lt_of_le_of_lt Nat.and_le_left (by omega)) (by omega)

/-- an address byte keeps the device invariant and the transfer buffer -/
theorem nand_address_inv (large : Bool) (b : Nat) (d : Nand) (hb8 : b < 256)
    (hi : nand_inv large d) :
    nand_inv large (nand_write_address_byte b d)
    ∧ (nand_write_address_byte b d).nand_buffer = d.nand_buffer
    ∧ (nand_write_address_byte b d).nand_writable = d.nand_writable := by
  obtain ⟨hm, hr, ha, hc, hp, hb, hs⟩ := hi
  have hnp : d.metrics.num_pages = 0x10000 := by rw [hm]; exact (chips_values large).1
  unfold nand_write_address_byte
  by_cases h6 : 6 ≤ d.nand_addr_state
  · rw [if_pos h6]
    exact ⟨⟨hm, hr, ha, hc, hp, hb, hs⟩, rfl, rfl⟩
  rw [if_neg h6]
  have hst : (d.nand_addr_state + 1) % 256 = d.nand_addr_state + 1 := Nat.mod_eq_of_lt (by omega)
  simp only [hst]
  by_cases h0 : d.nand_addr_state = 0
  · rw [if_pos h0]
    by_cases hsm : d.metrics.page_size < 0x800
    · rw [if_pos hsm]
      refine ⟨⟨hm, hr, ?_, ?_, ?_, hb, hs⟩, rfl, rfl⟩
      · show (2 : Nat) ≤ 6
        decide
      · show (d.nand_area_pointer <<< 8 &&& not32 0xFF) ||| b ≤ 0xFFFF
        have : d.nand_area_pointer <<< 8 ≤ 0xFFFF := by rw [Nat.shiftLeft_eq]; omega
        have := and_or_byte_lt (d.nand_area_pointer <<< 8) (not32 0xFF) b this hb8
        omega
      · show d.nand_area_pointer &&& 0xFE ≤ 2
        exact le_trans Nat.and_le_left hp
    · rw [if_neg hsm]
      refine ⟨⟨hm, hr, ?_, ?_, hp, hb, hs⟩, rfl, rfl⟩
      · show d.nand_addr_state + 1 ≤ 6
        omega
      · show (d.nand_column &&& not32 0xFF) ||| b ≤ 0xFFFF
        have := and_or_byte_lt d.nand_column (not32 0xFF) b hc hb8
        omega
  rw [if_neg h0]
  by_cases h1 : d.nand_addr_state = 1
  · rw [if_pos h1]
    refine ⟨⟨hm, hr, ?_, ?_, hp, hb, hs⟩, rfl, rfl⟩
    · show d.nand_addr_state + 1 ≤ 6
      omega
    · show (d.nand_column &&& 0xFF) ||| (b <<< 8) ≤ 0xFFFF
      have h1 : d.nand_column &&& 0xFF < 2 ^ 16 := lt_of_le_of_lt Nat.and_le_right (by decide)
      have h2 : b <<< 8 < 2 ^ 16 := by rw [Nat.shiftLeft_eq]; omega
      have := Nat.or_lt_two_pow h1 h2
      omega
  · rw [if_neg h1]
    refine ⟨⟨hm, ?_, ?_, hc, hp, hb, hs⟩, rfl, rfl⟩
    · show _ &&& ((d.metrics.num_pages + 0xFFFFFFFF) % 2 ^ 32) < d.metrics.num_pages
      rw [hnp]
      exact lt_of_le_of_lt Nat.and_le_right (by decide)
    · show d.nand_addr_state + 1 ≤ 6
      omega

/-- a byte read keeps the device invariant and the transfer buffer -/
theorem nand_read_byte_inv (large : Bool) (d : Nand) (hi : nand_inv large d) :
    nand_inv large (nand_read_data_byte d).2
    ∧ (nand_read_data_byte d).2.nand_buffer = d.nand_buffer
    ∧ (nand_read_data_byte d).2.nand_writable = d.nand_writable := by
  obtain ⟨hm, hr, ha, hc, hp, hb, hs⟩ := hi
  simp only [nand_read_data_byte]
  split_ifs with h1 h2 h3 h4 h5
  · exact ⟨⟨hm, hr, ha, hc, hp, hb, hs⟩, rfl, rfl⟩
  · refine ⟨⟨hm, hr, ha, ?_, hp, hb, hs⟩, rfl, rfl⟩
    show (d.nand_column + 1) % 2 ^ 32 ≤ 0xFFFF
    omega
  · exact ⟨⟨hm, hr, ha, hc, hp, hb, hs⟩, rfl, rfl⟩
  · exact ⟨⟨hm, hr, ha, hc, hp, hb, hs⟩, rfl, rfl⟩
  · exact ⟨⟨hm, hr, ha, hc, hp, hb, hs⟩, rfl, rfl⟩
  · exact ⟨⟨hm, hr, ha, hc, hp, hb, hs⟩, rfl, rfl⟩
  · exact ⟨⟨hm, hr, ha, hc, hp, hb, hs⟩, rfl, rfl⟩

/-- a word read keeps the device invariant and the transfer buffer -/
theorem nand_read_word_inv (large : Bool) (d : Nand) (hi : nand_inv large d) :
    nand_inv large (nand_read_data_word d).2
    ∧ (nand_read_data_word d).2.nand_buffer = d.nand_buffer
    ∧ (nand_read_data_word d).2.nand_writable = d.nand_writable := by
  obtain ⟨hm, hr, ha, hc, hp, hb, hs⟩ := hi
  simp only [nand_read_data_word]
  split_ifs with h1 h2 h3 h4
  · exact ⟨⟨hm, hr, ha, hc, hp, hb, hs⟩, rfl, rfl⟩
  · refine ⟨⟨hm, hr, ha, ?_, hp, hb, hs⟩, rfl, rfl⟩
    show (d.nand_column + 4) % 2 ^ 32 ≤ 0xFFFF
    omega
  · exact ⟨⟨hm, hr, ha, hc, hp, hb, hs⟩, rfl, rfl⟩
  · exact ⟨⟨hm, hr, ha, hc, hp, hb, hs⟩, rfl, rfl⟩
  · exact ⟨⟨hm, hr, ha, hc, hp, hb, hs⟩, rfl, rfl⟩
  · exact ⟨⟨hm, hr, ha, hc, hp, hb, hs⟩, rfl, rfl⟩

/-- a byte write either is rejected, leaving the device as it is, or stores at the buffer
position, which is then below the page size -/
theorem nand_write_byte_cases (large : Bool) (v : Nat) (d : Nand) (hi : nand_inv large d) :
    (nand_write_data_byte v d = d
      ∧ (d.nand_state = 0x80 → d.nand_buffer_pos + d.nand_column ≥ d.metrics.page_size))
    ∨ (d.nand_state = 0x80 ∧ d.nand_buffer_pos + d.nand_column < d.metrics.page_size
        ∧ d.nand_buffer_pos < 0x840
        ∧ nand_write_data_byte v d
          = { d with nand_buffer := set_elem d.nand_buffer d.nand_buffer_pos v,
                     nand_buffer_pos := d.nand_buffer_pos + 1 }) := by
  obtain ⟨hm, hr, ha, hc, hp, hb, hs⟩ := hi
  simp only [nand_write_data_byte]
  by_cases h1 : d.nand_state = 0x80
  · rw [if_pos h1]
    by_cases h2 : (d.nand_buffer_pos + d.nand_column) % 2 ^ 32 ≥ d.metrics.page_size
    · rw [if_pos h2]
      exact Or.inl ⟨rfl, fun _ => by omega⟩
    · rw [if_neg h2]
      exact Or.inr ⟨h1, by omega, by omega, rfl⟩
  · rw [if_neg h1]
    exact Or.inl ⟨rfl, fun h => absurd h h1⟩

/-- a word write either is rejected, leaving the device as it is, or stores four bytes at the
buffer position, which all lie below the page size -/
theorem nand_write_word_cases (large : Bool) (v : Nat) (d : Nand) (hi : nand_inv large d) :
    (nand_write_data_word v d = d
      ∧ (d.nand_state = 0x80 → d.nand_buffer_pos + d.nand_column + 4 > d.metrics.page_size))
    ∨ (d.nand_state = 0x80 ∧ d.nand_buffer_pos + d.nand_column + 4 ≤ d.metrics.page_size
        ∧ d.nand_buffer_pos + 4 ≤ 0x840
        ∧ nand_write_data_word v d
          = { d with nand_buffer := store_le32 d.nand_buffer d.nand_buffer_pos v,
                     nand_buffer_pos := d.nand_buffer_pos + 4 }) := by
  obtain ⟨hm, hr, ha, hc, hp, hb, hs⟩ := hi
  simp only [nand_write_data_word]
  by_cases h1 : d.nand_state = 0x80
  · rw [if_pos h1]
    by_cases h2 : (d.nand_buffer_pos + d.nand_column + 4) % 2 ^ 32 > d.metrics.page_size
    · rw [if_pos h2]
      exact Or.inl ⟨rfl, fun _ => by omega⟩
    · rw [if_neg h2]
      exact Or.inr ⟨h1, by omega, by omega, rfl⟩
  · rw [if_neg h1]
    exact Or.inl ⟨rfl, fun h => absurd h h1⟩

theorem nand_write_byte_inv (large : Bool) (v : Nat) (d : Nand) (hi : nand_inv large d) :
    nand_inv large (nand_write_data_byte v d)
    ∧ (∀ i, 0x840 ≤ i → (nand_write_data_byte v d).nand_buffer i = d.nand_buffer i)
    ∧ (nand_write_data_byte v d).nand_writable = d.nand_writable := by
  rcases nand_write_byte_cases large v d hi with ⟨e, -⟩ | ⟨h1, h2, h3, e⟩
  · rw [e]; exact ⟨hi, fun _ _ => rfl, rfl⟩
  · rw [e]
    obtain ⟨hm, hr, ha, hc, hp, hb, hs⟩ := hi
    refine ⟨⟨hm, hr, ha, hc, hp, ?_, hs⟩, ?_, rfl⟩
    · show d.nand_buffer_pos + 1 ≤ d.metrics.page_size
      omega
    · intro i hi'
      show set_elem d.nand_buffer d.nand_buffer_pos v i = _
      unfold set_elem
      rw [if_neg (by omega)]

theorem nand_write_word_inv (large : Bool) (v : Nat) (d : Nand) (hi : nand_inv large d) :
    nand_inv large (nand_write_data_word v d)
    ∧ (∀ i, 0x840 ≤ i → (nand_write_data_word v d).nand_buffer i = d.nand_buffer i)
    ∧ (nand_write_data_word v d).nand_writable = d.nand_writable := by
  rcases nand_write_word_cases large v d hi with ⟨e, -⟩ | ⟨h1, h2, h3, e⟩
  · rw [e]; exact ⟨hi, fun _ _ => rfl, rfl⟩
  · rw [e]
    obtain ⟨hm, hr, ha, hc, hp, hb, hs⟩ := hi
    refine ⟨⟨hm, hr, ha, hc, hp, ?_, hs⟩, ?_, rfl⟩
    · show d.nand_buffer_pos + 4 ≤ d.metrics.page_size
      omega
    · intro i hi'
      show store_le32 d.nand_buffer d.nand_buffer_pos v i = _
      unfold store_le32
      rw [if_neg (by omega), if_neg (by omega), if_neg (by omega), if_neg (by omega)]

/-- one call that returns keeps the device invariant, the buffer beyond 0x840 and the write
protection -/
theorem nand_apply_inv (large : Bool) (op : nand_op) (d d' : Nand) (hi : nand_inv large d)
    (h : nand_apply op d = some d') :
    nand_inv large d' ∧ (∀ i, 0x840 ≤ i → d'.nand_buffer i = d.nand_buffer i)
    ∧ d'.nand_writable = d.nand_writable := by
  cases op with
  | command b =>
    obtain ⟨a, b, c⟩ := nand_command_inv large _ d d' hi h
    exact ⟨a, fun i _ => by rw [b], c⟩
  | address b =>
    cases h
    obtain ⟨a, b, c⟩ := nand_address_inv large _ d (Nat.mod_lt _ (by decide)) hi
    exact ⟨a, fun i _ => by rw [b], c⟩
  | read_byte =>
    cases h
    obtain ⟨a, b, c⟩ := nand_read_byte_inv large d hi
    exact ⟨a, fun i _ => by rw [b], c⟩
  | read_word =>
    cases h
    obtain ⟨a, b, c⟩ := nand_read_word_inv large d hi
    exact ⟨a, fun i _ => by rw [b], c⟩
  | write_byte v =>
    cases h
    exact nand_write_byte_inv large _ d hi
  | write_word v =>
    cases h
    exact nand_write_word_inv large _ d hi

/-- a sequence of calls that returns keeps the device invariant, the buffer beyond 0x840 and
the write protection -/
theorem nand_run_inv (large : Bool) (ops : List nand_op) :
    ∀ d d', nand_inv large d → nand_run ops d = some d' →
      nand_inv large d' ∧ (∀ i, 0x840 ≤ i → d'.nand_buffer i = d.nand_buffer i)
      ∧ d'.nand_writable = d.nand_writable := by
  induction ops with
  | nil =>
    intro d d' hi h
    cases h
    exact ⟨hi, fun _ _ => rfl, rfl⟩
  | cons op ops ih =>
    intro d d' hi h
    simp only [nand_run] at h
    cases h1 : nand_apply op d with
    | none => rw [h1] at h; cases h
    | some d1 =>
      rw [h1] at h
      obtain ⟨a1, b1, c1⟩ := nand_apply_inv large op d d1 hi h1
      obtain ⟨a2, b2, c2⟩ := ih d1 d' a1 h
      exact ⟨a2, fun i hi' => by rw [b2 i hi', b1 i hi'], by rw [c2, c1]⟩

/-- on a writable device every sequence of calls returns -/
theorem nand_run_total (large : Bool) (ops : List nand_op) :
    ∀ d, nand_inv large d → d.nand_writable = true → ∃ d', nand_run ops d = some d' := by
  induction ops with
  | nil => intro d _ _; exact ⟨d, rfl⟩
  | cons op ops ih =>
    intro d hi hw
    have h1 : ∃ d1, nand_apply op d = some d1 := by
      cases op with
      | command b =>
        obtain ⟨d1, e, -⟩ := nand_command_writable (b % 256) d hw
        exact ⟨d1, e⟩
      | address b => exact ⟨_, rfl⟩
      | read_byte => exact ⟨_, rfl⟩
      | read_word => exact ⟨_, rfl⟩
      | write_byte v => exact ⟨_, rfl⟩
      | write_word v => exact ⟨_, rfl⟩
    obtain ⟨d1, e1⟩ := h1
    obtain ⟨a1, -, c1⟩ := nand_apply_inv large op d d1 hi e1
    obtain ⟨d', e'⟩ := ih d1 a1 (by rw [c1, hw])
    refine ⟨d', ?_⟩
    simp only [nand_run, e1, Option.some_bind, e']

/-- Claim C25: for either chip, either setting of the write protection and every sequence of
calls of the six device functions started from the initial device state, after every prefix
of the sequence that returns `nand_row < num_pages` and `nand_addr_state <= 6` hold; on a
writable device every sequence returns; and an address byte written when the address state
is 6 leaves the device as it is. -/
theorem nand_row_and_address_state_bounded (large writable : Bool) (data : Nat → Nat)
    (ops : List nand_op) :
    (∀ k d, nand_run (ops.take k) (nand_initial large writable data) = some d
        → d.nand_row < d.metrics.num_pages ∧ d.nand_addr_state ≤ 6)
    ∧ (writable = true → ∃ d, nand_run ops (nand_initial large writable data) = some d)
    ∧ (∀ b d, d.nand_addr_state = 6 → nand_write_address_byte b d = d) := by
  refine ⟨?_, ?_, ?_⟩
  · intro k d h
    obtain ⟨⟨-, hr, ha, -⟩, -⟩ := nand_run_inv large _ _ d (nand_inv_initial large writable data) h
    exact ⟨hr, ha⟩
  · intro hw
    exact nand_run_total large ops _ (nand_inv_initial large writable data) hw
  · intro b d h
    unfold nand_write_address_byte
    rw [if_pos (by omega)]

/-- Claim C26: for every sequence of device calls started from the initial state and every
prefix of it that returns, `nand_buffer_pos <= page_size <= 0x840` holds and no byte of the
transfer buffer at index `0x840` or above has been written; in that state a byte write either
leaves the device as it is or stores at index `nand_buffer_pos < 0x840`, a word write either
leaves the device as it is or stores at the four indices from `nand_buffer_pos` with
`nand_buffer_pos + 4 <= 0x840`; and in PROGRAM state a byte write with
`nand_buffer_pos + nand_column >= page_size`, or a word write with
`nand_buffer_pos + nand_column + 4 > page_size`, leaves the whole device (buffer, position
and `nand_data` included) unchanged. -/
theorem nand_buffer_position_bounded (large writable : Bool) (data : Nat → Nat)
    (ops : List nand_op) :
    ∀ k d, nand_run (ops.take k) (nand_initial large writable data) = some d →
      d.nand_buffer_pos ≤ d.metrics.page_size ∧ d.metrics.page_size ≤ 0x840
      ∧ (∀ i, 0x840 ≤ i → d.nand_buffer i = (nand_initial large writable data).nand_buffer i)
      ∧ (∀ v, nand_write_data_byte v d = d
            ∨ (d.nand_buffer_pos < 0x840
                ∧ nand_write_data_byte v d
                  = { d with nand_buffer := set_elem d.nand_buffer d.nand_buffer_pos v,
                             nand_buffer_pos := d.nand_buffer_pos + 1 }))
      ∧ (∀ v, nand_write_data_word v d = d
            ∨ (d.nand_buffer_pos + 4 ≤ 0x840
                ∧ nand_write_data_word v d
                  = { d with nand_buffer := store_le32 d.nand_buffer d.nand_buffer_pos v,
                             nand_buffer_pos := d.nand_buffer_pos + 4 }))
      ∧ (d.nand_state = 0x80 → d.nand_buffer_pos + d.nand_column ≥ d.metrics.page_size
            → ∀ v, nand_write_data_byte v d = d)
      ∧ (d.nand_state = 0x80 → d.nand_buffer_pos + d.nand_column + 4 > d.metrics.page_size
            → ∀ v, nand_write_data_word v d = d) := by
  intro k d h
  obtain ⟨hi, hb, -⟩ := nand_run_inv large _ _ d (nand_inv_initial large writable data) h
  have hi' := hi
  obtain ⟨-, -, -, -, -, hp, hs⟩ := hi'
  refine ⟨hp, hs, hb, ?_, ?_, ?_, ?_⟩
  · intro v
    rcases nand_write_byte_cases large v d hi with ⟨e, -⟩ | ⟨-, -, h3, e⟩
    · exact Or.inl e
    · exact Or.inr ⟨h3, e⟩
  · intro v
    rcases nand_write_word_cases large v d hi with ⟨e, -⟩ | ⟨-, -, h3, e⟩
    · exact Or.inl e
    · exact Or.inr ⟨h3, e⟩
  · intro hst hge v
    rcases nand_write_byte_cases large v d hi with ⟨e, -⟩ | ⟨-, h2, -, -⟩
    · exact e
    · omega
  · intro hst hge v
    rcases nand_write_word_cases large v d hi with ⟨e, -⟩ | ⟨-, h2, -, -⟩
    · exact e
    · omega

theorem set_elem_ne (a : Nat → Nat) (j v i : Nat) (h : i ≠ j) : set_elem a j v i = a i := by
  unfold set_elem
  rw [if_neg h]

theorem store_le16_other (a : Nat → Nat) (o v i : Nat) (h : i < o ∨ o + 2 ≤ i) :
    store_le16 a o v i = a i := by
  unfold store_le16
  rw [if_neg (by omega), if_neg (by omega)]

theorem store_le32_other (a : Nat → Nat) (o v i : Nat) (h : i < o ∨ o + 4 ≤ i) :
    store_le32 a o v i = a i := by
  unfold store_le32
  rw [if_neg (by omega), if_neg (by omega), if_neg (by omega), if_neg (by omega)]

theorem load_le16_congr (a b : Nat → Nat) (o : Nat) (h : ∀ i, o ≤ i → i < o + 2 → a i = b i) :
    load_le16 a o = load_le16 b o := by
  unfold load_le16
  rw [h o (by omega) (by omega), h (o + 1) (by omega) (by omega)]

theorem load_le32_congr (a b : Nat → Nat) (o : Nat) (h : ∀ i, o ≤ i → i < o + 4 → a i = b i) :
    load_le32 a o = load_le32 b o := by
  unfold load_le32
  rw [h o (by omega) (by omega), h (o + 1) (by omega) (by omega),
    h (o + 2) (by omega) (by omega), h (o + 3) (by omega) (by omega)]

/-- two bytes put together, least significant first -/
theorem le16_join (v : Nat) : v % 256 ||| (v >>> 8 % 256) <<< 8 = v % 2 ^ 16 := by
  apply Nat.eq_of_testBit_eq
  intro j
  simp only [mod256_eq_and, Nat.testBit_and, Nat.testBit_or, Nat.testBit_shiftLeft,
    Nat.testBit_shiftRight, testBit_FF, Nat.testBit_mod_two_pow]
  by_cases a : j < 8
  · have a3 : ¬ j ≥ 8 := by omega
    have a4 : j < 16 := by omega
    simp [a, a3, a4]
  · have a3 : j ≥ 8 := by omega
    by_cases b : j < 16
    · have a4 : j - 8 < 8 := by omega
      have a5 : 8 + (j - 8) = j := by omega
      simp [a, a3, a4, a5, b]
    · have a4 : ¬ j - 8 < 8 := by omega
      simp [a, a4, b]

/-- four bytes put together, least significant first -/
theorem le32_join (v : Nat) :
    v % 256 ||| (v >>> 8 % 256) <<< 8 ||| (v >>> 16 % 256) <<< 16 ||| (v >>> 24 % 256) <<< 24
      = v % 2 ^ 32 := by
  apply Nat.eq_of_testBit_eq
  intro j
  simp only [mod256_eq_and, Nat.testBit_and, Nat.testBit_or, Nat.testBit_shiftLeft,
    Nat.testBit_shiftRight, testBit_FF, Nat.testBit_mod_two_pow]
  by_cases a : j < 8
  · have a3 : ¬ j ≥ 8 := by omega
    have a4 : ¬ j ≥ 16 := by omega
    have a5 : ¬ j ≥ 24 := by omega
    have a6 : j < 32 := by omega
    simp [a, a3, a4, a5, a6]
  · have a3 : j ≥ 8 := by omega
    by_cases b : j < 16
    · have a4 : j - 8 < 8 := by omega
      have a5 : 8 + (j - 8) = j := by omega
      have a6 : ¬ j ≥ 16 := by omega
      have a7 : ¬ j ≥ 24 := by omega
      have a8 : j < 32 := by omega
      simp [a, a3, a4, a5, a6, a7, a8]
    · have b3 : j ≥ 16 := by omega
      have a4 : ¬ j - 8 < 8 := by omega
      by_cases c : j < 24
      · have c4 : j - 16 < 8 := by omega
        have c5 : 16 + (j - 16) = j := by omega
        have c7 : ¬ j ≥ 24 := by omega
        have c8 : j < 32 := by omega
        simp [a, a3, a4, b3, c4, c5, c7, c8]
      · have c3 : j ≥ 24 := by omega
        have c4 : ¬ j - 16 < 8 := by omega
        by_cases e : j < 32
        · have e4 : j - 24 < 8 := by omega
          have e5 : 24 + (j - 24) = j := by omega
          simp [a, a3, a4, b3, c3, c4, e, e4, e5]
        · have e4 : ¬ j - 24 < 8 := by omega
          simp [a, a4, c4, e, e4]

theorem load_store_le16 (a : Nat → Nat) (o v : Nat) :
    load_le16 (store_le16 a o v) o = v % 2 ^ 16 := by
  unfold load_le16 store_le16
  rw [if_pos rfl, if_neg (by omega), if_pos rfl]
  exact le16_join v

theorem load_store_le32 (a : Nat → Nat) (o v : Nat) :
    load_le32 (store_le32 a o v) o = v % 2 ^ 32 := by
  unfold load_le32 store_le32
  rw [if_pos rfl, if_neg (by omega), if_pos rfl, if_neg (by omega), if_neg (by omega),
    if_pos rfl, if_neg (by omega), if_neg (by omega), if_neg (by omega), if_pos rfl]
  exact le32_join v

theorem load16_store16_ne (a : Nat → Nat) (o v o' : Nat) (h : o' + 2 ≤ o ∨ o + 2 ≤ o') :
    load_le16 (store_le16 a o v) o' = load_le16 a o' :=
  load_le16_congr _ _ _ (fun i _ _ => store_le16_other a o v i (by omega))

theorem load16_store32_ne (a : Nat → Nat) (o v o' : Nat) (h : o' + 2 ≤ o ∨ o + 4 ≤ o') :
    load_le16 (store_le32 a o v) o' = load_le16 a o' :=
  load_le16_congr _ _ _ (fun i _ _ => store_le32_other a o v i (by omega))

theorem load32_store16_ne (a : Nat → Nat) (o v o' : Nat) (h : o' + 4 ≤ o ∨ o + 2 ≤ o') :
    load_le32 (store_le16 a o v) o' = load_le32 a o' :=
  load_le32_congr _ _ _ (fun i _ _ => store_le16_other a o v i (by omega))

theorem load32_store32_ne (a : Nat → Nat) (o v o' : Nat) (h : o' + 4 ≤ o ∨ o + 4 ≤ o') :
    load_le32 (store_le32 a o v) o' = load_le32 a o' :=
  load_le32_congr _ _ _ (fun i _ _ => store_le32_other a o v i (by omega))

theorem load16_set_elem_ne (a : Nat → Nat) (j v o' : Nat) (h : j < o' ∨ o' + 2 ≤ j) :
    load_le16 (set_elem a j v) o' = load_le16 a o' :=
  load_le16_congr _ _ _ (fun i _ _ => set_elem_ne a j v i (by omega))

theorem load32_set_elem_ne (a : Nat → Nat) (j v o' : Nat) (h : j < o' ∨ o' + 4 ≤ j) :
    load_le32 (set_elem a j v) o' = load_le32 a o' :=
  load_le32_congr _ _ _ (fun i _ _ => set_elem_ne a j v i (by omega))

/-- the fields of the manufacturing data that `flash_read_settings` reads, after
`flash_create_new` has written them for a product code from `0x0F0` -/
theorem write_manuf_fields (p : Nat) (ls : Bool) (d : Nand) (h1 : 0x0F0 ≤ p) (h2 : p < 2 ^ 20) :
    load_le16 (write_manuf p ls d).nand_data 0x844 = p >>> 4
    ∧ load_le16 (write_manuf p ls d).nand_data 0x846 = p &&& 0xF
    ∧ load_le32 (write_manuf p ls d).nand_data 0x858 = 0x4C9E5F91
    ∧ load_le32 (write_manuf p ls d).nand_data 0x880 = (if ls then 0xFC018012 else 0xFE018011)
    ∧ (∀ i, i < 0x844 ∨ 0x8D1 ≤ i → (write_manuf p ls d).nand_data i = d.nand_data i)
    ∧ (write_manuf p ls d).metrics = d.metrics := by
  have hq : (p >>> 4) % 2 ^ 16 = p >>> 4 := by
    rw [Nat.shiftRight_eq_div_pow]
    exact Nat.mod_eq_of_lt (by omega)
  have hq15 : p >>> 4 ≥ 0x0F := by
    rw [Nat.shiftRight_eq_div_pow]; omega
  have hr : (p &&& 0xF) % 2 ^ 16 = p &&& 0xF :=
    Nat.mod_eq_of_lt (lt_of_le_of_lt Nat.and_le_right (by decide))
  have hc : load_le16 (store_le16 (store_le16 d.nand_data 0x844 (p >>> 4)) (0x844 + 2) (p &&& 0xF))
      0x844 ≥ 0x0F := by
    rw [load16_store16_ne _ _ _ _ (by omega), load_store_le16, hq]
    exact hq15
  unfold write_manuf
  simp only [if_pos hc]
  refine ⟨?_, ?_, ?_, ?_, ?_, trivial⟩
  · simp only [load16_store16_ne, load16_store32_ne, load16_set_elem_ne, load_store_le16, hq,
      Nat.reduceAdd, Nat.reduceLeDiff, or_true, true_or]
  · simp only [load16_store16_ne, load16_store32_ne, load16_set_elem_ne, load_store_le16, hr,
      Nat.reduceAdd, Nat.reduceLeDiff, or_true, true_or]
  · simp only [load32_store16_ne, load32_store32_ne, load32_set_elem_ne, load_store_le32,
      Nat.reduceAdd, Nat.reduceLeDiff, or_true, true_or, Nat.reducePow, Nat.reduceMod]
  · simp only [load32_store16_ne, load32_store32_ne, load32_set_elem_ne, load_store_le32,
      Nat.reduceAdd, Nat.reduceLeDiff, or_true, true_or, Nat.reducePow, Nat.reduceMod]
    cases ls <;> rfl
  · intro i hi
    simp only [Nat.reduceAdd]
    rw [set_elem_ne _ _ _ _ (by omega)]
    repeat (first | rw [store_le16_other _ _ _ _ (by omega)] | rw [store_le32_other _ _ _ _ (by omega)])

theorem ecc_fix_metrics (page : Nat) (d : Nand) : (ecc_fix page d).metrics = d.metrics := by
  unfold ecc_fix
  split_ifs <;> rfl

/-- on a small-page chip `ecc_fix` changes only the three ECC bytes of the page -/
theorem ecc_fix_other_small (page : Nat) (d : Nand) (i : Nat) (hs : d.metrics.page_size < 0x800)
    (h : i < page * d.metrics.page_size + 0x206 ∨ page * d.metrics.page_size + 0x209 ≤ i) :
    (ecc_fix page d).nand_data i = d.nand_data i := by
  unfold ecc_fix
  rw [if_pos hs]
  show set_elem (set_elem (set_elem d.nand_data _ _) _ _) _ _ i = _
  rw [set_elem_ne _ _ _ _ (by omega), set_elem_ne _ _ _ _ (by omega),
    set_elem_ne _ _ _ _ (by omega)]

/-- on a large-page chip `ecc_fix` changes only bytes 0x808..0x83A of the page -/
theorem ecc_fix_other_large (page : Nat) (d : Nand) (i : Nat) (hs : ¬ d.metrics.page_size < 0x800)
    (h : i < page * d.metrics.page_size + 0x808 ∨ page * d.metrics.page_size + 0x83B ≤ i) :
    (ecc_fix page d).nand_data i = d.nand_data i := by
  unfold ecc_fix
  rw [if_neg hs]
  show set_elem (set_elem (set_elem (set_elem (set_elem (set_elem (set_elem (set_elem (set_elem
    (set_elem (set_elem (set_elem d.nand_data _ _) _ _) _ _) _ _) _ _) _ _) _ _) _ _) _ _) _ _)
    _ _) _ _ i = _
  rw [set_elem_ne _ _ _ _ (by omega), set_elem_ne _ _ _ _ (by omega),
    set_elem_ne _ _ _ _ (by omega), set_elem_ne _ _ _ _ (by omega),
    set_elem_ne _ _ _ _ (by omega), set_elem_ne _ _ _ _ (by omega),
    set_elem_ne _ _ _ _ (by omega), set_elem_ne _ _ _ _ (by omega),
    set_elem_ne _ _ _ _ (by omega), set_elem_ne _ _ _ _ (by omega),
    set_elem_ne _ _ _ _ (by omega), set_elem_ne _ _ _ _ (by omega)]

/-- the image that `flash_create_new` builds without preload files for a product code from
`0x0F0`: the fields that `flash_read_settings` reads -/
theorem flash_create_new_fields (load_file : Nat → Nat → Nand → Nand)
    (preload : Nat → Nat → Nand → Nat × Nand) (data : Nat → Nat) (large : Bool)
    (preload_file : Nat → Bool) (p : Nat) (ls : Bool) (d : Nand)
    (hnp : ∀ i, preload_file i = false) (h1 : 0x0F0 ≤ p) (h2 : p < 2 ^ 20) :
    ∃ dn, flash_create_new load_file preload true true data large preload_file p ls d = (true, dn)
      ∧ dn.metrics = chips large
      ∧ load_le32 dn.nand_data 0 = 0x796EB03C
      ∧ load_le16 dn.nand_data 0x844 = p >>> 4
      ∧ load_le16 dn.nand_data 0x846 = p &&& 0xF
      ∧ load_le32 dn.nand_data 0x858 = 0x4C9E5F91
      ∧ load_le32 dn.nand_data 0x880 = (if ls then 0xFC018012 else 0xFE018011) := by
  have hcas : ¬ p = 0x0C0 := by omega
  have hrun : flash_create_new load_file preload true true data large preload_file p ls d
      = (true, ecc_fix (if (chips large).page_size < 0x800 then 4 else 1)
          (write_manuf p ls (ecc_fix 0
            { d with
              metrics := chips large
              nand_block_modified := fun _ => false
              nand_data := store_le32
                (fill_bytes data 0 ((chips large).page_size * (chips large).num_pages) 0xFF)
                0 0x796EB03C }))) := by
    simp only [flash_create_new, nand_initialize, hnp, hcas]
    simp only [not_true_eq_false, Bool.not_true, Bool.false_eq_true, if_false,
      not_false_eq_true, if_true, ecc_fix_metrics, (write_manuf_fields p ls _ h1 h2).2.2.2.2.2]
  refine ⟨_, hrun, ?_⟩
  generalize hD : ({ d with
      metrics := chips large
      nand_block_modified := fun _ => false
      nand_data := store_le32
        (fill_bytes data 0 ((chips large).page_size * (chips large).num_pages) 0xFF)
        0 0x796EB03C } : Nand) = D
  have hDm : D.metrics = chips large := by rw [← hD]
  have hD0 : load_le32 D.nand_data 0 = 0x796EB03C := by
    rw [← hD]
    exact load_store_le32 _ 0 0x796EB03C
  obtain ⟨f1, f2, f3, f4, f5, f6⟩ := write_manuf_fields p ls (ecc_fix 0 D) h1 h2
  have hWm : (write_manuf p ls (ecc_fix 0 D)).metrics = chips large := by
    rw [f6, ecc_fix_metrics, hDm]
  refine ⟨by rw [ecc_fix_metrics, hWm], ?_⟩
  cases large
  · have hps : (chips false).page_size = 0x210 := rfl
    have hsm : (write_manuf p ls (ecc_fix 0 D)).metrics.page_size < 0x800 := by
      rw [hWm, hps]; decide
    have hsm0 : D.metrics.page_size < 0x800 := by rw [hDm, hps]; decide
    have hP : (if (chips false).page_size < 0x800 then 4 else 1) = 4 := by rw [hps]; rfl
    rw [hP]
    have outer : ∀ i, i < 0xA46 →
        (ecc_fix 4 (write_manuf p ls (ecc_fix 0 D))).nand_data i
          = (write_manuf p ls (ecc_fix 0 D)).nand_data i := by
      intro i hi
      apply ecc_fix_other_small _ _ _ hsm
      rw [hWm, hps]; omega
    have inner : ∀ i, i < 0x206 → (ecc_fix 0 D).nand_data i = D.nand_data i := by
      intro i hi
      apply ecc_fix_other_small _ _ _ hsm0
      omega
    refine ⟨?_, ?_, ?_, ?_, ?_⟩
    · rw [load_le32_congr _ D.nand_data 0 (fun i _ hi => by
        rw [outer i (by omega), f5 i (by omega), inner i (by omega)])]
      exact hD0
    · rw [load_le16_congr _ _ 0x844 (fun i _ hi => outer i (by omega))]; exact f1
    · rw [load_le16_congr _ _ 0x846 (fun i _ hi => outer i (by omega))]; exact f2
    · rw [load_le32_congr _ _ 0x858 (fun i _ hi => outer i (by omega))]; exact f3
    · rw [load_le32_congr _ _ 0x880 (fun i _ hi => outer i (by omega))]; exact f4
  · have hps : (chips true).page_size = 0x840 := rfl
    have hsm : ¬ (write_manuf p ls (ecc_fix 0 D)).metrics.page_size < 0x800 := by
      rw [hWm, hps]; decide
    have hsm0 : ¬ D.metrics.page_size < 0x800 := by rw [hDm, hps]; decide
    have hP : (if (chips true).page_size < 0x800 then 4 else 1) = 1 := by rw [hps]; rfl
    rw [hP]
    have outer : ∀ i, i < 0x1048 →
        (ecc_fix 1 (write_manuf p ls (ecc_fix 0 D))).nand_data i
          = (write_manuf p ls (ecc_fix 0 D)).nand_data i := by
      intro i hi
      apply ecc_fix_other_large _ _ _ hsm
      rw [hWm, hps]; omega
    have inner : ∀ i, i < 0x808 → (ecc_fix 0 D).nand_data i = D.nand_data i := by
      intro i hi
      apply ecc_fix_other_large _ _ _ hsm0
      omega
    refine ⟨?_, ?_, ?_, ?_, ?_⟩
    · rw [load_le32_congr _ D.nand_data 0 (fun i _ hi => by
        rw [outer i (by omega), f5 i (by omega), inner i (by omega)])]
      exact hD0
    · rw [load_le16_congr _ _ 0x844 (fun i _ hi => outer i (by omega))]; exact f1
    · rw [load_le16_congr _ _ 0x846 (fun i _ hi => outer i (by omega))]; exact f2
    · rw [load_le32_congr _ _ 0x858 (fun i _ hi => outer i (by omega))]; exact f3
    · rw [load_le32_congr _ _ 0x880 (fun i _ hi => outer i (by omega))]; exact f4

/-- a product code below `2 ^ 20` is put together again from its two stored halves -/
theorem product_join (p : Nat) : (p >>> 4) <<< 4 ||| (p &&& 0xF) = p := by
  apply Nat.eq_of_testBit_eq
  intro j
  have hF : (0xF : Nat).testBit j = decide (j < 4) := Nat.testBit_two_pow_sub_one 4 j
  simp only [Nat.testBit_or, Nat.testBit_and, Nat.testBit_shiftLeft, Nat.testBit_shiftRight, hF]
  by_cases a : j < 4
  · have : ¬ j ≥ 4 := by omega
    simp [a, this]
  · have h4 : j ≥ 4 := by omega
    have : 4 + (j - 4) = j := by omega
    simp [a, h4, this]

/-- Claim C22: for either chip, every product code `p` with `0x0F0 <= p < 2^20` and either
value of `large_sdram`, `flash_create_new` without preload files (with both allocations
succeeding) returns true, and `flash_read_settings` on the image returns true, sets `product`
to `p` and returns `sdram_size = (4 MiB) << ((cfg & 7) + ((cfg >> 3) & 7))` for the stored
`config_sdram` word `cfg`, which is 64 MiB when `large_sdram` is set and 32 MiB otherwise;
and for every 32-bit `cfg` with `(cfg & 7) + ((cfg >> 3) & 7) > 4` stored in that field of
the image, `flash_read_settings` returns false. -/
theorem flash_create_then_read_settings (load_file : Nat → Nat → Nand → Nand)
    (preload : Nat → Nat → Nand → Nat × Nand) (data : Nat → Nat) (large : Bool)
    (preload_file : Nat → Bool) (p : Nat) (large_sdram : Bool) (d : Nand)
    (hnp : ∀ i, preload_file i = false) (h1 : 0x0F0 ≤ p) (h2 : p < 2 ^ 20) :
    ∃ dn, flash_create_new load_file preload true true data large preload_file p large_sdram d
        = (true, dn)
      ∧ (flash_read_settings dn).ok = true
      ∧ (flash_read_settings dn).product = p
      ∧ (flash_read_settings dn).sdram_size
          = (4 * 1024 * 1024) <<< ((load_le32 dn.nand_data (0x844 + 60) &&& 7)
              + (load_le32 dn.nand_data (0x844 + 60) >>> 3 &&& 7))
      ∧ (flash_read_settings dn).sdram_size
          = (if large_sdram then 64 * 1024 * 1024 else 32 * 1024 * 1024)
      ∧ (∀ cfg, cfg < 2 ^ 32 → (cfg &&& 7) + (cfg >>> 3 &&& 7) > 4 →
          (flash_read_settings { dn with nand_data := store_le32 dn.nand_data (0x844 + 60) cfg }).ok
            = false) := by
  obtain ⟨dn, e, -, g0, g1, g2, g3, g4⟩ :=
    flash_create_new_fields load_file preload data large preload_file p large_sdram d hnp h1 h2
  have hw0 : ¬ load_le32 dn.nand_data 0 = 0xFFFFFFFF := by rw [g0]; decide
  have hprod : load_le16 dn.nand_data 0x844 <<< 4 ||| load_le16 dn.nand_data (0x844 + 2) = p := by
    show load_le16 dn.nand_data 0x844 <<< 4 ||| load_le16 dn.nand_data 0x846 = p
    rw [g1, g2]; exact product_join p
  have hcx : load_le16 dn.nand_data 0x844 <<< 4 ||| load_le16 dn.nand_data (0x844 + 2) ≥ 0x0F0
      ∧ load_le32 dn.nand_data (0x844 + 20) = 0x4C9E5F91 := by
    rw [hprod]; exact ⟨h1, g3⟩
  have hcfg : load_le32 dn.nand_data (0x844 + 60) = (if large_sdram then 0xFC018012 else 0xFE018011) := g4
  have hlog : ¬ (load_le32 dn.nand_data (0x844 + 60) &&& 7)
      + (load_le32 dn.nand_data (0x844 + 60) >>> 3 &&& 7) > 4 := by
    rw [hcfg]; cases large_sdram <;> decide
  refine ⟨dn, e, ?_, ?_, ?_, ?_, ?_⟩
  · simp only [flash_read_settings, if_neg hw0, if_pos hcx, if_neg hlog]
  · simp only [flash_read_settings, if_neg hw0, if_pos hcx, if_neg hlog]
    exact hprod
  · simp only [flash_read_settings, if_neg hw0, if_pos hcx, if_neg hlog]
  · simp only [flash_read_settings, if_neg hw0, if_pos hcx, if_neg hlog]
    rw [hcfg]; cases large_sdram <;> rfl
  · intro cfg hc hsum
    have k0 : load_le32 (store_le32 dn.nand_data (0x844 + 60) cfg) 0 = load_le32 dn.nand_data 0 :=
      load32_store32_ne _ _ _ _ (by omega)
    have k1 : load_le16 (store_le32 dn.nand_data (0x844 + 60) cfg) 0x844
        = load_le16 dn.nand_data 0x844 := load16_store32_ne _ _ _ _ (by omega)
    have k2 : load_le16 (store_le32 dn.nand_data (0x844 + 60) cfg) (0x844 + 2)
        = load_le16 dn.nand_data (0x844 + 2) := load16_store32_ne _ _ _ _ (by omega)
    have k3 : load_le32 (store_le32 dn.nand_data (0x844 + 60) cfg) (0x844 + 20)
        = load_le32 dn.nand_data (0x844 + 20) := load32_store32_ne _ _ _ _ (by omega)
    have k4 : load_le32 (store_le32 dn.nand_data (0x844 + 60) cfg) (0x844 + 60) = cfg := by
      rw [load_store_le32]; exact Nat.mod_eq_of_lt hc
    simp only [flash_read_settings, k0, k1, k2, k3, k4, if_neg hw0, if_pos hcx, if_pos hsum]

theorem shr_and_one_le (x k : Nat) : x >>> k &&& 1 ≤ 1 := Nat.and_le_right

theorem shr_and_one_cases (x k : Nat) : x >>> k &&& 1 = 0 ∨ x >>> k &&& 1 = 1 := by
  have := shr_and_one_le x k
  omega

theorem bit_ne_zero_iff (x k : Nat) : x >>> k &&& 1 ≠ 0 ↔ x >>> k &&& 1 = 1 := by
  have := shr_and_one_le x k
  omega

theorem bit_eq_one_iff_testBit (x k : Nat) : x >>> k &&& 1 = 1 ↔ x.testBit k = true := by
  rw [Nat.testBit, Nat.and_comm 1]
  rcases shr_and_one_cases x k with h | h <;> rw [h] <;> decide

theorem count_bits_le (insn k : Nat) : count_bits insn k ≤ k := by
  induction k with
  | zero => exact Nat.le_refl 0
  | succ k ih =>
    show count_bits insn k + (insn >>> k &&& 1) ≤ k + 1
    have := shr_and_one_le insn k
    omega

/-- a mask has no bit in common with the complement of a word iff the word has all its bits -/
theorem not32_and_eq_zero_iff (x M : Nat) (hM : M < 2 ^ 32) :
    not32 x &&& M = 0 ↔ x &&& M = M := by
  constructor
  · intro h
    apply Nat.eq_of_testBit_eq
    intro j
    have hj := congrArg (fun t => t.testBit j) h
    simp only [Nat.testBit_and, testBit_not32, Nat.zero_testBit] at hj
    rw [Nat.testBit_and]
    by_cases hm : M.testBit j = true
    · have h32 : j < 32 := testBit_of_lt M 32 j hM hm
      simp [hm, h32] at hj
      simp [hm, hj]
    · simp at hm
      simp [hm]
  · intro h
    apply Nat.eq_of_testBit_eq
    intro j
    have hj := congrArg (fun t => t.testBit j) h
    simp only [Nat.testBit_and] at hj
    simp only [Nat.testBit_and, testBit_not32, Nat.zero_testBit]
    by_cases hm : M.testBit j = true
    · simp [hm] at hj
      simp [hj]
    · simp at hm
      simp [hm]

/-- the CPSR is restored exactly by a load of R15 with the S bit -/
theorem ldm_restore_iff (insn : Nat) :
    not32 insn &&& (1 <<< 22 ||| 1 <<< 20 ||| 1 <<< 15) = 0
      ↔ insn >>> 22 &&& 1 = 1 ∧ insn >>> 20 &&& 1 = 1 ∧ insn >>> 15 &&& 1 = 1 := by
  rw [not32_and_eq_zero_iff _ _ (by decide)]
  simp only [bit_eq_one_iff_testBit]
  constructor
  · intro h
    have k : ∀ j, (insn &&& (1 <<< 22 ||| 1 <<< 20 ||| 1 <<< 15)).testBit j
        = (1 <<< 22 ||| 1 <<< 20 ||| 1 <<< 15 : Nat).testBit j := fun j => by rw [h]
    have k22 := k 22
    have k20 := k 20
    have k15 := k 15
    rw [Nat.testBit_and] at k22 k20 k15
    have e22 : (1 <<< 22 ||| 1 <<< 20 ||| 1 <<< 15 : Nat).testBit 22 = true := by decide
    have e20 : (1 <<< 22 ||| 1 <<< 20 ||| 1 <<< 15 : Nat).testBit 20 = true := by decide
    have e15 : (1 <<< 22 ||| 1 <<< 20 ||| 1 <<< 15 : Nat).testBit 15 = true := by decide
    rw [e22] at k22
    rw [e20] at k20
    rw [e15] at k15
    simp at k22 k20 k15
    exact ⟨k22, k20, k15⟩
  · rintro ⟨a, b, c⟩
    apply Nat.eq_of_testBit_eq
    intro j
    rw [Nat.testBit_and]
    by_cases hm : (1 <<< 22 ||| 1 <<< 20 ||| 1 <<< 15 : Nat).testBit j = true
    · have hj : j = 22 ∨ j = 20 ∨ j = 15 := by
        simp only [Nat.testBit_or, Nat.testBit_shiftLeft, Bool.or_eq_true, Bool.and_eq_true,
          decide_eq_true_eq] at hm
        have one : ∀ i, (1 : Nat).testBit i = true → i = 0 := by
          intro i hi
          by_contra h0
          have : (1 : Nat).testBit i = false := Nat.testBit_lt_two_pow (by
            calc 1 < 2 ^ 1 := by decide
              _ ≤ 2 ^ i := Nat.pow_le_pow_right (by decide) (by omega))
          rw [this] at hi
          exact Bool.noConfusion hi
        rcases hm with (⟨h1, h2⟩ | ⟨h1, h2⟩) | ⟨h1, h2⟩
        · have := one _ h2; omega
        · have := one _ h2; omega
        · have := one _ h2; omega
      rcases hj with rfl | rfl | rfl
      · rw [a]; rfl
      · rw [b]; rfl
      · rw [c]; rfl
    · simp at hm
      simp [hm]

/-- the running address of the LDM/STM loop in closed form -/
theorem ldm_stm_loop_eq_at (ops : mem_ops) (insn base_reg L : Nat) (hL : L < 2 ^ 32) :
    ∀ k nb s, ldm_stm_loop ops insn base_reg k (L, nb, s)
      = (ldm_stm_at ops insn base_reg L k (nb, s)).map
          fun r => ((L + 4 * count_bits insn k) % 2 ^ 32, r) := by
  intro k
  induction k with
  | zero =>
    intro nb s
    show some (L, nb, s) = some ((L + 4 * 0) % 2 ^ 32, nb, s)
    rw [Nat.mul_zero, Nat.add_zero, Nat.mod_eq_of_lt hL]
  | succ k ih =>
    intro nb s
    simp only [ldm_stm_loop, ldm_stm_at, ih]
    cases ldm_stm_at ops insn base_reg L k (nb, s) with
    | none => rfl
    | some r =>
      simp only [Option.map_some', Option.some_bind]
      rcases shr_and_one_cases insn k with hb | hb
      · have n1 : ¬ insn >>> k &&& 1 ≠ 0 := fun h => h hb
        have n2 : ¬ insn >>> k &&& 1 = 1 := by omega
        rw [if_neg n1, if_neg n2]
        simp only [Option.map_some', count_bits, hb, Nat.add_zero]
      · have n1 : insn >>> k &&& 1 ≠ 0 := by omega
        rw [if_pos n1, if_pos hb]
        cases ldm_stm_transfer ops insn base_reg k ((L + 4 * count_bits insn k) % 2 ^ 32) r with
        | none => rfl
        | some t =>
          simp only [Option.map_some', count_bits, hb]
          congr 2
          omega

/-- the pointer set up for register `i` is `arm.reg[i]` or a user-bank copy of it -/
theorem ldm_stm_reg_ptr_cases (insn i : Nat) (s : Cpu) :
    ldm_stm_reg_ptr insn i s = .reg i
    ∨ ldm_stm_reg_ptr insn i s = .r13_usr (i - 13)
    ∨ ldm_stm_reg_ptr insn i s = .r8_usr (i - 8) := by
  simp only [ldm_stm_reg_ptr]
  by_cases h1 : insn &&& (1 <<< 22) ≠ 0 ∧ not32 insn &&& ((1 <<< 20) ||| (1 <<< 15)) ≠ 0
  · rw [if_pos h1]
    by_cases h2 : i ≥ 13
    · rw [if_pos h2]
      by_cases h3 : s.arm.cpsr_low28 &&& 0x1F ≠ MODE_USR ∧ s.arm.cpsr_low28 &&& 0x1F ≠ MODE_SYS
      · rw [if_pos h3]; exact Or.inr (Or.inl rfl)
      · rw [if_neg h3]; exact Or.inl rfl
    · rw [if_neg h2]
      by_cases h4 : i ≥ 8
      · rw [if_pos h4]
        by_cases h5 : s.arm.cpsr_low28 &&& 0x1F = MODE_FIQ
        · rw [if_pos h5]; exact Or.inr (Or.inr rfl)
        · rw [if_neg h5]; exact Or.inl rfl
      · rw [if_neg h4]; exact Or.inl rfl
  · rw [if_neg h1]; exact Or.inl rfl

/-- a transfer changes the local `new_base` only when it loads the base register itself -/
theorem ldm_stm_transfer_new_base (ops : mem_ops) (insn base_reg i addr : Nat) (st r : Nat × Cpu)
    (h : ldm_stm_transfer ops insn base_reg i addr st = some r)
    (hc : insn >>> 20 &&& 1 = 0 ∨ ldm_stm_reg_ptr insn i st.2 ≠ .reg base_reg) :
    r.1 = st.1 := by
  unfold ldm_stm_transfer at h
  by_cases hl : insn &&& (1 <<< 20) ≠ 0
  · have hl1 := (and_bit_ne_zero_iff insn 20).1 hl
    have hp : ldm_stm_reg_ptr insn i st.2 ≠ .reg base_reg := by
      rcases hc with h0 | h0
      · omega
      · exact h0
    simp only [if_pos hl, if_neg hp, Option.some_bind] at h
    cases hr : ops.read_word addr st.2 with
    | none => rw [hr] at h; cases h
    | some v =>
      rw [hr] at h
      simp only [Option.map_some', Option.some.injEq] at h
      rw [← h]
      rcases ldm_stm_reg_ptr_cases insn i st.2 with e | e | e <;> rw [e] <;> rfl
  · simp only [if_neg hl] at h
    cases hr : ops.write_word addr (reg_ref_read (ldm_stm_reg_ptr insn i st.2) st.1 st.2.arm) st.2 with
    | none => rw [hr] at h; cases h
    | some v =>
      rw [hr] at h
      simp only [Option.map_some', Option.some.injEq] at h
      rw [← h]

/-- a register other than the base register is never transferred through `new_base` -/
theorem ldm_stm_reg_ptr_ne (insn i base_reg : Nat) (s : Cpu) (h : i ≠ base_reg) :
    ldm_stm_reg_ptr insn i s ≠ .reg base_reg := by
  rcases ldm_stm_reg_ptr_cases insn i s with e | e | e <;> rw [e]
  · intro h'
    exact h (reg_ref.reg.inj h')
  · intro h'; cases h'
  · intro h'; cases h'

/-- the local `new_base` after the loop of a store, or of a load that does not list the
base register -/
theorem ldm_stm_at_new_base (ops : mem_ops) (insn base_reg L : Nat)
    (hc : insn >>> 20 &&& 1 = 0 ∨ insn >>> base_reg &&& 1 = 0) :
    ∀ k st r, ldm_stm_at ops insn base_reg L k st = some r → r.1 = st.1 := by
  intro k
  induction k with
  | zero =>
    intro st r h
    cases h
    rfl
  | succ k ih =>
    intro st r h
    simp only [ldm_stm_at] at h
    cases h1 : ldm_stm_at ops insn base_reg L k st with
    | none => rw [h1] at h; cases h
    | some r1 =>
      rw [h1] at h
      simp only [Option.some_bind] at h
      have e1 := ih st r1 h1
      by_cases hb : insn >>> k &&& 1 = 1
      · rw [if_pos hb] at h
        rw [← e1]
        apply ldm_stm_transfer_new_base ops insn base_reg k _ r1 r h
        rcases hc with h0 | h0
        · exact Or.inl h0
        · refine Or.inr (ldm_stm_reg_ptr_ne insn k base_reg r1.2 ?_)
          intro hk
          rw [hk] at hb
          omega
      · rw [if_neg hb] at h
        cases h
        exact e1

/-- a transfer returns when the accessors do and it is not a load with writeback of the
base register -/
theorem ldm_stm_transfer_total (ops : mem_ops) (insn base_reg i addr : Nat) (st : Nat × Cpu)
    (hr : ∀ a s, (ops.read_word a s).isSome = true)
    (hw : ∀ a v s, (ops.write_word a v s).isSome = true)
    (hc : ¬ (insn >>> 20 &&& 1 = 1 ∧ insn >>> 21 &&& 1 = 1 ∧ i = base_reg)) :
    (ldm_stm_transfer ops insn base_reg i addr st).isSome = true := by
  unfold ldm_stm_transfer
  by_cases hl : insn &&& (1 <<< 20) ≠ 0
  · have hl1 := (and_bit_ne_zero_iff insn 20).1 hl
    rw [if_pos hl]
    by_cases hp : ldm_stm_reg_ptr insn i st.2 = .reg base_reg
    · have hi : i = base_reg := by
        by_contra hne
        exact ldm_stm_reg_ptr_ne insn i base_reg st.2 hne hp
      have hwb : ¬ insn &&& (1 <<< 21) ≠ 0 := by
        intro h21
        have := (and_bit_ne_zero_iff insn 21).1 h21
        exact hc ⟨hl1, this, hi⟩
      rw [if_pos hp, if_neg hwb]
      simp only [Option.some_bind]
      have := hr addr st.2
      cases h : ops.read_word addr st.2 with
      | none => rw [h] at this; cases this
      | some v => rfl
    · rw [if_neg hp]
      simp only [Option.some_bind]
      have := hr addr st.2
      cases h : ops.read_word addr st.2 with
      | none => rw [h] at this; cases this
      | some v => rfl
  · rw [if_neg hl]
    have := hw addr (reg_ref_read (ldm_stm_reg_ptr insn i st.2) st.1 st.2.arm) st.2
    cases h : ops.write_word addr (reg_ref_read (ldm_stm_reg_ptr insn i st.2) st.1 st.2.arm) st.2 with
    | none => rw [h] at this; cases this
    | some v => rfl

theorem ldm_stm_at_total (ops : mem_ops) (insn base_reg L : Nat)
    (hr : ∀ a s, (ops.read_word a s).isSome = true)
    (hw : ∀ a v s, (ops.write_word a v s).isSome = true)
    (hc : ¬ (insn >>> 20 &&& 1 = 1 ∧ insn >>> 21 &&& 1 = 1 ∧ insn >>> base_reg &&& 1 = 1)) :
    ∀ k st, (ldm_stm_at ops insn base_reg L k st).isSome = true := by
  intro k
  induction k with
  | zero => intro st; rfl
  | succ k ih =>
    intro st
    simp only [ldm_stm_at]
    have := ih st
    cases h1 : ldm_stm_at ops insn base_reg L k st with
    | none => rw [h1] at this; cases this
    | some r1 =>
      simp only [Option.some_bind]
      by_cases hb : insn >>> k &&& 1 = 1
      · rw [if_pos hb]
        apply ldm_stm_transfer_total ops insn base_reg k _ r1 hr hw
        rintro ⟨a, b, c⟩
        rw [c] at hb
        exact hc ⟨a, b, hb⟩
      · rw [if_neg hb]
        rfl

/-- the start address and the written-back base that the LDM/STM branch computes -/
theorem ldm_stm_setup_eq (insn B : Nat) (hB : B < 2 ^ 32) :
    ldm_stm_setup insn B
      = (ldm_stm_first_address insn B (count_bits insn 16),
          ldm_stm_written_base insn B (count_bits insn 16)) := by
  have hn := count_bits_le insn 16
  unfold ldm_stm_setup ldm_stm_first_address ldm_stm_written_base
  simp only [and_bit_ne_zero_iff]
  rcases shr_and_one_cases insn 23 with h23 | h23 <;>
  rcases shr_and_one_cases insn 24 with h24 | h24 <;>
  rcases shr_and_one_cases insn 21 with h21 | h21 <;>
  simp only [h23, h24, h21, if_true, if_false, zero_ne_one, not_true_eq_false,
    not_false_eq_true, Prod.mk.injEq, true_and, and_true] <;>
  first
    | rfl
    | omega

theorem ldm_stm_first_address_lt (insn B n : Nat) (hB : B < 2 ^ 32) :
    ldm_stm_first_address insn B n < 2 ^ 32 := by
  unfold ldm_stm_first_address
  split_ifs
  · exact Nat.mod_lt _ (by decide)
  · exact hB
  · exact Nat.mod_lt _ (by decide)
  · exact Nat.mod_lt _ (by decide)

/-- the LDM/STM branch with its running address is the closed form -/
theorem ldm_stm_eq_spec (ops : mem_ops) (insn : Nat) (s : Cpu)
    (hB : s.arm.reg (insn >>> 16 &&& 15) < 2 ^ 32) :
    arm_ldm_stm ops insn s = ldm_stm_spec ops insn s := by
  unfold arm_ldm_stm ldm_stm_spec get_reg
  by_cases hb : insn >>> 16 &&& 15 = 15
  · simp only [if_pos hb]
    rfl
  · simp only [if_neg hb, Option.some_bind, ldm_stm_setup_eq insn _ hB]
    rw [ldm_stm_loop_eq_at ops insn _ _ (ldm_stm_first_address_lt insn _ _ hB)]
    cases ldm_stm_at ops insn (insn >>> 16 &&& 15)
        (ldm_stm_first_address insn (s.arm.reg (insn >>> 16 &&& 15)) (count_bits insn 16)) 15
        (ldm_stm_written_base insn (s.arm.reg (insn >>> 16 &&& 15)) (count_bits insn 16), s) with
    | none => rfl
    | some r =>
      simp only [Option.map_some', Option.some_bind, and_bit_ne_zero_iff, ldm_restore_iff]

theorem ldm_stm_base_and_total (ops : mem_ops) (insn : Nat) (s : Cpu)
    (hb : insn >>> 16 &&& 15 ≠ 15) (hB : s.arm.reg (insn >>> 16 &&& 15) < 2 ^ 32) :
    arm_ldm_stm ops insn s = ldm_stm_spec ops insn s
    ∧ (∀ s', arm_ldm_stm ops insn s = some s'
        → ¬ (insn >>> 22 &&& 1 = 1 ∧ insn >>> 20 &&& 1 = 1 ∧ insn >>> 15 &&& 1 = 1)
        → (insn >>> 20 &&& 1 = 0 ∨ insn >>> (insn >>> 16 &&& 15) &&& 1 = 0)
        → s'.arm.reg (insn >>> 16 &&& 15)
            = ldm_stm_written_base insn (s.arm.reg (insn >>> 16 &&& 15)) (count_bits insn 16))
    ∧ ((∀ a t, (ops.read_word a t).isSome = true) → (∀ a v t, (ops.write_word a v t).isSome = true)
        → ¬ (insn >>> 20 &&& 1 = 1 ∧ insn >>> 21 &&& 1 = 1
              ∧ insn >>> (insn >>> 16 &&& 15) &&& 1 = 1)
        → ¬ (insn >>> 22 &&& 1 = 1 ∧ insn >>> 20 &&& 1 = 1 ∧ insn >>> 15 &&& 1 = 1)
        → (arm_ldm_stm ops insn s).isSome = true) := by
  have heq := ldm_stm_eq_spec ops insn s hB
  refine ⟨heq, ?_, ?_⟩
  · intro s' h hnr hc
    rw [heq] at h
    simp only [ldm_stm_spec, if_neg hb, if_neg hnr] at h
    cases h1 : ldm_stm_at ops insn (insn >>> 16 &&& 15)
        (ldm_stm_first_address insn (s.arm.reg (insn >>> 16 &&& 15)) (count_bits insn 16)) 15
        (ldm_stm_written_base insn (s.arm.reg (insn >>> 16 &&& 15)) (count_bits insn 16), s) with
    | none => rw [h1] at h; cases h
    | some st =>
      rw [h1] at h
      simp only [Option.some_bind] at h
      have e1 := ldm_stm_at_new_base ops insn _ _ hc 15 _ st h1
      simp only at e1
      cases h2 : (if insn >>> 15 &&& 1 = 1 then
          if insn >>> 20 &&& 1 = 1 then
            (ops.read_word ((ldm_stm_first_address insn (s.arm.reg (insn >>> 16 &&& 15))
              (count_bits insn 16) + 4 * count_bits insn 15) % 2 ^ 32) st.2).map
              fun v => set_reg_pc_bx 15 v.1 v.2
          else ops.write_word ((ldm_stm_first_address insn (s.arm.reg (insn >>> 16 &&& 15))
              (count_bits insn 16) + 4 * count_bits insn 15) % 2 ^ 32)
              (get_reg_pc_store 15 st.2) st.2
         else some st.2) with
      | none => rw [h2] at h; cases h
      | some s2 =>
        rw [h2] at h
        simp only [Option.some_bind, Option.some.injEq] at h
        rw [← h, ← e1]
        simp [set_elem]
  · intro hr hw hc hnr
    rw [heq]
    simp only [ldm_stm_spec, if_neg hb, if_neg hnr]
    have t1 := ldm_stm_at_total ops insn (insn >>> 16 &&& 15)
      (ldm_stm_first_address insn (s.arm.reg (insn >>> 16 &&& 15)) (count_bits insn 16)) hr hw hc 15
      (ldm_stm_written_base insn (s.arm.reg (insn >>> 16 &&& 15)) (count_bits insn 16), s)
    cases h1 : ldm_stm_at ops insn (insn >>> 16 &&& 15)
        (ldm_stm_first_address insn (s.arm.reg (insn >>> 16 &&& 15)) (count_bits insn 16)) 15
        (ldm_stm_written_base insn (s.arm.reg (insn >>> 16 &&& 15)) (count_bits insn 16), s) with
    | none => rw [h1] at t1; cases t1
    | some st =>
      simp only [Option.some_bind]
      by_cases h15 : insn >>> 15 &&& 1 = 1
      · rw [if_pos h15]
        by_cases h20 : insn >>> 20 &&& 1 = 1
        · rw [if_pos h20]
          have := hr ((ldm_stm_first_address insn (s.arm.reg (insn >>> 16 &&& 15))
              (count_bits insn 16) + 4 * count_bits insn 15) % 2 ^ 32) st.2
          cases h3 : ops.read_word ((ldm_stm_first_address insn (s.arm.reg (insn >>> 16 &&& 15))
              (count_bits insn 16) + 4 * count_bits insn 15) % 2 ^ 32) st.2 with
          | none => rw [h3] at this; cases this
          | some v => rfl
        · rw [if_neg h20]
          have := hw ((ldm_stm_first_address insn (s.arm.reg (insn >>> 16 &&& 15))
              (count_bits insn 16) + 4 * count_bits insn 15) % 2 ^ 32)
              (get_reg_pc_store 15 st.2) st.2
          cases h3 : ops.write_word ((ldm_stm_first_address insn (s.arm.reg (insn >>> 16 &&& 15))
              (count_bits insn 16) + 4 * count_bits insn 15) % 2 ^ 32)
              (get_reg_pc_store 15 st.2) st.2 with
          | none => rw [h3] at this; cases this
          | some v => rfl
      · rw [if_neg h15]
        rfl

theorem and_mask_eq_iff (x M : Nat) (hM : M < 2 ^ 32) :
    x &&& M = M ↔ ∀ j, j < 32 → M.testBit j = true → x.testBit j = true := by
  constructor
  · intro h j _ hj
    have := congrArg (fun t => t.testBit j) h
    simp only [Nat.testBit_and, hj, Bool.and_true] at this
    exact this
  · intro h
    apply Nat.eq_of_testBit_eq
    intro j
    rw [Nat.testBit_and]
    by_cases hm : M.testBit j = true
    · rw [h j (testBit_of_lt M 32 j hM hm) hm, hm]; rfl
    · simp at hm
      simp [hm]

/-- the user-bank transfer is selected by the S bit on a store or on a load without R15 -/
theorem ldm_user_iff (insn : Nat) :
    (insn &&& (1 <<< 22) ≠ 0 ∧ not32 insn &&& ((1 <<< 20) ||| (1 <<< 15)) ≠ 0)
      ↔ (insn >>> 22 &&& 1 = 1 ∧ (insn >>> 20 &&& 1 = 0 ∨ insn >>> 15 &&& 1 = 0)) := by
  have key : not32 insn &&& ((1 <<< 20) ||| (1 <<< 15)) = 0
      ↔ (insn >>> 20 &&& 1 = 1 ∧ insn >>> 15 &&& 1 = 1) := by
    rw [not32_and_eq_zero_iff _ _ (by decide), and_mask_eq_iff _ _ (by decide)]
    simp only [bit_eq_one_iff_testBit]
    constructor
    · intro h
      exact ⟨h 20 (by decide) (by decide), h 15 (by decide) (by decide)⟩
    · rintro ⟨a, b⟩ j hj hm
      have : ∀ j, j < 32 → ((1 <<< 20) ||| (1 <<< 15) : Nat).testBit j = true → j = 20 ∨ j = 15 := by
        decide
      rcases this j hj hm with rfl | rfl
      · exact a
      · exact b
  rw [and_bit_ne_zero_iff, Ne, key]
  have h20 := shr_and_one_cases insn 20
  have h15 := shr_and_one_cases insn 15
  constructor
  · rintro ⟨a, b⟩
    refine ⟨a, ?_⟩
    by_contra hc
    apply b
    constructor <;> omega
  · rintro ⟨a, b⟩
    refine ⟨a, ?_⟩
    rintro ⟨c, d⟩
    omega

/-- with the user-bank transfer selected, the pointer of a banked register goes to the user
bank and the pointer of any other register to the active register -/
theorem ldm_stm_reg_ptr_user (insn i : Nat) (s : Cpu) (hS : insn >>> 22 &&& 1 = 1)
    (hLR : insn >>> 20 &&& 1 = 0 ∨ insn >>> 15 &&& 1 = 0) :
    ldm_stm_reg_ptr insn i s
      = if 13 ≤ i ∧ s.arm.cpsr_low28 &&& 0x1F ≠ MODE_USR ∧ s.arm.cpsr_low28 &&& 0x1F ≠ MODE_SYS
        then .r13_usr (i - 13)
        else if 8 ≤ i ∧ i < 13 ∧ s.arm.cpsr_low28 &&& 0x1F = MODE_FIQ then .r8_usr (i - 8)
        else .reg i := by
  have hu := (ldm_user_iff insn).2 ⟨hS, hLR⟩
  simp only [ldm_stm_reg_ptr, if_pos hu]
  by_cases h13 : i ≥ 13
  · rw [if_pos h13]
    by_cases hm : s.arm.cpsr_low28 &&& 0x1F ≠ MODE_USR ∧ s.arm.cpsr_low28 &&& 0x1F ≠ MODE_SYS
    · rw [if_pos hm, if_pos ⟨h13, hm⟩]
    · have n1 : ¬ (13 ≤ i ∧ s.arm.cpsr_low28 &&& 0x1F ≠ MODE_USR
          ∧ s.arm.cpsr_low28 &&& 0x1F ≠ MODE_SYS) := fun h => hm h.2
      have n2 : ¬ (8 ≤ i ∧ i < 13 ∧ s.arm.cpsr_low28 &&& 0x1F = MODE_FIQ) := fun h => by omega
      rw [if_neg hm, if_neg n1, if_neg n2]
  · have n1 : ¬ (13 ≤ i ∧ s.arm.cpsr_low28 &&& 0x1F ≠ MODE_USR
        ∧ s.arm.cpsr_low28 &&& 0x1F ≠ MODE_SYS) := fun h => h13 h.1
    rw [if_neg h13, if_neg n1]
    by_cases h8 : i ≥ 8
    · rw [if_pos h8]
      by_cases hf : s.arm.cpsr_low28 &&& 0x1F = MODE_FIQ
      · rw [if_pos hf, if_pos ⟨h8, by omega, hf⟩]
      · have n2 : ¬ (8 ≤ i ∧ i < 13 ∧ s.arm.cpsr_low28 &&& 0x1F = MODE_FIQ) := fun h => hf h.2.2
        rw [if_neg hf, if_neg n2]
    · have n2 : ¬ (8 ≤ i ∧ i < 13 ∧ s.arm.cpsr_low28 &&& 0x1F = MODE_FIQ) := fun h => h8 h.1
      rw [if_neg h8, if_neg n2]

theorem user_banked_congr (s t : Cpu) (i : Nat) (h : t.arm.cpsr_low28 = s.arm.cpsr_low28) :
    user_banked t i ↔ user_banked s i := by
  unfold user_banked
  rw [h]

/-- one user-bank transfer: the mode and the active copies of the banked registers stay, and
`new_base` stays when the base register is banked -/
theorem ldm_stm_transfer_user (ops : mem_ops) (insn base_reg k addr : Nat) (st r : Nat × Cpu)
    (hk : mem_ops_keep_arm ops) (hS : insn >>> 22 &&& 1 = 1)
    (hLR : insn >>> 20 &&& 1 = 0 ∨ insn >>> 15 &&& 1 = 0)
    (h : ldm_stm_transfer ops insn base_reg k addr st = some r) :
    r.2.arm.cpsr_low28 = st.2.arm.cpsr_low28
    ∧ (∀ i, user_banked st.2 i → r.2.arm.reg i = st.2.arm.reg i)
    ∧ (user_banked st.2 base_reg → r.1 = st.1) := by
  obtain ⟨-, -, kr, -, -, -, kw, -⟩ := hk
  have hp := ldm_stm_reg_ptr_user insn k st.2 hS hLR
  unfold ldm_stm_transfer at h
  by_cases hl : insn &&& (1 <<< 20) ≠ 0
  · simp only [if_pos hl] at h
    by_cases c13 : 13 ≤ k ∧ st.2.arm.cpsr_low28 &&& 0x1F ≠ MODE_USR
        ∧ st.2.arm.cpsr_low28 &&& 0x1F ≠ MODE_SYS
    · rw [if_pos c13] at hp
      have hne : ¬ reg_ref.r13_usr (k - 13) = .reg base_reg := by intro h'; cases h'
      simp only [hp] at h
      simp only [if_neg hne, Option.some_bind] at h
      cases hr : ops.read_word addr st.2 with
      | none => rw [hr] at h; cases h
      | some v =>
        rw [hr] at h
        simp only [Option.map_some', Option.some.injEq] at h
        have ka := kr addr st.2 v hr
        rw [← h]
        simp only [reg_ref_write, ka]
        exact ⟨trivial, fun _ _ => trivial, fun _ => trivial⟩
    · rw [if_neg c13] at hp
      by_cases c8 : 8 ≤ k ∧ k < 13 ∧ st.2.arm.cpsr_low28 &&& 0x1F = MODE_FIQ
      · rw [if_pos c8] at hp
        have hne : ¬ reg_ref.r8_usr (k - 8) = .reg base_reg := by intro h'; cases h'
        simp only [hp] at h
        simp only [if_neg hne, Option.some_bind] at h
        cases hr : ops.read_word addr st.2 with
        | none => rw [hr] at h; cases h
        | some v =>
          rw [hr] at h
          simp only [Option.map_some', Option.some.injEq] at h
          have ka := kr addr st.2 v hr
          rw [← h]
          simp only [reg_ref_write, ka]
          exact ⟨trivial, fun _ _ => trivial, fun _ => trivial⟩
      · rw [if_neg c8] at hp
        have hnb : ¬ user_banked st.2 k := by
          unfold user_banked
          rintro (a | a)
          · exact c13 a
          · exact c8 a
        by_cases hkb : k = base_reg
        · have hpe : reg_ref.reg k = .reg base_reg := by rw [hkb]
          simp only [hp] at h
          simp only [if_pos hpe] at h
          by_cases hw : insn &&& (1 <<< 21) ≠ 0
          · simp only [if_pos hw, Option.none_bind] at h
            cases h
          · simp only [if_neg hw, Option.some_bind] at h
            cases hr : ops.read_word addr st.2 with
            | none => rw [hr] at h; cases h
            | some v =>
              rw [hr] at h
              simp only [Option.map_some', Option.some.injEq] at h
              have ka := kr addr st.2 v hr
              rw [← h]
              simp only [reg_ref_write, ka]
              refine ⟨trivial, fun _ _ => trivial, fun hb => ?_⟩
              rw [← hkb] at hb
              exact absurd hb hnb
        · have hne : ¬ reg_ref.reg k = .reg base_reg := by
            intro h'
            exact hkb (reg_ref.reg.inj h')
          simp only [hp] at h
          simp only [if_neg hne, Option.some_bind] at h
          cases hr : ops.read_word addr st.2 with
          | none => rw [hr] at h; cases h
          | some v =>
            rw [hr] at h
            simp only [Option.map_some', Option.some.injEq] at h
            have ka := kr addr st.2 v hr
            rw [← h]
            simp only [reg_ref_write, ka]
            refine ⟨trivial, fun i hi => ?_, fun _ => trivial⟩
            have hik : i ≠ k := by
              intro e
              rw [e] at hi
              exact hnb hi
            simp only [set_elem, if_neg hik]
  · simp only [if_neg hl] at h
    cases hr : ops.write_word addr (reg_ref_read (ldm_stm_reg_ptr insn k st.2) st.1 st.2.arm)
        st.2 with
    | none => rw [hr] at h; cases h
    | some v =>
      rw [hr] at h
      simp only [Option.map_some', Option.some.injEq] at h
      have ka := kw addr _ st.2 v hr
      rw [← h]
      simp only [ka]
      exact ⟨trivial, fun _ _ => trivial, fun _ => trivial⟩

/-- the user-bank transfers of the first `k` registers: the mode and the active copies of
the banked registers stay, and `new_base` stays when the base register is banked -/
theorem ldm_stm_at_user (ops : mem_ops) (insn base_reg L : Nat)
    (hk : mem_ops_keep_arm ops) (hS : insn >>> 22 &&& 1 = 1)
    (hLR : insn >>> 20 &&& 1 = 0 ∨ insn >>> 15 &&& 1 = 0) :
    ∀ k st r, ldm_stm_at ops insn base_reg L k st = some r →
      r.2.arm.cpsr_low28 = st.2.arm.cpsr_low28
      ∧ (∀ i, user_banked st.2 i → r.2.arm.reg i = st.2.arm.reg i)
      ∧ (user_banked st.2 base_reg → r.1 = st.1) := by
  intro k
  induction k with
  | zero =>
    intro st r h
    cases h
    exact ⟨rfl, fun _ _ => rfl, fun _ => rfl⟩
  | succ k ih =>
    intro st r h
    simp only [ldm_stm_at] at h
    cases h1 : ldm_stm_at ops insn base_reg L k st with
    | none => rw [h1] at h; cases h
    | some r1 =>
      rw [h1] at h
      simp only [Option.some_bind] at h
      obtain ⟨a1, b1, c1⟩ := ih st r1 h1
      by_cases hb : insn >>> k &&& 1 = 1
      · rw [if_pos hb] at h
        obtain ⟨a2, b2, c2⟩ := ldm_stm_transfer_user ops insn base_reg k _ r1 r hk hS hLR h
        refine ⟨by rw [a2, a1], fun i hi => ?_, fun hi => ?_⟩
        · rw [b2 i ((user_banked_congr st.2 r1.2 i a1).2 hi), b1 i hi]
        · rw [c2 ((user_banked_congr st.2 r1.2 base_reg a1).2 hi), c1 hi]
      · rw [if_neg hb] at h
        cases h
        exact ⟨a1, b1, c1⟩

theorem ldm_stm_user_bank_insn (ops : mem_ops) (insn : Nat) (s : Cpu)
    (hk : mem_ops_keep_arm ops) (hS : insn >>> 22 &&& 1 = 1)
    (hLR : insn >>> 20 &&& 1 = 0 ∨ insn >>> 15 &&& 1 = 0)
    (hm1 : s.arm.cpsr_low28 &&& 0x1F ≠ MODE_USR) (hm2 : s.arm.cpsr_low28 &&& 0x1F ≠ MODE_SYS)
    (hb : insn >>> 16 &&& 15 ≠ 15) (hB : s.arm.reg (insn >>> 16 &&& 15) < 2 ^ 32) :
    (∀ i, 13 ≤ i → ldm_stm_reg_ptr insn i s = .r13_usr (i - 13))
    ∧ (s.arm.cpsr_low28 &&& 0x1F = MODE_FIQ →
        ∀ i, 8 ≤ i → i ≤ 12 → ldm_stm_reg_ptr insn i s = .r8_usr (i - 8))
    ∧ (∀ i addr nb, user_banked s i → insn >>> 20 &&& 1 = 0 →
        ldm_stm_transfer ops insn (insn >>> 16 &&& 15) i addr (nb, s)
          = (ops.write_word addr
              (if 13 ≤ i then s.arm.r13_usr (i - 13) else s.arm.r8_usr (i - 8)) s).map
              fun s1 => (nb, s1))
    ∧ (∀ i addr nb, user_banked s i → insn >>> 20 &&& 1 = 1 →
        ldm_stm_transfer ops insn (insn >>> 16 &&& 15) i addr (nb, s)
          = (ops.read_word addr s).map fun r =>
              (nb, { r.2 with arm :=
                if 13 ≤ i then { r.2.arm with r13_usr := set_elem r.2.arm.r13_usr (i - 13) r.1 }
                else { r.2.arm with r8_usr := set_elem r.2.arm.r8_usr (i - 8) r.1 } }))
    ∧ (∀ s', arm_ldm_stm ops insn s = some s' → ∀ i, user_banked s i →
        s'.arm.reg i
          = if i = insn >>> 16 &&& 15
            then ldm_stm_written_base insn (s.arm.reg (insn >>> 16 &&& 15)) (count_bits insn 16)
            else s.arm.reg i)
    ∧ (insn >>> 21 &&& 1 = 0 → ∀ s', arm_ldm_stm ops insn s = some s' →
        ∀ i, user_banked s i → s'.arm.reg i = s.arm.reg i) := by
  have p13 : ∀ i, 13 ≤ i → ldm_stm_reg_ptr insn i s = .r13_usr (i - 13) := by
    intro i hi
    rw [ldm_stm_reg_ptr_user insn i s hS hLR, if_pos ⟨hi, hm1, hm2⟩]
  have p8 : s.arm.cpsr_low28 &&& 0x1F = MODE_FIQ →
      ∀ i, 8 ≤ i → i ≤ 12 → ldm_stm_reg_ptr insn i s = .r8_usr (i - 8) := by
    intro hf i h8 h12
    have n13 : ¬ (13 ≤ i ∧ s.arm.cpsr_low28 &&& 0x1F ≠ MODE_USR
        ∧ s.arm.cpsr_low28 &&& 0x1F ≠ MODE_SYS) := fun h => by omega
    rw [ldm_stm_reg_ptr_user insn i s hS hLR, if_neg n13, if_pos ⟨h8, by omega, hf⟩]
  have pu : ∀ i, user_banked s i →
      ldm_stm_reg_ptr insn i s = if 13 ≤ i then .r13_usr (i - 13) else .r8_usr (i - 8) := by
    intro i hi
    rcases hi with ⟨a, -, -⟩ | ⟨a, b, c⟩
    · rw [p13 i a, if_pos a]
    · rw [p8 c i a (by omega), if_neg (by omega)]
  have hfinal : ∀ s', arm_ldm_stm ops insn s = some s' → ∀ i, user_banked s i →
      s'.arm.reg i
        = if i = insn >>> 16 &&& 15
          then ldm_stm_written_base insn (s.arm.reg (insn >>> 16 &&& 15)) (count_bits insn 16)
          else s.arm.reg i := by
    intro s' h i hi
    have hnr : ¬ (insn >>> 22 &&& 1 = 1 ∧ insn >>> 20 &&& 1 = 1 ∧ insn >>> 15 &&& 1 = 1) := by
      rintro ⟨-, a, b⟩
      omega
    rw [ldm_stm_eq_spec ops insn s hB] at h
    simp only [ldm_stm_spec, if_neg hb, if_neg hnr] at h
    cases h1 : ldm_stm_at ops insn (insn >>> 16 &&& 15)
        (ldm_stm_first_address insn (s.arm.reg (insn >>> 16 &&& 15)) (count_bits insn 16)) 15
        (ldm_stm_written_base insn (s.arm.reg (insn >>> 16 &&& 15)) (count_bits insn 16), s) with
    | none => rw [h1] at h; cases h
    | some st =>
      rw [h1] at h
      simp only [Option.some_bind] at h
      obtain ⟨a1, b1, c1⟩ := ldm_stm_at_user ops insn _ _ hk hS hLR 15 _ st h1
      simp only at a1 b1 c1
      have hs2 : ∀ s2, (if insn >>> 15 &&& 1 = 1 then
          if insn >>> 20 &&& 1 = 1 then
            (ops.read_word ((ldm_stm_first_address insn (s.arm.reg (insn >>> 16 &&& 15))
              (count_bits insn 16) + 4 * count_bits insn 15) % 2 ^ 32) st.2).map
              fun v => set_reg_pc_bx 15 v.1 v.2
          else ops.write_word ((ldm_stm_first_address insn (s.arm.reg (insn >>> 16 &&& 15))
              (count_bits insn 16) + 4 * count_bits insn 15) % 2 ^ 32)
              (get_reg_pc_store 15 st.2) st.2
         else some st.2) = some s2 → s2.arm = st.2.arm := by
        intro s2 e
        by_cases h15 : insn >>> 15 &&& 1 = 1
        · have h20 : ¬ insn >>> 20 &&& 1 = 1 := by omega
          rw [if_pos h15, if_neg h20] at e
          exact hk.2.2.2.2.2.2.1 _ _ _ _ e
        · rw [if_neg h15] at e
          cases e
          rfl
      cases h2 : (if insn >>> 15 &&& 1 = 1 then
          if insn >>> 20 &&& 1 = 1 then
            (ops.read_word ((ldm_stm_first_address insn (s.arm.reg (insn >>> 16 &&& 15))
              (count_bits insn 16) + 4 * count_bits insn 15) % 2 ^ 32) st.2).map
              fun v => set_reg_pc_bx 15 v.1 v.2
          else ops.write_word ((ldm_stm_first_address insn (s.arm.reg (insn >>> 16 &&& 15))
              (count_bits insn 16) + 4 * count_bits insn 15) % 2 ^ 32)
              (get_reg_pc_store 15 st.2) st.2
         else some st.2) with
      | none => rw [h2] at h; cases h
      | some s2 =>
        rw [h2] at h
        simp only [Option.some_bind, Option.some.injEq] at h
        have e2 := hs2 s2 h2
        rw [← h]
        simp only [set_elem, e2]
        by_cases hib : i = insn >>> 16 &&& 15
        · rw [if_pos hib, if_pos hib]
          rw [hib] at hi
          exact c1 hi
        · rw [if_neg hib, if_neg hib]
          exact b1 i hi
  refine ⟨p13, p8, ?_, ?_, hfinal, ?_⟩
  · intro i addr nb hi hst
    have hl : ¬ insn &&& (1 <<< 20) ≠ 0 := by
      rw [and_bit_ne_zero_iff]; omega
    simp only [ldm_stm_transfer, if_neg hl, pu i hi]
    by_cases h13 : 13 ≤ i
    · simp only [if_pos h13, reg_ref_read]
    · simp only [if_neg h13, reg_ref_read]
  · intro i addr nb hi hld
    have hl : insn &&& (1 <<< 20) ≠ 0 := (and_bit_ne_zero_iff insn 20).2 hld
    simp only [ldm_stm_transfer, if_pos hl, pu i hi]
    by_cases h13 : 13 ≤ i
    · have hne : ¬ reg_ref.r13_usr (i - 13) = .reg (insn >>> 16 &&& 15) := by intro h'; cases h'
      simp only [if_pos h13, if_neg hne, Option.some_bind, reg_ref_write]
    · have hne : ¬ reg_ref.r8_usr (i - 8) = .reg (insn >>> 16 &&& 15) := by intro h'; cases h'
      simp only [if_neg h13, if_neg hne, Option.some_bind, reg_ref_write]
  · intro hw s' h i hi
    rw [hfinal s' h i hi]
    by_cases hib : i = insn >>> 16 &&& 15
    · rw [if_pos hib]
      unfold ldm_stm_written_base
      rw [if_neg (by omega), hib]
    · rw [if_neg hib]

theorem mode_reg_self (s : Cpu) (i : Nat) : mode_reg (s.arm.cpsr_low28 &&& 0x1F) s i = s.arm.reg i := by
  unfold mode_reg
  have h8 : same8 (s.arm.cpsr_low28 &&& 0x1F) (s.arm.cpsr_low28 &&& 0x1F) := Iff.rfl
  have h13 := same13_refl (s.arm.cpsr_low28 &&& 0x1F)
  simp only [if_pos h8, if_pos h13, ite_self]

/-- after `set_cpsr_full` the mode that was current still sees every register as it was -/
theorem set_cpsr_full_mode_reg (cpsr : Nat) (s s' : Cpu)
    (ho : is_mode (s.arm.cpsr_low28 &&& 0x1F)) (h : set_cpsr_full cpsr s = some s') (i : Nat) :
    mode_reg (s.arm.cpsr_low28 &&& 0x1F) s' i = s.arm.reg i := by
  have hok : ¬ (cpsr &&& 0x01000000 ≠ 0 ∨ ¬ is_mode (cpsr &&& 0x1F)) := by
    intro hc
    rw [(set_cpsr_full_none_iff cpsr s ho).2 hc] at h
    cases h
  simp only [not_or, not_not] at hok
  obtain ⟨hJ, hn⟩ := hok
  obtain ⟨t, e, l, -, -, -, -, -, -, r, b8, b13⟩ := set_cpsr_full_spec cpsr s hJ ho hn
  rw [h] at e
  cases e
  have hcur : s'.arm.cpsr_low28 &&& 0x1F = cpsr &&& 0x1F := by
    rw [l, Nat.and_assoc]
    rfl
  unfold mode_reg
  rw [hcur]
  by_cases c8 : 8 ≤ i ∧ i < 13
  · rw [if_pos c8]
    by_cases s8 : same8 (s.arm.cpsr_low28 &&& 0x1F) (cpsr &&& 0x1F)
    · rw [if_pos s8, r i, if_pos c8, if_pos (same8_symm s8)]
    · rw [if_neg s8, b8 _ (i - 8) ho]
      have hne : cpsr &&& 0x1F ≠ s.arm.cpsr_low28 &&& 0x1F := by
        intro hh
        apply s8
        rw [hh]
        exact Iff.rfl
      have hself : same8 (s.arm.cpsr_low28 &&& 0x1F) (s.arm.cpsr_low28 &&& 0x1F) := Iff.rfl
      rw [if_pos ⟨hne, hself, by omega⟩]
      congr 1
      omega
  · rw [if_neg c8]
    by_cases c13 : 13 ≤ i ∧ i < 15
    · rw [if_pos c13]
      by_cases s13 : same13 (s.arm.cpsr_low28 &&& 0x1F) (cpsr &&& 0x1F)
      · rw [if_pos s13, r i, if_neg c8, if_pos c13, if_pos (same13_symm s13)]
      · rw [if_neg s13, b13 _ (i - 13) ho]
        have hne : cpsr &&& 0x1F ≠ s.arm.cpsr_low28 &&& 0x1F := by
          intro hh
          apply s13
          rw [hh]
          exact same13_refl _
        rw [if_pos ⟨hne, same13_refl _, by omega⟩]
        congr 1
        omega
    · rw [if_neg c13, r i, if_neg c8, if_neg c13]

theorem reg_ref_write_low28 (p : reg_ref) (v nb : Nat) (s : Cpu) :
    (reg_ref_write p v nb s).2.arm.cpsr_low28 = s.arm.cpsr_low28 := by
  cases p <;> rfl

/-- a transfer keeps the mode -/
theorem ldm_stm_transfer_low28 (ops : mem_ops) (insn base_reg k addr : Nat) (st r : Nat × Cpu)
    (hk : mem_ops_keep_arm ops) (h : ldm_stm_transfer ops insn base_reg k addr st = some r) :
    r.2.arm.cpsr_low28 = st.2.arm.cpsr_low28 := by
  obtain ⟨-, -, kr, -, -, -, kw, -⟩ := hk
  unfold ldm_stm_transfer at h
  by_cases hl : insn &&& (1 <<< 20) ≠ 0
  · simp only [if_pos hl] at h
    cases hp : (if ldm_stm_reg_ptr insn k st.2 = .reg base_reg then
        (if insn &&& (1 <<< 21) ≠ 0 then none else some reg_ref.new_base)
       else some (ldm_stm_reg_ptr insn k st.2)) with
    | none => rw [hp] at h; cases h
    | some p =>
      rw [hp] at h
      simp only [Option.some_bind] at h
      cases hr : ops.read_word addr st.2 with
      | none => rw [hr] at h; cases h
      | some v =>
        rw [hr] at h
        simp only [Option.map_some', Option.some.injEq] at h
        rw [← h, reg_ref_write_low28, kr addr st.2 v hr]
  · simp only [if_neg hl] at h
    cases hr : ops.write_word addr (reg_ref_read (ldm_stm_reg_ptr insn k st.2) st.1 st.2.arm)
        st.2 with
    | none => rw [hr] at h; cases h
    | some v =>
      rw [hr] at h
      simp only [Option.map_some', Option.some.injEq] at h
      rw [← h]
      show v.arm.cpsr_low28 = _
      rw [kw addr _ st.2 v hr]

theorem ldm_stm_at_low28 (ops : mem_ops) (insn base_reg L : Nat) (hk : mem_ops_keep_arm ops) :
    ∀ k st r, ldm_stm_at ops insn base_reg L k st = some r →
      r.2.arm.cpsr_low28 = st.2.arm.cpsr_low28 := by
  intro k
  induction k with
  | zero =>
    intro st r h
    cases h
    rfl
  | succ k ih =>
    intro st r h
    simp only [ldm_stm_at] at h
    cases h1 : ldm_stm_at ops insn base_reg L k st with
    | none => rw [h1] at h; cases h
    | some r1 =>
      rw [h1] at h
      simp only [Option.some_bind] at h
      by_cases hb : insn >>> k &&& 1 = 1
      · rw [if_pos hb] at h
        rw [ldm_stm_transfer_low28 ops insn base_reg k _ r1 r hk h, ih st r1 h1]
      · rw [if_neg hb] at h
        cases h
        exact ih st _ h1

theorem or_20_and_1F (x : Nat) : (x ||| 0x20) &&& 0x1F = x &&& 0x1F := by
  rw [Nat.and_distrib_right]
  show x &&& 0x1F ||| 0 = _
  rw [Nat.or_zero]

theorem set_reg_pc_bx_mode (rn v : Nat) (s : Cpu) :
    (set_reg_pc_bx rn v s).arm.cpsr_low28 &&& 0x1F = s.arm.cpsr_low28 &&& 0x1F := by
  unfold set_reg_pc_bx
  split_ifs
  · exact or_20_and_1F _
  · rfl

/-- the base register after an LDM/STM and when the instruction returns: the branch with its
running address equals `ldm_stm_spec`; when the instruction returns and it is a store or
does not list the base register, the base register ends as the written-back base (for a
load of R15 with the S bit, in the view of the mode in which the instruction ran); the
instruction returns when the word accessors do, unless it is a load with writeback that
lists the base register or a load of R15 with the S bit -/
theorem ldm_stm_writeback_and_total (ops : mem_ops) (insn : Nat) (s : Cpu)
    (hb : insn >>> 16 &&& 15 ≠ 15) (hB : s.arm.reg (insn >>> 16 &&& 15) < 2 ^ 32) :
    arm_ldm_stm ops insn s = ldm_stm_spec ops insn s
    ∧ (∀ s', arm_ldm_stm ops insn s = some s'
        → ¬ (insn >>> 22 &&& 1 = 1 ∧ insn >>> 20 &&& 1 = 1 ∧ insn >>> 15 &&& 1 = 1)
        → (insn >>> 20 &&& 1 = 0 ∨ insn >>> (insn >>> 16 &&& 15) &&& 1 = 0)
        → s'.arm.reg (insn >>> 16 &&& 15)
            = ldm_stm_written_base insn (s.arm.reg (insn >>> 16 &&& 15)) (count_bits insn 16))
    ∧ (mem_ops_keep_arm ops → is_mode (s.arm.cpsr_low28 &&& 0x1F)
        → ∀ s', arm_ldm_stm ops insn s = some s'
        → (insn >>> 22 &&& 1 = 1 ∧ insn >>> 20 &&& 1 = 1 ∧ insn >>> 15 &&& 1 = 1)
        → insn >>> (insn >>> 16 &&& 15) &&& 1 = 0
        → mode_reg (s.arm.cpsr_low28 &&& 0x1F) s' (insn >>> 16 &&& 15)
            = ldm_stm_written_base insn (s.arm.reg (insn >>> 16 &&& 15)) (count_bits insn 16))
    ∧ ((∀ a t, (ops.read_word a t).isSome = true) → (∀ a v t, (ops.write_word a v t).isSome = true)
        → ¬ (insn >>> 20 &&& 1 = 1 ∧ insn >>> 21 &&& 1 = 1
              ∧ insn >>> (insn >>> 16 &&& 15) &&& 1 = 1)
        → ¬ (insn >>> 22 &&& 1 = 1 ∧ insn >>> 20 &&& 1 = 1 ∧ insn >>> 15 &&& 1 = 1)
        → (arm_ldm_stm ops insn s).isSome = true) := by
  obtain ⟨heq, h2, h4⟩ := ldm_stm_base_and_total ops insn s hb hB
  refine ⟨heq, h2, ?_, h4⟩
  intro hk ho s' h hr hc
  rw [heq] at h
  simp only [ldm_stm_spec, if_neg hb, if_pos hr, if_true] at h
  cases h1 : ldm_stm_at ops insn (insn >>> 16 &&& 15)
      (ldm_stm_first_address insn (s.arm.reg (insn >>> 16 &&& 15)) (count_bits insn 16)) 15
      (ldm_stm_written_base insn (s.arm.reg (insn >>> 16 &&& 15)) (count_bits insn 16), s) with
  | none => rw [h1] at h; cases h
  | some st =>
    rw [h1] at h
    simp only [Option.some_bind, hr.2.1, hr.2.2, if_true] at h
    have e1 := ldm_stm_at_new_base ops insn _ _ (Or.inr hc) 15 _ st h1
    have m1 := ldm_stm_at_low28 ops insn _ _ hk 15 _ st h1
    simp only at e1 m1
    cases h3 : ops.read_word ((ldm_stm_first_address insn (s.arm.reg (insn >>> 16 &&& 15))
        (count_bits insn 16) + 4 * count_bits insn 15) % 2 ^ 32) st.2 with
    | none => rw [h3] at h; cases h
    | some v =>
      rw [h3] at h
      simp only [Option.map_some', Option.some_bind] at h
      have ka := hk.2.2.1 _ _ _ h3
      generalize hs3 : ({ set_reg_pc_bx 15 v.1 v.2 with
          arm := { (set_reg_pc_bx 15 v.1 v.2).arm with
            reg := set_elem (set_reg_pc_bx 15 v.1 v.2).arm.reg (insn >>> 16 &&& 15) st.1 } } : Cpu)
        = s3 at h
      have hm3 : s3.arm.cpsr_low28 &&& 0x1F = s.arm.cpsr_low28 &&& 0x1F := by
        rw [← hs3]
        show (set_reg_pc_bx 15 v.1 v.2).arm.cpsr_low28 &&& 0x1F = _
        rw [set_reg_pc_bx_mode, ka, m1]
      have hr3 : s3.arm.reg (insn >>> 16 &&& 15) = st.1 := by
        rw [← hs3]
        simp [set_elem]
      cases h5 : get_spsr s3 with
      | none => rw [h5] at h; cases h
      | some sp =>
        rw [h5] at h
        simp only [Option.some_bind] at h
        have := set_cpsr_full_mode_reg sp s3 s' (by rw [hm3]; exact ho) h (insn >>> 16 &&& 15)
        rw [hm3, hr3, e1] at this
        exact this

/-- Claim C28: for all 32-bit operands `a`, `b` and carry `cin` in 0..1, the opcode switch of
the data-processing instructions with S = 1 computes SUB and CMP `(a - b) mod 2^32`, RSB
`(b - a) mod 2^32`, SBC `(a - b - (1 - cin)) mod 2^32` and RSC `(b - a - (1 - cin)) mod 2^32`
and sets C to 1 iff the exact difference is not negative, that is iff `a >= b` for SUB and
CMP, `b >= a` for RSB, `a >= b + (1 - cin)` for SBC and `b >= a + (1 - cin)` for RSC; and an
instruction SUB, RSB, SBC or RSC with S = 1, a passing condition and a destination other than
R15, whose Rn reads `a`, whose shifter operand is `b` and whose carry flag before is `cin`,
returns with that result in Rd and that C flag. -/
theorem subtract_instructions_result_and_carry (opcode a b cin : Nat) (s : Cpu)
    (ha : a < 2 ^ 32) (hb : b < 2 ^ 32) (hc : cin ≤ 1)
    (hop : opcode = 2 ∨ opcode = 3 ∨ opcode = 6 ∨ opcode = 7 ∨ opcode = 10) :
    ((data_processing_alu opcode a b cin 1 s).1 : Int) = sub_exact opcode a b cin % 2 ^ 32
    ∧ (data_processing_alu opcode a b cin 1 s).2.arm.cpsr_c
        = (if 0 ≤ sub_exact opcode a b cin then 1 else 0)
    ∧ (0 ≤ sub_exact opcode a b cin ↔
        if opcode = 2 ∨ opcode = 10 then b ≤ a
        else if opcode = 3 then a ≤ b
        else if opcode = 6 then b + (1 - cin) ≤ a
        else a + (1 - cin) ≤ b)
    ∧ (∀ (ext : arm_class → Nat → Cpu → Option Cpu) (insn : Nat) (s0 : Cpu),
        insn >>> 28 ≤ 14 → s0.arm.cpsr_n ≤ 1 → s0.arm.cpsr_z ≤ 1 → s0.arm.cpsr_v ≤ 1
        → condition_passed (insn >>> 28) s0.arm = true
        → insn &&& 0xC000000 = 0 → insn &&& 0xE000090 ≠ 0x90 → insn >>> 20 &&& 1 = 1
        → insn >>> 21 &&& 15 = opcode → opcode ≠ 10 → insn >>> 12 &&& 15 ≠ 15
        → get_reg_pc (insn >>> 16 &&& 15) s0 = a → s0.arm.cpsr_c = cin
        → (if insn &&& (1 <<< 25) ≠ 0 then some (get_shifted_immed insn 1 s0)
            else get_shifted_reg insn 1 s0) = some (b, s)
        → ∃ s', cpu_interpret_instruction (arm_body ext) insn s0 = some s'
            ∧ (s'.arm.reg (insn >>> 12 &&& 15) : Int) = sub_exact opcode a b cin % 2 ^ 32
            ∧ s'.arm.cpsr_c = (if 0 ≤ sub_exact opcode a b cin then 1 else 0)) := by
  obtain ⟨r1, r2⟩ := sub_alu_spec opcode a b cin s ha hb hc hop
  refine ⟨r1, congrArg (fun t : Cpu => t.arm.cpsr_c) r2, ?_, ?_⟩
  · rcases hop with h | h | h | h | h <;> subst h <;> simp only [sub_exact] <;>
      simp +decide only [if_true, if_false] <;> omega
  · intro ext insn s0 c1 c2 c3 c4 c5 c6 c7 c8 c9 c10 c11 c12 c13 c14
    have hop4 : insn >>> 21 &&& 15 = 2 ∨ insn >>> 21 &&& 15 = 3 ∨ insn >>> 21 &&& 15 = 6
        ∨ insn >>> 21 &&& 15 = 7 := by
      rw [c9]
      rcases hop with h | h | h | h | h
      · exact Or.inl h
      · exact Or.inr (Or.inl h)
      · exact Or.inr (Or.inr (Or.inl h))
      · exact Or.inr (Or.inr (Or.inr h))
      · exact absurd h c10
    obtain ⟨s', e, p1, p2, -⟩ := interpret_subtract ext insn b s0 s c1 c2 c3 (by rw [c13]; exact hc)
      c4 c5 c6 c7 c8 hop4 c11 c14 hb
    rw [c9, c12, c13] at p1 p2
    exact ⟨s', e, p1, p2⟩

/-- the accessors over the flat memory leave the register file alone -/
theorem ram_ops_keep_arm : mem_ops_keep_arm ram_ops := by
  refine ⟨?_, ?_, ?_, ?_, ?_, ?_, ?_, ?_⟩
  · intro a s r h; cases h; rfl
  · intro a s r h; cases h; rfl
  · intro a s r h; cases h; rfl
  · intro a s r h; cases h; rfl
  · intro a v s r h; cases h; rfl
  · intro a v s r h; cases h; rfl
  · intro a v s r h; cases h; rfl
  · intro s r h; cases h; rfl

/-! ## The CPSR invariant over the whole interpreter -/

theorem on_return_none {α : Type} (P : α → Prop) : on_return P (none : Option α) := by
  intro a h; cases h

theorem on_return_some {α : Type} (P : α → Prop) (a : α) : on_return P (some a) ↔ P a := by
  constructor
  · intro h; exact h a rfl
  · intro h b hb; cases hb; exact h

theorem on_return_bind {α β : Type} (P : β → Prop) (x : Option α) (f : α → Option β) :
    on_return P (x.bind f) ↔ on_return (fun a => on_return P (f a)) x := by
  cases x with
  | none => simp [on_return]
  | some a => simp [on_return]

theorem on_return_map {α β : Type} (P : β → Prop) (x : Option α) (f : α → β) :
    on_return P (x.map f) ↔ on_return (fun a => P (f a)) x := by
  cases x with
  | none => simp [on_return]
  | some a => simp [on_return]

theorem on_return_ite {α : Type} (P : α → Prop) (c : Prop) [Decidable c] (a b : Option α) :
    on_return P (if c then a else b) ↔ (c → on_return P a) ∧ (¬ c → on_return P b) := by
  by_cases h : c <;> simp [h]

theorem on_return_mono {α : Type} {P Q : α → Prop} {x : Option α} (h : on_return P x)
    (hpq : ∀ a, P a → Q a) : on_return Q x := fun a ha => hpq a (h a ha)

theorem on_return_true {α : Type} (x : Option α) : on_return (fun _ => True) x :=
  fun _ _ => trivial

/-- the CPSR predicate reads only the five CPSR fields -/
theorem cpsr_ok_congr (s t : Cpu) (hn : t.arm.cpsr_n = s.arm.cpsr_n)
    (hz : t.arm.cpsr_z = s.arm.cpsr_z) (hc : t.arm.cpsr_c = s.arm.cpsr_c)
    (hv : t.arm.cpsr_v = s.arm.cpsr_v) (hl : t.arm.cpsr_low28 = s.arm.cpsr_low28) :
    cpsr_ok t ↔ cpsr_ok s := by
  unfold cpsr_ok
  rw [hn, hz, hc, hv, hl]

theorem mask_idem (c M : Nat) : c &&& M &&& M = c &&& M := by
  rw [Nat.and_assoc, Nat.and_self]

theorem mask_or (l b M : Nat) (hl : l &&& M = l) (hb : b &&& M = b) :
    (l ||| b) &&& M = l ||| b := by
  rw [Nat.and_distrib_right, hl, hb]

theorem mask_and (l b M : Nat) (hl : l &&& M = l) : (l &&& b) &&& M = l &&& b := by
  rw [Nat.and_assoc, Nat.and_comm b M, ← Nat.and_assoc, hl]

theorem cpsr_ok_set_reg_pc (rn v : Nat) (s : Cpu) : cpsr_ok (set_reg_pc rn v s) ↔ cpsr_ok s :=
  Iff.rfl

theorem cpsr_ok_set_nz_flags (v : Nat) (s : Cpu) (hv : v < 2 ^ 32) (h : cpsr_ok s) :
    cpsr_ok (set_nz_flags v s) := by
  obtain ⟨_, _, hc, hv', hl⟩ := h
  refine ⟨?_, ?_, hc, hv', hl⟩
  · show v >>> 31 ≤ 1
    rw [Nat.shiftRight_eq_div_pow]; omega
  · show (if v = 0 then 1 else 0) ≤ 1
    split <;> omega

theorem cpsr_ok_set_nz_flags_64 (v : Nat) (s : Cpu) (hv : v < 2 ^ 64) (h : cpsr_ok s) :
    cpsr_ok (set_nz_flags_64 v s) := by
  obtain ⟨_, _, hc, hv', hl⟩ := h
  refine ⟨?_, ?_, hc, hv', hl⟩
  · show v >>> 63 ≤ 1
    rw [Nat.shiftRight_eq_div_pow]; omega
  · show (if v = 0 then 1 else 0) ≤ 1
    split <;> omega

theorem ADD_OVERFLOW_le (l r m : Nat) : ADD_OVERFLOW l r m ≤ 1 := by
  unfold ADD_OVERFLOW; split <;> omega

theorem SUB_OVERFLOW_le (l r m : Nat) : SUB_OVERFLOW l r m ≤ 1 := by
  unfold SUB_OVERFLOW; split <;> omega

theorem add_lt (l r c setcc : Nat) (s : Cpu) : (add l r c setcc s).1 < 2 ^ 32 := by
  unfold add
  split <;> exact Nat.mod_lt _ (by decide)

theorem cpsr_ok_add (l r c setcc : Nat) (s : Cpu) (hc : c ≤ 1) (h : cpsr_ok s) :
    cpsr_ok (add l r c setcc s).2 := by
  unfold add
  by_cases hs : setcc ≠ 0
  · rw [if_pos hs]
    obtain ⟨hn, hz, _, _, hl⟩ := h
    refine ⟨hn, hz, ?_, ADD_OVERFLOW_le _ _ _, hl⟩
    show (if (l + r + c) % 2 ^ 32 > l then 0
      else if (l + r + c) % 2 ^ 32 < l then 1 else c) ≤ 1
    split
    · omega
    · split <;> omega
  · rw [if_neg hs]; exact h

theorem cpsr_ok_set_c_if (setcc c : Nat) (s : Cpu) (hc : c ≤ 1) (h : cpsr_ok s) :
    cpsr_ok (set_c_if setcc c s) := by
  unfold set_c_if
  split
  · obtain ⟨hn, hz, _, hv, hl⟩ := h
    exact ⟨hn, hz, hc, hv, hl⟩
  · exact h

theorem shr31_le (x : Nat) (hx : x < 2 ^ 32) : x >>> 31 ≤ 1 := by
  rw [Nat.shiftRight_eq_div_pow]; omega

theorem shr_lt (x k : Nat) (hx : x < 2 ^ 32) : x >>> k < 2 ^ 32 :=
  lt_of_le_of_lt (by rw [Nat.shiftRight_eq_div_pow]; exact Nat.div_le_self _ _) hx

theorem shift_ok (type res count setcc : Nat) (s : Cpu) (hr : res < 2 ^ 32) (h : cpsr_ok s) :
    (shift type res count setcc s).1 < 2 ^ 32 ∧ cpsr_ok (shift type res count setcc s).2 := by
  have h31 := shr31_le res hr
  have hand : res &&& 1 ≤ 1 := Nat.and_le_right
  have hz : (0 : Nat) ≤ 1 := by decide
  have hz32 : (0 : Nat) < 2 ^ 32 := by decide
  unfold shift
  by_cases c0 : count = 0
  · rw [if_pos c0]; exact ⟨hr, h⟩
  rw [if_neg c0]
  by_cases t1 : type = 1
  · rw [if_pos t1]
    by_cases c32 : 32 ≤ count
    · rw [if_pos c32]
      refine ⟨hz32, cpsr_ok_set_c_if _ _ _ ?_ h⟩
      split
      · exact h31
      · exact hz
    · rw [if_neg c32]
      exact ⟨shr_lt _ _ hr, cpsr_ok_set_c_if _ _ _ (shr_and_one_le _ _) h⟩
  rw [if_neg t1]
  by_cases t2 : type = 2
  · rw [if_pos t2]
    by_cases c32 : 32 ≤ count
    · rw [if_pos c32]
      exact ⟨(asr32_floor res 31 hr (by decide)).1, cpsr_ok_set_c_if _ _ _ h31 h⟩
    · rw [if_neg c32]
      exact ⟨(asr32_floor res count hr (by omega)).1,
        cpsr_ok_set_c_if _ _ _ (shr_and_one_le _ _) h⟩
  rw [if_neg t2]
  by_cases t3 : type = 3
  · rw [if_pos t3]
    exact ⟨ror32_lt _ _, cpsr_ok_set_c_if _ _ _ (shr31_le _ (ror32_lt _ _)) h⟩
  rw [if_neg t3]
  by_cases c32 : 32 ≤ count
  · rw [if_pos c32]
    refine ⟨hz32, cpsr_ok_set_c_if _ _ _ ?_ h⟩
    split
    · exact hand
    · exact hz
  · rw [if_neg c32]
    exact ⟨Nat.mod_lt _ (by decide), cpsr_ok_set_c_if _ _ _ (shr_and_one_le _ _) h⟩

theorem get_shifted_immed_ok (insn setcc : Nat) (s : Cpu) (h : cpsr_ok s) :
    (get_shifted_immed insn setcc s).1 < 2 ^ 32 ∧ cpsr_ok (get_shifted_immed insn setcc s).2 := by
  unfold get_shifted_immed
  simp only []
  split
  · refine ⟨ror32_lt _ _, ?_⟩
    obtain ⟨hn, hz, _, hv, hl⟩ := h
    refine ⟨hn, hz, ?_, hv, hl⟩
    show (if 2 ^ 31 ≤ ror32 (insn &&& 0xFF) (insn >>> 7 &&& 30) then 1 else 0) ≤ 1
    split <;> omega
  · exact ⟨ror32_lt _ _, h⟩

theorem get_reg_pc_lt (rn : Nat) (s : Cpu) : get_reg_pc rn s < 2 ^ 32 :=
  Nat.mod_lt _ (by decide)

theorem get_shifted_reg_ok (insn setcc : Nat) (s : Cpu) (h : cpsr_ok s) :
    on_return (fun r => r.1 < 2 ^ 32 ∧ cpsr_ok r.2) (get_shifted_reg insn setcc s) := by
  have hr := get_reg_pc_lt (insn &&& 15) s
  unfold get_shifted_reg
  simp only [on_return_ite, on_return_none, on_return_some, on_return_map]
  refine ⟨fun _ => ⟨fun _ => trivial, fun _ => ?_⟩, fun _ => ⟨fun _ => ⟨fun _ => ⟨hr, h⟩, fun _ =>
    ⟨fun _ => shift_ok _ _ _ _ _ hr h, fun _ => ⟨fun _ => shift_ok _ _ _ _ _ hr h, fun _ => ?_⟩⟩⟩,
    fun _ => shift_ok _ _ _ _ _ hr h⟩⟩
  · intro r _
    exact shift_ok _ _ _ _ _ hr h
  · exact ⟨Nat.mod_lt _ (by decide), cpsr_ok_set_c_if _ _ _ Nat.and_le_right h⟩

theorem cpsr_ok_unpack (c : Nat) (t : Cpu) (hn : t.arm.cpsr_n = c >>> 31 &&& 1)
    (hz : t.arm.cpsr_z = c >>> 30 &&& 1) (hc : t.arm.cpsr_c = c >>> 29 &&& 1)
    (hv : t.arm.cpsr_v = c >>> 28 &&& 1) (hl : t.arm.cpsr_low28 = c &&& 0x090000FF) :
    cpsr_ok t := by
  unfold cpsr_ok
  rw [hn, hz, hc, hv, hl]
  exact ⟨Nat.and_le_right, Nat.and_le_right, Nat.and_le_right, Nat.and_le_right, mask_idem _ _⟩

theorem set_cpsr_full_ok (c : Nat) (s : Cpu) : on_return cpsr_ok (set_cpsr_full c s) := by
  unfold set_cpsr_full
  simp only [bind, pure, Option.some_bind, on_return_ite, on_return_bind, on_return_some,
    on_return_none]
  refine ⟨fun _ a1 _ a2 _ => ⟨fun _ => ⟨fun _ => trivial,
      fun _ => cpsr_ok_unpack c _ rfl rfl rfl rfl rfl⟩,
    fun _ => ⟨fun _ => trivial, fun _ => cpsr_ok_unpack c _ rfl rfl rfl rfl rfl⟩⟩,
    fun _ => ⟨fun _ => trivial, fun _ => cpsr_ok_unpack c _ rfl rfl rfl rfl rfl⟩⟩

theorem set_cpsr_ok (c m : Nat) (s : Cpu) : on_return cpsr_ok (set_cpsr c m s) := by
  unfold set_cpsr
  simp only [on_return_ite, on_return_none]
  exact ⟨fun _ => trivial, fun _ => set_cpsr_full_ok _ _⟩

theorem write_spsr_ok (s : Cpu) (v : Nat) (p : spsr_slot) (h : cpsr_ok s) :
    cpsr_ok { s with arm := write_spsr s.arm v p } := by
  cases p <;> exact h

theorem set_spsr_full_ok (v : Nat) (s : Cpu) (h : cpsr_ok s) :
    on_return cpsr_ok (set_spsr_full v s) := by
  unfold set_spsr_full
  rw [on_return_map]
  intro p _
  exact write_spsr_ok s v p h

theorem set_spsr_ok (v m : Nat) (s : Cpu) (h : cpsr_ok s) :
    on_return cpsr_ok (set_spsr v m s) := by
  unfold set_spsr
  rw [on_return_map]
  intro p _
  exact write_spsr_ok s _ p h

theorem cpu_exception_ok (t : Nat) (s : Cpu) : on_return cpsr_ok (cpu_exception t s) := by
  intro s' h
  unfold cpu_exception at h
  simp only [bind, pure] at h
  rw [Option.bind_eq_some] at h
  obtain ⟨fl, _, h⟩ := h
  rw [Option.bind_eq_some] at h
  obtain ⟨s1, h1, h⟩ := h
  rw [Option.bind_eq_some] at h
  obtain ⟨s2, h2, h⟩ := h
  have k1 := set_cpsr_full_ok _ _ _ h1
  have k2 := set_spsr_full_ok _ _ k1 _ h2
  cases h
  exact k2

theorem data_processing_alu_ok (opcode left right c setcc : Nat) (s : Cpu)
    (hl : left < 2 ^ 32) (hr : right < 2 ^ 32) (hc : c ≤ 1) (h : cpsr_ok s) :
    (data_processing_alu opcode left right c setcc s).1 < 2 ^ 32
      ∧ cpsr_ok (data_processing_alu opcode left right c setcc s).2 := by
  have h1 : (1 : Nat) ≤ 1 := le_refl _
  have h0 : (0 : Nat) ≤ 1 := by decide
  have hand : left &&& right < 2 ^ 32 := lt_of_le_of_lt Nat.and_le_left hl
  have hxor : left ^^^ right < 2 ^ 32 := Nat.xor_lt_two_pow hl hr
  have hor : left ||| right < 2 ^ 32 := Nat.or_lt_two_pow hl hr
  have hbic : left &&& not32 right < 2 ^ 32 := lt_of_le_of_lt Nat.and_le_left hl
  unfold data_processing_alu
  by_cases o1 : opcode = 1
  · rw [if_pos o1]; exact ⟨hxor, h⟩
  rw [if_neg o1]
  by_cases o2 : opcode = 2
  · rw [if_pos o2]; exact ⟨add_lt _ _ _ _ _, cpsr_ok_add _ _ _ _ _ h1 h⟩
  rw [if_neg o2]
  by_cases o3 : opcode = 3
  · rw [if_pos o3]; exact ⟨add_lt _ _ _ _ _, cpsr_ok_add _ _ _ _ _ h1 h⟩
  rw [if_neg o3]
  by_cases o4 : opcode = 4
  · rw [if_pos o4]; exact ⟨add_lt _ _ _ _ _, cpsr_ok_add _ _ _ _ _ h0 h⟩
  rw [if_neg o4]
  by_cases o5 : opcode = 5
  · rw [if_pos o5]; exact ⟨add_lt _ _ _ _ _, cpsr_ok_add _ _ _ _ _ hc h⟩
  rw [if_neg o5]
  by_cases o6 : opcode = 6
  · rw [if_pos o6]; exact ⟨add_lt _ _ _ _ _, cpsr_ok_add _ _ _ _ _ hc h⟩
  rw [if_neg o6]
  by_cases o7 : opcode = 7
  · rw [if_pos o7]; exact ⟨add_lt _ _ _ _ _, cpsr_ok_add _ _ _ _ _ hc h⟩
  rw [if_neg o7]
  by_cases o8 : opcode = 8
  · rw [if_pos o8]; exact ⟨hand, h⟩
  rw [if_neg o8]
  by_cases o9 : opcode = 9
  · rw [if_pos o9]; exact ⟨hxor, h⟩
  rw [if_neg o9]
  by_cases o10 : opcode = 10
  · rw [if_pos o10]; exact ⟨add_lt _ _ _ _ _, cpsr_ok_add _ _ _ _ _ h1 h⟩
  rw [if_neg o10]
  by_cases o11 : opcode = 11
  · rw [if_pos o11]; exact ⟨add_lt _ _ _ _ _, cpsr_ok_add _ _ _ _ _ h0 h⟩
  rw [if_neg o11]
  by_cases o12 : opcode = 12
  · rw [if_pos o12]; exact ⟨hor, h⟩
  rw [if_neg o12]
  by_cases o13 : opcode = 13
  · rw [if_pos o13]; exact ⟨hr, h⟩
  rw [if_neg o13]
  by_cases o14 : opcode = 14
  · rw [if_pos o14]; exact ⟨hbic, h⟩
  rw [if_neg o14]
  by_cases o15 : opcode = 15
  · rw [if_pos o15]; exact ⟨not32_lt _, h⟩
  rw [if_neg o15]
  exact ⟨hand, h⟩

theorem get_spsr_set_cpsr_full_ok (s : Cpu) :
    on_return cpsr_ok ((get_spsr s).bind fun sp => set_cpsr_full sp s) := by
  rw [on_return_bind]
  intro sp _
  exact set_cpsr_full_ok _ _

theorem arm_data_processing_ok (insn : Nat) (s : Cpu) (h : cpsr_ok s) :
    on_return cpsr_ok (arm_data_processing insn s) := by
  unfold arm_data_processing
  simp only []
  rw [on_return_bind]
  have hsh : on_return (fun r => r.1 < 2 ^ 32 ∧ cpsr_ok r.2)
      (if insn &&& (1 <<< 25) ≠ 0 then some (get_shifted_immed insn (insn >>> 20 &&& 1) s)
       else get_shifted_reg insn (insn >>> 20 &&& 1) s) := by
    rw [on_return_ite]
    refine ⟨fun _ => ?_, fun _ => get_shifted_reg_ok _ _ _ h⟩
    rw [on_return_some]
    exact get_shifted_immed_ok _ _ _ h
  refine on_return_mono hsh ?_
  intro sh ⟨hlt, hok⟩
  have halu := data_processing_alu_ok (insn >>> 21 &&& 15) (get_reg_pc (insn >>> 16 &&& 15) s)
    sh.1 s.arm.cpsr_c (insn >>> 20 &&& 1) sh.2 (get_reg_pc_lt _ _) hlt h.2.2.1 hok
  rw [on_return_bind]
  have h3 : on_return cpsr_ok
      (if (insn >>> 21 &&& 15) &&& 12 = 8 then
        (if insn >>> 12 &&& 15 ≠ 0 then none
         else some (data_processing_alu (insn >>> 21 &&& 15) (get_reg_pc (insn >>> 16 &&& 15) s)
          sh.1 s.arm.cpsr_c (insn >>> 20 &&& 1) sh.2).2)
       else some (set_reg_pc (insn >>> 12 &&& 15)
          (data_processing_alu (insn >>> 21 &&& 15) (get_reg_pc (insn >>> 16 &&& 15) s)
            sh.1 s.arm.cpsr_c (insn >>> 20 &&& 1) sh.2).1
          (data_processing_alu (insn >>> 21 &&& 15) (get_reg_pc (insn >>> 16 &&& 15) s)
            sh.1 s.arm.cpsr_c (insn >>> 20 &&& 1) sh.2).2)) := by
    simp only [on_return_ite, on_return_none, on_return_some]
    exact ⟨fun _ => ⟨fun _ => trivial, fun _ => halu.2⟩, fun _ => halu.2⟩
  refine on_return_mono h3 ?_
  intro s3 h3
  simp only [on_return_ite, on_return_some]
  refine ⟨fun _ => ⟨fun _ => get_spsr_set_cpsr_full_ok _, fun _ => ?_⟩, fun _ => h3⟩
  exact cpsr_ok_set_nz_flags _ _ halu.1 h3

theorem cpsr_ok_set_reg_pc_bx (rn v : Nat) (s : Cpu) (h : cpsr_ok s) :
    cpsr_ok (set_reg_pc_bx rn v s) := by
  unfold set_reg_pc_bx
  split
  · obtain ⟨hn, hz, hc, hv, hl⟩ := h
    exact ⟨hn, hz, hc, hv, mask_or _ _ _ hl (by decide)⟩
  · exact h

theorem set_reg_ok (rn v : Nat) (s : Cpu) (h : cpsr_ok s) : on_return cpsr_ok (set_reg rn v s) := by
  unfold set_reg
  simp only [on_return_ite, on_return_none, on_return_some]
  exact ⟨fun _ => trivial, fun _ => h⟩

theorem arm_miscellaneous_ok (rest : Nat → Cpu → Option Cpu) (insn : Nat) (s : Cpu)
    (hrest : on_return cpsr_ok (rest insn s)) (h : cpsr_ok s) :
    on_return cpsr_ok (arm_miscellaneous rest insn s) := by
  unfold arm_miscellaneous
  rw [on_return_ite]
  refine ⟨fun _ => ?_, fun _ => ?_⟩
  · simp only [on_return_some]
    apply cpsr_ok_set_reg_pc_bx
    split
    · exact h
    · exact h
  rw [on_return_ite]
  refine ⟨fun _ => ?_, fun _ => ?_⟩
  · rw [on_return_bind]
    intro v _
    exact set_reg_ok _ _ _ h
  rw [on_return_ite]
  refine ⟨fun _ => ?_, fun _ => hrest⟩
  rw [on_return_bind]
  have hv : on_return (fun vs : Nat × Cpu => cpsr_ok vs.2)
      (if insn &&& 0x2000000 ≠ 0 then some (get_shifted_immed insn 0 s)
       else (get_reg (insn &&& 15) s).map (fun v => (v, s))) := by
    simp only [on_return_ite, on_return_some, on_return_map]
    exact ⟨fun _ => (get_shifted_immed_ok _ _ _ h).2, fun _ _ _ => h⟩
  refine on_return_mono hv ?_
  intro vs hvs
  simp only [on_return_ite]
  exact ⟨fun _ => set_spsr_ok _ _ _ hvs, fun _ => set_cpsr_ok _ _ _⟩

theorem arm_branch_ok (insn : Nat) (s : Cpu) (h : cpsr_ok s) :
    on_return cpsr_ok (arm_branch insn s) := by
  unfold arm_branch
  simp only [on_return_some]
  exact h

theorem arm_mcr_p15_ok (insn : Nat) (s : Cpu) (h : cpsr_ok s) :
    on_return cpsr_ok (arm_mcr_p15 insn s) := by
  unfold arm_mcr_p15
  rw [on_return_bind]
  intro v _
  simp only [on_return_ite, on_return_some, on_return_none]
  refine ⟨fun _ => ⟨fun _ => trivial, fun _ => ⟨fun _ => h, fun _ => h⟩⟩, fun _ => ⟨fun _ => h,
    fun _ => ⟨fun _ => h, fun _ => ⟨fun _ => h, fun _ => ⟨fun _ => h, fun _ => ⟨fun _ => h,
    fun _ => ⟨fun _ => ⟨fun _ => h, fun _ => h⟩, fun _ => ⟨fun _ => h, fun _ => ⟨fun _ => h,
    fun _ => h⟩⟩⟩⟩⟩⟩⟩⟩⟩

theorem arm_mrc_p15_ok (insn : Nat) (s : Cpu) (h : cpsr_ok s) :
    on_return cpsr_ok (arm_mrc_p15 insn s) := by
  unfold arm_mrc_p15
  simp only [on_return_ite, on_return_some]
  refine ⟨fun _ => ?_, fun _ => h⟩
  exact ⟨Nat.and_le_right, Nat.and_le_right, Nat.and_le_right, Nat.and_le_right, h.2.2.2.2⟩

theorem reg_ref_write_ok (p : reg_ref) (v nb : Nat) (s : Cpu) (h : cpsr_ok s) :
    cpsr_ok (reg_ref_write p v nb s).2 := by
  cases p <;> exact h

theorem ldm_stm_transfer_ok (ops : mem_ops) (hk : mem_ops_keep_cpsr ops)
    (insn base_reg i addr : Nat) (st : Nat × Cpu) (h : cpsr_ok st.2) :
    on_return (fun t => cpsr_ok t.2) (ldm_stm_transfer ops insn base_reg i addr st) := by
  unfold ldm_stm_transfer
  simp only []
  rw [on_return_ite]
  refine ⟨fun _ => ?_, fun _ => ?_⟩
  · rw [on_return_bind]
    intro p _
    rw [on_return_map]
    refine on_return_mono (hk.2.2.1 addr st.2 h) ?_
    intro r hr
    exact reg_ref_write_ok _ _ _ _ hr
  · rw [on_return_map]
    exact hk.2.2.2.2.2.2.1 addr _ st.2 h

theorem ldm_stm_loop_ok (ops : mem_ops) (hk : mem_ops_keep_cpsr ops) (insn base_reg : Nat)
    (k : Nat) (st : Nat × Nat × Cpu) (h : cpsr_ok st.2.2) :
    on_return (fun r => cpsr_ok r.2.2) (ldm_stm_loop ops insn base_reg k st) := by
  induction k with
  | zero =>
    unfold ldm_stm_loop
    rw [on_return_some]; exact h
  | succ k ih =>
    unfold ldm_stm_loop
    rw [on_return_bind]
    refine on_return_mono ih ?_
    intro r hr
    rw [on_return_ite]
    refine ⟨fun _ => ?_, fun _ => ?_⟩
    · rw [on_return_map]
      exact ldm_stm_transfer_ok ops hk insn base_reg k r.1 r.2 hr
    · rw [on_return_some]; exact hr

theorem arm_ldm_stm_ok (ops : mem_ops) (hk : mem_ops_keep_cpsr ops) (insn : Nat) (s : Cpu)
    (h : cpsr_ok s) : on_return cpsr_ok (arm_ldm_stm ops insn s) := by
  unfold arm_ldm_stm
  simp only []
  rw [on_return_bind]
  intro addr _
  rw [on_return_bind]
  refine on_return_mono (ldm_stm_loop_ok ops hk insn _ 15 _ h) ?_
  intro r hr
  rw [on_return_bind]
  have h2 : on_return cpsr_ok
      (if insn &&& (1 <<< 15) ≠ 0 then
        if insn &&& (1 <<< 20) ≠ 0 then
          (ops.read_word r.1 r.2.2).map fun v => set_reg_pc_bx 15 v.1 v.2
        else ops.write_word r.1 (get_reg_pc_store 15 r.2.2) r.2.2
       else some r.2.2) := by
    rw [on_return_ite]
    refine ⟨fun _ => ?_, fun _ => ?_⟩
    · rw [on_return_ite]
      refine ⟨fun _ => ?_, fun _ => hk.2.2.2.2.2.2.1 _ _ _ hr⟩
      rw [on_return_map]
      refine on_return_mono (hk.2.2.1 _ _ hr) ?_
      intro v hv
      exact cpsr_ok_set_reg_pc_bx _ _ _ hv
    · rw [on_return_some]; exact hr
  refine on_return_mono h2 ?_
  intro s2 hs2
  rw [on_return_ite]
  refine ⟨fun _ => get_spsr_set_cpsr_full_ok _, fun _ => ?_⟩
  rw [on_return_some]; exact hs2

theorem get_reg_on {P : Nat → Prop} (rn : Nat) (s : Cpu) (h : ∀ v, P v) :
    on_return P (get_reg rn s) := fun v _ => h v

/-- addressing of the single-register transfers: nothing to show about the address -/
theorem arm_ldr_str_ok (ops : mem_ops) (hk : mem_ops_keep_cpsr ops) (insn : Nat) (s : Cpu)
    (h : cpsr_ok s) : on_return cpsr_ok (arm_ldr_str ops insn s) := by
  unfold arm_ldr_str
  simp only []
  rw [on_return_bind]
  have ho : on_return (fun o : Nat × Cpu => cpsr_ok o.2)
      (if insn &&& (1 <<< 25) ≠ 0 then
        if insn &&& (1 <<< 4) ≠ 0 then none
        else get_shifted_reg insn 0 s
       else some (insn &&& 0xFFF, s)) := by
    simp only [on_return_ite, on_return_none, on_return_some]
    exact ⟨fun _ => ⟨fun _ => trivial,
      fun _ => on_return_mono (get_shifted_reg_ok insn 0 s h) (fun _ hr => hr.2)⟩, fun _ => h⟩
  refine on_return_mono ho ?_
  intro o ho
  rw [on_return_bind]
  intro m _
  rw [on_return_bind]
  have h2 : on_return cpsr_ok
      (if insn &&& (1 <<< 20) ≠ 0 then
        if insn >>> 12 &&& 15 = insn >>> 16 &&& 15 ∧ m.2.2 = true then none
        else if insn &&& (1 <<< 22) ≠ 0 then
          (ops.read_byte m.1 o.2).map fun r => set_reg_pc_bx (insn >>> 12 &&& 15) r.1 r.2
        else (ops.read_word_ldr m.1 o.2).map fun r => set_reg_pc_bx (insn >>> 12 &&& 15) r.1 r.2
       else if insn &&& (1 <<< 22) ≠ 0 then
        ops.write_byte m.1 (get_reg_pc_store (insn >>> 12 &&& 15) o.2 % 2 ^ 8) o.2
       else ops.write_word m.1 (get_reg_pc_store (insn >>> 12 &&& 15) o.2) o.2) := by
    simp only [on_return_ite, on_return_none, on_return_map]
    refine ⟨fun _ => ⟨fun _ => trivial, fun _ => ⟨fun _ => ?_, fun _ => ?_⟩⟩,
      fun _ => ⟨fun _ => hk.2.2.2.2.1 _ _ _ ho, fun _ => hk.2.2.2.2.2.2.1 _ _ _ ho⟩⟩
    · exact on_return_mono (hk.1 _ _ ho) (fun r hr => cpsr_ok_set_reg_pc_bx _ _ _ hr)
    · exact on_return_mono (hk.2.2.2.1 _ _ ho) (fun r hr => cpsr_ok_set_reg_pc_bx _ _ _ hr)
  refine on_return_mono h2 ?_
  intro s2 hs2
  rw [on_return_ite]
  refine ⟨fun _ => set_reg_ok _ _ _ hs2, fun _ => ?_⟩
  rw [on_return_some]; exact hs2

theorem to_u64_lt (z : Int) : to_u64 z < 2 ^ 64 := by
  unfold to_u64
  have h1 : 0 ≤ z % 2 ^ 64 := Int.emod_nonneg _ (by norm_num)
  have h2 : z % 2 ^ 64 < 2 ^ 64 := Int.emod_lt_of_pos _ (by norm_num)
  omega

theorem to_u32_lt (z : Int) : to_u32 z < 2 ^ 32 := by
  unfold to_u32
  have h1 : 0 ≤ z % 2 ^ 32 := Int.emod_nonneg _ (by norm_num)
  have h2 : z % 2 ^ 32 < 2 ^ 32 := Int.emod_lt_of_pos _ (by norm_num)
  omega

theorem cpsr_ok_set_q (s : Cpu) (q : Nat) (hq : q ≤ 1) (h : cpsr_ok s) :
    cpsr_ok { s with arm := { s.arm with cpsr_low28 := s.arm.cpsr_low28 ||| q <<< 27 } } := by
  obtain ⟨hn, hz, hc, hv, hl⟩ := h
  refine ⟨hn, hz, hc, hv, ?_⟩
  show (s.arm.cpsr_low28 ||| q <<< 27) &&& 0x090000FF = s.arm.cpsr_low28 ||| q <<< 27
  apply mask_or _ _ _ hl
  have : q = 0 ∨ q = 1 := by omega
  rcases this with rfl | rfl <;> decide

theorem arm_mul_half_transfer_ok (ops : mem_ops) (hk : mem_ops_keep_cpsr ops) (insn : Nat)
    (s : Cpu) (h : cpsr_ok s) : on_return cpsr_ok (arm_mul_half_transfer ops insn s) := by
  unfold arm_mul_half_transfer
  simp only []
  rw [on_return_ite]
  refine ⟨fun _ => ?_, fun _ => ?_⟩
  · rw [on_return_ite]
    refine ⟨fun _ => ?_, fun _ => ?_⟩
    · rw [on_return_bind]; intro a _
      rw [on_return_bind]; intro b _
      rw [on_return_bind]
      have hres : on_return (fun r => r < 2 ^ 32)
          (if insn &&& 0x0200000 ≠ 0 then
            (get_reg (insn >>> 12 &&& 15) s).map fun c => ((a * b) % 2 ^ 32 + c) % 2 ^ 32
           else some ((a * b) % 2 ^ 32)) := by
        simp only [on_return_ite, on_return_map, on_return_some]
        exact ⟨fun _ _ _ => Nat.mod_lt _ (by decide), fun _ => Nat.mod_lt _ (by decide)⟩
      refine on_return_mono hres ?_
      intro res hres
      rw [on_return_map]
      refine on_return_mono (set_reg_ok _ _ _ h) ?_
      intro s1 hs1
      split
      · exact cpsr_ok_set_nz_flags _ _ hres hs1
      · exact hs1
    rw [on_return_ite]
    refine ⟨fun _ => ?_, fun _ => ?_⟩
    · rw [on_return_bind]; intro left _
      rw [on_return_bind]; intro right _
      rw [on_return_ite]
      refine ⟨fun _ => on_return_none _, fun _ => ?_⟩
      rw [on_return_bind]
      have hres : on_return (fun r => r < 2 ^ 64)
          (if insn &&& 0x0200000 ≠ 0 then
            (get_reg (insn >>> 16 &&& 15) s).bind fun hi =>
            (get_reg (insn >>> 12 &&& 15) s).map fun lo =>
              ((if insn &&& 0x0400000 ≠ 0 then to_u64 (sint32 left * sint32 right)
                else (left * right) % 2 ^ 64) + ((hi <<< 32) % 2 ^ 64 ||| lo)) % 2 ^ 64
           else some (if insn &&& 0x0400000 ≠ 0 then to_u64 (sint32 left * sint32 right)
                else (left * right) % 2 ^ 64)) := by
        simp only [on_return_ite, on_return_map, on_return_some, on_return_bind]
        refine ⟨fun _ _ _ _ _ => Nat.mod_lt _ (by decide), fun _ => ?_⟩
        split
        · exact to_u64_lt _
        · exact Nat.mod_lt _ (by decide)
      refine on_return_mono hres ?_
      intro res hres
      rw [on_return_bind]
      refine on_return_mono (set_reg_ok _ _ _ h) ?_
      intro s1 hs1
      rw [on_return_map]
      refine on_return_mono (set_reg_ok _ _ _ hs1) ?_
      intro s2 hs2
      split
      · exact cpsr_ok_set_nz_flags_64 _ _ hres hs2
      · exact hs2
    rw [on_return_ite]
    refine ⟨fun _ => ?_, fun _ => on_return_none _⟩
    rw [on_return_bind]; intro addr _
    rw [on_return_bind]; intro st _
    rw [on_return_bind]
    have hacc : on_return (fun r : Nat × Cpu => cpsr_ok r.2)
        (if insn &&& 0x0400000 ≠ 0 then
          (ops.read_byte addr s).bind fun r =>
          (ops.write_byte addr (st % 2 ^ 8) r.2).map fun s1 => (r.1, s1)
         else
          (ops.read_word_ldr addr s).bind fun r =>
          (ops.write_word addr st r.2).map fun s1 => (r.1, s1)) := by
      rw [on_return_ite]
      refine ⟨fun _ => ?_, fun _ => ?_⟩
      · rw [on_return_bind]
        refine on_return_mono (hk.1 _ _ h) ?_
        intro r hr
        rw [on_return_map]
        exact hk.2.2.2.2.1 _ _ _ hr
      · rw [on_return_bind]
        refine on_return_mono (hk.2.2.2.1 _ _ h) ?_
        intro r hr
        rw [on_return_map]
        exact hk.2.2.2.2.2.2.1 _ _ _ hr
    refine on_return_mono hacc ?_
    intro r hr
    exact set_reg_ok _ _ _ hr
  · rw [on_return_bind]; intro offset _
    rw [on_return_bind]; intro m _
    rw [on_return_bind]
    have h2 : on_return cpsr_ok
        (if insn &&& (1 <<< 20) ≠ 0 then
          if insn >>> 16 &&& 15 = insn >>> 12 &&& 15 ∧ m.2.2 = true then none
          else
            (if insn >>> 5 &&& 3 = 1 then ops.read_half m.1 s
             else if insn >>> 5 &&& 3 = 2 then (ops.read_byte m.1 s).map fun r => (sext8 r.1, r.2)
             else (ops.read_half m.1 s).map fun r => (sext16 r.1, r.2)).bind fun r =>
            set_reg (insn >>> 12 &&& 15) r.1 r.2
         else if insn >>> 5 &&& 3 = 1 then
          (get_reg (insn >>> 12 &&& 15) s).bind fun v => ops.write_half m.1 (v % 2 ^ 16) s
         else if (insn >>> 12 &&& 15) &&& 1 ≠ 0 then none
         else if insn >>> 5 &&& 3 = 2 then
          if (insn >>> 16 &&& 15) &&& not32 1 = insn >>> 12 &&& 15 ∧ m.2.2 = true then none
          else
            (ops.read_word m.1 s).bind fun low =>
            (ops.read_word ((m.1 + 4) % 2 ^ 32) low.2).bind fun high =>
            (set_reg (insn >>> 12 &&& 15) low.1 high.2).bind fun s1 =>
            set_reg ((insn >>> 12 &&& 15) + 1) high.1 s1
         else
          (get_reg (insn >>> 12 &&& 15) s).bind fun v0 =>
          (ops.write_word m.1 v0 s).bind fun s1 =>
          (get_reg ((insn >>> 12 &&& 15) + 1) s1).bind fun v1 =>
          ops.write_word ((m.1 + 4) % 2 ^ 32) v1 s1) := by
      rw [on_return_ite]
      refine ⟨fun _ => ?_, fun _ => ?_⟩
      · rw [on_return_ite]
        refine ⟨fun _ => on_return_none _, fun _ => ?_⟩
        rw [on_return_bind]
        have hld : on_return (fun r : Nat × Cpu => cpsr_ok r.2)
            (if insn >>> 5 &&& 3 = 1 then ops.read_half m.1 s
             else if insn >>> 5 &&& 3 = 2 then (ops.read_byte m.1 s).map fun r => (sext8 r.1, r.2)
             else (ops.read_half m.1 s).map fun r => (sext16 r.1, r.2)) := by
          simp only [on_return_ite, on_return_map]
          exact ⟨fun _ => hk.2.1 _ _ h, fun _ => ⟨fun _ => hk.1 _ _ h, fun _ => hk.2.1 _ _ h⟩⟩
        refine on_return_mono hld ?_
        intro r hr
        exact set_reg_ok _ _ _ hr
      rw [on_return_ite]
      refine ⟨fun _ => ?_, fun _ => ?_⟩
      · rw [on_return_bind]; intro v _
        exact hk.2.2.2.2.2.1 _ _ _ h
      rw [on_return_ite]
      refine ⟨fun _ => on_return_none _, fun _ => ?_⟩
      rw [on_return_ite]
      refine ⟨fun _ => ?_, fun _ => ?_⟩
      · rw [on_return_ite]
        refine ⟨fun _ => on_return_none _, fun _ => ?_⟩
        rw [on_return_bind]
        refine on_return_mono (hk.2.2.1 _ _ h) ?_
        intro low hlow
        rw [on_return_bind]
        refine on_return_mono (hk.2.2.1 _ _ hlow) ?_
        intro high hhigh
        rw [on_return_bind]
        refine on_return_mono (set_reg_ok _ _ _ hhigh) ?_
        intro s1 hs1
        exact set_reg_ok _ _ _ hs1
      · rw [on_return_bind]; intro v0 _
        rw [on_return_bind]
        refine on_return_mono (hk.2.2.2.2.2.2.1 _ _ _ h) ?_
        intro s1 hs1
        rw [on_return_bind]; intro v1 _
        exact hk.2.2.2.2.2.2.1 _ _ _ hs1
    refine on_return_mono h2 ?_
    intro s2 hs2
    rw [on_return_ite]
    refine ⟨fun _ => set_reg_ok _ _ _ hs2, fun _ => ?_⟩
    rw [on_return_some]; exact hs2

theorem arm_misc_rest_ok (ops : mem_ops) (hk : mem_ops_keep_cpsr ops) (insn : Nat)
    (s : Cpu) (h : cpsr_ok s) : on_return cpsr_ok (arm_misc_rest ops insn s) := by
  have one : (1 : Nat) ≤ 1 := le_refl _
  unfold arm_misc_rest
  rw [on_return_ite]
  refine ⟨fun _ => ?_, fun _ => ?_⟩
  · rw [on_return_bind]; intro l _
    rw [on_return_bind]; intro r _
    simp only []
    rw [on_return_ite]
    refine ⟨fun _ => ?_, fun _ => ?_⟩
    · rw [on_return_bind]; intro acc _
      exact set_reg_ok _ _ _ (cpsr_ok_set_q s _ (ADD_OVERFLOW_le _ _ _) h)
    rw [on_return_ite]
    refine ⟨fun _ => ?_, fun _ => set_reg_ok _ _ _ h⟩
    rw [on_return_ite]
    refine ⟨fun _ => on_return_none _, fun _ => ?_⟩
    rw [on_return_bind]; intro hi _
    rw [on_return_bind]; intro lo _
    rw [on_return_bind]
    refine on_return_mono (set_reg_ok _ _ _ h) ?_
    intro s1 hs1
    exact set_reg_ok _ _ _ hs1
  rw [on_return_ite]
  refine ⟨fun _ => ?_, fun _ => ?_⟩
  · rw [on_return_bind]; intro left _
    rw [on_return_bind]; intro right _
    simp only []
    have hd : cpsr_ok
        (if insn &&& 0x400000 ≠ 0 then
          if ADD_OVERFLOW right right ((right <<< 1) % 2 ^ 32) ≠ 0 then
            ((if 2 ^ 31 ≤ (right <<< 1) % 2 ^ 32 then 0x7FFFFFFF else 0x80000000 : Nat),
              ({ s with arm := { s.arm with cpsr_low28 := s.arm.cpsr_low28 ||| 1 <<< 27 } } : Cpu))
          else ((right <<< 1) % 2 ^ 32, s)
         else (right, s)).2 := by
      split
      · split
        · exact cpsr_ok_set_q s 1 one h
        · exact h
      · exact h
    rw [on_return_ite]
    exact ⟨fun _ => set_reg_ok _ _ _ (cpsr_ok_set_q _ 1 one hd), fun _ => set_reg_ok _ _ _ hd⟩
  rw [on_return_ite]
  refine ⟨fun _ => ?_, fun _ => ?_⟩
  · rw [on_return_bind]; intro v _
    exact set_reg_ok _ _ _ h
  rw [on_return_ite]
  exact ⟨fun _ => hk.2.2.2.2.2.2.2 _ h, fun _ => on_return_none _⟩

theorem arm_ext_ok (ops : mem_ops) (hk : mem_ops_keep_cpsr ops) (cls : arm_class) (insn : Nat)
    (s : Cpu) (h : cpsr_ok s) : on_return cpsr_ok (arm_ext ops cls insn s) := by
  cases cls
  · exact arm_mul_half_transfer_ok ops hk insn s h
  · exact arm_misc_rest_ok ops hk insn s h
  · exact on_return_none _
  · exact arm_ldr_str_ok ops hk insn s h
  · exact arm_ldm_stm_ok ops hk insn s h
  · exact on_return_none _
  · exact on_return_none _
  · exact on_return_none _

theorem arm_body_ok (ops : mem_ops) (hk : mem_ops_keep_cpsr ops) (cls : arm_class) (insn : Nat)
    (s : Cpu) (h : cpsr_ok s) : on_return cpsr_ok (arm_body (arm_ext ops) cls insn s) := by
  cases cls
  · exact arm_mul_half_transfer_ok ops hk insn s h
  · exact arm_miscellaneous_ok _ insn s (arm_misc_rest_ok ops hk insn s h) h
  · exact arm_data_processing_ok insn s h
  · exact arm_ldr_str_ok ops hk insn s h
  · exact arm_ldm_stm_ok ops hk insn s h
  · exact arm_branch_ok insn s h
  · exact arm_mcr_p15_ok insn s h
  · exact arm_mrc_p15_ok insn s h

theorem cpsr_ok_set_t (s : Cpu) (h : cpsr_ok s) :
    cpsr_ok { s with arm := { s.arm with cpsr_low28 := s.arm.cpsr_low28 ||| 0x20 } } := by
  obtain ⟨hn, hz, hc, hv, hl⟩ := h
  exact ⟨hn, hz, hc, hv, mask_or _ _ _ hl (by decide)⟩

theorem cpsr_ok_clear_t (s : Cpu) (h : cpsr_ok s) :
    cpsr_ok { s with arm := { s.arm with cpsr_low28 := s.arm.cpsr_low28 &&& not32 0x20 } } := by
  obtain ⟨hn, hz, hc, hv, hl⟩ := h
  exact ⟨hn, hz, hc, hv, mask_and _ _ _ hl⟩

theorem cpu_interpret_instruction_ok (ops : mem_ops) (hk : mem_ops_keep_cpsr ops) (insn : Nat)
    (s : Cpu) (h : cpsr_ok s) :
    on_return cpsr_ok (cpu_interpret_instruction (arm_body (arm_ext ops)) insn s) := by
  unfold cpu_interpret_instruction
  rw [on_return_ite]
  refine ⟨fun _ => ?_, fun _ => ?_⟩
  · simp only [on_return_ite, on_return_some, on_return_none]
    exact ⟨fun _ => h, fun _ => ⟨fun _ => cpsr_ok_set_t s h, fun _ => trivial⟩⟩
  simp only [on_return_ite, on_return_some, on_return_none]
  exact ⟨fun _ => h, fun _ => ⟨fun _ => arm_body_ok ops hk _ insn s h,
    fun _ => ⟨fun _ => arm_body_ok ops hk _ insn s h,
    fun _ => ⟨fun _ => arm_body_ok ops hk _ insn s h,
    fun _ => ⟨fun _ => arm_body_ok ops hk _ insn s h,
    fun _ => ⟨fun _ => arm_body_ok ops hk _ insn s h,
    fun _ => ⟨fun _ => arm_body_ok ops hk _ insn s h,
    fun _ => ⟨fun _ => arm_body_ok ops hk _ insn s h,
    fun _ => ⟨fun _ => arm_body_ok ops hk _ insn s h,
    fun _ => ⟨fun _ => cpu_exception_ok _ _, fun _ => trivial⟩⟩⟩⟩⟩⟩⟩⟩⟩⟩

theorem and7_lt16 (x : Nat) : x &&& 7 < 16 :=
  lt_of_le_of_lt Nat.and_le_right (by decide)

theorem thumb_alu_op_ok (insn : Nat) (s : Cpu) (hr : regs32 s) (h : cpsr_ok s) :
    (thumb_alu_op insn s).1 < 2 ^ 32 ∧ cpsr_ok (thumb_alu_op insn s).2.2 := by
  have hd : s.arm.reg (insn &&& 7) < 2 ^ 32 := hr _ (and7_lt16 _)
  have hs : s.arm.reg (insn >>> 3 &&& 7) < 2 ^ 32 := hr _ (and7_lt16 _)
  have h1 : (1 : Nat) ≤ 1 := le_refl _
  have h0 : (0 : Nat) ≤ 1 := by decide
  have hc := h.2.2.1
  have hand : s.arm.reg (insn &&& 7) &&& s.arm.reg (insn >>> 3 &&& 7) < 2 ^ 32 :=
    lt_of_le_of_lt Nat.and_le_left hd
  have hxor := Nat.xor_lt_two_pow hd hs
  have hor := Nat.or_lt_two_pow hd hs
  have hbic : s.arm.reg (insn &&& 7) &&& not32 (s.arm.reg (insn >>> 3 &&& 7)) < 2 ^ 32 :=
    lt_of_le_of_lt Nat.and_le_left hd
  unfold thumb_alu_op
  simp only []
  by_cases o1 : insn >>> 6 &&& 15 = 1
  · rw [if_pos o1]; exact ⟨hxor, h⟩
  rw [if_neg o1]
  by_cases o2 : insn >>> 6 &&& 15 = 2
  · rw [if_pos o2]; exact shift_ok _ _ _ _ _ hd h
  rw [if_neg o2]
  by_cases o3 : insn >>> 6 &&& 15 = 3
  · rw [if_pos o3]; exact shift_ok _ _ _ _ _ hd h
  rw [if_neg o3]
  by_cases o4 : insn >>> 6 &&& 15 = 4
  · rw [if_pos o4]; exact shift_ok _ _ _ _ _ hd h
  rw [if_neg o4]
  by_cases o5 : insn >>> 6 &&& 15 = 5
  · rw [if_pos o5]; exact ⟨add_lt _ _ _ _ _, cpsr_ok_add _ _ _ _ _ hc h⟩
  rw [if_neg o5]
  by_cases o6 : insn >>> 6 &&& 15 = 6
  · rw [if_pos o6]; exact ⟨add_lt _ _ _ _ _, cpsr_ok_add _ _ _ _ _ hc h⟩
  rw [if_neg o6]
  by_cases o7 : insn >>> 6 &&& 15 = 7
  · rw [if_pos o7]; exact shift_ok _ _ _ _ _ hd h
  rw [if_neg o7]
  by_cases o8 : insn >>> 6 &&& 15 = 8
  · rw [if_pos o8]; exact ⟨hand, h⟩
  rw [if_neg o8]
  by_cases o9 : insn >>> 6 &&& 15 = 9
  · rw [if_pos o9]; exact ⟨add_lt _ _ _ _ _, cpsr_ok_add _ _ _ _ _ h1 h⟩
  rw [if_neg o9]
  by_cases o10 : insn >>> 6 &&& 15 = 10
  · rw [if_pos o10]; exact ⟨add_lt _ _ _ _ _, cpsr_ok_add _ _ _ _ _ h1 h⟩
  rw [if_neg o10]
  by_cases o11 : insn >>> 6 &&& 15 = 11
  · rw [if_pos o11]; exact ⟨add_lt _ _ _ _ _, cpsr_ok_add _ _ _ _ _ h0 h⟩
  rw [if_neg o11]
  by_cases o12 : insn >>> 6 &&& 15 = 12
  · rw [if_pos o12]; exact ⟨hor, h⟩
  rw [if_neg o12]
  by_cases o13 : insn >>> 6 &&& 15 = 13
  · rw [if_pos o13]; exact ⟨Nat.mod_lt _ (by decide), h⟩
  rw [if_neg o13]
  by_cases o14 : insn >>> 6 &&& 15 = 14
  · rw [if_pos o14]; exact ⟨hbic, h⟩
  rw [if_neg o14]
  by_cases o15 : insn >>> 6 &&& 15 = 15
  · rw [if_pos o15]; exact ⟨not32_lt _, h⟩
  rw [if_neg o15]
  exact ⟨hand, h⟩

theorem thumb_alu_ok (insn : Nat) (s : Cpu) (hr : regs32 s) (h : cpsr_ok s) :
    cpsr_ok (thumb_alu insn s) := by
  obtain ⟨h1, h2⟩ := thumb_alu_op_ok insn s hr h
  unfold thumb_alu
  simp only []
  apply cpsr_ok_set_nz_flags _ _ h1
  split
  · exact h2
  · exact h2

theorem thumb_store_loop_ok (ops : mem_ops) (hk : mem_ops_keep_cpsr ops) (insn k : Nat)
    (st : Nat × Cpu) (h : cpsr_ok st.2) :
    on_return (fun r => cpsr_ok r.2) (thumb_store_loop ops insn k st) := by
  induction k with
  | zero => unfold thumb_store_loop; rw [on_return_some]; exact h
  | succ k ih =>
    unfold thumb_store_loop
    rw [on_return_bind]
    refine on_return_mono ih ?_
    intro r hr
    rw [on_return_ite]
    refine ⟨fun _ => ?_, fun _ => (on_return_some _ _).2 hr⟩
    rw [on_return_map]
    exact hk.2.2.2.2.2.2.1 _ _ _ hr

theorem thumb_pop_loop_ok (ops : mem_ops) (hk : mem_ops_keep_cpsr ops) (insn k : Nat)
    (st : Nat × Cpu) (h : cpsr_ok st.2) :
    on_return (fun r => cpsr_ok r.2) (thumb_pop_loop ops insn k st) := by
  induction k with
  | zero => unfold thumb_pop_loop; rw [on_return_some]; exact h
  | succ k ih =>
    unfold thumb_pop_loop
    rw [on_return_bind]
    refine on_return_mono ih ?_
    intro r hr
    rw [on_return_ite]
    refine ⟨fun _ => ?_, fun _ => (on_return_some _ _).2 hr⟩
    rw [on_return_map]
    exact hk.2.2.1 _ _ hr

theorem thumb_ldmia_loop_ok (ops : mem_ops) (hk : mem_ops_keep_cpsr ops) (insn k : Nat)
    (st : Nat × Nat × Cpu) (h : cpsr_ok st.2.2) :
    on_return (fun r => cpsr_ok r.2.2) (thumb_ldmia_loop ops insn k st) := by
  induction k with
  | zero => unfold thumb_ldmia_loop; rw [on_return_some]; exact h
  | succ k ih =>
    unfold thumb_ldmia_loop
    rw [on_return_bind]
    refine on_return_mono ih ?_
    intro r hr
    rw [on_return_ite]
    refine ⟨fun _ => ?_, fun _ => (on_return_some _ _).2 hr⟩
    rw [on_return_map]
    refine on_return_mono (hk.2.2.1 _ _ hr) ?_
    intro v hv
    split
    · exact hv
    · exact hv

theorem thumb_load_store_ok (ops : mem_ops) (hk : mem_ops_keep_cpsr ops) (insn : Nat) (s : Cpu)
    (h : cpsr_ok s) : on_return cpsr_ok (thumb_load_store ops insn s) := by
  obtain ⟨k1, k2, k3, k4, k5, k6, k7, -⟩ := hk
  unfold thumb_load_store
  simp only [on_return_ite, on_return_map]
  repeat' first
    | exact k1 _ _ h
    | exact k2 _ _ h
    | exact k3 _ _ h
    | exact k4 _ _ h
    | exact k5 _ _ _ h
    | exact k6 _ _ _ h
    | exact k7 _ _ _ h
    | apply And.intro
    | intro _

theorem thumb_switch_ok (ops : mem_ops) (hk : mem_ops_keep_cpsr ops) (insn : Nat) (s : Cpu)
    (hr : regs32 s) (h : cpsr_ok s) : on_return cpsr_ok (thumb_switch ops insn s) := by
  have h3 : s.arm.reg (insn >>> 3 &&& 7) < 2 ^ 32 := hr _ (and7_lt16 _)
  have h1 : (1 : Nat) ≤ 1 := le_refl _
  have h0 : (0 : Nat) ≤ 1 := by decide
  have himm : insn &&& 0xFF < 2 ^ 32 := lt_of_le_of_lt Nat.and_le_right (by decide)
  unfold thumb_switch
  simp only []
  rw [on_return_ite]
  refine ⟨fun _ => ?_, fun _ => ?_⟩
  · rw [on_return_some]
    exact cpsr_ok_set_nz_flags _ _ (shift_ok _ _ _ _ _ h3 h).1 (shift_ok _ _ _ _ _ h3 h).2
  rw [on_return_ite]
  refine ⟨fun _ => ?_, fun _ => ?_⟩
  · rw [on_return_some]
    exact cpsr_ok_set_nz_flags _ _ (add_lt _ _ _ _ _) (cpsr_ok_add _ _ _ _ _ h0 h)
  rw [on_return_ite]
  refine ⟨fun _ => ?_, fun _ => ?_⟩
  · rw [on_return_some]
    exact cpsr_ok_set_nz_flags _ _ (add_lt _ _ _ _ _) (cpsr_ok_add _ _ _ _ _ h1 h)
  rw [on_return_ite]
  refine ⟨fun _ => ?_, fun _ => ?_⟩
  · rw [on_return_some]
    exact cpsr_ok_set_nz_flags _ _ (add_lt _ _ _ _ _) (cpsr_ok_add _ _ _ _ _ h0 h)
  rw [on_return_ite]
  refine ⟨fun _ => ?_, fun _ => ?_⟩
  · rw [on_return_some]
    exact cpsr_ok_set_nz_flags _ _ (add_lt _ _ _ _ _) (cpsr_ok_add _ _ _ _ _ h1 h)
  rw [on_return_ite]
  refine ⟨fun _ => ?_, fun _ => ?_⟩
  · rw [on_return_some]
    exact cpsr_ok_set_nz_flags _ _ himm h
  rw [on_return_ite]
  refine ⟨fun _ => ?_, fun _ => ?_⟩
  · rw [on_return_some]
    exact cpsr_ok_set_nz_flags _ _ (add_lt _ _ _ _ _) (cpsr_ok_add _ _ _ _ _ h1 h)
  rw [on_return_ite]
  refine ⟨fun _ => ?_, fun _ => ?_⟩
  · rw [on_return_some]
    exact cpsr_ok_set_nz_flags _ _ (add_lt _ _ _ _ _) (cpsr_ok_add _ _ _ _ _ h0 h)
  rw [on_return_ite]
  refine ⟨fun _ => ?_, fun _ => ?_⟩
  · rw [on_return_some]
    exact cpsr_ok_set_nz_flags _ _ (add_lt _ _ _ _ _) (cpsr_ok_add _ _ _ _ _ h1 h)
  rw [on_return_ite]
  refine ⟨fun _ => ?_, fun _ => ?_⟩
  · rw [on_return_some]
    exact thumb_alu_ok insn s hr h
  rw [on_return_ite]
  refine ⟨fun _ => ?_, fun _ => ?_⟩
  · rw [on_return_some]
    exact h
  rw [on_return_ite]
  refine ⟨fun _ => ?_, fun _ => ?_⟩
  · rw [on_return_map]
    intro l _
    exact cpsr_ok_set_nz_flags _ _ (add_lt _ _ _ _ _) (cpsr_ok_add _ _ _ _ _ h1 h)
  rw [on_return_ite]
  refine ⟨fun _ => ?_, fun _ => ?_⟩
  · rw [on_return_some]
    exact h
  rw [on_return_ite]
  refine ⟨fun _ => ?_, fun _ => ?_⟩
  · have hs1 : cpsr_ok (if insn &&& 0x80 ≠ 0 then set_reg_pc 14 ((s.arm.reg 15 + 1) % 2 ^ 32) s
        else s) := by
      split
      · exact h
      · exact h
    rw [on_return_ite]
    refine ⟨fun _ => ?_, fun _ => ?_⟩
    · rw [on_return_some]
      exact cpsr_ok_clear_t _ hs1
    · rw [on_return_some]
      exact hs1
  rw [on_return_ite]
  refine ⟨fun _ => ?_, fun _ => ?_⟩
  · exact thumb_load_store_ok ops hk insn s h
  rw [on_return_ite]
  refine ⟨fun _ => ?_, fun _ => ?_⟩
  · rw [on_return_some]
    exact h
  rw [on_return_ite]
  refine ⟨fun _ => ?_, fun _ => ?_⟩
  · rw [on_return_some]
    exact h
  rw [on_return_ite]
  refine ⟨fun _ => ?_, fun _ => ?_⟩
  · rw [on_return_some]
    exact h
  rw [on_return_ite]
  refine ⟨fun _ => ?_, fun _ => ?_⟩
  · rw [on_return_bind]
    refine on_return_mono (thumb_store_loop_ok ops hk insn 8 _ h) ?_
    intro r hr2
    rw [on_return_map]
    rw [on_return_ite]
    refine ⟨fun _ => hk.2.2.2.2.2.2.1 _ _ _ hr2, fun _ => ?_⟩
    rw [on_return_some]
    exact hr2
  rw [on_return_ite]
  refine ⟨fun _ => ?_, fun _ => ?_⟩
  · rw [on_return_bind]
    refine on_return_mono (thumb_pop_loop_ok ops hk insn 8 _ h) ?_
    intro r hr2
    rw [on_return_ite]
    refine ⟨fun _ => ?_, fun _ => ?_⟩
    · rw [on_return_map]
      refine on_return_mono (hk.2.2.1 _ _ hr2) ?_
      intro v hv
      split
      · exact cpsr_ok_clear_t _ hv
      · exact hv
    · rw [on_return_some]
      exact hr2
  rw [on_return_ite]
  refine ⟨fun _ => ?_, fun _ => ?_⟩
  · exact hk.2.2.2.2.2.2.2 _ h
  rw [on_return_ite]
  refine ⟨fun _ => ?_, fun _ => ?_⟩
  · exact on_return_none _
  rw [on_return_ite]
  refine ⟨fun _ => ?_, fun _ => ?_⟩
  · rw [on_return_map]
    exact thumb_store_loop_ok ops hk insn 8 _ h
  rw [on_return_ite]
  refine ⟨fun _ => ?_, fun _ => ?_⟩
  · rw [on_return_map]
    refine on_return_mono (thumb_ldmia_loop_ok ops hk insn 8 _ h) ?_
    intro r hr2
    split
    · exact hr2
    · exact hr2
  rw [on_return_ite]
  refine ⟨fun _ => ?_, fun _ => ?_⟩
  · rw [on_return_ite]
    refine ⟨fun _ => ?_, fun _ => ?_⟩
    · rw [on_return_some]
      exact h
    · rw [on_return_some]
      exact h
  rw [on_return_ite]
  refine ⟨fun _ => ?_, fun _ => ?_⟩
  · exact cpu_exception_ok _ _
  rw [on_return_ite]
  refine ⟨fun _ => ?_, fun _ => ?_⟩
  · exact on_return_none _
  rw [on_return_ite]
  refine ⟨fun _ => ?_, fun _ => ?_⟩
  · rw [on_return_some]
    exact h
  rw [on_return_ite]
  refine ⟨fun _ => ?_, fun _ => ?_⟩
  · rw [on_return_some]
    exact cpsr_ok_clear_t _ h
  rw [on_return_ite]
  refine ⟨fun _ => ?_, fun _ => ?_⟩
  · rw [on_return_some]
    exact h
  rw [on_return_ite]
  refine ⟨fun _ => ?_, fun _ => ?_⟩
  · rw [on_return_some]
    exact h
  exact on_return_none _

theorem cpu_thumb_instruction_ok (ops : mem_ops) (hk : mem_ops_keep_cpsr ops) (insn : Nat)
    (s : Cpu) (hr : regs32 s) (h : cpsr_ok s) :
    on_return cpsr_ok (cpu_thumb_instruction ops insn s) := by
  unfold cpu_thumb_instruction
  refine thumb_switch_ok ops hk insn _ ?_ ?_
  · intro i hi
    show set_elem s.arm.reg 15 ((s.arm.reg 15 + 2) % 2 ^ 32) i < 2 ^ 32
    unfold set_elem
    split
    · exact Nat.mod_lt _ (by decide)
    · exact hr i hi
  · exact (cpsr_ok_congr s _ rfl rfl rfl rfl rfl).2 h

theorem get_cpsr_ok (s : Cpu) (h : cpsr_ok s) :
    get_cpsr s &&& (0x090000FF ||| 0xF0000000) = get_cpsr s := by
  obtain ⟨hn, hz, hc, hv, hl⟩ := h
  have hl28 : s.arm.cpsr_low28 < 2 ^ 28 := by
    rw [← hl]
    exact lt_of_le_of_lt Nat.and_le_right (by decide)
  unfold get_cpsr
  rw [pack_eq _ _ _ _ _ hn hz hc hv hl28]
  have e : (0x090000FF ||| 0xF0000000 : Nat) = 2 ^ 28 * 15 + 0x090000FF := by decide
  rw [e]
  have hF : s.arm.cpsr_n * 8 + s.arm.cpsr_z * 4 + s.arm.cpsr_c * 2 + s.arm.cpsr_v < 16 := by
    omega
  generalize s.arm.cpsr_n * 8 + s.arm.cpsr_z * 4 + s.arm.cpsr_c * 2 + s.arm.cpsr_v = F at hF
  apply Nat.eq_of_testBit_eq
  intro i
  rw [Nat.testBit_and, Nat.mul_add_lt_is_or hl28, Nat.mul_add_lt_is_or (by decide),
    Nat.testBit_or, Nat.testBit_or, Nat.testBit_mul_pow_two, Nat.testBit_mul_pow_two]
  by_cases hi : 28 ≤ i
  · have e1 : s.arm.cpsr_low28.testBit i = false :=
      Nat.testBit_lt_two_pow (lt_of_lt_of_le hl28 (Nat.pow_le_pow_right (by decide) hi))
    by_cases hi2 : i - 28 < 4
    · have : Nat.testBit 15 (i - 28) = true := by
        have : i - 28 = 0 ∨ i - 28 = 1 ∨ i - 28 = 2 ∨ i - 28 = 3 := by omega
        rcases this with e | e | e | e <;> rw [e] <;> decide
      simp [hi, e1, this]
    · have : F.testBit (i - 28) = false :=
        Nat.testBit_lt_two_pow (lt_of_lt_of_le hF (by
          have : 2 ^ 4 ≤ 2 ^ (i - 28) := Nat.pow_le_pow_right (by decide) (by omega)
          exact this))
      simp [hi, e1, this]
  · have e1 : s.arm.cpsr_low28.testBit i = (s.arm.cpsr_low28.testBit i && Nat.testBit 0x090000FF i) := by
      conv_lhs => rw [← hl]
      rw [Nat.testBit_and]
    simp only [hi, decide_False, Bool.false_and, Bool.false_or]
    rw [e1]
    cases s.arm.cpsr_low28.testBit i <;> simp

theorem ram_ops_keep_cpsr : mem_ops_keep_cpsr ram_ops := by
  refine ⟨?_, ?_, ?_, ?_, ?_, ?_, ?_, ?_⟩
  · intro a s h r hr; cases hr; exact h
  · intro a s h r hr; cases hr; exact h
  · intro a s h r hr; cases hr; exact h
  · intro a s h r hr; cases hr; exact h
  · intro a v s h r hr; cases hr; exact h
  · intro a v s h r hr; cases hr; exact h
  · intro a v s h r hr; cases hr; exact h
  · intro s h r hr; cases hr; exact h

/-- Claim C23: the predicate "`cpsr_n`, `cpsr_z`, `cpsr_c` and `cpsr_v` are each 0 or 1, and
`cpsr_low28` has no bit set outside `0x090000FF`" is an invariant: from a state where it
holds, it holds of every state returned by `set_cpsr_full`, by `set_cpsr`, by `cpu_exception`,
by an ARM instruction executed by `cpu_interpret_instruction` and by a THUMB instruction
executed by `cpu_thumb_loop` (the accessors of the other modules keep the predicate; for
THUMB the registers hold 32-bit words), and in such a state `get_cpsr()` has no bit set
outside `0x090000FF | 0xF0000000`. -/
theorem cpsr_predicate_is_invariant (ops : mem_ops) (s : Cpu) (hk : mem_ops_keep_cpsr ops)
    (h : cpsr_ok s) :
    (∀ c s', set_cpsr_full c s = some s' → cpsr_ok s')
    ∧ (∀ c m s', set_cpsr c m s = some s' → cpsr_ok s')
    ∧ (∀ t s', cpu_exception t s = some s' → cpsr_ok s')
    ∧ (∀ insn s', cpu_interpret_instruction (arm_body (arm_ext ops)) insn s = some s'
        → cpsr_ok s' ∧ get_cpsr s' &&& (0x090000FF ||| 0xF0000000) = get_cpsr s')
    ∧ (∀ insn s', regs32 s → cpu_thumb_instruction ops insn s = some s'
        → cpsr_ok s' ∧ get_cpsr s' &&& (0x090000FF ||| 0xF0000000) = get_cpsr s')
    ∧ get_cpsr s &&& (0x090000FF ||| 0xF0000000) = get_cpsr s := by
  refine ⟨fun c s' e => set_cpsr_full_ok c s s' e, fun c m s' e => set_cpsr_ok c m s s' e,
    fun t s' e => cpu_exception_ok t s s' e, fun insn s' e => ?_, fun insn s' hr e => ?_,
    get_cpsr_ok s h⟩
  · have := cpu_interpret_instruction_ok ops hk insn s h s' e
    exact ⟨this, get_cpsr_ok s' this⟩
  · have := cpu_thumb_instruction_ok ops hk insn s hr h s' e
    exact ⟨this, get_cpsr_ok s' this⟩

/-! ## THUMB instructions against their ARM counterparts -/

/-- the THUMB switch at a conditional branch `0xD0 + c` -/
theorem thumb_switch_branch (ops : mem_ops) (insn c : Nat) (s : Cpu) (hc : c ≤ 13)
    (hT : insn >>> 8 = 0xD0 + c) :
    thumb_switch ops insn s
      = some (if thumb_branch_cond c s.arm = true then
          set_reg_pc 15 ((s.arm.reg 15 + 2 + (sext8 insn <<< 1)) % 2 ^ 32) s else s) := by
  unfold thumb_switch
  simp only [hT]
  have e : 0xD0 + c - 0xD0 = c := by omega
  repeat rw [if_neg (by omega)]
  rw [if_pos (by omega), e]
  split <;> rfl

theorem thumb_cond_iff (c insnA : Nat) (a : arm_state) (hc : c ≤ 13)
    (hn : a.cpsr_n ≤ 1) (hz : a.cpsr_z ≤ 1) (hcf : a.cpsr_c ≤ 1) (hv : a.cpsr_v ≤ 1)
    (hA : insnA >>> 28 = c) :
    (thumb_branch_cond c a = true ↔ ¬ (cond_exec insnA a ^^^ (insnA >>> 28 &&& 1) = 0))
    ∧ (thumb_branch_cond c a = condition_passed c a) := by
  have h29 : insnA >>> 29 = (insnA >>> 28) / 2 := by
    have : insnA >>> 29 = (insnA >>> 28) >>> 1 := by rw [← Nat.shiftRight_add]
    rw [this, Nat.shiftRight_eq_div_pow]
  unfold cond_exec thumb_branch_cond
  rw [h29, hA, Nat.and_one_is_mod]
  generalize hN : a.cpsr_n = n at *
  generalize hZ : a.cpsr_z = z at *
  generalize hC : a.cpsr_c = cf at *
  generalize hV : a.cpsr_v = v at *
  interval_cases c <;> simp only [condition_passed, hN, hZ, hC, hV] <;>
    interval_cases n <;> interval_cases z <;> interval_cases cf <;> interval_cases v <;>
    decide

/-- Claim C36: for every condition code `c` in 0..13 and every flag state with N, Z, C, V in
{0,1}, the THUMB conditional branch with top byte `0xD0 + c` takes its branch (adds the
offset to the PC; otherwise it leaves the state as it is) if and only if an ARM instruction
whose condition field is `c` passes the condition check `exec ^ (insn >> 28 & 1)` of
`cpu_interpret_instruction`; such an ARM instruction is not in the unconditional space, and
when the THUMB branch is not taken the ARM instruction is skipped. -/
theorem thumb_branch_condition_matches_arm (ops : mem_ops)
    (body : arm_class → Nat → Cpu → Option Cpu) (c insnT insnA : Nat) (s : Cpu) (hc : c ≤ 13)
    (hn : s.arm.cpsr_n ≤ 1) (hz : s.arm.cpsr_z ≤ 1) (hcf : s.arm.cpsr_c ≤ 1)
    (hv : s.arm.cpsr_v ≤ 1) (hT : insnT >>> 8 = 0xD0 + c) (hA : insnA >>> 28 = c) :
    thumb_switch ops insnT s
      = some (if thumb_branch_cond c s.arm = true then
          set_reg_pc 15 ((s.arm.reg 15 + 2 + (sext8 insnT <<< 1)) % 2 ^ 32) s else s)
    ∧ (thumb_branch_cond c s.arm = true
        ↔ ¬ (cond_exec insnA s.arm ^^^ (insnA >>> 28 &&& 1) = 0))
    ∧ ¬ (7 ≤ insnA >>> 29 ∧ insnA &&& (1 <<< 28) ≠ 0)
    ∧ (thumb_branch_cond c s.arm = false → cpu_interpret_instruction body insnA s = some s) := by
  have h29 : insnA >>> 29 = (insnA >>> 28) / 2 := by
    have : insnA >>> 29 = (insnA >>> 28) >>> 1 := by rw [← Nat.shiftRight_add]
    rw [this, Nat.shiftRight_eq_div_pow]
  have hiff := (thumb_cond_iff c insnA s.arm hc hn hz hcf hv hA).1
  have hun : ¬ (7 ≤ insnA >>> 29 ∧ insnA &&& (1 <<< 28) ≠ 0) := by
    rw [h29, hA]
    intro hcon
    omega
  refine ⟨thumb_switch_branch ops insnT c s hc hT, hiff, hun, ?_⟩
  intro hf
  have hskip : cond_exec insnA s.arm ^^^ (insnA >>> 28 &&& 1) = 0 := by
    by_contra hne
    have := hiff.2 hne
    rw [hf] at this
    exact Bool.noConfusion this
  unfold cpu_interpret_instruction
  rw [if_neg hun, if_pos hskip]

/-- an OR with a word below `2 ^ k` onto a multiple of `2 ^ k` is a sum -/
theorem or_eq_add (x y k : Nat) (hx : x % 2 ^ k = 0) (hy : y < 2 ^ k) : x ||| y = x + y := by
  have e : x = 2 ^ k * (x / 2 ^ k) := by
    have := Nat.div_add_mod x (2 ^ k)
    omega
  rw [e, Nat.mul_add_lt_is_or hy]

theorem and_3 (x : Nat) : x &&& 3 = x % 4 := Nat.and_pow_two_sub_one_eq_mod x 2

theorem and_7 (x : Nat) : x &&& 7 = x % 8 := Nat.and_pow_two_sub_one_eq_mod x 3

theorem and_15 (x : Nat) : x &&& 15 = x % 16 := Nat.and_pow_two_sub_one_eq_mod x 4

theorem and_31 (x : Nat) : x &&& 31 = x % 32 := Nat.and_pow_two_sub_one_eq_mod x 5

theorem and_255 (x : Nat) : x &&& 255 = x % 256 := Nat.and_pow_two_sub_one_eq_mod x 8

theorem arm_movs_shift_sum (ty imm5 rd rm : Nat) (hty : ty < 4) (h5 : imm5 < 32) (hrd : rd < 16)
    (hrm : rm < 16) :
    arm_movs_shift_insn ty imm5 rd rm = 0xE1B00000 + rd * 4096 + imm5 * 128 + ty * 32 + rm := by
  unfold arm_movs_shift_insn
  simp only [Nat.shiftLeft_eq]
  rw [or_eq_add 0xE1B00000 (rd * 2 ^ 12) 16 (by decide) (by omega),
    or_eq_add _ (imm5 * 2 ^ 7) 12 (by omega) (by omega),
    or_eq_add _ (ty * 2 ^ 5) 7 (by omega) (by omega),
    or_eq_add _ rm 5 (by omega) (by omega)]

/-- decode of `MOVS Rd, Rm, <shift> #imm5`: the data-processing branch with opcode MOV and
the S bit, the shifter operand read by `get_shifted_reg` -/
theorem interpret_movs_shift (ext : arm_class → Nat → Cpu → Option Cpu) (ty imm5 rd rm : Nat)
    (s : Cpu) (hty : ty < 4) (h5 : imm5 < 32) (hrd : rd < 15) (hrm : rm < 15) :
    get_shifted_reg (arm_movs_shift_insn ty imm5 rd rm) 1 s
      = (if imm5 = 0 then
          if ty = 0 then some (s.arm.reg rm % 2 ^ 32, s)
          else if ty = 1 then some (shift ty (s.arm.reg rm % 2 ^ 32) 32 1 s)
          else if ty = 2 then some (shift ty (s.arm.reg rm % 2 ^ 32) 32 1 s)
          else some ((s.arm.cpsr_c <<< 31 ||| (s.arm.reg rm % 2 ^ 32) >>> 1) % 2 ^ 32,
            set_c_if 1 (s.arm.reg rm % 2 ^ 32 &&& 1) s)
        else some (shift ty (s.arm.reg rm % 2 ^ 32) imm5 1 s))
    ∧ ∀ sh, get_shifted_reg (arm_movs_shift_insn ty imm5 rd rm) 1 s = some sh →
        cpu_interpret_instruction (arm_body ext) (arm_movs_shift_insn ty imm5 rd rm) s
          = some (set_nz_flags sh.1 (set_reg_pc rd sh.1 sh.2)) := by
  have hsum := arm_movs_shift_sum ty imm5 rd rm hty h5 (by omega) (by omega)
  have hc : arm_movs_shift_insn ty imm5 rd rm >>> 28 = 14 := by
    rw [hsum, Nat.shiftRight_eq_div_pow]; omega
  obtain ⟨c1, c2⟩ := cond_al _ s.arm hc
  have b4 : arm_movs_shift_insn ty imm5 rd rm &&& (1 <<< 4) = 0 := by
    rw [and_one_shl, hsum, Nat.shiftRight_eq_div_pow, Nat.and_one_is_mod]
    have : (3786407936 + rd * 4096 + imm5 * 128 + ty * 32 + rm) / 2 ^ 4 % 2 = 0 := by omega
    rw [this]; rfl
  have b25 : arm_movs_shift_insn ty imm5 rd rm &&& (1 <<< 25) = 0 := by
    rw [and_one_shl, hsum, Nat.shiftRight_eq_div_pow, Nat.and_one_is_mod]
    have : (3786407936 + rd * 4096 + imm5 * 128 + ty * 32 + rm) / 2 ^ 25 % 2 = 0 := by omega
    rw [this]; rfl
  have b20 : arm_movs_shift_insn ty imm5 rd rm >>> 20 &&& 1 = 1 := by
    rw [hsum, Nat.shiftRight_eq_div_pow, Nat.and_one_is_mod]; omega
  have h20 : arm_movs_shift_insn ty imm5 rd rm &&& 0x100000 = 0x100000 := by
    have := and_one_shl (arm_movs_shift_insn ty imm5 rd rm) 20
    simp only [b20] at this
    exact this
  have hmul : arm_movs_shift_insn ty imm5 rd rm &&& 0xE000090 ≠ 0x90 :=
    and_ne_of_sub _ 0xE000090 0x90 0x10 0 b4 rfl (by decide)
  have hmisc : arm_movs_shift_insn ty imm5 rd rm &&& 0xD900000 ≠ 0x1000000 :=
    and_ne_of_sub _ 0xD900000 0x1000000 0x100000 0x100000 h20 rfl (by decide)
  have hdp : arm_movs_shift_insn ty imm5 rd rm &&& 0xC000000 = 0 := by
    have := and_shl_mask (arm_movs_shift_insn ty imm5 rd rm) 3 26
    rw [show (3 : Nat) <<< 26 = 0xC000000 from rfl] at this
    rw [this, and_3, hsum, Nat.shiftRight_eq_div_pow]
    have : (3786407936 + rd * 4096 + imm5 * 128 + ty * 32 + rm) / 2 ^ 26 % 4 = 0 := by omega
    rw [this]; rfl
  have hop : arm_movs_shift_insn ty imm5 rd rm >>> 21 &&& 15 = 13 := by
    rw [and_15, hsum, Nat.shiftRight_eq_div_pow]; omega
  have hd : arm_movs_shift_insn ty imm5 rd rm >>> 12 &&& 15 = rd := by
    rw [and_15, hsum, Nat.shiftRight_eq_div_pow]; omega
  have hm : arm_movs_shift_insn ty imm5 rd rm &&& 15 = rm := by
    rw [and_15, hsum]; omega
  have ht : arm_movs_shift_insn ty imm5 rd rm >>> 5 &&& 3 = ty := by
    rw [and_3, hsum, Nat.shiftRight_eq_div_pow]; omega
  have hi : arm_movs_shift_insn ty imm5 rd rm >>> 7 &&& 31 = imm5 := by
    rw [and_31, hsum, Nat.shiftRight_eq_div_pow]; omega
  have hg : get_reg_pc rm s = s.arm.reg rm % 2 ^ 32 := by
    unfold get_reg_pc
    rw [if_neg (by omega), Nat.add_zero]
  constructor
  · unfold get_shifted_reg
    simp only [b4, hm, ht, hi, hg, ne_eq, not_true_eq_false, if_false]
  · intro sh hsh
    simp only [cpu_interpret_instruction, if_neg c1, if_neg c2, if_neg hmul, if_neg hmisc, hdp,
      if_true, arm_body, arm_data_processing, b20, b25, hsh, Option.some_bind, hop, hd]
    simp only [ne_eq, one_ne_zero, not_false_eq_true, if_true, not_true_eq_false, if_false,
      data_processing_alu]
    have h8 : ¬ ((13 : Nat) &&& 12 = 8) := by decide
    have hne : ¬ rd = 15 := by omega
    simp [h8, hne]

theorem thumb_shift_sum (ty imm5 rd rm : Nat) (h5 : imm5 < 32) (hrd : rd < 8) (hrm : rm < 8) :
    thumb_shift_insn ty imm5 rd rm = ty * 2048 + imm5 * 64 + rm * 8 + rd := by
  unfold thumb_shift_insn
  simp only [Nat.shiftLeft_eq]
  rw [or_eq_add (ty * 2 ^ 11) (imm5 * 2 ^ 6) 11 (by omega) (by omega),
    or_eq_add _ (rm * 2 ^ 3) 6 (by omega) (by omega),
    or_eq_add _ rd 3 (by omega) (by omega)]

/-- the THUMB shift-immediate instruction hands its 5-bit count to `shift` as it is -/
theorem thumb_switch_shift (ops : mem_ops) (ty imm5 rd rm : Nat) (s : Cpu) (hty : ty < 3)
    (h5 : imm5 < 32) (hrd : rd < 8) (hrm : rm < 8) :
    thumb_switch ops (thumb_shift_insn ty imm5 rd rm) s
      = some (set_nz_flags (shift ty (s.arm.reg rm) imm5 1 s).1
          (set_reg_pc rd (shift ty (s.arm.reg rm) imm5 1 s).1
            (shift ty (s.arm.reg rm) imm5 1 s).2)) := by
  have hsum := thumb_shift_sum ty imm5 rd rm h5 hrd hrm
  have h8 : thumb_shift_insn ty imm5 rd rm >>> 8 < 0x18 := by
    rw [hsum, Nat.shiftRight_eq_div_pow]; omega
  have h11 : thumb_shift_insn ty imm5 rd rm >>> 11 = ty := by
    rw [hsum, Nat.shiftRight_eq_div_pow]; omega
  have h6 : thumb_shift_insn ty imm5 rd rm >>> 6 &&& 31 = imm5 := by
    rw [and_31, hsum, Nat.shiftRight_eq_div_pow]; omega
  have h3 : thumb_shift_insn ty imm5 rd rm >>> 3 &&& 7 = rm := by
    rw [and_7, hsum, Nat.shiftRight_eq_div_pow]; omega
  have h0 : thumb_shift_insn ty imm5 rd rm &&& 7 = rd := by
    rw [and_7, hsum]; omega
  unfold thumb_switch
  simp only []
  rw [if_pos h8, h11, h6, h3, h0]

theorem shift_state_reg (ty r c setcc : Nat) (s : Cpu) :
    (shift ty r c setcc s).2.arm.reg = s.arm.reg
    ∧ (shift ty r c setcc s).2.arm.cpsr_v = s.arm.cpsr_v := by
  unfold shift set_c_if
  split_ifs <;> exact ⟨rfl, rfl⟩

/-- the THUMB shift immediates against `MOVS Rd, Rm, <shift> #imm5`: equal results for every
count from 1 to 31 and for LSL #0; for LSR #0 and ASR #0 the THUMB instruction copies `Rm` and
leaves C, the ARM instruction shifts by 32 -/
theorem thumb_shift_vs_movs (ops : mem_ops) (ext : arm_class → Nat → Cpu → Option Cpu)
    (ty imm5 rd rm : Nat) (s : Cpu) (hty : ty < 3) (h5 : imm5 < 32) (hrd : rd < 8)
    (hrm : rm < 8) (hr : regs32 s) :
    ∃ sT sA, cpu_thumb_instruction ops (thumb_shift_insn ty imm5 rd rm) s = some sT
      ∧ cpu_interpret_instruction (arm_body ext) (arm_movs_shift_insn ty imm5 rd rm) s = some sA
      ∧ (imm5 ≠ 0 ∨ ty = 0 →
          sT.arm.reg rd = sA.arm.reg rd ∧ sT.arm.cpsr_n = sA.arm.cpsr_n
          ∧ sT.arm.cpsr_z = sA.arm.cpsr_z ∧ sT.arm.cpsr_c = sA.arm.cpsr_c
          ∧ sT.arm.cpsr_v = sA.arm.cpsr_v)
      ∧ (imm5 = 0 → ty ≠ 0 →
          sT.arm.reg rd = s.arm.reg rm ∧ sT.arm.cpsr_c = s.arm.cpsr_c
          ∧ sA.arm.reg rd = (if ty = 1 then 0 else asr32 (s.arm.reg rm) 31)
          ∧ sA.arm.cpsr_c = s.arm.reg rm >>> 31) := by
  have hm : s.arm.reg rm < 2 ^ 32 := hr rm (by omega)
  have hmod : s.arm.reg rm % 2 ^ 32 = s.arm.reg rm := Nat.mod_eq_of_lt hm
  obtain ⟨g1, g2⟩ := interpret_movs_shift ext ty imm5 rd rm s (by omega) h5 (by omega) (by omega)
  rw [hmod] at g1
  have hT : cpu_thumb_instruction ops (thumb_shift_insn ty imm5 rd rm) s
      = thumb_switch ops (thumb_shift_insn ty imm5 rd rm)
          { s with
            arm := { s.arm with reg := set_elem s.arm.reg 15 ((s.arm.reg 15 + 2) % 2 ^ 32) },
            cycle_count_delta := s.cycle_count_delta + 1 } := rfl
  rw [hT, thumb_switch_shift ops ty imm5 rd rm _ hty h5 hrd hrm]
  have hrm15 : set_elem s.arm.reg 15 ((s.arm.reg 15 + 2) % 2 ^ 32) rm = s.arm.reg rm := by
    unfold set_elem; rw [if_neg (by omega)]
  simp only [hrm15]
  by_cases hz : imm5 = 0
  · subst hz
    have t0 : ∀ (u : Cpu), shift ty (s.arm.reg rm) 0 1 u = (s.arm.reg rm, u) := by
      intro u; unfold shift; rw [if_pos rfl]
    rw [t0]
    by_cases h0 : ty = 0
    · subst h0
      simp only [if_true] at g1
      refine ⟨_, _, rfl, g2 _ g1, fun _ => ?_, fun _ hne => absurd rfl hne⟩
      simp only [set_nz_flags, set_reg_pc, set_elem, if_true]
      exact ⟨trivial, trivial, trivial, trivial, trivial⟩
    · have hty12 : ty = 1 ∨ ty = 2 := by omega
      have g1' : get_shifted_reg (arm_movs_shift_insn ty 0 rd rm) 1 s
          = some (shift ty (s.arm.reg rm) 32 1 s) := by
        rw [g1]
        rcases hty12 with e | e <;> subst e <;> simp
      refine ⟨_, _, rfl, g2 _ g1', fun hcon => ?_, fun _ _ => ?_⟩
      · rcases hcon with hcon | hcon
        · exact absurd rfl hcon
        · exact absurd hcon h0
      · simp only [set_nz_flags, set_reg_pc, set_elem, if_true]
        rcases hty12 with e | e <;> subst e <;> simp [shift, set_c_if]
  · have g1' : get_shifted_reg (arm_movs_shift_insn ty imm5 rd rm) 1 s
        = some (shift ty (s.arm.reg rm) imm5 1 s) := by
      rw [g1, if_neg hz]
    refine ⟨_, _, rfl, g2 _ g1', fun _ => ?_, fun hcon => absurd hcon hz⟩
    simp only [set_nz_flags, set_reg_pc, set_elem, if_true]
    have key : ∀ (u : Cpu), (shift ty (s.arm.reg rm) imm5 1 u).1
        = (shift ty (s.arm.reg rm) imm5 1 s).1
        ∧ (shift ty (s.arm.reg rm) imm5 1 u).2.arm.cpsr_c
          = (shift ty (s.arm.reg rm) imm5 1 s).2.arm.cpsr_c := by
      intro u
      unfold shift set_c_if
      simp only [if_neg hz, ne_eq, one_ne_zero, not_false_eq_true, if_true]
      split_ifs <;> exact ⟨rfl, rfl⟩
    have kv : ∀ (u : Cpu), (shift ty (s.arm.reg rm) imm5 1 u).2.arm.cpsr_v = u.arm.cpsr_v :=
      fun u => (shift_state_reg _ _ _ _ u).2
    refine ⟨?_, ?_, ?_, ?_, ?_⟩
    · rw [(key _).1]
    · rw [(key _).1]
    · rw [(key _).1]
    · rw [(key _).2]
    · rw [kv, kv]

/-- the end of the THUMB switch: the branch and branch-with-link cases `0xE0..0xFF` -/
theorem thumb_switch_tail (ops : mem_ops) (insn : Nat) (s : Cpu) (h : 0xE0 ≤ insn >>> 8) :
    thumb_switch ops insn s
      = if insn >>> 8 < 0xE8 then
          some (set_reg_pc 15
            ((s.arm.reg 15 + 2 + asr32 ((insn <<< 21) % 2 ^ 32) 20) % 2 ^ 32) s)
        else if insn >>> 8 < 0xF0 then
          some { (set_reg_pc 15 ((s.arm.reg 14 + ((insn &&& 0x7FF) <<< 1)) % 2 ^ 32 &&& not32 3)
                  (set_reg_pc 14 ((s.arm.reg 15 + 1) % 2 ^ 32) s)) with
            arm := { (set_reg_pc 15
                  ((s.arm.reg 14 + ((insn &&& 0x7FF) <<< 1)) % 2 ^ 32 &&& not32 3)
                  (set_reg_pc 14 ((s.arm.reg 15 + 1) % 2 ^ 32) s)).arm with
              cpsr_low28 := s.arm.cpsr_low28 &&& not32 0x20 } }
        else if insn >>> 8 < 0xF8 then
          some (set_reg_pc 14
            ((s.arm.reg 15 + 2 + asr32 ((insn <<< 21) % 2 ^ 32) 9) % 2 ^ 32) s)
        else if insn >>> 8 < 0x100 then
          some (set_reg_pc 15 ((s.arm.reg 14 + ((insn &&& 0x7FF) <<< 1)) % 2 ^ 32)
            (set_reg_pc 14 ((s.arm.reg 15 + 1) % 2 ^ 32) s))
        else none := by
  unfold thumb_switch
  simp only []
  repeat rw [if_neg (by omega)]
  all_goals rfl

/-- the offset that the first half of BL adds to the PC: the 11-bit field, sign extended,
times `2 ^ 12` -/
theorem bl_high_offset (hi : Nat) (hhi : hi < 2 ^ 11) :
    asr32 (((0xF000 ||| hi) <<< 21) % 2 ^ 32) 9 < 2 ^ 32
    ∧ (asr32 (((0xF000 ||| hi) <<< 21) % 2 ^ 32) 9 : Int) % 2 ^ 32
        = (signext11 hi * 2 ^ 12) % 2 ^ 32 := by
  have e0 : 0xF000 ||| hi = 0xF000 + hi := or_eq_add 0xF000 hi 11 (by decide) hhi
  have e1 : ((0xF000 ||| hi) <<< 21) % 2 ^ 32 = hi * 2 ^ 21 := by
    rw [e0, Nat.shiftLeft_eq]
    omega
  rw [e1]
  have hx : hi * 2 ^ 21 < 2 ^ 32 := by omega
  obtain ⟨a1, a2⟩ := asr32_floor (hi * 2 ^ 21) 9 hx (by decide)
  refine ⟨a1, ?_⟩
  have hs : sint32 (hi * 2 ^ 21) = signext11 hi * 2 ^ 21 := by
    unfold sint32 signext11
    rw [Nat.mod_eq_of_lt hx, Nat.mod_eq_of_lt hhi]
    by_cases hneg : hi < 2 ^ 10
    · rw [if_pos (by omega), if_pos hneg]
      push_cast
      ring
    · rw [if_neg (by omega), if_neg hneg]
      push_cast
      ring
  have hdiv : signext11 hi * 2 ^ 21 / 2 ^ 9 = signext11 hi * 2 ^ 12 := by
    have : signext11 hi * 2 ^ 21 = signext11 hi * 2 ^ 12 * 2 ^ 9 := by ring
    rw [this, Int.mul_ediv_cancel _ (by norm_num)]
  rw [hs, hdiv] at a2
  rw [← a2]
  unfold sint32
  rw [Nat.mod_eq_of_lt a1]
  split
  · rfl
  · omega

theorem even_add_one_or (x : Nat) (h : x % 2 = 0) : x + 1 = x ||| 1 := by
  have := or_eq_add x 1 1 (by simpa using h) (by decide)
  omega

theorem and_not32_3 (t : Nat) (ht : t < 2 ^ 32) : t &&& not32 3 = 4 * (t / 4) := by
  have e : not32 3 = 0x3FFFFFFF <<< 2 := by decide
  rw [e, and_shl_mask, Nat.shiftLeft_eq, Nat.shiftRight_eq_div_pow]
  have : t / 2 ^ 2 &&& 0x3FFFFFFF = t / 2 ^ 2 := by
    rw [show (0x3FFFFFFF : Nat) = 2 ^ 30 - 1 from rfl, Nat.and_pow_two_sub_one_eq_mod]
    apply Nat.mod_eq_of_lt
    omega
  rw [this]
  omega

/-- first half of BL/BLX: LR receives the PC plus the high part of the offset -/
theorem thumb_bl_first (ops : mem_ops) (hi : Nat) (u : Cpu) (hhi : hi < 2 ^ 11) :
    ∃ u1, cpu_thumb_instruction ops (0xF000 ||| hi) u = some u1
      ∧ u1.arm.reg 15 = (u.arm.reg 15 + 2) % 2 ^ 32
      ∧ u1.arm.reg 14 = ((u.arm.reg 15 + 2) % 2 ^ 32 + 2
          + asr32 (((0xF000 ||| hi) <<< 21) % 2 ^ 32) 9) % 2 ^ 32
      ∧ u1.arm.cpsr_low28 = u.arm.cpsr_low28 := by
  have e1 : 0xF000 ||| hi = 0xF000 + hi := or_eq_add 0xF000 hi 11 (by decide) hhi
  have o1 : (0xF000 ||| hi) >>> 8 = 0xF0 + hi / 256 := by
    rw [e1, Nat.shiftRight_eq_div_pow]; omega
  unfold cpu_thumb_instruction
  rw [thumb_switch_tail _ _ _ (by omega), if_neg (by omega), if_neg (by omega),
    if_pos (by omega)]
  refine ⟨_, rfl, ?_, ?_, rfl⟩
  · simp [set_reg_pc, set_elem]
  · simp [set_reg_pc, set_elem]

/-- second half of BL: PC receives LR plus the low part, LR the return address with bit 0 -/
theorem thumb_bl_second (ops : mem_ops) (lo : Nat) (u : Cpu) (hlo : lo < 2 ^ 11) :
    ∃ u2, cpu_thumb_instruction ops (0xF800 ||| lo) u = some u2
      ∧ u2.arm.reg 15 = (u.arm.reg 14 + lo <<< 1) % 2 ^ 32
      ∧ u2.arm.reg 14 = ((u.arm.reg 15 + 2) % 2 ^ 32 + 1) % 2 ^ 32
      ∧ u2.arm.cpsr_low28 = u.arm.cpsr_low28 := by
  have e2 : 0xF800 ||| lo = 0xF800 + lo := or_eq_add 0xF800 lo 11 (by decide) hlo
  have o2 : (0xF800 ||| lo) >>> 8 = 0xF8 + lo / 256 := by
    rw [e2, Nat.shiftRight_eq_div_pow]; omega
  have l2 : (0xF800 ||| lo) &&& 0x7FF = lo := by
    rw [show (0x7FF : Nat) = 2 ^ 11 - 1 from rfl, Nat.and_pow_two_sub_one_eq_mod, e2]; omega
  unfold cpu_thumb_instruction
  rw [thumb_switch_tail _ _ _ (by omega), if_neg (by omega), if_neg (by omega),
    if_neg (by omega), if_pos (by omega), l2]
  refine ⟨_, rfl, ?_, ?_, rfl⟩
  · simp [set_reg_pc, set_elem]
  · simp [set_reg_pc, set_elem]

/-- second half of BLX: as BL, with the two low bits of the target and the T bit cleared -/
theorem thumb_blx_second (ops : mem_ops) (lo : Nat) (u : Cpu) (hlo : lo < 2 ^ 11) :
    ∃ u3, cpu_thumb_instruction ops (0xE800 ||| lo) u = some u3
      ∧ u3.arm.reg 15 = (u.arm.reg 14 + lo <<< 1) % 2 ^ 32 &&& not32 3
      ∧ u3.arm.reg 14 = ((u.arm.reg 15 + 2) % 2 ^ 32 + 1) % 2 ^ 32
      ∧ u3.arm.cpsr_low28 = u.arm.cpsr_low28 &&& not32 0x20 := by
  have e3 : 0xE800 ||| lo = 0xE800 + lo := or_eq_add 0xE800 lo 11 (by decide) hlo
  have o3 : (0xE800 ||| lo) >>> 8 = 0xE8 + lo / 256 := by
    rw [e3, Nat.shiftRight_eq_div_pow]; omega
  have l3 : (0xE800 ||| lo) &&& 0x7FF = lo := by
    rw [show (0x7FF : Nat) = 2 ^ 11 - 1 from rfl, Nat.and_pow_two_sub_one_eq_mod, e3]; omega
  unfold cpu_thumb_instruction
  rw [thumb_switch_tail _ _ _ (by omega), if_neg (by omega), if_pos (by omega), l3]
  refine ⟨_, rfl, ?_, ?_, rfl⟩
  · simp [set_reg_pc, set_elem]
  · simp [set_reg_pc, set_elem]

theorem and_not32_20 (l : Nat) : l &&& not32 0x20 &&& 0x20 = 0 := by
  rw [Nat.and_assoc, show not32 0x20 &&& 0x20 = 0 from by decide, Nat.and_zero]

/-- Claim C32: for every even address `A`, with the PC at `A`, and every pair of 11-bit
fields `hi`, `lo`: the THUMB BL pair (`0xF000 | hi`, then `0xF800 | lo` fetched at `A + 2`)
leaves PC = `(A + 4 + (signext11(hi) << 12) + (lo << 1)) mod 2^32`, LR = `(A + 4) | 1` (the
sum taken modulo `2^32`) and `cpsr_low28`, with it the T bit, as it was; with the second half
`0xE800 | lo` (BLX) it leaves PC equal to that target with its two low bits cleared, the same
LR, and the T bit clear. -/
theorem thumb_bl_blx_pair (ops : mem_ops) (A hi lo : Nat) (s : Cpu)
    (hev : A % 2 = 0) (hhi : hi < 2 ^ 11) (hlo : lo < 2 ^ 11) (hpc : s.arm.reg 15 = A) :
    ∃ (s1 s2 s3 : Cpu) (t : Nat), cpu_thumb_instruction ops (0xF000 ||| hi) s = some s1
      ∧ s1.arm.reg 15 = (A + 2) % 2 ^ 32
      ∧ (t : Int) = ((A : Int) + 4 + signext11 hi * 2 ^ 12 + (lo : Int) * 2) % 2 ^ 32
      ∧ cpu_thumb_instruction ops (0xF800 ||| lo) s1 = some s2
      ∧ s2.arm.reg 15 = t
      ∧ s2.arm.reg 14 = (A + 4) % 2 ^ 32 ||| 1
      ∧ s2.arm.cpsr_low28 = s.arm.cpsr_low28
      ∧ cpu_thumb_instruction ops (0xE800 ||| lo) s1 = some s3
      ∧ s3.arm.reg 15 = t &&& not32 3
      ∧ s3.arm.reg 15 = 4 * (t / 4)
      ∧ s3.arm.reg 14 = (A + 4) % 2 ^ 32 ||| 1
      ∧ s3.arm.cpsr_low28 &&& 0x20 = 0
      ∧ s3.arm.cpsr_low28 = s.arm.cpsr_low28 &&& not32 0x20 := by
  obtain ⟨hE, hEi⟩ := bl_high_offset hi hhi
  obtain ⟨s1, r1, a15, a14, al⟩ := thumb_bl_first ops hi s hhi
  obtain ⟨s2, r2, b15, b14, bl⟩ := thumb_bl_second ops lo s1 hlo
  obtain ⟨s3, r3, c15, c14, cl⟩ := thumb_blx_second ops lo s1 hlo
  rw [hpc] at a15 a14
  generalize asr32 (((0xF000 ||| hi) <<< 21) % 2 ^ 32) 9 = E at hE hEi a14
  have hlr : ((A + 2) % 2 ^ 32 + 2) % 2 ^ 32 = (A + 4) % 2 ^ 32 := by omega
  have hlr1 : ((A + 4) % 2 ^ 32 + 1) % 2 ^ 32 = (A + 4) % 2 ^ 32 ||| 1 := by
    rw [← even_add_one_or _ (by omega)]
    apply Nat.mod_eq_of_lt
    omega
  have ht : (((s1.arm.reg 14 + lo <<< 1) % 2 ^ 32 : Nat) : Int)
      = ((A : Int) + 4 + signext11 hi * 2 ^ 12 + (lo : Int) * 2) % 2 ^ 32 := by
    rw [a14, Nat.shiftLeft_eq]
    generalize signext11 hi * 2 ^ 12 = S at hEi
    push_cast
    omega
  refine ⟨s1, s2, s3, (s1.arm.reg 14 + lo <<< 1) % 2 ^ 32, r1, a15, ht, r2, b15, ?_, ?_, r3,
    c15, ?_, ?_, ?_, ?_⟩
  · rw [b14, a15, hlr, hlr1]
  · rw [bl, al]
  · rw [c15]; exact and_not32_3 _ (Nat.mod_lt _ (by decide))
  · rw [c14, a15, hlr, hlr1]
  · rw [cl]; exact and_not32_20 _
  · rw [cl, al]

theorem thumb_alu_sum (op rd rm : Nat) (hop : op < 16) (hrd : rd < 8) (hrm : rm < 8) :
    thumb_alu_insn op rd rm = 0x4000 + op * 64 + rm * 8 + rd := by
  unfold thumb_alu_insn
  simp only [Nat.shiftLeft_eq]
  rw [or_eq_add 0x4000 (op * 2 ^ 6) 10 (by decide) (by omega),
    or_eq_add _ (rm * 2 ^ 3) 6 (by omega) (by omega),
    or_eq_add _ rd 3 (by omega) (by omega)]

theorem thumb_alu_fields (op rd rm : Nat) (hop : op < 16) (hrd : rd < 8) (hrm : rm < 8) :
    0x40 ≤ thumb_alu_insn op rd rm >>> 8 ∧ thumb_alu_insn op rd rm >>> 8 < 0x44
    ∧ thumb_alu_insn op rd rm >>> 6 &&& 15 = op
    ∧ thumb_alu_insn op rd rm >>> 3 &&& 7 = rm
    ∧ thumb_alu_insn op rd rm &&& 7 = rd := by
  have hsum := thumb_alu_sum op rd rm hop hrd hrm
  refine ⟨?_, ?_, ?_, ?_, ?_⟩
  · rw [hsum, Nat.shiftRight_eq_div_pow]; omega
  · rw [hsum, Nat.shiftRight_eq_div_pow]; omega
  · rw [and_15, hsum, Nat.shiftRight_eq_div_pow]; omega
  · rw [and_7, hsum, Nat.shiftRight_eq_div_pow]; omega
  · rw [and_7, hsum]; omega

/-- the THUMB switch at the ALU cases `0x40..0x43` -/
theorem thumb_switch_alu (ops : mem_ops) (insn : Nat) (u : Cpu) (h1 : 0x40 ≤ insn >>> 8)
    (h2 : insn >>> 8 < 0x44) : thumb_switch ops insn u = some (thumb_alu insn u) := by
  unfold thumb_switch
  simp only []
  repeat rw [if_neg (by omega)]
  rw [if_pos h2]

theorem add_view (l r c : Nat) (u : Cpu) :
    (add l r c 1 u).1 = (l + r + c) % 2 ^ 32
    ∧ (add l r c 1 u).2.arm.cpsr_c
        = (if (l + r + c) % 2 ^ 32 > l then 0 else if (l + r + c) % 2 ^ 32 < l then 1 else c)
    ∧ (add l r c 1 u).2.arm.cpsr_v = ADD_OVERFLOW l r ((l + r + c) % 2 ^ 32)
    ∧ (add l r c 1 u).2.arm.reg = u.arm.reg := by
  unfold add
  simp

theorem shift_view (ty r c : Nat) (u u' : Cpu) (hc : u.arm.cpsr_c = u'.arm.cpsr_c) :
    (shift ty r c 1 u).1 = (shift ty r c 1 u').1
    ∧ (shift ty r c 1 u).2.arm.cpsr_c = (shift ty r c 1 u').2.arm.cpsr_c
    ∧ (shift ty r c 1 u).2.arm.cpsr_v = u.arm.cpsr_v
    ∧ (shift ty r c 1 u).2.arm.reg = u.arm.reg := by
  unfold shift set_c_if
  simp only [ne_eq, one_ne_zero, not_false_eq_true, if_true]
  split_ifs <;> exact ⟨rfl, by first | rfl | exact hc, rfl, rfl⟩

/-- the result of the THUMB ALU switch depends on the machine only through the two
registers and the C and V flags -/
theorem thumb_alu_op_congr (insn : Nat) (u u' : Cpu)
    (hd : u.arm.reg (insn &&& 7) = u'.arm.reg (insn &&& 7))
    (hs : u.arm.reg (insn >>> 3 &&& 7) = u'.arm.reg (insn >>> 3 &&& 7))
    (hc : u.arm.cpsr_c = u'.arm.cpsr_c) (hv : u.arm.cpsr_v = u'.arm.cpsr_v) :
    (thumb_alu_op insn u).1 = (thumb_alu_op insn u').1
    ∧ (thumb_alu_op insn u).2.1 = (thumb_alu_op insn u').2.1
    ∧ (thumb_alu_op insn u).2.2.arm.cpsr_c = (thumb_alu_op insn u').2.2.arm.cpsr_c
    ∧ (thumb_alu_op insn u).2.2.arm.cpsr_v = (thumb_alu_op insn u').2.2.arm.cpsr_v
    ∧ (thumb_alu_op insn u).2.2.arm.reg = u.arm.reg := by
  unfold thumb_alu_op
  simp only []
  rw [← hd, ← hs, ← hc]
  by_cases o1 : insn >>> 6 &&& 15 = 1
  · rw [if_pos o1, if_pos o1]
    exact ⟨rfl, rfl, hc, hv, rfl⟩
  rw [if_neg o1, if_neg o1]
  by_cases o2 : insn >>> 6 &&& 15 = 2
  · rw [if_pos o2, if_pos o2]
    obtain ⟨a1, a2, a3, a4⟩ := shift_view 0 (u.arm.reg (insn &&& 7)) (u.arm.reg (insn >>> 3 &&& 7) &&& 0xFF) u u' hc
    have b3 := (shift_view 0 (u.arm.reg (insn &&& 7)) (u.arm.reg (insn >>> 3 &&& 7) &&& 0xFF) u' u hc.symm).2.2.1
    exact ⟨a1, rfl, a2, by rw [a3, b3, hv], a4⟩
  rw [if_neg o2, if_neg o2]
  by_cases o3 : insn >>> 6 &&& 15 = 3
  · rw [if_pos o3, if_pos o3]
    obtain ⟨a1, a2, a3, a4⟩ := shift_view 1 (u.arm.reg (insn &&& 7)) (u.arm.reg (insn >>> 3 &&& 7) &&& 0xFF) u u' hc
    have b3 := (shift_view 1 (u.arm.reg (insn &&& 7)) (u.arm.reg (insn >>> 3 &&& 7) &&& 0xFF) u' u hc.symm).2.2.1
    exact ⟨a1, rfl, a2, by rw [a3, b3, hv], a4⟩
  rw [if_neg o3, if_neg o3]
  by_cases o4 : insn >>> 6 &&& 15 = 4
  · rw [if_pos o4, if_pos o4]
    obtain ⟨a1, a2, a3, a4⟩ := shift_view 2 (u.arm.reg (insn &&& 7)) (u.arm.reg (insn >>> 3 &&& 7) &&& 0xFF) u u' hc
    have b3 := (shift_view 2 (u.arm.reg (insn &&& 7)) (u.arm.reg (insn >>> 3 &&& 7) &&& 0xFF) u' u hc.symm).2.2.1
    exact ⟨a1, rfl, a2, by rw [a3, b3, hv], a4⟩
  rw [if_neg o4, if_neg o4]
  by_cases o5 : insn >>> 6 &&& 15 = 5
  · rw [if_pos o5, if_pos o5]
    obtain ⟨a1, a2, a3, a4⟩ := add_view (u.arm.reg (insn &&& 7)) (u.arm.reg (insn >>> 3 &&& 7)) (u.arm.cpsr_c) u
    obtain ⟨b1, b2, b3, -⟩ := add_view (u.arm.reg (insn &&& 7)) (u.arm.reg (insn >>> 3 &&& 7)) (u.arm.cpsr_c) u'
    exact ⟨by rw [a1, b1], rfl, by rw [a2, b2], by rw [a3, b3], a4⟩
  rw [if_neg o5, if_neg o5]
  by_cases o6 : insn >>> 6 &&& 15 = 6
  · rw [if_pos o6, if_pos o6]
    obtain ⟨a1, a2, a3, a4⟩ := add_view (u.arm.reg (insn &&& 7)) (not32 (u.arm.reg (insn >>> 3 &&& 7))) (u.arm.cpsr_c) u
    obtain ⟨b1, b2, b3, -⟩ := add_view (u.arm.reg (insn &&& 7)) (not32 (u.arm.reg (insn >>> 3 &&& 7))) (u.arm.cpsr_c) u'
    exact ⟨by rw [a1, b1], rfl, by rw [a2, b2], by rw [a3, b3], a4⟩
  rw [if_neg o6, if_neg o6]
  by_cases o7 : insn >>> 6 &&& 15 = 7
  · rw [if_pos o7, if_pos o7]
    obtain ⟨a1, a2, a3, a4⟩ := shift_view 3 (u.arm.reg (insn &&& 7)) (u.arm.reg (insn >>> 3 &&& 7) &&& 0xFF) u u' hc
    have b3 := (shift_view 3 (u.arm.reg (insn &&& 7)) (u.arm.reg (insn >>> 3 &&& 7) &&& 0xFF) u' u hc.symm).2.2.1
    exact ⟨a1, rfl, a2, by rw [a3, b3, hv], a4⟩
  rw [if_neg o7, if_neg o7]
  by_cases o8 : insn >>> 6 &&& 15 = 8
  · rw [if_pos o8, if_pos o8]
    exact ⟨rfl, rfl, hc, hv, rfl⟩
  rw [if_neg o8, if_neg o8]
  by_cases o9 : insn >>> 6 &&& 15 = 9
  · rw [if_pos o9, if_pos o9]
    obtain ⟨a1, a2, a3, a4⟩ := add_view (0) (not32 (u.arm.reg (insn >>> 3 &&& 7))) (1) u
    obtain ⟨b1, b2, b3, -⟩ := add_view (0) (not32 (u.arm.reg (insn >>> 3 &&& 7))) (1) u'
    exact ⟨by rw [a1, b1], rfl, by rw [a2, b2], by rw [a3, b3], a4⟩
  rw [if_neg o9, if_neg o9]
  by_cases o10 : insn >>> 6 &&& 15 = 10
  · rw [if_pos o10, if_pos o10]
    obtain ⟨a1, a2, a3, a4⟩ := add_view (u.arm.reg (insn &&& 7)) (not32 (u.arm.reg (insn >>> 3 &&& 7))) (1) u
    obtain ⟨b1, b2, b3, -⟩ := add_view (u.arm.reg (insn &&& 7)) (not32 (u.arm.reg (insn >>> 3 &&& 7))) (1) u'
    exact ⟨by rw [a1, b1], rfl, by rw [a2, b2], by rw [a3, b3], a4⟩
  rw [if_neg o10, if_neg o10]
  by_cases o11 : insn >>> 6 &&& 15 = 11
  · rw [if_pos o11, if_pos o11]
    obtain ⟨a1, a2, a3, a4⟩ := add_view (u.arm.reg (insn &&& 7)) (u.arm.reg (insn >>> 3 &&& 7)) (0) u
    obtain ⟨b1, b2, b3, -⟩ := add_view (u.arm.reg (insn &&& 7)) (u.arm.reg (insn >>> 3 &&& 7)) (0) u'
    exact ⟨by rw [a1, b1], rfl, by rw [a2, b2], by rw [a3, b3], a4⟩
  rw [if_neg o11, if_neg o11]
  by_cases o12 : insn >>> 6 &&& 15 = 12
  · rw [if_pos o12, if_pos o12]
    exact ⟨rfl, rfl, hc, hv, rfl⟩
  rw [if_neg o12, if_neg o12]
  by_cases o13 : insn >>> 6 &&& 15 = 13
  · rw [if_pos o13, if_pos o13]
    exact ⟨rfl, rfl, hc, hv, rfl⟩
  rw [if_neg o13, if_neg o13]
  by_cases o14 : insn >>> 6 &&& 15 = 14
  · rw [if_pos o14, if_pos o14]
    exact ⟨rfl, rfl, hc, hv, rfl⟩
  rw [if_neg o14, if_neg o14]
  by_cases o15 : insn >>> 6 &&& 15 = 15
  · rw [if_pos o15, if_pos o15]
    exact ⟨rfl, rfl, hc, hv, rfl⟩
  rw [if_neg o15, if_neg o15]
  exact ⟨rfl, rfl, hc, hv, rfl⟩

/-- the THUMB ALU instruction seen through `Rd` and the flags, in terms of the ALU switch on
the state before the PC advance -/
theorem thumb_alu_view (ops : mem_ops) (op rd rm : Nat) (s : Cpu) (hop : op < 16) (hrd : rd < 8)
    (hrm : rm < 8) :
    ∃ sT, cpu_thumb_instruction ops (thumb_alu_insn op rd rm) s = some sT
      ∧ sT.arm.reg rd = (if (thumb_alu_op (thumb_alu_insn op rd rm) s).2.1 = true
          then (thumb_alu_op (thumb_alu_insn op rd rm) s).1 else s.arm.reg rd)
      ∧ sT.arm.cpsr_n = (thumb_alu_op (thumb_alu_insn op rd rm) s).1 >>> 31
      ∧ sT.arm.cpsr_z = (if (thumb_alu_op (thumb_alu_insn op rd rm) s).1 = 0 then 1 else 0)
      ∧ sT.arm.cpsr_c = (thumb_alu_op (thumb_alu_insn op rd rm) s).2.2.arm.cpsr_c
      ∧ sT.arm.cpsr_v = (thumb_alu_op (thumb_alu_insn op rd rm) s).2.2.arm.cpsr_v := by
  obtain ⟨f1, f2, f3, f4, f5⟩ := thumb_alu_fields op rd rm hop hrd hrm
  have hne : ∀ i, i < 8 → set_elem s.arm.reg 15 ((s.arm.reg 15 + 2) % 2 ^ 32) i = s.arm.reg i := by
    intro i hi
    unfold set_elem
    rw [if_neg (by omega)]
  obtain ⟨k1, k2, k3, k4, k5⟩ := thumb_alu_op_congr (thumb_alu_insn op rd rm)
    { s with
      arm := { s.arm with reg := set_elem s.arm.reg 15 ((s.arm.reg 15 + 2) % 2 ^ 32) },
      cycle_count_delta := s.cycle_count_delta + 1 } s
    (by rw [f5]; exact hne rd hrd) (by rw [f4]; exact hne rm hrm) rfl rfl
  unfold cpu_thumb_instruction
  rw [thumb_switch_alu ops _ _ f1 f2]
  refine ⟨_, rfl, ?_, ?_, ?_, ?_, ?_⟩
  · unfold thumb_alu
    simp only [f5]
    rw [← k2]
    by_cases hw : (thumb_alu_op (thumb_alu_insn op rd rm)
        { s with
          arm := { s.arm with reg := set_elem s.arm.reg 15 ((s.arm.reg 15 + 2) % 2 ^ 32) },
          cycle_count_delta := s.cycle_count_delta + 1 }).2.1 = true
    · rw [if_pos hw, if_pos hw, ← k1]
      simp [set_nz_flags, set_reg_pc, set_elem]
    · rw [if_neg hw, if_neg hw]
      show (thumb_alu_op (thumb_alu_insn op rd rm) _).2.2.arm.reg rd = s.arm.reg rd
      rw [k5]
      exact hne rd hrd
  · rw [← k1]; rfl
  · rw [← k1]; rfl
  · rw [← k3]
    unfold thumb_alu
    simp only []
    split <;> rfl
  · rw [← k4]
    unfold thumb_alu
    simp only []
    split <;> rfl

/-- the data-processing branch for a flag-setting instruction with condition AL whose
destination is not R15, given what the shifter returns -/
theorem interpret_dp (ext : arm_class → Nat → Cpu → Option Cpu) (insn : Nat) (s : Cpu)
    (sh : Nat × Cpu) (hc : insn >>> 28 = 14) (hmul : insn &&& 0xE000090 ≠ 0x90)
    (hmisc : insn &&& 0xD900000 ≠ 0x1000000) (hdp : insn &&& 0xC000000 = 0)
    (hS : insn >>> 20 &&& 1 = 1) (hrd : insn >>> 12 &&& 15 ≠ 15)
    (hsh : (if insn &&& (1 <<< 25) ≠ 0 then some (get_shifted_immed insn 1 s)
            else get_shifted_reg insn 1 s) = some sh) :
    cpu_interpret_instruction (arm_body ext) insn s
      = (if (insn >>> 21 &&& 15) &&& 12 = 8 then
          (if insn >>> 12 &&& 15 ≠ 0 then none
           else some (data_processing_alu (insn >>> 21 &&& 15)
            (get_reg_pc (insn >>> 16 &&& 15) s) sh.1 s.arm.cpsr_c 1 sh.2).2)
         else some (set_reg_pc (insn >>> 12 &&& 15)
          (data_processing_alu (insn >>> 21 &&& 15)
            (get_reg_pc (insn >>> 16 &&& 15) s) sh.1 s.arm.cpsr_c 1 sh.2).1
          (data_processing_alu (insn >>> 21 &&& 15)
            (get_reg_pc (insn >>> 16 &&& 15) s) sh.1 s.arm.cpsr_c 1 sh.2).2)).map
        (set_nz_flags (data_processing_alu (insn >>> 21 &&& 15)
            (get_reg_pc (insn >>> 16 &&& 15) s) sh.1 s.arm.cpsr_c 1 sh.2).1) := by
  obtain ⟨c1, c2⟩ := cond_al _ s.arm hc
  simp only [cpu_interpret_instruction, if_neg c1, if_neg c2, if_neg hmul, if_neg hmisc, hdp,
    if_true, arm_body, arm_data_processing, hS, hsh, Option.some_bind]
  simp only [ne_eq, one_ne_zero, not_false_eq_true, if_true, if_neg hrd]
  split_ifs <;> rfl

/-- the fields of a data-processing instruction `0xE0100000 + opcode, Rn, Rd, Rm` (S set,
register operand, LSL #0) -/
theorem dp_reg_fields (ext : arm_class → Nat → Cpu → Option Cpu) (insn opc rn rd rm : Nat)
    (s : Cpu) (hopc : opc < 16) (hrn : rn < 16) (hrd : rd < 15) (hrm : rm < 15)
    (hsum : insn = 0xE0100000 + opc * 0x200000 + rn * 65536 + rd * 4096 + rm) :
    cpu_interpret_instruction (arm_body ext) insn s
      = (if opc &&& 12 = 8 then
          (if rd ≠ 0 then none
           else some (data_processing_alu opc (get_reg_pc rn s) (s.arm.reg rm % 2 ^ 32)
            s.arm.cpsr_c 1 s).2)
         else some (set_reg_pc rd
          (data_processing_alu opc (get_reg_pc rn s) (s.arm.reg rm % 2 ^ 32) s.arm.cpsr_c 1 s).1
          (data_processing_alu opc (get_reg_pc rn s) (s.arm.reg rm % 2 ^ 32)
            s.arm.cpsr_c 1 s).2)).map
        (set_nz_flags (data_processing_alu opc (get_reg_pc rn s) (s.arm.reg rm % 2 ^ 32)
            s.arm.cpsr_c 1 s).1) := by
  have hc : insn >>> 28 = 14 := by
    rw [hsum, Nat.shiftRight_eq_div_pow]; omega
  have b4 : insn &&& (1 <<< 4) = 0 := by
    rw [and_one_shl, hsum, Nat.shiftRight_eq_div_pow, Nat.and_one_is_mod]
    have : (0xE0100000 + opc * 0x200000 + rn * 65536 + rd * 4096 + rm) / 2 ^ 4 % 2 = 0 := by
      omega
    rw [this]; rfl
  have b25 : insn &&& (1 <<< 25) = 0 := by
    rw [and_one_shl, hsum, Nat.shiftRight_eq_div_pow, Nat.and_one_is_mod]
    have : (0xE0100000 + opc * 0x200000 + rn * 65536 + rd * 4096 + rm) / 2 ^ 25 % 2 = 0 := by
      omega
    rw [this]; rfl
  have b20 : insn >>> 20 &&& 1 = 1 := by
    rw [hsum, Nat.shiftRight_eq_div_pow, Nat.and_one_is_mod]; omega
  have h20 : insn &&& 0x100000 = 0x100000 := by
    have := and_one_shl insn 20
    simp only [b20] at this
    exact this
  have hmul : insn &&& 0xE000090 ≠ 0x90 := and_ne_of_sub _ 0xE000090 0x90 0x10 0 b4 rfl (by decide)
  have hmisc : insn &&& 0xD900000 ≠ 0x1000000 :=
    and_ne_of_sub _ 0xD900000 0x1000000 0x100000 0x100000 h20 rfl (by decide)
  have hdp : insn &&& 0xC000000 = 0 := by
    have := and_shl_mask insn 3 26
    rw [show (3 : Nat) <<< 26 = 0xC000000 from rfl] at this
    rw [this, and_3, hsum, Nat.shiftRight_eq_div_pow]
    have : (0xE0100000 + opc * 0x200000 + rn * 65536 + rd * 4096 + rm) / 2 ^ 26 % 4 = 0 := by
      omega
    rw [this]; rfl
  have hop : insn >>> 21 &&& 15 = opc := by
    rw [and_15, hsum, Nat.shiftRight_eq_div_pow]; omega
  have hn : insn >>> 16 &&& 15 = rn := by
    rw [and_15, hsum, Nat.shiftRight_eq_div_pow]; omega
  have hd : insn >>> 12 &&& 15 = rd := by
    rw [and_15, hsum, Nat.shiftRight_eq_div_pow]; omega
  have hm : insn &&& 15 = rm := by
    rw [and_15, hsum]; omega
  have ht : insn >>> 5 &&& 3 = 0 := by
    rw [and_3, hsum, Nat.shiftRight_eq_div_pow]; omega
  have hi : insn >>> 7 &&& 31 = 0 := by
    rw [and_31, hsum, Nat.shiftRight_eq_div_pow]; omega
  have hg : get_reg_pc rm s = s.arm.reg rm % 2 ^ 32 := by
    unfold get_reg_pc
    rw [if_neg (by omega), Nat.add_zero]
  have hsh : (if insn &&& (1 <<< 25) ≠ 0 then some (get_shifted_immed insn 1 s)
      else get_shifted_reg insn 1 s) = some (s.arm.reg rm % 2 ^ 32, s) := by
    rw [b25]
    simp only [ne_eq, not_true_eq_false, if_false]
    unfold get_shifted_reg
    simp only [b4, hm, ht, hi, hg, ne_eq, not_true_eq_false, if_false, if_true]
  have := interpret_dp ext insn s _ hc hmul hmisc hdp b20 (by rw [hd]; omega) hsh
  rw [hop, hn, hd] at this
  exact this

/-- decode of `MOVS Rd, Rm, <shift> Rs`: the shift count is the low byte of `Rs` -/
theorem interpret_movs_shift_reg (ext : arm_class → Nat → Cpu → Option Cpu)
    (insn ty rd rm rs : Nat) (s : Cpu) (hty : ty < 4) (hrd : rd < 15) (hrm : rm < 15)
    (hrs : rs < 15)
    (hsum : insn = 0xE1B00010 + ty * 32 + rd * 4096 + rs * 256 + rm) :
    cpu_interpret_instruction (arm_body ext) insn s
      = some (set_nz_flags (shift ty (s.arm.reg rm % 2 ^ 32) (s.arm.reg rs &&& 0xFF) 1 s).1
          (set_reg_pc rd (shift ty (s.arm.reg rm % 2 ^ 32) (s.arm.reg rs &&& 0xFF) 1 s).1
            (shift ty (s.arm.reg rm % 2 ^ 32) (s.arm.reg rs &&& 0xFF) 1 s).2)) := by
  have hc : insn >>> 28 = 14 := by
    rw [hsum, Nat.shiftRight_eq_div_pow]; omega
  have b4 : insn >>> 4 &&& 1 = 1 := by
    rw [hsum, Nat.shiftRight_eq_div_pow, Nat.and_one_is_mod]; omega
  have b4' : insn &&& (1 <<< 4) ≠ 0 := (and_bit_ne_zero_iff insn 4).2 b4
  have b7 : insn &&& (1 <<< 7) = 0 := by
    rw [and_one_shl, hsum, Nat.shiftRight_eq_div_pow, Nat.and_one_is_mod]
    have : (0xE1B00010 + ty * 32 + rd * 4096 + rs * 256 + rm) / 2 ^ 7 % 2 = 0 := by omega
    rw [this]; rfl
  have b25 : insn &&& (1 <<< 25) = 0 := by
    rw [and_one_shl, hsum, Nat.shiftRight_eq_div_pow, Nat.and_one_is_mod]
    have : (0xE1B00010 + ty * 32 + rd * 4096 + rs * 256 + rm) / 2 ^ 25 % 2 = 0 := by omega
    rw [this]; rfl
  have b20 : insn >>> 20 &&& 1 = 1 := by
    rw [hsum, Nat.shiftRight_eq_div_pow, Nat.and_one_is_mod]; omega
  have h20 : insn &&& 0x100000 = 0x100000 := by
    have := and_one_shl insn 20
    simp only [b20] at this
    exact this
  have hmul : insn &&& 0xE000090 ≠ 0x90 :=
    and_ne_of_sub _ 0xE000090 0x90 0x80 0 b7 rfl (by decide)
  have hmisc : insn &&& 0xD900000 ≠ 0x1000000 :=
    and_ne_of_sub _ 0xD900000 0x1000000 0x100000 0x100000 h20 rfl (by decide)
  have hdp : insn &&& 0xC000000 = 0 := by
    have := and_shl_mask insn 3 26
    rw [show (3 : Nat) <<< 26 = 0xC000000 from rfl] at this
    rw [this, and_3, hsum, Nat.shiftRight_eq_div_pow]
    have : (0xE1B00010 + ty * 32 + rd * 4096 + rs * 256 + rm) / 2 ^ 26 % 4 = 0 := by omega
    rw [this]; rfl
  have hop : insn >>> 21 &&& 15 = 13 := by
    rw [and_15, hsum, Nat.shiftRight_eq_div_pow]; omega
  have hd : insn >>> 12 &&& 15 = rd := by
    rw [and_15, hsum, Nat.shiftRight_eq_div_pow]; omega
  have hm : insn &&& 15 = rm := by
    rw [and_15, hsum]; omega
  have hs : insn >>> 8 &&& 15 = rs := by
    rw [and_15, hsum, Nat.shiftRight_eq_div_pow]; omega
  have ht : insn >>> 5 &&& 3 = ty := by
    rw [and_3, hsum, Nat.shiftRight_eq_div_pow]; omega
  have hg : get_reg_pc rm s = s.arm.reg rm % 2 ^ 32 := by
    unfold get_reg_pc
    rw [if_neg (by omega), Nat.add_zero]
  have hgr : get_reg rs s = some (s.arm.reg rs) := by
    unfold get_reg
    rw [if_neg (by omega)]
  have hsh : (if insn &&& (1 <<< 25) ≠ 0 then some (get_shifted_immed insn 1 s)
      else get_shifted_reg insn 1 s)
      = some (shift ty (s.arm.reg rm % 2 ^ 32) (s.arm.reg rs &&& 0xFF) 1 s) := by
    rw [b25]
    simp only [ne_eq, not_true_eq_false, if_false]
    unfold get_shifted_reg
    simp only [if_pos b4', b7, hm, ht, hs, hg, hgr, ne_eq, not_true_eq_false, if_false,
      Option.map_some']
  have h8 : ¬ ((13 : Nat) &&& 12 = 8) := by decide
  rw [interpret_dp ext insn s _ hc hmul hmisc hdp b20 (by rw [hd]; omega) hsh, hop, hd,
    if_neg h8]
  simp [data_processing_alu]

/-- decode of `RSBS Rd, Rn, #0` -/
theorem interpret_rsbs_zero (ext : arm_class → Nat → Cpu → Option Cpu)
    (insn rd rn : Nat) (s : Cpu) (hrd : rd < 15) (hrn : rn < 15)
    (hsum : insn = 0xE2700000 + rn * 65536 + rd * 4096) :
    cpu_interpret_instruction (arm_body ext) insn s
      = some (set_nz_flags (add (not32 (s.arm.reg rn % 2 ^ 32)) 0 1 1 s).1
          (set_reg_pc rd (add (not32 (s.arm.reg rn % 2 ^ 32)) 0 1 1 s).1
            (add (not32 (s.arm.reg rn % 2 ^ 32)) 0 1 1 s).2)) := by
  have hc : insn >>> 28 = 14 := by
    rw [hsum, Nat.shiftRight_eq_div_pow]; omega
  have b4 : insn &&& (1 <<< 4) = 0 := by
    rw [and_one_shl, hsum, Nat.shiftRight_eq_div_pow, Nat.and_one_is_mod]
    have : (0xE2700000 + rn * 65536 + rd * 4096) / 2 ^ 4 % 2 = 0 := by omega
    rw [this]; rfl
  have b25 : insn >>> 25 &&& 1 = 1 := by
    rw [hsum, Nat.shiftRight_eq_div_pow, Nat.and_one_is_mod]; omega
  have b25' : insn &&& (1 <<< 25) ≠ 0 := (and_bit_ne_zero_iff insn 25).2 b25
  have b20 : insn >>> 20 &&& 1 = 1 := by
    rw [hsum, Nat.shiftRight_eq_div_pow, Nat.and_one_is_mod]; omega
  have h20 : insn &&& 0x100000 = 0x100000 := by
    have := and_one_shl insn 20
    simp only [b20] at this
    exact this
  have hmul : insn &&& 0xE000090 ≠ 0x90 := and_ne_of_sub _ 0xE000090 0x90 0x10 0 b4 rfl (by decide)
  have hmisc : insn &&& 0xD900000 ≠ 0x1000000 :=
    and_ne_of_sub _ 0xD900000 0x1000000 0x100000 0x100000 h20 rfl (by decide)
  have hdp : insn &&& 0xC000000 = 0 := by
    have := and_shl_mask insn 3 26
    rw [show (3 : Nat) <<< 26 = 0xC000000 from rfl] at this
    rw [this, and_3, hsum, Nat.shiftRight_eq_div_pow]
    have : (0xE2700000 + rn * 65536 + rd * 4096) / 2 ^ 26 % 4 = 0 := by omega
    rw [this]; rfl
  have hop : insn >>> 21 &&& 15 = 3 := by
    rw [and_15, hsum, Nat.shiftRight_eq_div_pow]; omega
  have hd : insn >>> 12 &&& 15 = rd := by
    rw [and_15, hsum, Nat.shiftRight_eq_div_pow]; omega
  have hn : insn >>> 16 &&& 15 = rn := by
    rw [and_15, hsum, Nat.shiftRight_eq_div_pow]; omega
  have hcnt : insn >>> 7 &&& 30 = 0 := by
    have e : insn >>> 7 &&& 30 = (insn >>> 8 &&& 15) <<< 1 := by
      have := and_shl_mask (insn >>> 7) 15 1
      rw [show (15 : Nat) <<< 1 = 30 from rfl, ← Nat.shiftRight_add] at this
      exact this
    rw [e, and_15, hsum, Nat.shiftRight_eq_div_pow]
    have : (0xE2700000 + rn * 65536 + rd * 4096) / 2 ^ 8 % 16 = 0 := by omega
    rw [this]; rfl
  have himm : insn &&& 0xFF = 0 := by
    rw [and_255, hsum]; omega
  have hg : get_reg_pc rn s = s.arm.reg rn % 2 ^ 32 := by
    unfold get_reg_pc
    rw [if_neg (by omega), Nat.add_zero]
  have hsh : (if insn &&& (1 <<< 25) ≠ 0 then some (get_shifted_immed insn 1 s)
      else get_shifted_reg insn 1 s) = some (0, s) := by
    rw [if_pos b25']
    unfold get_shifted_immed
    simp only [hcnt, himm, ne_eq, not_true_eq_false, false_and, if_false]
    rfl
  have h8 : ¬ ((3 : Nat) &&& 12 = 8) := by decide
  rw [interpret_dp ext insn s _ hc hmul hmisc hdp b20 (by rw [hd]; omega) hsh, hop, hd, hn, hg,
    if_neg h8]
  simp [data_processing_alu]

/-- decode of `MULS Rd, Rm, Rs` -/
theorem interpret_muls (ops : mem_ops) (insn rd rm rs : Nat) (s : Cpu) (hrd : rd < 15)
    (hrm : rm < 15) (hrs : rs < 15)
    (hsum : insn = 0xE0100090 + rd * 65536 + rs * 256 + rm) :
    cpu_interpret_instruction (arm_body (arm_ext ops)) insn s
      = some (set_nz_flags ((s.arm.reg rm * s.arm.reg rs) % 2 ^ 32)
          (set_reg_pc rd ((s.arm.reg rm * s.arm.reg rs) % 2 ^ 32) s)) := by
  have hc : insn >>> 28 = 14 := by
    rw [hsum, Nat.shiftRight_eq_div_pow]; omega
  obtain ⟨c1, c2⟩ := cond_al _ s.arm hc
  have m1 : insn &&& 0xE000090 = 0x90 := by
    rw [show (0xE000090 : Nat) = 7 <<< 25 ||| 9 <<< 4 from rfl, Nat.and_or_distrib_left,
      and_shl_mask, and_shl_mask, and_7, hsum, Nat.shiftRight_eq_div_pow,
      Nat.shiftRight_eq_div_pow]
    have e1 : (0xE0100090 + rd * 65536 + rs * 256 + rm) / 2 ^ 25 % 8 = 0 := by omega
    have e2 : (0xE0100090 + rd * 65536 + rs * 256 + rm) / 2 ^ 4 &&& 9 = 9 := by
      have e3 : (0xE0100090 + rd * 65536 + rs * 256 + rm) / 2 ^ 4
          = 16 * ((0xE0100090 + rd * 65536 + rs * 256 + rm) / 2 ^ 8) + 9 := by omega
      rw [e3]
      rw [show (16 : Nat) = 2 ^ 4 from rfl, Nat.mul_add_lt_is_or (by decide),
        Nat.and_distrib_right]
      have : 2 ^ 4 * ((0xE0100090 + rd * 65536 + rs * 256 + rm) / 2 ^ 8) &&& 9 = 0 :=
        high_and_low 4 _ 9 (by decide)
      rw [this]; rfl
    rw [e1, e2]; rfl
  have ht : insn >>> 5 &&& 3 = 0 := by
    rw [and_3, hsum, Nat.shiftRight_eq_div_pow]; omega
  have m2 : insn &&& 0xFC000F0 = 0x90 := by
    rw [show (0xFC000F0 : Nat) = 63 <<< 22 ||| 15 <<< 4 from rfl, Nat.and_or_distrib_left,
      and_shl_mask, and_shl_mask, and_15,
      show (63 : Nat) = 2 ^ 6 - 1 from rfl, Nat.and_pow_two_sub_one_eq_mod, hsum,
      Nat.shiftRight_eq_div_pow, Nat.shiftRight_eq_div_pow]
    have e1 : (0xE0100090 + rd * 65536 + rs * 256 + rm) / 2 ^ 22 % 2 ^ 6 = 0 := by omega
    have e2 : (0xE0100090 + rd * 65536 + rs * 256 + rm) / 2 ^ 4 % 16 = 9 := by omega
    rw [e1, e2]; rfl
  have b21 : insn &&& 0x0200000 = 0 := by
    rw [show (0x0200000 : Nat) = 1 <<< 21 from rfl, and_one_shl, hsum,
      Nat.shiftRight_eq_div_pow, Nat.and_one_is_mod]
    have : (0xE0100090 + rd * 65536 + rs * 256 + rm) / 2 ^ 21 % 2 = 0 := by omega
    rw [this]; rfl
  have b20 : insn &&& 0x0100000 ≠ 0 := by
    rw [show (0x0100000 : Nat) = 1 <<< 20 from rfl, and_bit_ne_zero_iff, hsum,
      Nat.shiftRight_eq_div_pow, Nat.and_one_is_mod]
    omega
  have hd : insn >>> 16 &&& 15 = rd := by
    rw [and_15, hsum, Nat.shiftRight_eq_div_pow]; omega
  have hm : insn &&& 15 = rm := by
    rw [and_15, hsum]; omega
  have hs : insn >>> 8 &&& 15 = rs := by
    rw [and_15, hsum, Nat.shiftRight_eq_div_pow]; omega
  have g1 : get_reg rm s = some (s.arm.reg rm) := by
    unfold get_reg; rw [if_neg (by omega)]
  have g2 : get_reg rs s = some (s.arm.reg rs) := by
    unfold get_reg; rw [if_neg (by omega)]
  have g3 : ∀ v, set_reg rd v s = some (set_reg_pc rd v s) := by
    intro v; unfold set_reg; rw [if_neg (by omega)]; rfl
  simp only [cpu_interpret_instruction, if_neg c1, if_neg c2, m1, if_true, arm_body, arm_ext,
    arm_mul_half_transfer, ht, m2, hm, hs, hd, g1, g2, Option.some_bind, b21, ne_eq,
    not_true_eq_false, if_false, g3, Option.map_some', if_pos b20]

theorem or_fields_a (B rn rd rm : Nat) (hB : B % 2 ^ 20 = 0) (hrn : rn < 16) (hrd : rd < 16)
    (hrm : rm < 16) : B ||| rn <<< 16 ||| rd <<< 12 ||| rm = B + rn * 65536 + rd * 4096 + rm := by
  simp only [Nat.shiftLeft_eq]
  rw [or_eq_add B (rn * 2 ^ 16) 20 hB (by omega),
    or_eq_add _ (rd * 2 ^ 12) 16 (by omega) (by omega),
    or_eq_add _ rm 12 (by omega) (by omega)]

theorem or_fields_b (B rn rm : Nat) (hB : B % 2 ^ 20 = 0) (hrn : rn < 16)
    (hrm : rm < 16) : B ||| rn <<< 16 ||| rm = B + rn * 65536 + rm := by
  simp only [Nat.shiftLeft_eq]
  rw [or_eq_add B (rn * 2 ^ 16) 20 hB (by omega),
    or_eq_add _ rm 16 (by omega) (by omega)]

theorem or_fields_c (B rd rm : Nat) (hB : B % 2 ^ 20 = 0) (hrd : rd < 16)
    (hrm : rm < 16) : B ||| rd <<< 12 ||| rm = B + rd * 4096 + rm := by
  simp only [Nat.shiftLeft_eq]
  rw [or_eq_add B (rd * 2 ^ 12) 16 (by omega) (by omega),
    or_eq_add _ rm 12 (by omega) (by omega)]

theorem or_fields_d (B rn rd : Nat) (hB : B % 2 ^ 20 = 0) (hrn : rn < 16) (hrd : rd < 16) :
    B ||| rn <<< 16 ||| rd <<< 12 = B + rn * 65536 + rd * 4096 := by
  simp only [Nat.shiftLeft_eq]
  rw [or_eq_add B (rn * 2 ^ 16) 20 hB (by omega),
    or_eq_add _ (rd * 2 ^ 12) 16 (by omega) (by omega)]

theorem or_fields_shift (ty rd rm : Nat) (hty : ty < 4) (hrd : rd < 8) (hrm : rm < 8) :
    (0xE1B00010 + ty * 32) ||| rd <<< 12 ||| rm <<< 8 ||| rd
      = 0xE1B00010 + ty * 32 + rd * 4096 + rm * 256 + rd := by
  interval_cases ty <;> interval_cases rd <;> interval_cases rm <;> rfl

theorem or_fields_mul (rd rm : Nat) (hrd : rd < 8) (hrm : rm < 8) :
    0xE0100090 ||| rd <<< 16 ||| rd <<< 8 ||| rm = 0xE0100090 + rd * 65536 + rd * 256 + rm := by
  interval_cases rd <;> interval_cases rm <;> rfl

theorem add_swap_zero (y : Nat) (u : Cpu) (hy : y < 2 ^ 32) :
    (add 0 y 1 1 u).1 = (add y 0 1 1 u).1
    ∧ (add 0 y 1 1 u).2.arm.cpsr_c = (add y 0 1 1 u).2.arm.cpsr_c
    ∧ (add 0 y 1 1 u).2.arm.cpsr_v = (add y 0 1 1 u).2.arm.cpsr_v := by
  obtain ⟨a1, a2, a3, -⟩ := add_view 0 y 1 u
  obtain ⟨b1, b2, b3, -⟩ := add_view y 0 1 u
  have e : (0 + y + 1) % 2 ^ 32 = (y + 0 + 1) % 2 ^ 32 := by omega
  refine ⟨by rw [a1, b1, e], ?_, ?_⟩
  · rw [a2, b2, e]
    split_ifs <;> omega
  · rw [a3, b3, e]
    unfold ADD_OVERFLOW
    rw [Nat.and_comm]

theorem thumb_alu_case_and (ops : mem_ops) (rd rm : Nat) (s : Cpu) (hrd : rd < 8)
    (hrm : rm < 8) (hr : regs32 s) :
    ∃ sT sA, cpu_thumb_instruction ops (thumb_alu_insn 0 rd rm) s = some sT
      ∧ cpu_interpret_instruction (arm_body (arm_ext ops)) (thumb_alu_arm_insn 0 rd rm) s
          = some sA
      ∧ sT.arm.reg rd = sA.arm.reg rd ∧ sT.arm.cpsr_n = sA.arm.cpsr_n
      ∧ sT.arm.cpsr_z = sA.arm.cpsr_z ∧ sT.arm.cpsr_c = sA.arm.cpsr_c
      ∧ sT.arm.cpsr_v = sA.arm.cpsr_v := by
  obtain ⟨f1, f2, f3, f4, f5⟩ := thumb_alu_fields 0 rd rm (by decide) hrd hrm
  obtain ⟨sT, hT, v1, v2, v3, v4, v5⟩ := thumb_alu_view ops 0 rd rm s (by decide) hrd hrm
  have hd32 : s.arm.reg rd % 2 ^ 32 = s.arm.reg rd := Nat.mod_eq_of_lt (hr rd (by omega))
  have hm32 : s.arm.reg rm % 2 ^ 32 = s.arm.reg rm := Nat.mod_eq_of_lt (hr rm (by omega))
  have hg : get_reg_pc rd s = s.arm.reg rd := by
    unfold get_reg_pc; rw [if_neg (by omega), Nat.add_zero, hd32]
  have hg0 : get_reg_pc 0 s = s.arm.reg 0 := by
    unfold get_reg_pc; rw [if_neg (by omega), Nat.add_zero, Nat.mod_eq_of_lt (hr 0 (by omega))]
  have e : thumb_alu_arm_insn 0 rd rm
      = 0xE0100000 + 0 * 0x200000 + rd * 65536 + rd * 4096 + rm :=
    (or_fields_a 0xE0100000 rd rd rm (by decide) (by omega) (by omega) (by omega)).trans (by omega)
  have hA := dp_reg_fields (arm_ext ops) _ 0 rd rd rm s (by decide) (by omega) (by omega)
    (by omega) e
  rw [hg, hm32] at hA
  simp only [thumb_alu_op, f3, f4, f5] at v1 v2 v3 v4 v5
  simp [data_processing_alu] at hA v1 v2 v3 v4 v5
  refine ⟨sT, _, hT, hA, ?_⟩
  simp [set_nz_flags, set_reg_pc, set_elem, v1, v2, v3, v4, v5, add]

theorem thumb_alu_case_eor (ops : mem_ops) (rd rm : Nat) (s : Cpu) (hrd : rd < 8)
    (hrm : rm < 8) (hr : regs32 s) :
    ∃ sT sA, cpu_thumb_instruction ops (thumb_alu_insn 1 rd rm) s = some sT
      ∧ cpu_interpret_instruction (arm_body (arm_ext ops)) (thumb_alu_arm_insn 1 rd rm) s
          = some sA
      ∧ sT.arm.reg rd = sA.arm.reg rd ∧ sT.arm.cpsr_n = sA.arm.cpsr_n
      ∧ sT.arm.cpsr_z = sA.arm.cpsr_z ∧ sT.arm.cpsr_c = sA.arm.cpsr_c
      ∧ sT.arm.cpsr_v = sA.arm.cpsr_v := by
  obtain ⟨f1, f2, f3, f4, f5⟩ := thumb_alu_fields 1 rd rm (by decide) hrd hrm
  obtain ⟨sT, hT, v1, v2, v3, v4, v5⟩ := thumb_alu_view ops 1 rd rm s (by decide) hrd hrm
  have hd32 : s.arm.reg rd % 2 ^ 32 = s.arm.reg rd := Nat.mod_eq_of_lt (hr rd (by omega))
  have hm32 : s.arm.reg rm % 2 ^ 32 = s.arm.reg rm := Nat.mod_eq_of_lt (hr rm (by omega))
  have hg : get_reg_pc rd s = s.arm.reg rd := by
    unfold get_reg_pc; rw [if_neg (by omega), Nat.add_zero, hd32]
  have hg0 : get_reg_pc 0 s = s.arm.reg 0 := by
    unfold get_reg_pc; rw [if_neg (by omega), Nat.add_zero, Nat.mod_eq_of_lt (hr 0 (by omega))]
  have e : thumb_alu_arm_insn 1 rd rm
      = 0xE0100000 + 1 * 0x200000 + rd * 65536 + rd * 4096 + rm :=
    (or_fields_a 0xE0300000 rd rd rm (by decide) (by omega) (by omega) (by omega)).trans (by omega)
  have hA := dp_reg_fields (arm_ext ops) _ 1 rd rd rm s (by decide) (by omega) (by omega)
    (by omega) e
  rw [hg, hm32] at hA
  simp only [thumb_alu_op, f3, f4, f5] at v1 v2 v3 v4 v5
  simp [data_processing_alu] at hA v1 v2 v3 v4 v5
  refine ⟨sT, _, hT, hA, ?_⟩
  simp [set_nz_flags, set_reg_pc, set_elem, v1, v2, v3, v4, v5, add]

theorem thumb_alu_case_lsl (ops : mem_ops) (rd rm : Nat) (s : Cpu) (hrd : rd < 8)
    (hrm : rm < 8) (hr : regs32 s) :
    ∃ sT sA, cpu_thumb_instruction ops (thumb_alu_insn 2 rd rm) s = some sT
      ∧ cpu_interpret_instruction (arm_body (arm_ext ops)) (thumb_alu_arm_insn 2 rd rm) s
          = some sA
      ∧ sT.arm.reg rd = sA.arm.reg rd ∧ sT.arm.cpsr_n = sA.arm.cpsr_n
      ∧ sT.arm.cpsr_z = sA.arm.cpsr_z ∧ sT.arm.cpsr_c = sA.arm.cpsr_c
      ∧ sT.arm.cpsr_v = sA.arm.cpsr_v := by
  obtain ⟨f1, f2, f3, f4, f5⟩ := thumb_alu_fields 2 rd rm (by decide) hrd hrm
  obtain ⟨sT, hT, v1, v2, v3, v4, v5⟩ := thumb_alu_view ops 2 rd rm s (by decide) hrd hrm
  have hd32 : s.arm.reg rd % 2 ^ 32 = s.arm.reg rd := Nat.mod_eq_of_lt (hr rd (by omega))
  have hm32 : s.arm.reg rm % 2 ^ 32 = s.arm.reg rm := Nat.mod_eq_of_lt (hr rm (by omega))
  have hg : get_reg_pc rd s = s.arm.reg rd := by
    unfold get_reg_pc; rw [if_neg (by omega), Nat.add_zero, hd32]
  have hg0 : get_reg_pc 0 s = s.arm.reg 0 := by
    unfold get_reg_pc; rw [if_neg (by omega), Nat.add_zero, Nat.mod_eq_of_lt (hr 0 (by omega))]
  have e : thumb_alu_arm_insn 2 rd rm = 0xE1B00010 + 0 * 32 + rd * 4096 + rm * 256 + rd :=
    or_fields_shift 0 rd rm (by decide) hrd hrm
  have hA := interpret_movs_shift_reg (arm_ext ops) _ 0 rd rd rm s (by decide) (by omega)
    (by omega) (by omega) e
  rw [hd32] at hA
  simp only [thumb_alu_op, f3, f4, f5] at v1 v2 v3 v4 v5
  simp at v1 v2 v3 v4 v5
  refine ⟨sT, _, hT, hA, ?_⟩
  simp [set_nz_flags, set_reg_pc, set_elem, v1, v2, v3, v4, v5]

theorem thumb_alu_case_lsr (ops : mem_ops) (rd rm : Nat) (s : Cpu) (hrd : rd < 8)
    (hrm : rm < 8) (hr : regs32 s) :
    ∃ sT sA, cpu_thumb_instruction ops (thumb_alu_insn 3 rd rm) s = some sT
      ∧ cpu_interpret_instruction (arm_body (arm_ext ops)) (thumb_alu_arm_insn 3 rd rm) s
          = some sA
      ∧ sT.arm.reg rd = sA.arm.reg rd ∧ sT.arm.cpsr_n = sA.arm.cpsr_n
      ∧ sT.arm.cpsr_z = sA.arm.cpsr_z ∧ sT.arm.cpsr_c = sA.arm.cpsr_c
      ∧ sT.arm.cpsr_v = sA.arm.cpsr_v := by
  obtain ⟨f1, f2, f3, f4, f5⟩ := thumb_alu_fields 3 rd rm (by decide) hrd hrm
  obtain ⟨sT, hT, v1, v2, v3, v4, v5⟩ := thumb_alu_view ops 3 rd rm s (by decide) hrd hrm
  have hd32 : s.arm.reg rd % 2 ^ 32 = s.arm.reg rd := Nat.mod_eq_of_lt (hr rd (by omega))
  have hm32 : s.arm.reg rm % 2 ^ 32 = s.arm.reg rm := Nat.mod_eq_of_lt (hr rm (by omega))
  have hg : get_reg_pc rd s = s.arm.reg rd := by
    unfold get_reg_pc; rw [if_neg (by omega), Nat.add_zero, hd32]
  have hg0 : get_reg_pc 0 s = s.arm.reg 0 := by
    unfold get_reg_pc; rw [if_neg (by omega), Nat.add_zero, Nat.mod_eq_of_lt (hr 0 (by omega))]
  have e : thumb_alu_arm_insn 3 rd rm = 0xE1B00010 + 1 * 32 + rd * 4096 + rm * 256 + rd :=
    or_fields_shift 1 rd rm (by decide) hrd hrm
  have hA := interpret_movs_shift_reg (arm_ext ops) _ 1 rd rd rm s (by decide) (by omega)
    (by omega) (by omega) e
  rw [hd32] at hA
  simp only [thumb_alu_op, f3, f4, f5] at v1 v2 v3 v4 v5
  simp at v1 v2 v3 v4 v5
  refine ⟨sT, _, hT, hA, ?_⟩
  simp [set_nz_flags, set_reg_pc, set_elem, v1, v2, v3, v4, v5]

theorem thumb_alu_case_asr (ops : mem_ops) (rd rm : Nat) (s : Cpu) (hrd : rd < 8)
    (hrm : rm < 8) (hr : regs32 s) :
    ∃ sT sA, cpu_thumb_instruction ops (thumb_alu_insn 4 rd rm) s = some sT
      ∧ cpu_interpret_instruction (arm_body (arm_ext ops)) (thumb_alu_arm_insn 4 rd rm) s
          = some sA
      ∧ sT.arm.reg rd = sA.arm.reg rd ∧ sT.arm.cpsr_n = sA.arm.cpsr_n
      ∧ sT.arm.cpsr_z = sA.arm.cpsr_z ∧ sT.arm.cpsr_c = sA.arm.cpsr_c
      ∧ sT.arm.cpsr_v = sA.arm.cpsr_v := by
  obtain ⟨f1, f2, f3, f4, f5⟩ := thumb_alu_fields 4 rd rm (by decide) hrd hrm
  obtain ⟨sT, hT, v1, v2, v3, v4, v5⟩ := thumb_alu_view ops 4 rd rm s (by decide) hrd hrm
  have hd32 : s.arm.reg rd % 2 ^ 32 = s.arm.reg rd := Nat.mod_eq_of_lt (hr rd (by omega))
  have hm32 : s.arm.reg rm % 2 ^ 32 = s.arm.reg rm := Nat.mod_eq_of_lt (hr rm (by omega))
  have hg : get_reg_pc rd s = s.arm.reg rd := by
    unfold get_reg_pc; rw [if_neg (by omega), Nat.add_zero, hd32]
  have hg0 : get_reg_pc 0 s = s.arm.reg 0 := by
    unfold get_reg_pc; rw [if_neg (by omega), Nat.add_zero, Nat.mod_eq_of_lt (hr 0 (by omega))]
  have e : thumb_alu_arm_insn 4 rd rm = 0xE1B00010 + 2 * 32 + rd * 4096 + rm * 256 + rd :=
    or_fields_shift 2 rd rm (by decide) hrd hrm
  have hA := interpret_movs_shift_reg (arm_ext ops) _ 2 rd rd rm s (by decide) (by omega)
    (by omega) (by omega) e
  rw [hd32] at hA
  simp only [thumb_alu_op, f3, f4, f5] at v1 v2 v3 v4 v5
  simp at v1 v2 v3 v4 v5
  refine ⟨sT, _, hT, hA, ?_⟩
  simp [set_nz_flags, set_reg_pc, set_elem, v1, v2, v3, v4, v5]

theorem thumb_alu_case_adc (ops : mem_ops) (rd rm : Nat) (s : Cpu) (hrd : rd < 8)
    (hrm : rm < 8) (hr : regs32 s) :
    ∃ sT sA, cpu_thumb_instruction ops (thumb_alu_insn 5 rd rm) s = some sT
      ∧ cpu_interpret_instruction (arm_body (arm_ext ops)) (thumb_alu_arm_insn 5 rd rm) s
          = some sA
      ∧ sT.arm.reg rd = sA.arm.reg rd ∧ sT.arm.cpsr_n = sA.arm.cpsr_n
      ∧ sT.arm.cpsr_z = sA.arm.cpsr_z ∧ sT.arm.cpsr_c = sA.arm.cpsr_c
      ∧ sT.arm.cpsr_v = sA.arm.cpsr_v := by
  obtain ⟨f1, f2, f3, f4, f5⟩ := thumb_alu_fields 5 rd rm (by decide) hrd hrm
  obtain ⟨sT, hT, v1, v2, v3, v4, v5⟩ := thumb_alu_view ops 5 rd rm s (by decide) hrd hrm
  have hd32 : s.arm.reg rd % 2 ^ 32 = s.arm.reg rd := Nat.mod_eq_of_lt (hr rd (by omega))
  have hm32 : s.arm.reg rm % 2 ^ 32 = s.arm.reg rm := Nat.mod_eq_of_lt (hr rm (by omega))
  have hg : get_reg_pc rd s = s.arm.reg rd := by
    unfold get_reg_pc; rw [if_neg (by omega), Nat.add_zero, hd32]
  have hg0 : get_reg_pc 0 s = s.arm.reg 0 := by
    unfold get_reg_pc; rw [if_neg (by omega), Nat.add_zero, Nat.mod_eq_of_lt (hr 0 (by omega))]
  have e : thumb_alu_arm_insn 5 rd rm
      = 0xE0100000 + 5 * 0x200000 + rd * 65536 + rd * 4096 + rm :=
    (or_fields_a 0xE0B00000 rd rd rm (by decide) (by omega) (by omega) (by omega)).trans (by omega)
  have hA := dp_reg_fields (arm_ext ops) _ 5 rd rd rm s (by decide) (by omega) (by omega)
    (by omega) e
  rw [hg, hm32] at hA
  simp only [thumb_alu_op, f3, f4, f5] at v1 v2 v3 v4 v5
  simp [data_processing_alu] at hA v1 v2 v3 v4 v5
  refine ⟨sT, _, hT, hA, ?_⟩
  simp [set_nz_flags, set_reg_pc, set_elem, v1, v2, v3, v4, v5, add]

theorem thumb_alu_case_sbc (ops : mem_ops) (rd rm : Nat) (s : Cpu) (hrd : rd < 8)
    (hrm : rm < 8) (hr : regs32 s) :
    ∃ sT sA, cpu_thumb_instruction ops (thumb_alu_insn 6 rd rm) s = some sT
      ∧ cpu_interpret_instruction (arm_body (arm_ext ops)) (thumb_alu_arm_insn 6 rd rm) s
          = some sA
      ∧ sT.arm.reg rd = sA.arm.reg rd ∧ sT.arm.cpsr_n = sA.arm.cpsr_n
      ∧ sT.arm.cpsr_z = sA.arm.cpsr_z ∧ sT.arm.cpsr_c = sA.arm.cpsr_c
      ∧ sT.arm.cpsr_v = sA.arm.cpsr_v := by
  obtain ⟨f1, f2, f3, f4, f5⟩ := thumb_alu_fields 6 rd rm (by decide) hrd hrm
  obtain ⟨sT, hT, v1, v2, v3, v4, v5⟩ := thumb_alu_view ops 6 rd rm s (by decide) hrd hrm
  have hd32 : s.arm.reg rd % 2 ^ 32 = s.arm.reg rd := Nat.mod_eq_of_lt (hr rd (by omega))
  have hm32 : s.arm.reg rm % 2 ^ 32 = s.arm.reg rm := Nat.mod_eq_of_lt (hr rm (by omega))
  have hg : get_reg_pc rd s = s.arm.reg rd := by
    unfold get_reg_pc; rw [if_neg (by omega), Nat.add_zero, hd32]
  have hg0 : get_reg_pc 0 s = s.arm.reg 0 := by
    unfold get_reg_pc; rw [if_neg (by omega), Nat.add_zero, Nat.mod_eq_of_lt (hr 0 (by omega))]
  have e : thumb_alu_arm_insn 6 rd rm
      = 0xE0100000 + 6 * 0x200000 + rd * 65536 + rd * 4096 + rm :=
    (or_fields_a 0xE0D00000 rd rd rm (by decide) (by omega) (by omega) (by omega)).trans (by omega)
  have hA := dp_reg_fields (arm_ext ops) _ 6 rd rd rm s (by decide) (by omega) (by omega)
    (by omega) e
  rw [hg, hm32] at hA
  simp only [thumb_alu_op, f3, f4, f5] at v1 v2 v3 v4 v5
  simp [data_processing_alu] at hA v1 v2 v3 v4 v5
  refine ⟨sT, _, hT, hA, ?_⟩
  simp [set_nz_flags, set_reg_pc, set_elem, v1, v2, v3, v4, v5, add]

theorem thumb_alu_case_ror (ops : mem_ops) (rd rm : Nat) (s : Cpu) (hrd : rd < 8)
    (hrm : rm < 8) (hr : regs32 s) :
    ∃ sT sA, cpu_thumb_instruction ops (thumb_alu_insn 7 rd rm) s = some sT
      ∧ cpu_interpret_instruction (arm_body (arm_ext ops)) (thumb_alu_arm_insn 7 rd rm) s
          = some sA
      ∧ sT.arm.reg rd = sA.arm.reg rd ∧ sT.arm.cpsr_n = sA.arm.cpsr_n
      ∧ sT.arm.cpsr_z = sA.arm.cpsr_z ∧ sT.arm.cpsr_c = sA.arm.cpsr_c
      ∧ sT.arm.cpsr_v = sA.arm.cpsr_v := by
  obtain ⟨f1, f2, f3, f4, f5⟩ := thumb_alu_fields 7 rd rm (by decide) hrd hrm
  obtain ⟨sT, hT, v1, v2, v3, v4, v5⟩ := thumb_alu_view ops 7 rd rm s (by decide) hrd hrm
  have hd32 : s.arm.reg rd % 2 ^ 32 = s.arm.reg rd := Nat.mod_eq_of_lt (hr rd (by omega))
  have hm32 : s.arm.reg rm % 2 ^ 32 = s.arm.reg rm := Nat.mod_eq_of_lt (hr rm (by omega))
  have hg : get_reg_pc rd s = s.arm.reg rd := by
    unfold get_reg_pc; rw [if_neg (by omega), Nat.add_zero, hd32]
  have hg0 : get_reg_pc 0 s = s.arm.reg 0 := by
    unfold get_reg_pc; rw [if_neg (by omega), Nat.add_zero, Nat.mod_eq_of_lt (hr 0 (by omega))]
  have e : thumb_alu_arm_insn 7 rd rm = 0xE1B00010 + 3 * 32 + rd * 4096 + rm * 256 + rd :=
    or_fields_shift 3 rd rm (by decide) hrd hrm
  have hA := interpret_movs_shift_reg (arm_ext ops) _ 3 rd rd rm s (by decide) (by omega)
    (by omega) (by omega) e
  rw [hd32] at hA
  simp only [thumb_alu_op, f3, f4, f5] at v1 v2 v3 v4 v5
  simp at v1 v2 v3 v4 v5
  refine ⟨sT, _, hT, hA, ?_⟩
  simp [set_nz_flags, set_reg_pc, set_elem, v1, v2, v3, v4, v5]

theorem thumb_alu_case_tst (ops : mem_ops) (rd rm : Nat) (s : Cpu) (hrd : rd < 8)
    (hrm : rm < 8) (hr : regs32 s) :
    ∃ sT sA, cpu_thumb_instruction ops (thumb_alu_insn 8 rd rm) s = some sT
      ∧ cpu_interpret_instruction (arm_body (arm_ext ops)) (thumb_alu_arm_insn 8 rd rm) s
          = some sA
      ∧ sT.arm.reg rd = sA.arm.reg rd ∧ sT.arm.cpsr_n = sA.arm.cpsr_n
      ∧ sT.arm.cpsr_z = sA.arm.cpsr_z ∧ sT.arm.cpsr_c = sA.arm.cpsr_c
      ∧ sT.arm.cpsr_v = sA.arm.cpsr_v := by
  obtain ⟨f1, f2, f3, f4, f5⟩ := thumb_alu_fields 8 rd rm (by decide) hrd hrm
  obtain ⟨sT, hT, v1, v2, v3, v4, v5⟩ := thumb_alu_view ops 8 rd rm s (by decide) hrd hrm
  have hd32 : s.arm.reg rd % 2 ^ 32 = s.arm.reg rd := Nat.mod_eq_of_lt (hr rd (by omega))
  have hm32 : s.arm.reg rm % 2 ^ 32 = s.arm.reg rm := Nat.mod_eq_of_lt (hr rm (by omega))
  have hg : get_reg_pc rd s = s.arm.reg rd := by
    unfold get_reg_pc; rw [if_neg (by omega), Nat.add_zero, hd32]
  have hg0 : get_reg_pc 0 s = s.arm.reg 0 := by
    unfold get_reg_pc; rw [if_neg (by omega), Nat.add_zero, Nat.mod_eq_of_lt (hr 0 (by omega))]
  have e : thumb_alu_arm_insn 8 rd rm
      = 0xE0100000 + 8 * 0x200000 + rd * 65536 + 0 * 4096 + rm :=
    (or_fields_b 0xE1100000 rd rm (by decide) (by omega) (by omega)).trans (by omega)
  have hA := dp_reg_fields (arm_ext ops) _ 8 rd 0 rm s (by decide) (by omega) (by omega)
    (by omega) e
  rw [hg, hm32] at hA
  simp only [thumb_alu_op, f3, f4, f5] at v1 v2 v3 v4 v5
  simp [data_processing_alu] at hA v1 v2 v3 v4 v5
  refine ⟨sT, _, hT, hA, ?_⟩
  simp [set_nz_flags, set_reg_pc, set_elem, v1, v2, v3, v4, v5, add]

theorem thumb_alu_case_neg (ops : mem_ops) (rd rm : Nat) (s : Cpu) (hrd : rd < 8)
    (hrm : rm < 8) (hr : regs32 s) :
    ∃ sT sA, cpu_thumb_instruction ops (thumb_alu_insn 9 rd rm) s = some sT
      ∧ cpu_interpret_instruction (arm_body (arm_ext ops)) (thumb_alu_arm_insn 9 rd rm) s
          = some sA
      ∧ sT.arm.reg rd = sA.arm.reg rd ∧ sT.arm.cpsr_n = sA.arm.cpsr_n
      ∧ sT.arm.cpsr_z = sA.arm.cpsr_z ∧ sT.arm.cpsr_c = sA.arm.cpsr_c
      ∧ sT.arm.cpsr_v = sA.arm.cpsr_v := by
  obtain ⟨f1, f2, f3, f4, f5⟩ := thumb_alu_fields 9 rd rm (by decide) hrd hrm
  obtain ⟨sT, hT, v1, v2, v3, v4, v5⟩ := thumb_alu_view ops 9 rd rm s (by decide) hrd hrm
  have hd32 : s.arm.reg rd % 2 ^ 32 = s.arm.reg rd := Nat.mod_eq_of_lt (hr rd (by omega))
  have hm32 : s.arm.reg rm % 2 ^ 32 = s.arm.reg rm := Nat.mod_eq_of_lt (hr rm (by omega))
  have hg : get_reg_pc rd s = s.arm.reg rd := by
    unfold get_reg_pc; rw [if_neg (by omega), Nat.add_zero, hd32]
  have hg0 : get_reg_pc 0 s = s.arm.reg 0 := by
    unfold get_reg_pc; rw [if_neg (by omega), Nat.add_zero, Nat.mod_eq_of_lt (hr 0 (by omega))]
  have e : thumb_alu_arm_insn 9 rd rm = 0xE2700000 + rm * 65536 + rd * 4096 :=
    or_fields_d 0xE2700000 rm rd (by decide) (by omega) (by omega)
  have hA := interpret_rsbs_zero (arm_ext ops) _ rd rm s (by omega) (by omega) e
  rw [hm32] at hA
  obtain ⟨w1, w2, w3⟩ := add_swap_zero (not32 (s.arm.reg rm)) s (not32_lt _)
  simp only [thumb_alu_op, f3, f4, f5] at v1 v2 v3 v4 v5
  simp at v1 v2 v3 v4 v5
  refine ⟨sT, _, hT, hA, ?_⟩
  rw [v1, v2, v3, v4, v5, w1, w2, w3]
  simp [set_nz_flags, set_reg_pc, set_elem]

theorem thumb_alu_case_cmp (ops : mem_ops) (rd rm : Nat) (s : Cpu) (hrd : rd < 8)
    (hrm : rm < 8) (hr : regs32 s) :
    ∃ sT sA, cpu_thumb_instruction ops (thumb_alu_insn 10 rd rm) s = some sT
      ∧ cpu_interpret_instruction (arm_body (arm_ext ops)) (thumb_alu_arm_insn 10 rd rm) s
          = some sA
      ∧ sT.arm.reg rd = sA.arm.reg rd ∧ sT.arm.cpsr_n = sA.arm.cpsr_n
      ∧ sT.arm.cpsr_z = sA.arm.cpsr_z ∧ sT.arm.cpsr_c = sA.arm.cpsr_c
      ∧ sT.arm.cpsr_v = sA.arm.cpsr_v := by
  obtain ⟨f1, f2, f3, f4, f5⟩ := thumb_alu_fields 10 rd rm (by decide) hrd hrm
  obtain ⟨sT, hT, v1, v2, v3, v4, v5⟩ := thumb_alu_view ops 10 rd rm s (by decide) hrd hrm
  have hd32 : s.arm.reg rd % 2 ^ 32 = s.arm.reg rd := Nat.mod_eq_of_lt (hr rd (by omega))
  have hm32 : s.arm.reg rm % 2 ^ 32 = s.arm.reg rm := Nat.mod_eq_of_lt (hr rm (by omega))
  have hg : get_reg_pc rd s = s.arm.reg rd := by
    unfold get_reg_pc; rw [if_neg (by omega), Nat.add_zero, hd32]
  have hg0 : get_reg_pc 0 s = s.arm.reg 0 := by
    unfold get_reg_pc; rw [if_neg (by omega), Nat.add_zero, Nat.mod_eq_of_lt (hr 0 (by omega))]
  have e : thumb_alu_arm_insn 10 rd rm
      = 0xE0100000 + 10 * 0x200000 + rd * 65536 + 0 * 4096 + rm :=
    (or_fields_b 0xE1500000 rd rm (by decide) (by omega) (by omega)).trans (by omega)
  have hA := dp_reg_fields (arm_ext ops) _ 10 rd 0 rm s (by decide) (by omega) (by omega)
    (by omega) e
  rw [hg, hm32] at hA
  simp only [thumb_alu_op, f3, f4, f5] at v1 v2 v3 v4 v5
  simp [data_processing_alu] at hA v1 v2 v3 v4 v5
  refine ⟨sT, _, hT, hA, ?_⟩
  simp [set_nz_flags, set_reg_pc, set_elem, v1, v2, v3, v4, v5, add]

theorem thumb_alu_case_cmn (ops : mem_ops) (rd rm : Nat) (s : Cpu) (hrd : rd < 8)
    (hrm : rm < 8) (hr : regs32 s) :
    ∃ sT sA, cpu_thumb_instruction ops (thumb_alu_insn 11 rd rm) s = some sT
      ∧ cpu_interpret_instruction (arm_body (arm_ext ops)) (thumb_alu_arm_insn 11 rd rm) s
          = some sA
      ∧ sT.arm.reg rd = sA.arm.reg rd ∧ sT.arm.cpsr_n = sA.arm.cpsr_n
      ∧ sT.arm.cpsr_z = sA.arm.cpsr_z ∧ sT.arm.cpsr_c = sA.arm.cpsr_c
      ∧ sT.arm.cpsr_v = sA.arm.cpsr_v := by
  obtain ⟨f1, f2, f3, f4, f5⟩ := thumb_alu_fields 11 rd rm (by decide) hrd hrm
  obtain ⟨sT, hT, v1, v2, v3, v4, v5⟩ := thumb_alu_view ops 11 rd rm s (by decide) hrd hrm
  have hd32 : s.arm.reg rd % 2 ^ 32 = s.arm.reg rd := Nat.mod_eq_of_lt (hr rd (by omega))
  have hm32 : s.arm.reg rm % 2 ^ 32 = s.arm.reg rm := Nat.mod_eq_of_lt (hr rm (by omega))
  have hg : get_reg_pc rd s = s.arm.reg rd := by
    unfold get_reg_pc; rw [if_neg (by omega), Nat.add_zero, hd32]
  have hg0 : get_reg_pc 0 s = s.arm.reg 0 := by
    unfold get_reg_pc; rw [if_neg (by omega), Nat.add_zero, Nat.mod_eq_of_lt (hr 0 (by omega))]
  have e : thumb_alu_arm_insn 11 rd rm
      = 0xE0100000 + 11 * 0x200000 + rd * 65536 + 0 * 4096 + rm :=
    (or_fields_b 0xE1700000 rd rm (by decide) (by omega) (by omega)).trans (by omega)
  have hA := dp_reg_fields (arm_ext ops) _ 11 rd 0 rm s (by decide) (by omega) (by omega)
    (by omega) e
  rw [hg, hm32] at hA
  simp only [thumb_alu_op, f3, f4, f5] at v1 v2 v3 v4 v5
  simp [data_processing_alu] at hA v1 v2 v3 v4 v5
  refine ⟨sT, _, hT, hA, ?_⟩
  simp [set_nz_flags, set_reg_pc, set_elem, v1, v2, v3, v4, v5, add]

theorem thumb_alu_case_orr (ops : mem_ops) (rd rm : Nat) (s : Cpu) (hrd : rd < 8)
    (hrm : rm < 8) (hr : regs32 s) :
    ∃ sT sA, cpu_thumb_instruction ops (thumb_alu_insn 12 rd rm) s = some sT
      ∧ cpu_interpret_instruction (arm_body (arm_ext ops)) (thumb_alu_arm_insn 12 rd rm) s
          = some sA
      ∧ sT.arm.reg rd = sA.arm.reg rd ∧ sT.arm.cpsr_n = sA.arm.cpsr_n
      ∧ sT.arm.cpsr_z = sA.arm.cpsr_z ∧ sT.arm.cpsr_c = sA.arm.cpsr_c
      ∧ sT.arm.cpsr_v = sA.arm.cpsr_v := by
  obtain ⟨f1, f2, f3, f4, f5⟩ := thumb_alu_fields 12 rd rm (by decide) hrd hrm
  obtain ⟨sT, hT, v1, v2, v3, v4, v5⟩ := thumb_alu_view ops 12 rd rm s (by decide) hrd hrm
  have hd32 : s.arm.reg rd % 2 ^ 32 = s.arm.reg rd := Nat.mod_eq_of_lt (hr rd (by omega))
  have hm32 : s.arm.reg rm % 2 ^ 32 = s.arm.reg rm := Nat.mod_eq_of_lt (hr rm (by omega))
  have hg : get_reg_pc rd s = s.arm.reg rd := by
    unfold get_reg_pc; rw [if_neg (by omega), Nat.add_zero, hd32]
  have hg0 : get_reg_pc 0 s = s.arm.reg 0 := by
    unfold get_reg_pc; rw [if_neg (by omega), Nat.add_zero, Nat.mod_eq_of_lt (hr 0 (by omega))]
  have e : thumb_alu_arm_insn 12 rd rm
      = 0xE0100000 + 12 * 0x200000 + rd * 65536 + rd * 4096 + rm :=
    (or_fields_a 0xE1900000 rd rd rm (by decide) (by omega) (by omega) (by omega)).trans (by omega)
  have hA := dp_reg_fields (arm_ext ops) _ 12 rd rd rm s (by decide) (by omega) (by omega)
    (by omega) e
  rw [hg, hm32] at hA
  simp only [thumb_alu_op, f3, f4, f5] at v1 v2 v3 v4 v5
  simp [data_processing_alu] at hA v1 v2 v3 v4 v5
  refine ⟨sT, _, hT, hA, ?_⟩
  simp [set_nz_flags, set_reg_pc, set_elem, v1, v2, v3, v4, v5, add]

theorem thumb_alu_case_mul (ops : mem_ops) (rd rm : Nat) (s : Cpu) (hrd : rd < 8)
    (hrm : rm < 8) (hr : regs32 s) :
    ∃ sT sA, cpu_thumb_instruction ops (thumb_alu_insn 13 rd rm) s = some sT
      ∧ cpu_interpret_instruction (arm_body (arm_ext ops)) (thumb_alu_arm_insn 13 rd rm) s
          = some sA
      ∧ sT.arm.reg rd = sA.arm.reg rd ∧ sT.arm.cpsr_n = sA.arm.cpsr_n
      ∧ sT.arm.cpsr_z = sA.arm.cpsr_z ∧ sT.arm.cpsr_c = sA.arm.cpsr_c
      ∧ sT.arm.cpsr_v = sA.arm.cpsr_v := by
  obtain ⟨f1, f2, f3, f4, f5⟩ := thumb_alu_fields 13 rd rm (by decide) hrd hrm
  obtain ⟨sT, hT, v1, v2, v3, v4, v5⟩ := thumb_alu_view ops 13 rd rm s (by decide) hrd hrm
  have hd32 : s.arm.reg rd % 2 ^ 32 = s.arm.reg rd := Nat.mod_eq_of_lt (hr rd (by omega))
  have hm32 : s.arm.reg rm % 2 ^ 32 = s.arm.reg rm := Nat.mod_eq_of_lt (hr rm (by omega))
  have hg : get_reg_pc rd s = s.arm.reg rd := by
    unfold get_reg_pc; rw [if_neg (by omega), Nat.add_zero, hd32]
  have hg0 : get_reg_pc 0 s = s.arm.reg 0 := by
    unfold get_reg_pc; rw [if_neg (by omega), Nat.add_zero, Nat.mod_eq_of_lt (hr 0 (by omega))]
  have e : thumb_alu_arm_insn 13 rd rm = 0xE0100090 + rd * 65536 + rd * 256 + rm :=
    or_fields_mul rd rm hrd hrm
  have hA := interpret_muls ops _ rd rm rd s (by omega) (by omega) (by omega) e
  rw [Nat.mul_comm (s.arm.reg rm)] at hA
  simp only [thumb_alu_op, f3, f4, f5] at v1 v2 v3 v4 v5
  simp at v1 v2 v3 v4 v5
  refine ⟨sT, _, hT, hA, ?_⟩
  simp [set_nz_flags, set_reg_pc, set_elem, v1, v2, v3, v4, v5]

theorem thumb_alu_case_bic (ops : mem_ops) (rd rm : Nat) (s : Cpu) (hrd : rd < 8)
    (hrm : rm < 8) (hr : regs32 s) :
    ∃ sT sA, cpu_thumb_instruction ops (thumb_alu_insn 14 rd rm) s = some sT
      ∧ cpu_interpret_instruction (arm_body (arm_ext ops)) (thumb_alu_arm_insn 14 rd rm) s
          = some sA
      ∧ sT.arm.reg rd = sA.arm.reg rd ∧ sT.arm.cpsr_n = sA.arm.cpsr_n
      ∧ sT.arm.cpsr_z = sA.arm.cpsr_z ∧ sT.arm.cpsr_c = sA.arm.cpsr_c
      ∧ sT.arm.cpsr_v = sA.arm.cpsr_v := by
  obtain ⟨f1, f2, f3, f4, f5⟩ := thumb_alu_fields 14 rd rm (by decide) hrd hrm
  obtain ⟨sT, hT, v1, v2, v3, v4, v5⟩ := thumb_alu_view ops 14 rd rm s (by decide) hrd hrm
  have hd32 : s.arm.reg rd % 2 ^ 32 = s.arm.reg rd := Nat.mod_eq_of_lt (hr rd (by omega))
  have hm32 : s.arm.reg rm % 2 ^ 32 = s.arm.reg rm := Nat.mod_eq_of_lt (hr rm (by omega))
  have hg : get_reg_pc rd s = s.arm.reg rd := by
    unfold get_reg_pc; rw [if_neg (by omega), Nat.add_zero, hd32]
  have hg0 : get_reg_pc 0 s = s.arm.reg 0 := by
    unfold get_reg_pc; rw [if_neg (by omega), Nat.add_zero, Nat.mod_eq_of_lt (hr 0 (by omega))]
  have e : thumb_alu_arm_insn 14 rd rm
      = 0xE0100000 + 14 * 0x200000 + rd * 65536 + rd * 4096 + rm :=
    (or_fields_a 0xE1D00000 rd rd rm (by decide) (by omega) (by omega) (by omega)).trans (by omega)
  have hA := dp_reg_fields (arm_ext ops) _ 14 rd rd rm s (by decide) (by omega) (by omega)
    (by omega) e
  rw [hg, hm32] at hA
  simp only [thumb_alu_op, f3, f4, f5] at v1 v2 v3 v4 v5
  simp [data_processing_alu] at hA v1 v2 v3 v4 v5
  refine ⟨sT, _, hT, hA, ?_⟩
  simp [set_nz_flags, set_reg_pc, set_elem, v1, v2, v3, v4, v5, add]

theorem thumb_alu_case_mvn (ops : mem_ops) (rd rm : Nat) (s : Cpu) (hrd : rd < 8)
    (hrm : rm < 8) (hr : regs32 s) :
    ∃ sT sA, cpu_thumb_instruction ops (thumb_alu_insn 15 rd rm) s = some sT
      ∧ cpu_interpret_instruction (arm_body (arm_ext ops)) (thumb_alu_arm_insn 15 rd rm) s
          = some sA
      ∧ sT.arm.reg rd = sA.arm.reg rd ∧ sT.arm.cpsr_n = sA.arm.cpsr_n
      ∧ sT.arm.cpsr_z = sA.arm.cpsr_z ∧ sT.arm.cpsr_c = sA.arm.cpsr_c
      ∧ sT.arm.cpsr_v = sA.arm.cpsr_v := by
  obtain ⟨f1, f2, f3, f4, f5⟩ := thumb_alu_fields 15 rd rm (by decide) hrd hrm
  obtain ⟨sT, hT, v1, v2, v3, v4, v5⟩ := thumb_alu_view ops 15 rd rm s (by decide) hrd hrm
  have hd32 : s.arm.reg rd % 2 ^ 32 = s.arm.reg rd := Nat.mod_eq_of_lt (hr rd (by omega))
  have hm32 : s.arm.reg rm % 2 ^ 32 = s.arm.reg rm := Nat.mod_eq_of_lt (hr rm (by omega))
  have hg : get_reg_pc rd s = s.arm.reg rd := by
    unfold get_reg_pc; rw [if_neg (by omega), Nat.add_zero, hd32]
  have hg0 : get_reg_pc 0 s = s.arm.reg 0 := by
    unfold get_reg_pc; rw [if_neg (by omega), Nat.add_zero, Nat.mod_eq_of_lt (hr 0 (by omega))]
  have e : thumb_alu_arm_insn 15 rd rm
      = 0xE0100000 + 15 * 0x200000 + 0 * 65536 + rd * 4096 + rm :=
    (or_fields_c 0xE1F00000 rd rm (by decide) (by omega) (by omega)).trans (by omega)
  have hA := dp_reg_fields (arm_ext ops) _ 15 0 rd rm s (by decide) (by omega) (by omega)
    (by omega) e
  rw [hg0, hm32] at hA
  simp only [thumb_alu_op, f3, f4, f5] at v1 v2 v3 v4 v5
  simp [data_processing_alu] at hA v1 v2 v3 v4 v5
  refine ⟨sT, _, hT, hA, ?_⟩
  simp [set_nz_flags, set_reg_pc, set_elem, v1, v2, v3, v4, v5, add]

/-- Claim C33: for each of the 16 THUMB ALU operations `op` (AND, EOR, LSL, LSR, ASR, ADC, SBC,
ROR, TST, NEG, CMP, CMN, ORR, MUL, BIC, MVN) on low registers `Rd`, `Rm` and every state whose
registers hold 32-bit words, the THUMB instruction and the corresponding flag-setting ARM
instruction (ANDS Rd,Rd,Rm; EORS; MOVS Rd,Rd,<shift> Rm; ADCS; SBCS; TST Rd,Rm; RSBS Rd,Rm,#0;
CMP; CMN; ORRS; MULS Rd,Rm,Rd; BICS; MVNS Rd,Rm) both return, with the same `Rd` and the
same N, Z, C and V. -/
theorem thumb_alu_matches_arm (ops : mem_ops) (op rd rm : Nat) (s : Cpu) (hop : op < 16)
    (hrd : rd < 8) (hrm : rm < 8) (hr : regs32 s) :
    ∃ sT sA, cpu_thumb_instruction ops (thumb_alu_insn op rd rm) s = some sT
      ∧ cpu_interpret_instruction (arm_body (arm_ext ops)) (thumb_alu_arm_insn op rd rm) s
          = some sA
      ∧ sT.arm.reg rd = sA.arm.reg rd ∧ sT.arm.cpsr_n = sA.arm.cpsr_n
      ∧ sT.arm.cpsr_z = sA.arm.cpsr_z ∧ sT.arm.cpsr_c = sA.arm.cpsr_c
      ∧ sT.arm.cpsr_v = sA.arm.cpsr_v := by
  interval_cases op
  · exact thumb_alu_case_and ops rd rm s hrd hrm hr
  · exact thumb_alu_case_eor ops rd rm s hrd hrm hr
  · exact thumb_alu_case_lsl ops rd rm s hrd hrm hr
  · exact thumb_alu_case_lsr ops rd rm s hrd hrm hr
  · exact thumb_alu_case_asr ops rd rm s hrd hrm hr
  · exact thumb_alu_case_adc ops rd rm s hrd hrm hr
  · exact thumb_alu_case_sbc ops rd rm s hrd hrm hr
  · exact thumb_alu_case_ror ops rd rm s hrd hrm hr
  · exact thumb_alu_case_tst ops rd rm s hrd hrm hr
  · exact thumb_alu_case_neg ops rd rm s hrd hrm hr
  · exact thumb_alu_case_cmp ops rd rm s hrd hrm hr
  · exact thumb_alu_case_cmn ops rd rm s hrd hrm hr
  · exact thumb_alu_case_orr ops rd rm s hrd hrm hr
  · exact thumb_alu_case_mul ops rd rm s hrd hrm hr
  · exact thumb_alu_case_bic ops rd rm s hrd hrm hr
  · exact thumb_alu_case_mvn ops rd rm s hrd hrm hr

/-! ## Saturated arithmetic: QADD, QSUB, QDADD, QDSUB -/

/-- a field of width `w` at position `k` is invisible to a mask that is clear there -/
theorem or_field_and (A f k w M : Nat) (hf : f < 2 ^ w) (hM : (M >>> k) % 2 ^ w = 0) :
    (A ||| f <<< k) &&& M = A &&& M := by
  rw [Nat.and_distrib_right]
  have h0 : f <<< k &&& M = 0 := by
    apply Nat.eq_of_testBit_eq
    intro i
    rw [Nat.testBit_and, Nat.testBit_shiftLeft, Nat.zero_testBit]
    by_cases hik : k ≤ i
    · by_cases hw : i - k < w
      · have h1 : ((M >>> k) % 2 ^ w).testBit (i - k) = false := by
          rw [hM]; exact Nat.zero_testBit _
        rw [Nat.testBit_mod_two_pow, Nat.testBit_shiftRight] at h1
        have e : k + (i - k) = i := by omega
        rw [e] at h1
        simp only [hw, decide_True, Bool.true_and] at h1
        simp [h1]
      · have h2 : f.testBit (i - k) = false :=
          Nat.testBit_lt_two_pow (lt_of_lt_of_le hf (Nat.pow_le_pow_right (by decide) (by omega)))
        simp [h2]
    · simp [hik]
  rw [h0, Nat.or_zero]

/-- a mask that is clear in the four register and operation fields sees only the fixed bits
of a QADD-family instruction -/
theorem qadd_and (op rn rd rm M : Nat) (hop : op < 4) (hrn : rn < 16) (hrd : rd < 16)
    (hrm : rm < 16) (h21 : (M >>> 21) % 2 ^ 2 = 0) (h16 : (M >>> 16) % 2 ^ 4 = 0)
    (h12 : (M >>> 12) % 2 ^ 4 = 0) (h0 : M % 2 ^ 4 = 0) :
    qadd_insn op rn rd rm &&& M = 0xE1000050 &&& M := by
  unfold qadd_insn
  rw [or_low_and_high _ rm M 4 hrm h0, or_field_and _ rd 12 4 M hrd h12,
    or_field_and _ rn 16 4 M hrn h16, or_field_and _ op 21 2 M hop h21]

theorem or_right_comm3 (a b c : Nat) : (a ||| b) ||| c = (a ||| c) ||| b := by
  apply Nat.eq_of_testBit_eq
  intro i
  simp only [Nat.testBit_or]
  cases a.testBit i <;> cases b.testBit i <;> cases c.testBit i <;> rfl

theorem qadd_sum (op rn rd rm : Nat) (hop : op < 4) (hrn : rn < 16) (hrd : rd < 16)
    (hrm : rm < 16) :
    qadd_insn op rn rd rm = 0xE1000050 + op * 0x200000 + rn * 65536 + rd * 4096 + rm := by
  unfold qadd_insn
  have e : (0xE1000050 : Nat) = 0xE1000000 ||| 0x50 := by decide
  rw [e, or_right_comm3 _ 0x50, or_right_comm3 _ 0x50, or_right_comm3 _ 0x50]
  simp only [Nat.shiftLeft_eq]
  rw [or_eq_add 0xE1000000 (op * 2 ^ 21) 23 (by decide) (by omega),
    or_eq_add _ (rn * 2 ^ 16) 20 (by omega) (by omega),
    or_eq_add _ (rd * 2 ^ 12) 16 (by omega) (by omega),
    or_eq_add _ 0x50 12 (by omega) (by omega),
    or_eq_add _ rm 4 (by omega) (by omega)]
  omega

/-- decode of the QADD family: the saturated-arithmetic branch of "Miscellaneous", with the
fields of the instruction replaced by the register numbers and the operation -/
theorem interpret_qadd (ops : mem_ops) (op rn rd rm : Nat) (s : Cpu) (hop : op < 4)
    (hrn : rn < 15) (hrd : rd < 15) (hrm : rm < 15) (D : Nat × Cpu)
    (hD : D = if 2 ≤ op then
        (if ADD_OVERFLOW (s.arm.reg rn) (s.arm.reg rn) ((s.arm.reg rn <<< 1) % 2 ^ 32) ≠ 0 then
          (if 2 ^ 31 ≤ (s.arm.reg rn <<< 1) % 2 ^ 32 then 0x7FFFFFFF else 0x80000000,
            { s with arm := { s.arm with cpsr_low28 := s.arm.cpsr_low28 ||| 1 <<< 27 } })
         else ((s.arm.reg rn <<< 1) % 2 ^ 32, s))
      else (s.arm.reg rn, s))
    (res : Nat)
    (hres : res = if ¬ op % 2 = 1 then (s.arm.reg rm + D.1) % 2 ^ 32
      else (s.arm.reg rm + (2 ^ 32 - D.1 % 2 ^ 32)) % 2 ^ 32)
    (ov : Nat)
    (hov : ov = if ¬ op % 2 = 1 then ADD_OVERFLOW (s.arm.reg rm) D.1 res
      else SUB_OVERFLOW (s.arm.reg rm) D.1 res) :
    cpu_interpret_instruction (arm_body (arm_ext ops)) (qadd_insn op rn rd rm) s
      = if ov ≠ 0 then
          set_reg rd (if 2 ^ 31 ≤ res then 0x7FFFFFFF else 0x80000000)
            { D.2 with arm := { D.2.arm with cpsr_low28 := D.2.arm.cpsr_low28 ||| 1 <<< 27 } }
        else set_reg rd res D.2 := by
  have hsum := qadd_sum op rn rd rm hop (by omega) (by omega) (by omega)
  have hm := fun M h21 h16 h12 h0 =>
    qadd_and op rn rd rm M hop (by omega) (by omega) (by omega) h21 h16 h12 h0
  have e7 : qadd_insn op rn rd rm &&& 0x80 = 0 :=
    (hm 0x80 (by decide) (by decide) (by decide) (by decide)).trans (by decide)
  have e6 : qadd_insn op rn rd rm &&& 0x40 = 0x40 :=
    (hm 0x40 (by decide) (by decide) (by decide) (by decide)).trans (by decide)
  have e25 : qadd_insn op rn rd rm &&& 0x2000000 = 0 :=
    (hm 0x2000000 (by decide) (by decide) (by decide) (by decide)).trans (by decide)
  have hmisc : qadd_insn op rn rd rm &&& 0xD900000 = 0x1000000 :=
    (hm 0xD900000 (by decide) (by decide) (by decide) (by decide)).trans (by decide)
  have hq : qadd_insn op rn rd rm &&& 0xF900FF0 = 0x1000050 :=
    (hm 0xF900FF0 (by decide) (by decide) (by decide) (by decide)).trans (by decide)
  have hc : qadd_insn op rn rd rm >>> 28 = 14 := by
    rw [hsum, Nat.shiftRight_eq_div_pow]; omega
  have f0 : qadd_insn op rn rd rm &&& 15 = rm := by rw [hsum, and_15]; omega
  have f16 : qadd_insn op rn rd rm >>> 16 &&& 15 = rn := by
    rw [hsum, and_15, Nat.shiftRight_eq_div_pow]; omega
  have f12 : qadd_insn op rn rd rm >>> 12 &&& 15 = rd := by
    rw [hsum, and_15, Nat.shiftRight_eq_div_pow]; omega
  have c22 : (qadd_insn op rn rd rm &&& 0x400000 ≠ 0) = (2 ≤ op) := by
    apply propext
    rw [show (0x400000 : Nat) = 1 <<< 22 from rfl, and_bit_ne_zero_iff, hsum,
      Nat.shiftRight_eq_div_pow, Nat.and_one_is_mod]
    omega
  have c21 : (qadd_insn op rn rd rm &&& 0x200000 ≠ 0) = (op % 2 = 1) := by
    apply propext
    rw [show (0x200000 : Nat) = 1 <<< 21 from rfl, and_bit_ne_zero_iff, hsum,
      Nat.shiftRight_eq_div_pow, Nat.and_one_is_mod]
    omega
  generalize qadd_insn op rn rd rm = insn at *
  obtain ⟨c1, c2⟩ := cond_al _ s.arm hc
  have hmul : insn &&& 0xE000090 ≠ 0x90 := and_ne_of_sub _ _ _ 0x80 0 e7 (by decide) (by decide)
  have hbx : insn &&& 0xFFFFFD0 ≠ 0x12FFF10 :=
    and_ne_of_sub _ _ _ 0x40 0x40 e6 (by decide) (by decide)
  have hmrs : insn &&& 0xFBF0FFF ≠ 0x10F0000 :=
    and_ne_of_sub _ _ _ 0x40 0x40 e6 (by decide) (by decide)
  have hmsr1 : insn &&& 0xFB0FFF0 ≠ 0x120F000 :=
    and_ne_of_sub _ _ _ 0x40 0x40 e6 (by decide) (by decide)
  have hmsr2 : insn &&& 0xFB0F000 ≠ 0x320F000 :=
    and_ne_of_sub _ _ _ 0x2000000 0 e25 (by decide) (by decide)
  have hsm : insn &&& 0xF900090 ≠ 0x1000080 :=
    and_ne_of_sub _ _ _ 0x80 0 e7 (by decide) (by decide)
  have hrm15 : ¬ rm = 15 := by omega
  have hrn15 : ¬ rn = 15 := by omega
  subst hov hres hD
  simp only [cpu_interpret_instruction, if_neg c1, if_neg c2, if_neg hmul, hmisc, if_true,
    arm_body, arm_miscellaneous, if_neg hbx, if_neg hmrs, hmsr1, hmsr2, or_self, if_false,
    arm_ext, arm_misc_rest, if_neg hsm, hq, f0, f16, f12, get_reg, if_neg hrm15, if_neg hrn15,
    Option.some_bind, c22, c21]

/-- the sign bit of `(a ^ b) & (c ^ d)` -/
theorem xor_and_xor_sign (a b c d : Nat) (ha : a < 2 ^ 32) (hb : b < 2 ^ 32) (hc : c < 2 ^ 32)
    (hd : d < 2 ^ 32) :
    2 ^ 31 ≤ ((a ^^^ b) &&& (c ^^^ d)) % 2 ^ 32
      ↔ ¬ (2 ^ 31 ≤ a ↔ 2 ^ 31 ≤ b) ∧ ¬ (2 ^ 31 ≤ c ↔ 2 ^ 31 ≤ d) := by
  have hx : (a ^^^ b) &&& (c ^^^ d) < 2 ^ 32 :=
    Nat.and_lt_two_pow _ (Nat.xor_lt_two_pow hc hd)
  rw [Nat.mod_eq_of_lt hx]
  have hbit := testBit31 _ hx
  rw [Nat.testBit_and, Nat.testBit_xor, Nat.testBit_xor, testBit31 a ha, testBit31 b hb,
    testBit31 c hc, testBit31 d hd] at hbit
  by_cases h1 : 2147483648 ≤ a <;> by_cases h2 : 2147483648 ≤ b <;>
    by_cases h3 : 2147483648 ≤ c <;> by_cases h4 : 2147483648 ≤ d <;>
    simp [h1, h2, h3, h4] at hbit <;> omega

theorem sint32_max : sint32 0x7FFFFFFF = 2 ^ 31 - 1 := by decide

theorem sint32_min : sint32 0x80000000 = -(2 ^ 31) := by decide

theorem sint32_cases (x : Nat) (hx : x < 2 ^ 32) :
    (x < 2 ^ 31 ∧ sint32 x = x) ∨ (2 ^ 31 ≤ x ∧ sint32 x = (x : Int) - 2 ^ 32) := by
  rw [sint32_eq x hx]
  split_ifs <;> omega

theorem sat32_cases (z : Int) :
    (z < -(2 ^ 31) ∧ sat32 z = -(2 ^ 31)) ∨ (-(2 ^ 31) ≤ z ∧ z ≤ 2 ^ 31 - 1 ∧ sat32 z = z)
      ∨ (2 ^ 31 - 1 < z ∧ sat32 z = 2 ^ 31 - 1) := by
  simp only [sat32, min_def, max_def]
  split_ifs <;> omega

/-- the saturating addition of the QADD family: the overflow test fires iff the exact signed
sum is out of range, and the value written is the saturated sum -/
theorem add_saturates (x y : Nat) (hx : x < 2 ^ 32) (hy : y < 2 ^ 32) :
    (ADD_OVERFLOW x y ((x + y) % 2 ^ 32) ≠ 0
      ↔ sat32 (sint32 x + sint32 y) ≠ sint32 x + sint32 y)
    ∧ sint32 (if ADD_OVERFLOW x y ((x + y) % 2 ^ 32) ≠ 0 then
        (if 2 ^ 31 ≤ (x + y) % 2 ^ 32 then 0x7FFFFFFF else 0x80000000)
        else (x + y) % 2 ^ 32) = sat32 (sint32 x + sint32 y)
    ∧ (if ADD_OVERFLOW x y ((x + y) % 2 ^ 32) ≠ 0 then
        (if 2 ^ 31 ≤ (x + y) % 2 ^ 32 then 0x7FFFFFFF else 0x80000000)
        else (x + y) % 2 ^ 32) < 2 ^ 32 := by
  have hr : (x + y) % 2 ^ 32 < 2 ^ 32 := Nat.mod_lt _ (by decide)
  have hs := xor_and_xor_sign x ((x + y) % 2 ^ 32) y ((x + y) % 2 ^ 32) hx hr hy hr
  have ho : ADD_OVERFLOW x y ((x + y) % 2 ^ 32) ≠ 0
      ↔ ¬ (2 ^ 31 ≤ x ↔ 2 ^ 31 ≤ (x + y) % 2 ^ 32) ∧ ¬ (2 ^ 31 ≤ y ↔ 2 ^ 31 ≤ (x + y) % 2 ^ 32) := by
    rw [← hs]; unfold ADD_OVERFLOW
    split_ifs with h
    · exact ⟨fun _ => h, fun _ => by decide⟩
    · exact ⟨fun h1 => absurd rfl h1, fun h1 => absurd h1 h⟩
  clear hs
  have ex := sint32_cases x hx
  have ey := sint32_cases y hy
  have er := sint32_cases _ hr
  have es := sat32_cases (sint32 x + sint32 y)
  by_cases hov : ADD_OVERFLOW x y ((x + y) % 2 ^ 32) ≠ 0
  · rw [if_pos hov]
    have hov2 := ho.1 hov
    refine ⟨⟨fun _ => ?_, fun _ => hov⟩, ?_, ?_⟩
    · omega
    · by_cases hn : 2 ^ 31 ≤ (x + y) % 2 ^ 32
      · rw [if_pos hn, sint32_max]; omega
      · rw [if_neg hn, sint32_min]; omega
    · split_ifs <;> decide
  · rw [if_neg hov]
    have hov2 := fun h => hov (ho.2 h)
    refine ⟨⟨fun h => absurd h hov, fun h => ?_⟩, ?_, hr⟩
    · exfalso; omega
    · omega

/-- the saturating subtraction of the QADD family -/
theorem sub_saturates (x y : Nat) (hx : x < 2 ^ 32) (hy : y < 2 ^ 32) :
    (SUB_OVERFLOW x y ((x + (2 ^ 32 - y % 2 ^ 32)) % 2 ^ 32) ≠ 0
      ↔ sat32 (sint32 x - sint32 y) ≠ sint32 x - sint32 y)
    ∧ sint32 (if SUB_OVERFLOW x y ((x + (2 ^ 32 - y % 2 ^ 32)) % 2 ^ 32) ≠ 0 then
        (if 2 ^ 31 ≤ (x + (2 ^ 32 - y % 2 ^ 32)) % 2 ^ 32 then 0x7FFFFFFF else 0x80000000)
        else (x + (2 ^ 32 - y % 2 ^ 32)) % 2 ^ 32) = sat32 (sint32 x - sint32 y)
    ∧ (if SUB_OVERFLOW x y ((x + (2 ^ 32 - y % 2 ^ 32)) % 2 ^ 32) ≠ 0 then
        (if 2 ^ 31 ≤ (x + (2 ^ 32 - y % 2 ^ 32)) % 2 ^ 32 then 0x7FFFFFFF else 0x80000000)
        else (x + (2 ^ 32 - y % 2 ^ 32)) % 2 ^ 32) < 2 ^ 32 := by
  have hr : (x + (2 ^ 32 - y % 2 ^ 32)) % 2 ^ 32 < 2 ^ 32 := Nat.mod_lt _ (by decide)
  have hs := xor_and_xor_sign x y x ((x + (2 ^ 32 - y % 2 ^ 32)) % 2 ^ 32) hx hy hx hr
  have ho : SUB_OVERFLOW x y ((x + (2 ^ 32 - y % 2 ^ 32)) % 2 ^ 32) ≠ 0
      ↔ ¬ (2 ^ 31 ≤ x ↔ 2 ^ 31 ≤ y) ∧ ¬ (2 ^ 31 ≤ x ↔ 2 ^ 31 ≤ (x + (2 ^ 32 - y % 2 ^ 32)) % 2 ^ 32) := by
    rw [← hs]; unfold SUB_OVERFLOW
    split_ifs with h
    · exact ⟨fun _ => h, fun _ => by decide⟩
    · exact ⟨fun h1 => absurd rfl h1, fun h1 => absurd h1 h⟩
  clear hs
  have ex := sint32_cases x hx
  have ey := sint32_cases y hy
  have er := sint32_cases _ hr
  have es := sat32_cases (sint32 x - sint32 y)
  by_cases hov : SUB_OVERFLOW x y ((x + (2 ^ 32 - y % 2 ^ 32)) % 2 ^ 32) ≠ 0
  · rw [if_pos hov]
    have hov2 := ho.1 hov
    refine ⟨⟨fun _ => ?_, fun _ => hov⟩, ?_, ?_⟩
    · omega
    · by_cases hn : 2 ^ 31 ≤ (x + (2 ^ 32 - y % 2 ^ 32)) % 2 ^ 32
      · rw [if_pos hn, sint32_max]; omega
      · rw [if_neg hn, sint32_min]; omega
    · split_ifs <;> decide
  · rw [if_neg hov]
    have hov2 := fun h => hov (ho.2 h)
    refine ⟨⟨fun h => absurd h hov, fun h => ?_⟩, ?_, hr⟩
    · exfalso; omega
    · omega

/-- the last step of the QADD family: the write to `Rd`, with the Q flag on overflow -/
theorem qadd_finish (rd ov v1 v2 : Nat) (t : Cpu) (hrd : ¬ rd = 15) :
    ∃ u, (if ov ≠ 0 then
            set_reg rd v1
              { t with arm := { t.arm with cpsr_low28 := t.arm.cpsr_low28 ||| 1 <<< 27 } }
          else set_reg rd v2 t) = some u
      ∧ u.arm.reg rd = (if ov ≠ 0 then v1 else v2)
      ∧ u.arm.cpsr_low28 = t.arm.cpsr_low28 ||| (if ov ≠ 0 then 1 <<< 27 else 0)
      ∧ (∀ i, i ≠ rd → u.arm.reg i = t.arm.reg i)
      ∧ u.arm.cpsr_n = t.arm.cpsr_n ∧ u.arm.cpsr_z = t.arm.cpsr_z
      ∧ u.arm.cpsr_c = t.arm.cpsr_c ∧ u.arm.cpsr_v = t.arm.cpsr_v := by
  by_cases h : ov ≠ 0
  · rw [if_pos h, if_pos h, if_pos h, set_reg, if_neg hrd]
    refine ⟨_, rfl, ?_, rfl, ?_, rfl, rfl, rfl, rfl⟩
    · simp [set_elem]
    · intro i hi; simp [set_elem, hi]
  · rw [if_neg h, if_neg h, if_neg h, set_reg, if_neg hrd]
    refine ⟨_, rfl, ?_, ?_, ?_, rfl, rfl, rfl, rfl⟩
    · simp [set_elem]
    · simp
    · intro i hi; simp [set_elem, hi]

/-- the doubling step of QDADD and QDSUB -/
theorem qadd_double (op R : Nat) (s : Cpu) (hR : R < 2 ^ 32) (D : Nat × Cpu)
    (hD : D = if 2 ≤ op then
        (if ADD_OVERFLOW R R ((R <<< 1) % 2 ^ 32) ≠ 0 then
          (if 2 ^ 31 ≤ (R <<< 1) % 2 ^ 32 then 0x7FFFFFFF else 0x80000000,
            { s with arm := { s.arm with cpsr_low28 := s.arm.cpsr_low28 ||| 1 <<< 27 } })
         else ((R <<< 1) % 2 ^ 32, s))
      else (R, s)) :
    sint32 D.1 = qadd_operand op (sint32 R) ∧ D.1 < 2 ^ 32
      ∧ D.2.arm.cpsr_low28 = s.arm.cpsr_low28
          ||| (if 2 ≤ op ∧ sat32 (2 * sint32 R) ≠ 2 * sint32 R then 1 <<< 27 else 0)
      ∧ D.2.arm.reg = s.arm.reg
      ∧ D.2.arm.cpsr_n = s.arm.cpsr_n ∧ D.2.arm.cpsr_z = s.arm.cpsr_z
      ∧ D.2.arm.cpsr_c = s.arm.cpsr_c ∧ D.2.arm.cpsr_v = s.arm.cpsr_v := by
  have hdbl : (R <<< 1) % 2 ^ 32 = (R + R) % 2 ^ 32 := by rw [Nat.shiftLeft_eq]; omega
  rw [hdbl] at hD
  obtain ⟨a1, a2, a3⟩ := add_saturates R R hR hR
  have e2 : sint32 R + sint32 R = 2 * sint32 R := by omega
  rw [e2] at a1 a2
  unfold qadd_operand
  by_cases hd : 2 ≤ op
  · have hlt : ¬ op < 2 := by omega
    rw [if_pos hd] at hD
    rw [if_neg hlt]
    by_cases ho : ADD_OVERFLOW R R ((R + R) % 2 ^ 32) ≠ 0
    · rw [if_pos ho] at hD a2 a3
      rw [if_pos ⟨hd, a1.1 ho⟩]
      subst hD
      exact ⟨a2, a3, rfl, rfl, rfl, rfl, rfl, rfl⟩
    · rw [if_neg ho] at hD a2 a3
      rw [if_neg (fun h => ho (a1.2 h.2))]
      subst hD
      exact ⟨a2, a3, (Nat.or_zero _).symm, rfl, rfl, rfl, rfl, rfl⟩
  · have hlt : op < 2 := by omega
    rw [if_neg hd] at hD
    rw [if_pos hlt, if_neg (fun h => hd h.1)]
    subst hD
    exact ⟨rfl, hR, (Nat.or_zero _).symm, rfl, rfl, rfl, rfl, rfl⟩

/-- two conditional settings of the same bits are one -/
theorem q_merge (a q : Nat) (c1 c2 c3 : Prop) [Decidable c1] [Decidable c2] [Decidable c3]
    (h : c3 ↔ c2) :
    (a ||| (if c1 then q else 0)) ||| (if c3 then q else 0)
      = a ||| (if c1 ∨ c2 then q else 0) := by
  by_cases h1 : c1 <;> by_cases h2 : c2 <;>
    simp [h1, h2, h, Nat.or_assoc]

/-- Claim C31: QADD (`op` = 0) writes `sat(Rm + Rn)`, QSUB (1) writes `sat(Rm - Rn)`, QDADD
(2) writes `sat(Rm + sat(2 * Rn))` and QDSUB (3) writes `sat(Rm - sat(2 * Rn))` to `Rd`, the
registers read as signed 32-bit integers and `sat` clamping to `[-2^31, 2^31 - 1]`; bit 27
of `cpsr_low28` (Q) is set iff at least one of the saturations changed its argument, and
`cpsr_low28` is otherwise left as it was; the other registers and the flags N, Z, C, V are
unchanged. -/
theorem qadd_family_saturates (ops : mem_ops) (op rn rd rm : Nat) (s : Cpu) (hop : op < 4)
    (hrn : rn < 15) (hrd : rd < 15) (hrm : rm < 15) (hm : s.arm.reg rm < 2 ^ 32)
    (hn : s.arm.reg rn < 2 ^ 32) :
    ∃ u, cpu_interpret_instruction (arm_body (arm_ext ops)) (qadd_insn op rn rd rm) s = some u
      ∧ sint32 (u.arm.reg rd)
          = sat32 (qadd_exact op (sint32 (s.arm.reg rm)) (sint32 (s.arm.reg rn)))
      ∧ u.arm.reg rd < 2 ^ 32
      ∧ u.arm.cpsr_low28 = s.arm.cpsr_low28
          ||| (if (2 ≤ op ∧ sat32 (2 * sint32 (s.arm.reg rn)) ≠ 2 * sint32 (s.arm.reg rn))
                ∨ sat32 (qadd_exact op (sint32 (s.arm.reg rm)) (sint32 (s.arm.reg rn)))
                    ≠ qadd_exact op (sint32 (s.arm.reg rm)) (sint32 (s.arm.reg rn))
               then 1 <<< 27 else 0)
      ∧ (∀ i, i ≠ rd → u.arm.reg i = s.arm.reg i)
      ∧ u.arm.cpsr_n = s.arm.cpsr_n ∧ u.arm.cpsr_z = s.arm.cpsr_z
      ∧ u.arm.cpsr_c = s.arm.cpsr_c ∧ u.arm.cpsr_v = s.arm.cpsr_v := by
  obtain ⟨D, hD⟩ : ∃ D : Nat × Cpu, D = if 2 ≤ op then
        (if ADD_OVERFLOW (s.arm.reg rn) (s.arm.reg rn) ((s.arm.reg rn <<< 1) % 2 ^ 32) ≠ 0 then
          (if 2 ^ 31 ≤ (s.arm.reg rn <<< 1) % 2 ^ 32 then 0x7FFFFFFF else 0x80000000,
            { s with arm := { s.arm with cpsr_low28 := s.arm.cpsr_low28 ||| 1 <<< 27 } })
         else ((s.arm.reg rn <<< 1) % 2 ^ 32, s))
      else (s.arm.reg rn, s) := ⟨_, rfl⟩
  obtain ⟨d1, d2, d3, d4, d5, d6, d7, d8⟩ := qadd_double op (s.arm.reg rn) s hn D hD
  rw [interpret_qadd ops op rn rd rm s hop hrn hrd hrm D hD _ rfl _ rfl]
  obtain ⟨u, hu, u1, u2, u3, u4, u5, u6, u7⟩ := qadd_finish rd
    (if ¬ op % 2 = 1 then ADD_OVERFLOW (s.arm.reg rm) D.1
        (if ¬ op % 2 = 1 then (s.arm.reg rm + D.1) % 2 ^ 32
          else (s.arm.reg rm + (2 ^ 32 - D.1 % 2 ^ 32)) % 2 ^ 32)
      else SUB_OVERFLOW (s.arm.reg rm) D.1
        (if ¬ op % 2 = 1 then (s.arm.reg rm + D.1) % 2 ^ 32
          else (s.arm.reg rm + (2 ^ 32 - D.1 % 2 ^ 32)) % 2 ^ 32))
    (if 2 ^ 31 ≤ (if ¬ op % 2 = 1 then (s.arm.reg rm + D.1) % 2 ^ 32
          else (s.arm.reg rm + (2 ^ 32 - D.1 % 2 ^ 32)) % 2 ^ 32) then 0x7FFFFFFF
      else 0x80000000)
    (if ¬ op % 2 = 1 then (s.arm.reg rm + D.1) % 2 ^ 32
      else (s.arm.reg rm + (2 ^ 32 - D.1 % 2 ^ 32)) % 2 ^ 32)
    D.2 (by omega)
  refine ⟨u, hu, ?_, ?_, ?_, fun i hi => by rw [u3 i hi, d4], by rw [u4, d5], by rw [u5, d6],
    by rw [u6, d7], by rw [u7, d8]⟩
  all_goals clear hu hD
  all_goals generalize D.1 = R at d1 d2 u1 u2
  all_goals by_cases hs : op % 2 = 1
  · obtain ⟨_, b2, _⟩ := sub_saturates (s.arm.reg rm) R hm d2
    rw [if_neg (not_not.mpr hs), if_neg (not_not.mpr hs)] at u1
    rw [u1, b2, qadd_exact, if_neg (show ¬ op % 2 = 0 by omega), d1]
  · obtain ⟨_, b2, _⟩ := add_saturates (s.arm.reg rm) R hm d2
    rw [if_pos hs, if_pos hs] at u1
    rw [u1, b2, qadd_exact, if_pos (show op % 2 = 0 by omega), d1]
  · obtain ⟨_, _, b3⟩ := sub_saturates (s.arm.reg rm) R hm d2
    rw [if_neg (not_not.mpr hs), if_neg (not_not.mpr hs)] at u1
    rw [u1]; exact b3
  · obtain ⟨_, _, b3⟩ := add_saturates (s.arm.reg rm) R hm d2
    rw [if_pos hs, if_pos hs] at u1
    rw [u1]; exact b3
  · obtain ⟨b1, _, _⟩ := sub_saturates (s.arm.reg rm) R hm d2
    rw [if_neg (not_not.mpr hs), if_neg (not_not.mpr hs)] at u2
    rw [u2, d3, qadd_exact, if_neg (show ¬ op % 2 = 0 by omega), ← d1]
    exact q_merge _ _ _ _ _ b1
  · obtain ⟨b1, _, _⟩ := add_saturates (s.arm.reg rm) R hm d2
    rw [if_pos hs, if_pos hs] at u2
    rw [u2, d3, qadd_exact, if_pos (show op % 2 = 0 by omega), ← d1]
    exact q_merge _ _ _ _ _ b1

/-! ## Exception entry followed by the exception return -/

/-- decode of `MOVS pc, lr`: the data-processing branch with opcode MOV, the S bit and
`Rd` = 15, which ends in `set_cpsr_full(get_spsr())` -/
theorem interpret_movs_pc_lr (ext : arm_class → Nat → Cpu → Option Cpu) (s : Cpu) :
    cpu_interpret_instruction (arm_body ext) 0xE1B0F00E s
      = (get_spsr (set_nz_flags (s.arm.reg 14 % 2 ^ 32)
            (set_reg_pc 15 (s.arm.reg 14 % 2 ^ 32) s))).bind
          (fun sp => set_cpsr_full sp
            (set_nz_flags (s.arm.reg 14 % 2 ^ 32) (set_reg_pc 15 (s.arm.reg 14 % 2 ^ 32) s))) := by
  obtain ⟨c1, c2⟩ := cond_al 0xE1B0F00E s.arm (by decide)
  have h1 : ¬ ((0xE1B0F00E : Nat) &&& 0xE000090 = 0x90) := by decide
  have h2 : ¬ ((0xE1B0F00E : Nat) &&& 0xD900000 = 0x1000000) := by decide
  have h3 : (0xE1B0F00E : Nat) &&& 0xC000000 = 0 := by decide
  have h4 : ¬ ((0xE1B0F00E : Nat) &&& (1 <<< 25) ≠ 0) := by decide
  have h5 : ¬ ((0xE1B0F00E : Nat) &&& (1 <<< 4) ≠ 0) := by decide
  have h6 : (0xE1B0F00E : Nat) >>> 7 &&& 31 = 0 := by decide
  have h7 : (0xE1B0F00E : Nat) >>> 5 &&& 3 = 0 := by decide
  have h8 : (0xE1B0F00E : Nat) >>> 21 &&& 15 = 13 := by decide
  have h9 : (0xE1B0F00E : Nat) >>> 20 &&& 1 = 1 := by decide
  have h10 : (0xE1B0F00E : Nat) >>> 12 &&& 15 = 15 := by decide
  have h11 : (0xE1B0F00E : Nat) &&& 15 = 14 := by decide
  have h12 : ¬ ((13 : Nat) &&& 12 = 8) := by decide
  simp only [cpu_interpret_instruction, if_neg c1, if_neg c2, if_neg h1, if_neg h2, h3, if_true,
    arm_body, arm_data_processing, if_neg h4, get_shifted_reg, if_neg h5, h6, h7, h8, h9, h10,
    h11, Option.some_bind, if_neg h12, get_reg_pc]
  simp [data_processing_alu]

theorem exception_mode_banked (k : Nat) (hk : is_exception k) :
    exception_mode k ≠ MODE_USR ∧ exception_mode k ≠ MODE_SYS := by
  rcases hk with h | h | h | h | h | h | h <;> subst h <;> decide

/-- Claim C34: for every exception kind `k` in {0,1,2,3,4,6,7} and every well-formed state
(single-bit flags, no reserved bit in `cpsr_low28`, 32-bit `reg[15]`) whose mode is valid and
differs from the target mode of `k`, `cpu_exception(k)` returns, `MOVS pc, lr`
(`0xE1B0F00E`) executed next returns, and the state after the two has `reg[0..15]`, the
flags N, Z, C, V and `cpsr_low28` (mode, T, I, F, Q) equal to those before the exception. -/
theorem exception_return_restores (ext : arm_class → Nat → Cpu → Option Cpu) (k : Nat) (s : Cpu)
    (h : well_formed s) (hk : is_exception k)
    (hm : s.arm.cpsr_low28 &&& 0x1F ≠ exception_mode k) (h15 : s.arm.reg 15 < 2 ^ 32) :
    ∃ s1 s2, cpu_exception k s = some s1
      ∧ cpu_interpret_instruction (arm_body ext) 0xE1B0F00E s1 = some s2
      ∧ (∀ i, i < 16 → s2.arm.reg i = s.arm.reg i)
      ∧ s2.arm.cpsr_n = s.arm.cpsr_n ∧ s2.arm.cpsr_z = s.arm.cpsr_z
      ∧ s2.arm.cpsr_c = s.arm.cpsr_c ∧ s2.arm.cpsr_v = s.arm.cpsr_v
      ∧ s2.arm.cpsr_low28 = s.arm.cpsr_low28 := by
  obtain ⟨hw, hv⟩ := h
  obtain ⟨F, slot, hfl, hF1, hF2, hmd, hslot, hF, -, -, -, -, -⟩ := exception_cases k hk
  obtain ⟨hnu, hns⟩ := exception_mode_banked k hk
  have hJ := get_cpsr_J s hw
  obtain ⟨f1, f2, f3, f4⟩ := get_cpsr_flags s hw
  have f5 : get_cpsr s &&& 0x090000FF = s.arm.cpsr_low28 := by
    rw [get_cpsr_and s hw _ (by decide), low28_and _ _ hw.2.2.2.2]
    exact hw.2.2.2.2
  have f6 := get_cpsr_mode s hw
  have cm : ((get_cpsr s &&& not32 0x3F) ||| F) &&& 0x1F = exception_mode k := by
    rw [or_and_mask _ _ _ _ 0 (exception_mode k) rfl hF1, Nat.and_zero, Nat.zero_or]
  have cJ : ((get_cpsr s &&& not32 0x3F) ||| F) &&& 0x01000000 = 0 := by
    rw [or_and_mask _ _ _ _ 0x01000000 0 rfl hF2, hJ]; rfl
  obtain ⟨s1, e1, l1, -, -, -, -, -, -, r1, b8, b13⟩ :=
    set_cpsr_full_spec _ s cJ hv (by rw [cm]; exact hmd)
  rw [cm] at r1 b8 b13
  have l1m : s1.arm.cpsr_low28 &&& 0x1F = exception_mode k := by
    rw [l1, Nat.and_assoc, show (0x090000FF &&& 0x1F : Nat) = 0x1F from rfl, cm]
  have hp : ptr_spsr s1 = some slot := by rw [ptr_spsr, l1m, hslot]
  obtain ⟨sE, hE, eL, eR, e8, e13, eS⟩ : ∃ sE, cpu_exception k s = some sE
      ∧ sE.arm.cpsr_low28 = s1.arm.cpsr_low28
      ∧ (∀ i, i ≠ 15 → sE.arm.reg i = if i = 14 then s1.arm.reg 15 else s1.arm.reg i)
      ∧ (∀ m, r8_bank m sE.arm = r8_bank m s1.arm)
      ∧ (∀ m, r13_bank m sE.arm = r13_bank m s1.arm)
      ∧ read_spsr sE.arm slot = get_cpsr s := by
    refine ⟨_, by simp only [cpu_exception, hfl, e1, set_spsr_full, hp, Option.pure_def,
      Option.bind_eq_bind, Option.some_bind, Option.map_some']; rfl, ?_⟩
    refine ⟨?_, ?_, ?_, ?_, ?_⟩
    · cases slot <;> rfl
    · intro i hi
      by_cases hc : (write_spsr s1.arm (get_cpsr s) slot).control &&& 0x2000 ≠ 0
      · simp only [if_pos hc]
        cases slot <;> by_cases h14 : i = 14 <;> simp [set_elem, write_spsr, hi, h14]
      · simp only [if_neg hc]
        cases slot <;> by_cases h14 : i = 14 <;> simp [set_elem, write_spsr, hi, h14]
    · intro m; cases slot <;> rfl
    · intro m; cases slot <;> rfl
    · cases slot <;> rfl
  have hv14 : sE.arm.reg 14 % 2 ^ 32 = s.arm.reg 15 := by
    rw [eR 14 (by decide), if_pos rfl, r1 15, if_neg (by omega), if_neg (by omega)]
    exact Nat.mod_eq_of_lt h15
  have hsp : get_spsr (set_nz_flags (sE.arm.reg 14 % 2 ^ 32)
      (set_reg_pc 15 (sE.arm.reg 14 % 2 ^ 32) sE)) = some (get_cpsr s) := by
    have hq : ptr_spsr (set_nz_flags (sE.arm.reg 14 % 2 ^ 32)
        (set_reg_pc 15 (sE.arm.reg 14 % 2 ^ 32) sE)) = some slot := by
      show spsr_of_mode (sE.arm.cpsr_low28 &&& 0x1F) = some slot
      rw [eL, l1m, hslot]
    rw [get_spsr, hq, Option.map_some', ← eS]
    cases slot <;> rfl
  have ho : is_mode ((set_nz_flags (sE.arm.reg 14 % 2 ^ 32)
      (set_reg_pc 15 (sE.arm.reg 14 % 2 ^ 32) sE)).arm.cpsr_low28 &&& 0x1F) := by
    show is_mode (sE.arm.cpsr_low28 &&& 0x1F)
    rw [eL, l1m]; exact hmd
  obtain ⟨s2, e2, l2, n2, z2, c2, v2, -, -, r2, -, -⟩ :=
    set_cpsr_full_spec (get_cpsr s) _ hJ ho (by rw [f6]; exact hv)
  have tl : (set_nz_flags (sE.arm.reg 14 % 2 ^ 32)
      (set_reg_pc 15 (sE.arm.reg 14 % 2 ^ 32) sE)).arm.cpsr_low28 &&& 0x1F = exception_mode k := by
    show sE.arm.cpsr_low28 &&& 0x1F = exception_mode k
    rw [eL, l1m]
  have t8 : ∀ m, r8_bank m (set_nz_flags (sE.arm.reg 14 % 2 ^ 32)
      (set_reg_pc 15 (sE.arm.reg 14 % 2 ^ 32) sE)).arm = r8_bank m s1.arm := fun m => e8 m
  have t13 : ∀ m, r13_bank m (set_nz_flags (sE.arm.reg 14 % 2 ^ 32)
      (set_reg_pc 15 (sE.arm.reg 14 % 2 ^ 32) sE)).arm = r13_bank m s1.arm := fun m => e13 m
  have tr : ∀ i, (set_nz_flags (sE.arm.reg 14 % 2 ^ 32)
      (set_reg_pc 15 (sE.arm.reg 14 % 2 ^ 32) sE)).arm.reg i
        = if i = 15 then s.arm.reg 15 else sE.arm.reg i := by
    intro i
    show set_elem sE.arm.reg 15 (sE.arm.reg 14 % 2 ^ 32) i = _
    rw [hv14]; rfl
  rw [f6, tl] at r2
  refine ⟨sE, s2, hE, by rw [interpret_movs_pc_lr, hsp, Option.some_bind, e2], ?_,
    by rw [n2, f1], by rw [z2, f2], by rw [c2, f3], by rw [v2, f4], by rw [l2, f5]⟩
  intro i hi
  rw [r2 i, t8, t13, tr]
  have hne : exception_mode k ≠ s.arm.cpsr_low28 &&& 0x1F := fun e => hm e.symm
  by_cases h8 : 8 ≤ i ∧ i < 13
  · rw [if_pos h8]
    by_cases hs : same8 (s.arm.cpsr_low28 &&& 0x1F) (exception_mode k)
    · have hs2 : same8 (exception_mode k) (s.arm.cpsr_low28 &&& 0x1F) := hs.symm
      rw [if_pos hs, if_neg (show ¬ i = 15 by omega), eR i (by omega),
        if_neg (show ¬ i = 14 by omega), r1 i, if_pos h8, if_pos hs2]
    · rw [if_neg hs, b8 _ _ hv, if_pos ⟨hne, Iff.rfl, by omega⟩]
      congr 1; omega
  · rw [if_neg h8]
    by_cases h13 : 13 ≤ i ∧ i < 15
    · have hs : ¬ same13 (s.arm.cpsr_low28 &&& 0x1F) (exception_mode k) := by
        rintro (e | ⟨_, e⟩ | ⟨_, e⟩)
        · exact hm e
        · exact hns e
        · exact hnu e
      rw [if_pos h13, if_neg hs, b13 _ _ hv, if_pos ⟨hne, Or.inl rfl, by omega⟩]
      congr 1; omega
    · rw [if_neg h13]
      by_cases hi15 : i = 15
      · rw [if_pos hi15, hi15]
      · rw [if_neg hi15, eR i hi15, if_neg (show ¬ i = 14 by omega), r1 i, if_neg h8,
          if_neg h13]

/-! ## The ECC of a region with one bit flipped -/

/-- the bits of `ecc << 2 | q` for a parity `q` -/
theorem ecc_step_testBit (e q i : Nat) (hq : q ≤ 1) (hi : i < 32) :
    ((e <<< 2 ||| q) % 2 ^ 32).testBit i
      = if i = 0 then decide (q = 1) else if i = 1 then false else e.testBit (i - 2) := by
  rw [Nat.testBit_mod_two_pow, Nat.testBit_or, Nat.testBit_shiftLeft]
  simp only [hi, decide_True, Bool.true_and]
  by_cases h0 : i = 0
  · subst h0
    rw [if_pos rfl]
    have : q = 0 ∨ q = 1 := by omega
    rcases this with h | h <;> subst h <;> rfl
  · rw [if_neg h0]
    have hqi : q.testBit i = false :=
      Nat.testBit_lt_two_pow (lt_of_lt_of_le (show q < 2 ^ 1 by omega)
        (Nat.pow_le_pow_right (by decide) (by omega)))
    by_cases h1 : i = 1
    · subst h1
      rw [if_pos rfl, hqi]
      rfl
    · rw [if_neg h1, hqi, Bool.or_false]
      have : 2 ≤ i := by omega
      simp [this]

/-- one more parity shifted into two ECC words that differ, in the even bits, as `f` says:
the odd bits stay clear and the even bits differ as `f` says -/
theorem ecc_step_diff (e e' q q' t : Nat) (f : Nat → Bool) (hq : q ≤ 1) (hq' : q' ≤ 1)
    (ht : t < 16)
    (hinv : ∀ i, i < 2 * t → (i % 2 = 1 → e.testBit i = false ∧ e'.testBit i = false)
      ∧ (i % 2 = 0 → (e'.testBit i != e.testBit i) = f (t - 1 - i / 2)))
    (hf : (decide (q' = 1) != decide (q = 1)) = f t) :
    ∀ i, i < 2 * (t + 1) →
      (i % 2 = 1 → ((e <<< 2 ||| q) % 2 ^ 32).testBit i = false
        ∧ ((e' <<< 2 ||| q') % 2 ^ 32).testBit i = false)
      ∧ (i % 2 = 0 → (((e' <<< 2 ||| q') % 2 ^ 32).testBit i
          != ((e <<< 2 ||| q) % 2 ^ 32).testBit i) = f (t + 1 - 1 - i / 2)) := by
  intro i hi
  rw [ecc_step_testBit e q i hq (by omega), ecc_step_testBit e' q' i hq' (by omega)]
  by_cases h0 : i = 0
  · subst h0
    refine ⟨fun h => absurd h (by decide), fun _ => ?_⟩
    rw [if_pos rfl, if_pos rfl, hf]
    rfl
  · rw [if_neg h0, if_neg h0]
    by_cases h1 : i = 1
    · subst h1
      exact ⟨fun _ => ⟨rfl, rfl⟩, fun h => absurd h (by decide)⟩
    · rw [if_neg h1, if_neg h1]
      obtain ⟨a, b⟩ := hinv (i - 2) (by omega)
      refine ⟨fun h => a (by omega), fun h => ?_⟩
      rw [b (by omega)]
      congr 1
      omega

/-- the top bit of a number below `2 ^ (n + 1)` -/
theorem testBit_top (w n : Nat) (h : w < 2 ^ (n + 1)) : w.testBit n = decide (2 ^ n ≤ w) := by
  rw [Nat.testBit_to_div_mod]
  have hpos : 0 < 2 ^ n := Nat.pos_pow_of_pos n (by decide)
  have h2 : w / 2 ^ n < 2 := by
    rw [Nat.div_lt_iff_lt_mul hpos]
    rw [Nat.pow_succ] at h
    omega
  have h3 : 1 ≤ w / 2 ^ n ↔ 2 ^ n ≤ w := by
    rw [Nat.le_div_iff_mul_le hpos]
    omega
  congr 1
  apply propext
  generalize w / 2 ^ n = x at h2 h3 ⊢
  constructor
  · intro h4; exact h3.1 (by omega)
  · intro h4; have := h3.2 h4; omega

/-- one pass of the outer loop of `ecc_calculate` on two inputs that differ in bit `b` of
word `w`: the parity of `words` differs iff `w < j`, and the folded inputs differ in bit `b`
of word `w % j` -/
theorem ecc_pass_flip (a a' T T' : Nat → Nat) (j w b : Nat) (hw : w < 2 * j)
    (hb : b < 32) (ha : ∀ i, i < 2 * j → a' i = if i = w then a i ^^^ 1 <<< b else a i) :
    parity (xor_upto a' j) = parity (xor_upto a j) ^^^ (if w < j then 1 else 0)
    ∧ ∀ i, i < j → (if i < j then a' i ^^^ a' (i + j) else T' i)
        = if i = w % j then (if i < j then a i ^^^ a (i + j) else T i) ^^^ 1 <<< b
          else (if i < j then a i ^^^ a (i + j) else T i) := by
  constructor
  · by_cases h : w < j
    · rw [if_pos h, xor_upto_congr a' (fun i => if i = w then a i ^^^ 1 <<< b else a i) j
        (fun i hi => ha i (by omega)), xor_upto_update a w _ j h, parity_xor, parity_bit b hb]
    · rw [if_neg h, xor_upto_congr a' a j (fun i hi => by rw [ha i (by omega), if_neg (by omega)]),
        Nat.xor_zero]
  · intro i hi
    rw [if_pos hi, if_pos hi, ha i (by omega), ha (i + j) (by omega)]
    by_cases h : w < j
    · rw [Nat.mod_eq_of_lt h, if_neg (show ¬ i + j = w by omega)]
      by_cases hiw : i = w
      · rw [if_pos hiw, if_pos hiw, Nat.xor_assoc, Nat.xor_comm (1 <<< b), ← Nat.xor_assoc]
      · rw [if_neg hiw, if_neg hiw]
    · have hm : w % j = w - j := by
        rw [Nat.mod_eq_sub_mod (by omega), Nat.mod_eq_of_lt (by omega)]
      rw [hm, if_neg (show ¬ i = w by omega)]
      by_cases hiw : i = w - j
      · rw [if_pos hiw, if_pos (show i + j = w by omega), Nat.xor_assoc]
      · rw [if_neg hiw, if_neg (show ¬ i + j = w by omega)]

/-- a parity and the same parity with a bit flipped or not -/
theorem parity_diff (q c : Nat) (hq : q ≤ 1) (hc : c ≤ 1) :
    (decide (q ^^^ c = 1) != decide (q = 1)) = decide (c = 1) ∧ q ^^^ c ≤ 1 := by
  have h1 : q = 0 ∨ q = 1 := by omega
  have h2 : c = 0 ∨ c = 1 := by omega
  rcases h1 with h | h <;> rcases h2 with h' | h' <;> subst h <;> subst h' <;> decide

/-- the outer loop of `ecc_calculate` from `j = 2^n / 2` on two inputs that differ in bit `b`
of word `w`, started with ECC words that differ in the even bits as `f` says: the final
`temp[0]` differ in bit `b`, and the ECC words differ as `f` says, where the `n` parities
added differ by the complements of the bits `n - 1`, ..., 0 of `w` -/
theorem ecc_fold_flip (b : Nat) (hb : b < 32) (f : Nat → Bool) :
    ∀ (n : Nat) (a a' T T' : Nat → Nat) (e e' t w : Nat), w < 2 ^ n → t + n ≤ 16 →
      (∀ i, i < 2 ^ n → a' i = if i = w then a i ^^^ 1 <<< b else a i) →
      (n = 0 → T' 0 = T 0 ^^^ 1 <<< b) →
      (∀ i, i < 2 * t → (i % 2 = 1 → e.testBit i = false ∧ e'.testBit i = false)
        ∧ (i % 2 = 0 → (e'.testBit i != e.testBit i) = f (t - 1 - i / 2))) →
      (∀ u, u < n → f (t + u) = !w.testBit (n - 1 - u)) →
      (ecc_fold (2 ^ n / 2) a' T' e').1 0 = (ecc_fold (2 ^ n / 2) a T e).1 0 ^^^ 1 <<< b
      ∧ ∀ i, i < 2 * (t + n) →
        (i % 2 = 1 → (ecc_fold (2 ^ n / 2) a T e).2.testBit i = false
          ∧ (ecc_fold (2 ^ n / 2) a' T' e').2.testBit i = false)
        ∧ (i % 2 = 0 → ((ecc_fold (2 ^ n / 2) a' T' e').2.testBit i
            != (ecc_fold (2 ^ n / 2) a T e).2.testBit i) = f (t + n - 1 - i / 2)) := by
  intro n
  induction n with
  | zero =>
    intro a a' T T' e e' t w _ _ _ hT hinv _
    have h0 : 2 ^ 0 / 2 = 0 := rfl
    rw [h0, ecc_fold_zero, ecc_fold_zero]
    exact ⟨hT rfl, hinv⟩
  | succ n ih =>
    intro a a' T T' e e' t w hw ht ha _ hinv hf
    have hpos : 0 < 2 ^ n := Nat.pos_pow_of_pos n (by decide)
    have hj : 2 ^ (n + 1) / 2 = 2 ^ n := by rw [Nat.pow_succ]; omega
    have hs : 2 ^ n >>> 1 = 2 ^ n / 2 := by rw [Nat.shiftRight_eq_div_pow, Nat.pow_one]
    have hw2 : w < 2 * 2 ^ n := by rw [Nat.pow_succ] at hw; omega
    rw [hj, ecc_fold_pos (2 ^ n) (by omega) a T e, ecc_fold_pos (2 ^ n) (by omega) a' T' e', hs]
    obtain ⟨hp, hA⟩ := ecc_pass_flip a a' T T' (2 ^ n) w b hw2 hb
      (fun i hi => ha i (by rw [Nat.pow_succ]; omega))
    have hc : (if w < 2 ^ n then 1 else 0) ≤ 1 := by split_ifs <;> omega
    obtain ⟨hd, hq'⟩ := parity_diff (parity (xor_upto a (2 ^ n))) (if w < 2 ^ n then 1 else 0)
      (parity_le _) hc
    have hft : (decide (parity (xor_upto a' (2 ^ n)) = 1)
        != decide (parity (xor_upto a (2 ^ n)) = 1)) = f t := by
      rw [hp, hd]
      have := hf 0 (by omega)
      rw [Nat.add_zero] at this
      rw [this, show n + 1 - 1 - 0 = n from rfl, testBit_top w n hw]
      by_cases hwn : w < 2 ^ n
      · rw [if_pos hwn]; simp [show ¬ 2 ^ n ≤ w by omega]
      · rw [if_neg hwn]; simp [show 2 ^ n ≤ w by omega]
    have hstep := ecc_step_diff e e' (parity (xor_upto a (2 ^ n))) (parity (xor_upto a' (2 ^ n))) t f
      (parity_le _) (parity_le _) (by omega) hinv hft
    have key := ih (fun i => if i < 2 ^ n then a i ^^^ a (i + 2 ^ n) else T i)
      (fun i => if i < 2 ^ n then a' i ^^^ a' (i + 2 ^ n) else T' i)
      (fun i => if i < 2 ^ n then a i ^^^ a (i + 2 ^ n) else T i)
      (fun i => if i < 2 ^ n then a' i ^^^ a' (i + 2 ^ n) else T' i)
      ((e <<< 2 ||| parity (xor_upto a (2 ^ n))) % 2 ^ 32)
      ((e' <<< 2 ||| parity (xor_upto a' (2 ^ n))) % 2 ^ 32) (t + 1) (w % 2 ^ n)
      (Nat.mod_lt _ hpos) (by omega) hA
      (fun hn0 => by
        have h := hA 0 hpos
        have hw0 : w % 2 ^ n = 0 := by rw [hn0]; exact Nat.mod_one w
        rw [hw0, if_pos rfl] at h
        exact h)
      hstep
      (fun u hu => by
        have h := hf (u + 1) (by omega)
        rw [show t + 1 + u = t + (u + 1) by omega, h, Nat.testBit_mod_two_pow,
          show n + 1 - 1 - (u + 1) = n - 1 - u by omega]
        simp [show n - 1 - u < n by omega])
    rw [show t + (n + 1) = t + 1 + n by omega]
    exact key

/-- the five masks of `ecc_calculate` select the bits of a word whose index has bit 4, 3, 2,
1 or 0 clear -/
theorem parity_mask_bit : ∀ b, b < 32 →
    decide (parity (1 <<< b &&& 0x0000FFFF) = 1) = !b.testBit 4
    ∧ decide (parity (1 <<< b &&& 0x00FF00FF) = 1) = !b.testBit 3
    ∧ decide (parity (1 <<< b &&& 0x0F0F0F0F) = 1) = !b.testBit 2
    ∧ decide (parity (1 <<< b &&& 0x33333333) = 1) = !b.testBit 1
    ∧ decide (parity (1 <<< b &&& 0x55555555) = 1) = !b.testBit 0 := by
  decide

/-- the masked parity of a word with one bit flipped -/
theorem parity_mask_flip (X b M : Nat) :
    (decide (parity ((X ^^^ 1 <<< b) &&& M) = 1) != decide (parity (X &&& M) = 1))
      = decide (parity (1 <<< b &&& M) = 1) := by
  rw [Nat.and_xor_distrib_right, parity_xor]
  exact (parity_diff _ _ (parity_le _) (parity_le _)).1

/-- the bits of the two constants of the last line of `ecc_calculate` -/
theorem ecc_const_bits : ∀ i, i < 24 →
    Nat.testBit 0x555555 i = decide (i % 2 = 0) ∧ Nat.testBit 0xFFFFFF i = true := by
  decide

/-- the bits of the value `ecc_calculate` returns, from the ECC word `E` before the last line
and the parity `P` of the whole region -/
theorem ecc_final_testBit (E P i : Nat) (hi : i < 24) :
    ((E ||| (E <<< 1) % 2 ^ 32) ^^^ (if P ≠ 0 then 0x555555 else 0xFFFFFF)).testBit i
      = ((E.testBit i || (decide (1 ≤ i) && E.testBit (i - 1)))
          != (if P ≠ 0 then decide (i % 2 = 0) else true)) := by
  obtain ⟨c1, c2⟩ := ecc_const_bits i hi
  rw [Nat.testBit_xor, Nat.testBit_or, Nat.testBit_mod_two_pow, Nat.testBit_shiftLeft]
  have h32 : decide (i < 32) = true := by simp; omega
  rw [h32, Bool.true_and]
  congr 1
  by_cases hP : P ≠ 0
  · rw [if_pos hP, if_pos hP, c1]
  · rw [if_neg hP, if_neg hP, c2]

/-- the last six lines of `ecc_calculate` on two ECC words that differ as `f` says after the
seven passes of the loop and two `words` that differ in bit `b`: pair `k` of the XOR of the
results has bit `2k` equal to `f (11 - k)` and bit `2k + 1` equal to its complement -/
theorem ecc_tail_flip (E E' X X' b : Nat) (f : Nat → Bool) (hb : b < 32)
    (hX : X' = X ^^^ 1 <<< b)
    (hinv : ∀ i, i < 2 * 7 → (i % 2 = 1 → E.testBit i = false ∧ E'.testBit i = false)
      ∧ (i % 2 = 0 → (E'.testBit i != E.testBit i) = f (7 - 1 - i / 2)))
    (hf : f 7 = !b.testBit 4 ∧ f 8 = !b.testBit 3 ∧ f 9 = !b.testBit 2 ∧ f 10 = !b.testBit 1
      ∧ f 11 = !b.testBit 0)
    (R R' : Nat)
    (hR : R = ((((((((((((E <<< 2
        ||| parity (X &&& 0x0000FFFF)) % 2 ^ 32) <<< 2
        ||| parity (X &&& 0x00FF00FF)) % 2 ^ 32) <<< 2
        ||| parity (X &&& 0x0F0F0F0F)) % 2 ^ 32) <<< 2
        ||| parity (X &&& 0x33333333)) % 2 ^ 32) <<< 2
        ||| parity (X &&& 0x55555555)) % 2 ^ 32)
      ||| (((((((((((E <<< 2
        ||| parity (X &&& 0x0000FFFF)) % 2 ^ 32) <<< 2
        ||| parity (X &&& 0x00FF00FF)) % 2 ^ 32) <<< 2
        ||| parity (X &&& 0x0F0F0F0F)) % 2 ^ 32) <<< 2
        ||| parity (X &&& 0x33333333)) % 2 ^ 32) <<< 2
        ||| parity (X &&& 0x55555555)) % 2 ^ 32) <<< 1) % 2 ^ 32)
      ^^^ (if parity X ≠ 0 then 0x555555 else 0xFFFFFF)))
    (hR' : R' = ((((((((((((E' <<< 2
        ||| parity (X' &&& 0x0000FFFF)) % 2 ^ 32) <<< 2
        ||| parity (X' &&& 0x00FF00FF)) % 2 ^ 32) <<< 2
        ||| parity (X' &&& 0x0F0F0F0F)) % 2 ^ 32) <<< 2
        ||| parity (X' &&& 0x33333333)) % 2 ^ 32) <<< 2
        ||| parity (X' &&& 0x55555555)) % 2 ^ 32)
      ||| (((((((((((E' <<< 2
        ||| parity (X' &&& 0x0000FFFF)) % 2 ^ 32) <<< 2
        ||| parity (X' &&& 0x00FF00FF)) % 2 ^ 32) <<< 2
        ||| parity (X' &&& 0x0F0F0F0F)) % 2 ^ 32) <<< 2
        ||| parity (X' &&& 0x33333333)) % 2 ^ 32) <<< 2
        ||| parity (X' &&& 0x55555555)) % 2 ^ 32) <<< 1) % 2 ^ 32)
      ^^^ (if parity X' ≠ 0 then 0x555555 else 0xFFFFFF))) :
    ∀ k, k < 12 → (R' ^^^ R).testBit (2 * k) = f (11 - k)
      ∧ (R' ^^^ R).testBit (2 * k + 1) = !f (11 - k) := by
  subst hX
  obtain ⟨m4, m3, m2, m1, m0⟩ := parity_mask_bit b hb
  obtain ⟨f7, f8, f9, f10, f11⟩ := hf
  have s8 := ecc_step_diff E E' _ _ 7 f (parity_le (X &&& 0x0000FFFF))
    (parity_le ((X ^^^ 1 <<< b) &&& 0x0000FFFF)) (by decide) hinv
    (by rw [parity_mask_flip, m4, f7])
  have s9 := ecc_step_diff _ _ _ _ 8 f (parity_le (X &&& 0x00FF00FF))
    (parity_le ((X ^^^ 1 <<< b) &&& 0x00FF00FF)) (by decide) s8
    (by rw [parity_mask_flip, m3, f8])
  have s10 := ecc_step_diff _ _ _ _ 9 f (parity_le (X &&& 0x0F0F0F0F))
    (parity_le ((X ^^^ 1 <<< b) &&& 0x0F0F0F0F)) (by decide) s9
    (by rw [parity_mask_flip, m2, f9])
  have s11 := ecc_step_diff _ _ _ _ 10 f (parity_le (X &&& 0x33333333))
    (parity_le ((X ^^^ 1 <<< b) &&& 0x33333333)) (by decide) s10
    (by rw [parity_mask_flip, m1, f10])
  have s12 := ecc_step_diff _ _ _ _ 11 f (parity_le (X &&& 0x55555555))
    (parity_le ((X ^^^ 1 <<< b) &&& 0x55555555)) (by decide) s11
    (by rw [parity_mask_flip, m0, f11])
  clear s8 s9 s10 s11 hinv
  generalize ((((((((((E <<< 2
        ||| parity (X &&& 0x0000FFFF)) % 2 ^ 32) <<< 2
        ||| parity (X &&& 0x00FF00FF)) % 2 ^ 32) <<< 2
        ||| parity (X &&& 0x0F0F0F0F)) % 2 ^ 32) <<< 2
        ||| parity (X &&& 0x33333333)) % 2 ^ 32) <<< 2
        ||| parity (X &&& 0x55555555)) % 2 ^ 32) = F at hR s12
  generalize ((((((((((E' <<< 2
        ||| parity ((X ^^^ 1 <<< b) &&& 0x0000FFFF)) % 2 ^ 32) <<< 2
        ||| parity ((X ^^^ 1 <<< b) &&& 0x00FF00FF)) % 2 ^ 32) <<< 2
        ||| parity ((X ^^^ 1 <<< b) &&& 0x0F0F0F0F)) % 2 ^ 32) <<< 2
        ||| parity ((X ^^^ 1 <<< b) &&& 0x33333333)) % 2 ^ 32) <<< 2
        ||| parity ((X ^^^ 1 <<< b) &&& 0x55555555)) % 2 ^ 32) = F' at hR' s12
  have hP := parity_flip X b hb
  intro k hk
  subst hR hR'
  obtain ⟨_, ev⟩ := s12 (2 * k) (by omega)
  have ev := ev (by omega)
  rw [show 11 + 1 - 1 - 2 * k / 2 = 11 - k by omega] at ev
  constructor
  · rw [Nat.testBit_xor, ecc_final_testBit F' _ _ (by omega), ecc_final_testBit F _ _ (by omega)]
    have hodd : (decide (1 ≤ 2 * k) && F.testBit (2 * k - 1)) = false
        ∧ (decide (1 ≤ 2 * k) && F'.testBit (2 * k - 1)) = false := by
      by_cases hk0 : k = 0
      · subst hk0; exact ⟨rfl, rfl⟩
      · obtain ⟨od, _⟩ := s12 (2 * k - 1) (by omega)
        obtain ⟨o1, o2⟩ := od (by omega)
        rw [o1, o2]; simp
    rw [hodd.1, hodd.2, ← ev]
    have he : decide (2 * k % 2 = 0) = true := by simp
    rw [he]
    by_cases h1 : parity X ≠ 0
    · have h2 : ¬ parity (X ^^^ 1 <<< b) ≠ 0 := by rw [hP]; exact not_not.mpr h1
      rw [if_pos h1, if_neg h2]
      cases F.testBit (2 * k) <;> cases F'.testBit (2 * k) <;> rfl
    · have h2 : parity (X ^^^ 1 <<< b) ≠ 0 := by rw [hP]; exact h1
      rw [if_neg h1, if_pos h2]
      cases F.testBit (2 * k) <;> cases F'.testBit (2 * k) <;> rfl
  · rw [Nat.testBit_xor, ecc_final_testBit F' _ _ (by omega), ecc_final_testBit F _ _ (by omega)]
    obtain ⟨od, _⟩ := s12 (2 * k + 1) (by omega)
    obtain ⟨o1, o2⟩ := od (by omega)
    rw [o1, o2, show 2 * k + 1 - 1 = 2 * k from rfl, ← ev]
    have he : decide ((2 * k + 1) % 2 = 0) = false := by simp; omega
    have h1le : decide (1 ≤ 2 * k + 1) = true := by simp
    rw [he, h1le]
    by_cases h1 : parity X ≠ 0
    · have h2 : ¬ parity (X ^^^ 1 <<< b) ≠ 0 := by rw [hP]; exact not_not.mpr h1
      rw [if_pos h1, if_neg h2]
      cases F.testBit (2 * k) <;> cases F'.testBit (2 * k) <;> rfl
    · have h2 : parity (X ^^^ 1 <<< b) ≠ 0 := by rw [hP]; exact h1
      rw [if_neg h1, if_pos h2]
      cases F.testBit (2 * k) <;> cases F'.testBit (2 * k) <;> rfl

/-- the XOR of the ECC of a region and of the region with bit `p` flipped: pair `k` has bit
`2k + 1` equal to bit `k` of `p` and bit `2k` equal to its complement -/
theorem ecc_flip_pairs (d : Nat → Nat) (p : Nat) (hd : ∀ n, n < 512 → d n < 256)
    (hp : p < 4096) :
    ∀ k, k < 12 →
      (ecc_calculate (flip_bit d p) ^^^ ecc_calculate d).testBit (2 * k + 1) = p.testBit k
      ∧ (ecc_calculate (flip_bit d p) ^^^ ecc_calculate d).testBit (2 * k) = !p.testBit k := by
  have hb : p % 32 < 32 := Nat.mod_lt _ (by decide)
  have hw : p / 32 < 2 ^ 7 := by
    show p / 32 < 128
    omega
  have hlow : ∀ j, j < 5 → (p % 32).testBit j = p.testBit j := by
    intro j hj
    rw [show (32 : Nat) = 2 ^ 5 from rfl, Nat.testBit_mod_two_pow]
    simp [hj]
  have hhigh : ∀ j, (p / 32).testBit j = p.testBit (5 + j) := by
    intro j
    rw [show (32 : Nat) = 2 ^ 5 from rfl, ← Nat.shiftRight_eq_div_pow, Nat.testBit_shiftRight]
  obtain ⟨hX, hinv⟩ := ecc_fold_flip (p % 32) hb (fun u => !p.testBit (11 - u)) 7 (load_word d)
    (load_word (flip_bit d p)) (fun _ => 0) (fun _ => 0) 0 0 0 (p / 32) hw (by decide)
    (fun i hi => load_word_flip d p i hd hi) (fun h => absurd h (by decide))
    (fun i hi => absurd hi (by omega))
    (fun u hu => by
      show (!p.testBit (11 - (0 + u))) = !(p / 32).testBit (7 - 1 - u)
      rw [hhigh]
      congr 2
      omega)
  have h64 : (2 : Nat) ^ 7 / 2 = 64 := rfl
  rw [h64] at hX hinv
  intro k hk
  obtain ⟨h1, h2⟩ := ecc_tail_flip _ _ _ _ (p % 32) (fun u => !p.testBit (11 - u)) hb hX hinv
    ⟨by rw [hlow 4 (by decide)], by rw [hlow 3 (by decide)], by rw [hlow 2 (by decide)],
      by rw [hlow 1 (by decide)], by rw [hlow 0 (by decide)]⟩
    (ecc_calculate d) (ecc_calculate (flip_bit d p)) rfl rfl k hk
  have e : 11 - (11 - k) = k := by omega
  simp only [e] at h1 h2
  rw [Bool.not_not] at h2
  exact ⟨h2, h1⟩

/-- Claim C35: for every 512-byte region `d` and every two distinct bit positions `p` and `q`
in 0..4095, `ecc_calculate` of `d` with bit `p` flipped differs from `ecc_calculate` of `d`
with bit `q` flipped; the XOR of the ECC of `d` and of `d` with bit `p` flipped determines
`p`: each of its 12 bit pairs has exactly one bit set, bit `2k + 1` when bit `k` of `p` is
set and bit `2k` when it is clear. -/
theorem ecc_locates_single_bit_flip (d : Nat → Nat) (p q : Nat)
    (hd : ∀ n, n < 512 → d n < 256) (hp : p < 4096) (hq : q < 4096) (hpq : p ≠ q) :
    ecc_calculate (flip_bit d p) ≠ ecc_calculate (flip_bit d q)
    ∧ ∀ k, k < 12 →
      (ecc_calculate (flip_bit d p) ^^^ ecc_calculate d).testBit (2 * k + 1) = p.testBit k
      ∧ (ecc_calculate (flip_bit d p) ^^^ ecc_calculate d).testBit (2 * k) = !p.testBit k := by
  refine ⟨?_, ecc_flip_pairs d p hd hp⟩
  intro heq
  apply hpq
  apply Nat.eq_of_testBit_eq
  intro k
  by_cases hk : k < 12
  · rw [← (ecc_flip_pairs d p hd hp k hk).1, ← (ecc_flip_pairs d q hd hq k hk).1, heq]
  · rw [testBit_false_of_le p 12 k hp (by omega), testBit_false_of_le q 12 k hq (by omega)]

/-! ## STMDB and LDMIA on the stack pointer over the flat RAM -/

theorem count_bits_mono (insn : Nat) (j : Nat) : ∀ k, j ≤ k → count_bits insn j ≤ count_bits insn k := by
  intro k hk
  induction k with
  | zero =>
    have : j = 0 := by omega
    subst this; exact Nat.le_refl _
  | succ k ih =>
    by_cases h : j = k + 1
    · subst h; exact Nat.le_refl _
    · have := ih (by omega)
      show count_bits insn j ≤ count_bits insn k + (insn >>> k &&& 1)
      omega

/-- a listed register below `k` is counted by `count_bits insn k` -/
theorem count_bits_listed (insn i k : Nat) (hi : i < k) (hb : insn >>> i &&& 1 = 1) :
    count_bits insn i + 1 ≤ count_bits insn k := by
  have h := count_bits_mono insn (i + 1) k hi
  have e : count_bits insn (i + 1) = count_bits insn i + (insn >>> i &&& 1) := rfl
  omega

/-- the register list of `C ||| list` is `list` when `C` has no bit below 16 -/
theorem or_list_bit (C list k : Nat) (hC : C % 2 ^ 16 = 0) (hk : k < 16) :
    (C ||| list) >>> k &&& 1 = list >>> k &&& 1 := by
  have hCk : C.testBit k = false := by
    have h := Nat.testBit_mod_two_pow C 16 k
    rw [hC, Nat.zero_testBit] at h
    simpa [hk] using h.symm
  have hiff : (C ||| list) >>> k &&& 1 = 1 ↔ list >>> k &&& 1 = 1 := by
    rw [bit_eq_one_iff_testBit, bit_eq_one_iff_testBit, Nat.testBit_or, hCk, Bool.false_or]
  rcases shr_and_one_cases (C ||| list) k with h1 | h1 <;>
    rcases shr_and_one_cases list k with h2 | h2
  · rw [h1, h2]
  · exact absurd (hiff.2 h2) (by rw [h1]; decide)
  · exact absurd (hiff.1 h1) (by rw [h2]; decide)
  · rw [h1, h2]

theorem count_bits_or_list (C list : Nat) (hC : C % 2 ^ 16 = 0) :
    ∀ k, k ≤ 16 → count_bits (C ||| list) k = count_bits list k := by
  intro k
  induction k with
  | zero => intro _; rfl
  | succ k ih =>
    intro hk
    show count_bits (C ||| list) k + ((C ||| list) >>> k &&& 1)
      = count_bits list k + (list >>> k &&& 1)
    rw [ih (by omega), or_list_bit C list k hC (by omega)]

/-- without the S bit the LDM/STM pointer of register `i` is `arm.reg[i]` -/
theorem ldm_stm_reg_ptr_plain (insn i : Nat) (s : Cpu) (h22 : insn &&& (1 <<< 22) = 0) :
    ldm_stm_reg_ptr insn i s = .reg i := by
  unfold ldm_stm_reg_ptr
  rw [if_neg (fun h => h.1 h22)]

/-- the transfers of a store without the S bit over the flat RAM: the register file is as
before and the listed registers below `k` are in memory at their addresses -/
theorem stm_at_ram (insn b L nb : Nat) (s : Cpu) (h20 : insn &&& (1 <<< 20) = 0)
    (h22 : insn &&& (1 <<< 22) = 0) :
    ∀ k, k ≤ 16 → ∃ sk, ldm_stm_at ram_ops insn b L k (nb, s) = some (nb, sk)
      ∧ sk.arm = s.arm
      ∧ (∀ i, i < k → insn >>> i &&& 1 = 1 →
          load_le32 sk.mem ((L + 4 * count_bits insn i) % 2 ^ 32) = s.arm.reg i % 2 ^ 32) := by
  intro k
  induction k with
  | zero => intro _; exact ⟨s, rfl, rfl, fun i hi => absurd hi (Nat.not_lt_zero i)⟩
  | succ k ih =>
    intro hk
    obtain ⟨sk, e, ha, hm⟩ := ih (by omega)
    simp only [ldm_stm_at, e, Option.some_bind]
    by_cases hb : insn >>> k &&& 1 = 1
    · rw [if_pos hb]
      have hn : ¬ insn &&& (1 <<< 20) ≠ 0 := fun h => h h20
      simp only [ldm_stm_transfer, if_neg hn, ldm_stm_reg_ptr_plain insn k sk h22, reg_ref_read,
        ram_ops, Option.map_some']
      refine ⟨_, rfl, ha, ?_⟩
      intro i hi hbi
      by_cases hik : i = k
      · subst hik
        show load_le32 (store_le32 sk.mem _ (sk.arm.reg i)) _ = _
        rw [load_store_le32, ha]
      · have hc := count_bits_listed insn i k (by omega) hbi
        have hc2 := count_bits_le insn k
        show load_le32 (store_le32 sk.mem _ (sk.arm.reg k)) _ = _
        rw [load32_store32_ne _ _ _ _ (by omega)]
        exact hm i (by omega) hbi
    · rw [if_neg hb]
      refine ⟨sk, rfl, ha, ?_⟩
      intro i hi hbi
      have hik : i ≠ k := fun h => hb (h ▸ hbi)
      exact hm i (by omega) hbi

/-- the transfers of a load without the S bit over the flat RAM, the base register not
listed: memory is as before and the listed registers below `k` hold the words read at
their addresses -/
theorem ldm_at_ram (insn b L nb : Nat) (t : Cpu) (h20 : insn &&& (1 <<< 20) ≠ 0)
    (h22 : insn &&& (1 <<< 22) = 0) (hb : insn >>> b &&& 1 = 0) :
    ∀ k, ∃ tk, ldm_stm_at ram_ops insn b L k (nb, t) = some (nb, tk)
      ∧ tk.mem = t.mem
      ∧ (∀ i, tk.arm.reg i = if i < k ∧ insn >>> i &&& 1 = 1
          then load_le32 t.mem ((L + 4 * count_bits insn i) % 2 ^ 32) else t.arm.reg i) := by
  intro k
  induction k with
  | zero =>
    exact ⟨t, rfl, rfl, fun i => by rw [if_neg (fun h => Nat.not_lt_zero i h.1)]⟩
  | succ k ih =>
    obtain ⟨tk, e, hmem, hreg⟩ := ih
    simp only [ldm_stm_at, e, Option.some_bind]
    by_cases hk : insn >>> k &&& 1 = 1
    · rw [if_pos hk]
      have hkb : ¬ (reg_ref.reg k = reg_ref.reg b) := by
        intro h
        injection h with h
        rw [h, hb] at hk
        exact absurd hk (by decide)
      simp only [ldm_stm_transfer, if_pos h20, ldm_stm_reg_ptr_plain insn k tk h22, if_neg hkb,
        Option.some_bind, ram_ops, Option.map_some', reg_ref_write]
      refine ⟨_, rfl, hmem, ?_⟩
      intro i
      show set_elem tk.arm.reg k (load_le32 tk.mem _) i = _
      by_cases hik : i = k
      · subst hik
        rw [if_pos ⟨Nat.lt_succ_self i, hk⟩, hmem]
        simp [set_elem]
      · have hs : set_elem tk.arm.reg k (load_le32 tk.mem
            ((L + 4 * count_bits insn k) % 2 ^ 32)) i = tk.arm.reg i := by
          simp [set_elem, hik]
        rw [hs, hreg i]
        by_cases hc : i < k ∧ insn >>> i &&& 1 = 1
        · rw [if_pos hc, if_pos ⟨by omega, hc.2⟩]
        · rw [if_neg hc, if_neg (fun h => hc ⟨by omega, h.2⟩)]
    · rw [if_neg hk]
      refine ⟨tk, rfl, hmem, ?_⟩
      intro i
      rw [hreg i]
      by_cases hc : i < k ∧ insn >>> i &&& 1 = 1
      · rw [if_pos hc, if_pos ⟨by omega, hc.2⟩]
      · have hc2 : ¬ (i < k + 1 ∧ insn >>> i &&& 1 = 1) := by
          intro h
          by_cases hik : i = k
          · exact hk (hik ▸ h.2)
          · exact hc ⟨by omega, h.2⟩
        rw [if_neg hc, if_neg hc2]

/-- decode of an always-executed LDM/STM `C ||| list` with a 16-bit register list -/
theorem interpret_ldm_stm_list (ops : mem_ops) (C list : Nat) (s : Cpu) (hC28 : C >>> 28 = 14)
    (hCc : C &&& 0xE000000 = 0x8000000) (hl : list < 2 ^ 16) :
    cpu_interpret_instruction (arm_body (arm_ext ops)) (C ||| list) s
      = arm_ldm_stm ops (C ||| list) s := by
  have e : (C ||| list) &&& 0xE000000 = 0x8000000 :=
    (or_low_and_high C list _ 16 hl (by decide)).trans hCc
  have hc : (C ||| list) >>> 28 = 14 := (or_low_shr C list 16 28 hl (by decide)).trans hC28
  obtain ⟨c1, c2⟩ := cond_al _ s.arm hc
  have e2 : (C ||| list) &&& 0xC000000 = 0x8000000 :=
    (and_sub _ 0xE000000 0x8000000 0xC000000 e (by decide)).trans (by decide)
  have h1 : (C ||| list) &&& 0xE000090 ≠ 0x90 :=
    and_ne_of_sub _ _ _ 0xE000000 0x8000000 e (by decide) (by decide)
  have h2 : (C ||| list) &&& 0xD900000 ≠ 0x1000000 :=
    and_ne_of_sub _ _ _ 0xC000000 0x8000000 e2 (by decide) (by decide)
  have h3 : ¬ ((C ||| list) &&& 0xC000000 = 0) := by rw [e2]; decide
  have h4 : ¬ ((C ||| list) &&& 0xC000000 = 0x4000000) := by rw [e2]; decide
  simp only [cpu_interpret_instruction, if_neg c1, if_neg c2, if_neg h1, if_neg h2, if_neg h3,
    if_neg h4, e, if_true, arm_body, arm_ext]

/-- LDM/STM on base register 13 without R15 in the list: the closed form of `ldm_stm_spec` -/
theorem ldm_stm_spec_plain (ops : mem_ops) (insn : Nat) (s : Cpu) (hb : insn >>> 16 &&& 15 = 13)
    (h15 : ¬ insn >>> 15 &&& 1 = 1) :
    ldm_stm_spec ops insn s
      = (ldm_stm_at ops insn 13
          (ldm_stm_first_address insn (s.arm.reg 13) (count_bits insn 16)) 15
          (ldm_stm_written_base insn (s.arm.reg 13) (count_bits insn 16), s)).map
        (fun st => { st.2 with arm := { st.2.arm with reg := set_elem st.2.arm.reg 13 st.1 } }) := by
  have h13 : ¬ ((13 : Nat) = 15) := by decide
  have hS : ¬ (insn >>> 22 &&& 1 = 1 ∧ insn >>> 20 &&& 1 = 1 ∧ insn >>> 15 &&& 1 = 1) :=
    fun h => h15 h.2.2
  simp only [ldm_stm_spec, hb, if_neg h13, if_neg h15, if_neg hS]
  cases ldm_stm_at ops insn 13
      (ldm_stm_first_address insn (s.arm.reg 13) (count_bits insn 16)) 15
      (ldm_stm_written_base insn (s.arm.reg 13) (count_bits insn 16), s) <;> rfl

/-- the fields of `STMDB r13!, {list}` and `LDMIA r13!, {list}` above the register list -/
theorem or_list_high_bit (C list k : Nat) (hl : list < 2 ^ 16) (hk : 16 ≤ k) :
    (C ||| list) >>> k = C >>> k := or_low_shr C list 16 k hl hk

/-- Claim C39: over the flat RAM `ram_ops` (`read_word` returns the word last written there
by `write_word`), for every register list drawn from r0..r12 and r14 (empty or not) and
every 32-bit register file (r13 word-aligned or not), `STMDB r13!, {list}`
(`0xE92D0000 | list`) returns, and `LDMIA r13!, {list}` (`0xE8BD0000 | list`) executed in
any state with the memory and the r13 it left (the listed registers, as all the rest,
changed arbitrarily) returns with every listed register at the value it had before the
store and r13 at its original value. -/
theorem stmdb_ldmia_restores (list : Nat) (s : Cpu) (hl : list < 2 ^ 16)
    (h13 : list >>> 13 &&& 1 = 0) (h15 : list >>> 15 &&& 1 = 0) (hr : regs32 s) :
    ∃ s1, cpu_interpret_instruction (arm_body (arm_ext ram_ops)) (0xE92D0000 ||| list) s
        = some s1
      ∧ ∀ s1x : Cpu, s1x.mem = s1.mem → s1x.arm.reg 13 = s1.arm.reg 13 →
        ∃ s2, cpu_interpret_instruction (arm_body (arm_ext ram_ops)) (0xE8BD0000 ||| list) s1x
            = some s2
          ∧ (∀ i, i < 16 → list >>> i &&& 1 = 1 → s2.arm.reg i = s.arm.reg i)
          ∧ s2.arm.reg 13 = s.arm.reg 13 := by
  have hB := hr 13 (by decide)
  have hn := count_bits_le list 16
  -- the fields of the store
  have a16 : (0xE92D0000 ||| list) >>> 16 &&& 15 = 13 := by
    rw [or_list_high_bit _ _ _ hl (by decide)]; decide
  have a15 : ¬ (0xE92D0000 ||| list) >>> 15 &&& 1 = 1 := by
    rw [or_list_bit _ _ _ (by decide) (by decide), h15]; decide
  have a20 : (0xE92D0000 ||| list) &&& (1 <<< 20) = 0 :=
    (or_low_and_high _ list _ 16 hl (by decide)).trans (by decide)
  have a22 : (0xE92D0000 ||| list) &&& (1 <<< 22) = 0 :=
    (or_low_and_high _ list _ 16 hl (by decide)).trans (by decide)
  have a21 : (0xE92D0000 ||| list) >>> 21 &&& 1 = 1 := by
    rw [or_list_high_bit _ _ _ hl (by decide)]; decide
  have a23 : ¬ (0xE92D0000 ||| list) >>> 23 &&& 1 = 1 := by
    rw [or_list_high_bit _ _ _ hl (by decide)]; decide
  have a24 : (0xE92D0000 ||| list) >>> 24 &&& 1 = 1 := by
    rw [or_list_high_bit _ _ _ hl (by decide)]; decide
  have an := count_bits_or_list 0xE92D0000 list (by decide)
  -- the fields of the load
  have b16 : (0xE8BD0000 ||| list) >>> 16 &&& 15 = 13 := by
    rw [or_list_high_bit _ _ _ hl (by decide)]; decide
  have b15 : ¬ (0xE8BD0000 ||| list) >>> 15 &&& 1 = 1 := by
    rw [or_list_bit _ _ _ (by decide) (by decide), h15]; decide
  have b13 : (0xE8BD0000 ||| list) >>> 13 &&& 1 = 0 := by
    rw [or_list_bit _ _ _ (by decide) (by decide), h13]
  have b20 : (0xE8BD0000 ||| list) &&& (1 <<< 20) ≠ 0 := by
    rw [or_low_and_high _ list _ 16 hl (by decide)]; decide
  have b22 : (0xE8BD0000 ||| list) &&& (1 <<< 22) = 0 :=
    (or_low_and_high _ list _ 16 hl (by decide)).trans (by decide)
  have b21 : (0xE8BD0000 ||| list) >>> 21 &&& 1 = 1 := by
    rw [or_list_high_bit _ _ _ hl (by decide)]; decide
  have b23 : (0xE8BD0000 ||| list) >>> 23 &&& 1 = 1 := by
    rw [or_list_high_bit _ _ _ hl (by decide)]; decide
  have b24 : ¬ (0xE8BD0000 ||| list) >>> 24 &&& 1 = 1 := by
    rw [or_list_high_bit _ _ _ hl (by decide)]; decide
  have bn := count_bits_or_list 0xE8BD0000 list (by decide)
  -- the store
  have hfa : ldm_stm_first_address (0xE92D0000 ||| list) (s.arm.reg 13)
      (count_bits (0xE92D0000 ||| list) 16)
        = (s.arm.reg 13 + 2 ^ 32 - 4 * count_bits list 16) % 2 ^ 32 := by
    rw [ldm_stm_first_address, if_neg a23, if_pos a24, an 16 (le_refl _)]
  have hwb : ldm_stm_written_base (0xE92D0000 ||| list) (s.arm.reg 13)
      (count_bits (0xE92D0000 ||| list) 16)
        = (s.arm.reg 13 + 2 ^ 32 - 4 * count_bits list 16) % 2 ^ 32 := by
    rw [ldm_stm_written_base, if_pos a21, if_neg a23, an 16 (le_refl _)]
  obtain ⟨sk, ek, hka, hkm⟩ := stm_at_ram (0xE92D0000 ||| list) 13
    ((s.arm.reg 13 + 2 ^ 32 - 4 * count_bits list 16) % 2 ^ 32)
    ((s.arm.reg 13 + 2 ^ 32 - 4 * count_bits list 16) % 2 ^ 32) s a20 a22 15 (by decide)
  rw [interpret_ldm_stm_list ram_ops _ list s (by decide) (by decide) hl,
    ldm_stm_eq_spec ram_ops _ s (by rw [a16]; exact hB),
    ldm_stm_spec_plain ram_ops _ s a16 a15, hfa, hwb, ek, Option.map_some']
  refine ⟨_, rfl, ?_⟩
  intro s1x hmx h13x
  have hmx2 : s1x.mem = sk.mem := hmx
  have h13x2 : s1x.arm.reg 13 = (s.arm.reg 13 + 2 ^ 32 - 4 * count_bits list 16) % 2 ^ 32 := by
    rw [h13x]; simp [set_elem]
  clear hmx h13x
  -- the load
  have hfb : ldm_stm_first_address (0xE8BD0000 ||| list) (s1x.arm.reg 13)
      (count_bits (0xE8BD0000 ||| list) 16) = s1x.arm.reg 13 := by
    rw [ldm_stm_first_address, if_pos b23, if_neg b24]
  have hwc : ldm_stm_written_base (0xE8BD0000 ||| list) (s1x.arm.reg 13)
      (count_bits (0xE8BD0000 ||| list) 16) = s.arm.reg 13 := by
    rw [ldm_stm_written_base, if_pos b21, if_pos b23, bn 16 (le_refl _), h13x2]
    omega
  obtain ⟨tk, et, htm, htr⟩ := ldm_at_ram (0xE8BD0000 ||| list) 13 (s1x.arm.reg 13)
    (s.arm.reg 13) s1x b20 b22 b13 15
  rw [interpret_ldm_stm_list ram_ops _ list s1x (by decide) (by decide) hl,
    ldm_stm_eq_spec ram_ops _ s1x (by rw [b16, h13x2]; exact Nat.mod_lt _ (by decide)),
    ldm_stm_spec_plain ram_ops _ s1x b16 b15, hfb, hwc, et, Option.map_some']
  refine ⟨_, rfl, ?_, ?_⟩
  · intro i hi hbi
    have hi13 : i ≠ 13 := fun h => by rw [h, h13] at hbi; exact absurd hbi (by decide)
    have hi15 : i ≠ 15 := fun h => by rw [h, h15] at hbi; exact absurd hbi (by decide)
    have hbI : (0xE8BD0000 ||| list) >>> i &&& 1 = 1 := by
      rw [or_list_bit _ _ _ (by decide) hi]; exact hbi
    have hbS : (0xE92D0000 ||| list) >>> i &&& 1 = 1 := by
      rw [or_list_bit _ _ _ (by decide) hi]; exact hbi
    show set_elem tk.arm.reg 13 (s.arm.reg 13) i = s.arm.reg i
    have e1 : set_elem tk.arm.reg 13 (s.arm.reg 13) i = tk.arm.reg i := by
      simp [set_elem, hi13]
    rw [e1, htr i, if_pos ⟨by omega, hbI⟩, hmx2, h13x2, bn i (by omega), ← an i (by omega),
      hkm i (by omega) hbS]
    exact Nat.mod_eq_of_lt (hr i hi)
  · show set_elem tk.arm.reg 13 (s.arm.reg 13) 13 = s.arm.reg 13
    simp [set_elem]

/-! ## LDM and STM: the transfer of each listed register -/

/-- without the S bit, and on a load that lists R15, the LDM/STM pointer of register `i` is
`arm.reg[i]` -/
theorem ldm_stm_reg_ptr_reg (insn i : Nat) (s : Cpu)
    (h : insn >>> 22 &&& 1 = 0 ∨ (insn >>> 20 &&& 1 = 1 ∧ insn >>> 15 &&& 1 = 1)) :
    ldm_stm_reg_ptr insn i s = .reg i := by
  unfold ldm_stm_reg_ptr
  rw [if_neg]
  intro hc
  obtain ⟨c1, c2⟩ := (ldm_user_iff insn).1 hc
  rcases h with h | ⟨h1, h2⟩
  · rw [h] at c1; exact absurd c1 (by decide)
  · rcases c2 with c | c
    · rw [h1] at c; exact absurd c (by decide)
    · rw [h2] at c; exact absurd c (by decide)

/-- the transfer of a listed register by a store without the S bit: `write_word(addr,
arm.reg[i])` -/
theorem ldm_stm_transfer_store (ops : mem_ops) (insn base_reg i addr : Nat) (st : Nat × Cpu)
    (h20 : insn >>> 20 &&& 1 = 0) (h22 : insn >>> 22 &&& 1 = 0) :
    ldm_stm_transfer ops insn base_reg i addr st
      = (ops.write_word addr (st.2.arm.reg i) st.2).map fun s1 => (st.1, s1) := by
  have hn : ¬ insn &&& (1 <<< 20) ≠ 0 := by
    rw [and_bit_ne_zero_iff, h20]; decide
  simp only [ldm_stm_transfer, if_neg hn, ldm_stm_reg_ptr_reg insn i st.2 (Or.inl h22),
    reg_ref_read]

/-- the transfer of a listed register other than the base by a load without the S bit or
with R15 in the list: `arm.reg[i] = read_word(addr)` -/
theorem ldm_stm_transfer_load (ops : mem_ops) (insn base_reg i addr : Nat) (st : Nat × Cpu)
    (h20 : insn >>> 20 &&& 1 = 1) (hS : insn >>> 22 &&& 1 = 0 ∨ insn >>> 15 &&& 1 = 1)
    (hi : i ≠ base_reg) :
    ldm_stm_transfer ops insn base_reg i addr st
      = (ops.read_word addr st.2).map fun r =>
          (st.1, { r.2 with arm := { r.2.arm with reg := set_elem r.2.arm.reg i r.1 } }) := by
  have hl : insn &&& (1 <<< 20) ≠ 0 := by
    rw [and_bit_ne_zero_iff]; exact h20
  have hp := ldm_stm_reg_ptr_reg insn i st.2 (hS.imp id (fun h => ⟨h20, h⟩))
  have hne : ¬ (reg_ref.reg i = reg_ref.reg base_reg) := by
    intro h; injection h with h; exact hi h
  simp only [ldm_stm_transfer, if_pos hl, hp, if_neg hne, Option.some_bind, reg_ref_write]

/-- the transfer of the base register by a load without the S bit or with R15 in the list:
an `error` with writeback, `new_base = read_word(addr)` without -/
theorem ldm_stm_transfer_load_base (ops : mem_ops) (insn base_reg addr : Nat) (st : Nat × Cpu)
    (h20 : insn >>> 20 &&& 1 = 1) (hS : insn >>> 22 &&& 1 = 0 ∨ insn >>> 15 &&& 1 = 1) :
    ldm_stm_transfer ops insn base_reg base_reg addr st
      = if insn >>> 21 &&& 1 = 1 then none
        else (ops.read_word addr st.2).map fun r => (r.1, r.2) := by
  have hl : insn &&& (1 <<< 20) ≠ 0 := by
    rw [and_bit_ne_zero_iff]; exact h20
  have hp := ldm_stm_reg_ptr_reg insn base_reg st.2 (hS.imp id (fun h => ⟨h20, h⟩))
  simp only [ldm_stm_transfer, if_pos hl, hp, if_true]
  by_cases hw : insn >>> 21 &&& 1 = 1
  · have hw2 : insn &&& (1 <<< 21) ≠ 0 := (and_bit_ne_zero_iff insn 21).2 hw
    rw [if_pos hw2, if_pos hw]; rfl
  · have hw2 : ¬ insn &&& (1 <<< 21) ≠ 0 := fun h => hw ((and_bit_ne_zero_iff insn 21).1 h)
    rw [if_neg hw2, if_neg hw]; rfl

/-- `ldm_stm_spec` once the transfers of the registers below R15 have returned `st`, when
it is not a load of R15 with the S bit: the transfer of R15 if it is listed, then the base
register written -/
theorem ldm_stm_spec_run (ops : mem_ops) (insn : Nat) (s : Cpu) (st : Nat × Cpu)
    (hb : insn >>> 16 &&& 15 ≠ 15)
    (hat : ldm_stm_at ops insn (insn >>> 16 &&& 15)
      (ldm_stm_first_address insn (s.arm.reg (insn >>> 16 &&& 15)) (count_bits insn 16)) 15
      (ldm_stm_written_base insn (s.arm.reg (insn >>> 16 &&& 15)) (count_bits insn 16), s)
        = some st)
    (hS : ¬ (insn >>> 22 &&& 1 = 1 ∧ insn >>> 20 &&& 1 = 1 ∧ insn >>> 15 &&& 1 = 1)) :
    ldm_stm_spec ops insn s
      = (if insn >>> 15 &&& 1 = 1 then
          if insn >>> 20 &&& 1 = 1 then
            (ops.read_word
              ((ldm_stm_first_address insn (s.arm.reg (insn >>> 16 &&& 15)) (count_bits insn 16)
                + 4 * count_bits insn 15) % 2 ^ 32) st.2).map
              fun v => set_reg_pc_bx 15 v.1 v.2
          else ops.write_word
            ((ldm_stm_first_address insn (s.arm.reg (insn >>> 16 &&& 15)) (count_bits insn 16)
              + 4 * count_bits insn 15) % 2 ^ 32) (get_reg_pc_store 15 st.2) st.2
         else some st.2).map
        fun s2 => { s2 with arm := { s2.arm with
          reg := set_elem s2.arm.reg (insn >>> 16 &&& 15) st.1 } } := by
  simp only [ldm_stm_spec, if_neg hb, hat, Option.some_bind, if_neg hS]
  generalize (if insn >>> 15 &&& 1 = 1 then
          if insn >>> 20 &&& 1 = 1 then
            (ops.read_word
              ((ldm_stm_first_address insn (s.arm.reg (insn >>> 16 &&& 15)) (count_bits insn 16)
                + 4 * count_bits insn 15) % 2 ^ 32) st.2).map
              fun v => set_reg_pc_bx 15 v.1 v.2
          else ops.write_word
            ((ldm_stm_first_address insn (s.arm.reg (insn >>> 16 &&& 15)) (count_bits insn 16)
              + 4 * count_bits insn 15) % 2 ^ 32) (get_reg_pc_store 15 st.2) st.2
         else some st.2) = o
  cases o <;> rfl

/-- a store multiple without the S bit over the flat RAM: it returns, afterwards the word at
the address of every listed register is that register (R15 is stored as the address of the
instruction plus 12), and no register but the base has changed -/
theorem ldm_stm_ram_store (insn : Nat) (s : Cpu) (hb : insn >>> 16 &&& 15 ≠ 15)
    (hB : s.arm.reg (insn >>> 16 &&& 15) < 2 ^ 32) (h20 : insn >>> 20 &&& 1 = 0)
    (h22 : insn >>> 22 &&& 1 = 0) :
    ∃ s', arm_ldm_stm ram_ops insn s = some s'
      ∧ (∀ i, i < 15 → insn >>> i &&& 1 = 1 →
          load_le32 s'.mem
            ((ldm_stm_first_address insn (s.arm.reg (insn >>> 16 &&& 15)) (count_bits insn 16)
              + 4 * count_bits insn i) % 2 ^ 32) = s.arm.reg i % 2 ^ 32)
      ∧ (insn >>> 15 &&& 1 = 1 →
          load_le32 s'.mem
            ((ldm_stm_first_address insn (s.arm.reg (insn >>> 16 &&& 15)) (count_bits insn 16)
              + 4 * count_bits insn 15) % 2 ^ 32) = (s.arm.reg 15 + 8) % 2 ^ 32)
      ∧ (∀ i, i ≠ insn >>> 16 &&& 15 → s'.arm.reg i = s.arm.reg i) := by
  have a20 : insn &&& (1 <<< 20) = 0 := by rw [and_one_shl, h20]; rfl
  have a22 : insn &&& (1 <<< 22) = 0 := by rw [and_one_shl, h22]; rfl
  have hS : ¬ (insn >>> 22 &&& 1 = 1 ∧ insn >>> 20 &&& 1 = 1 ∧ insn >>> 15 &&& 1 = 1) :=
    fun h => by rw [h20] at h; exact absurd h.2.1 (by decide)
  have hL : ¬ insn >>> 20 &&& 1 = 1 := by rw [h20]; decide
  obtain ⟨sk, ek, hka, hkm⟩ := stm_at_ram insn (insn >>> 16 &&& 15)
    (ldm_stm_first_address insn (s.arm.reg (insn >>> 16 &&& 15)) (count_bits insn 16))
    (ldm_stm_written_base insn (s.arm.reg (insn >>> 16 &&& 15)) (count_bits insn 16)) s a20 a22
    15 (by decide)
  rw [ldm_stm_eq_spec ram_ops insn s hB, ldm_stm_spec_run ram_ops insn s _ hb ek hS]
  by_cases h15 : insn >>> 15 &&& 1 = 1
  · rw [if_pos h15, if_neg hL]
    refine ⟨_, rfl, ?_, ?_, ?_⟩
    · intro i hi hbi
      have hc := count_bits_listed insn i 15 hi hbi
      have hc2 := count_bits_le insn 15
      show load_le32 (store_le32 sk.mem _ _) _ = _
      rw [load32_store32_ne _ _ _ _ (by omega)]
      exact hkm i hi hbi
    · intro _
      show load_le32 (store_le32 sk.mem _ (get_reg_pc_store 15 sk)) _ = _
      rw [load_store_le32, get_reg_pc_store, hka, if_pos rfl, Nat.mod_mod]
    · intro i hi
      show set_elem sk.arm.reg _ _ i = _
      rw [hka]; simp [set_elem, hi]
  · rw [if_neg h15]
    refine ⟨_, rfl, ?_, fun h => absurd h h15, ?_⟩
    · intro i hi hbi
      exact hkm i hi hbi
    · intro i hi
      show set_elem sk.arm.reg _ _ i = _
      rw [hka]; simp [set_elem, hi]

/-- a load multiple without the S bit and without the base register in its list over the flat
RAM: it returns, memory is as before, every listed register holds the word at its address
(a loaded R15 has the THUMB bit taken out), and no other register but the base has changed -/
theorem ldm_stm_ram_load (insn : Nat) (s : Cpu) (hb : insn >>> 16 &&& 15 ≠ 15)
    (hB : s.arm.reg (insn >>> 16 &&& 15) < 2 ^ 32) (h20 : insn >>> 20 &&& 1 = 1)
    (h22 : insn >>> 22 &&& 1 = 0) (hbl : insn >>> (insn >>> 16 &&& 15) &&& 1 = 0) :
    ∃ s', arm_ldm_stm ram_ops insn s = some s'
      ∧ s'.mem = s.mem
      ∧ (∀ i, i < 15 → insn >>> i &&& 1 = 1 →
          s'.arm.reg i = load_le32 s.mem
            ((ldm_stm_first_address insn (s.arm.reg (insn >>> 16 &&& 15)) (count_bits insn 16)
              + 4 * count_bits insn i) % 2 ^ 32))
      ∧ (insn >>> 15 &&& 1 = 1 →
          s'.arm.reg 15 = load_le32 s.mem
            ((ldm_stm_first_address insn (s.arm.reg (insn >>> 16 &&& 15)) (count_bits insn 16)
              + 4 * count_bits insn 15) % 2 ^ 32)
            - (if load_le32 s.mem
                ((ldm_stm_first_address insn (s.arm.reg (insn >>> 16 &&& 15))
                  (count_bits insn 16) + 4 * count_bits insn 15) % 2 ^ 32) &&& 1 ≠ 0
               then 1 else 0))
      ∧ (∀ i, i < 16 → i ≠ insn >>> 16 &&& 15 → insn >>> i &&& 1 = 0 →
          s'.arm.reg i = s.arm.reg i) := by
  have a20 : insn &&& (1 <<< 20) ≠ 0 := (and_bit_ne_zero_iff insn 20).2 h20
  have a22 : insn &&& (1 <<< 22) = 0 := by rw [and_one_shl, h22]; rfl
  have hS : ¬ (insn >>> 22 &&& 1 = 1 ∧ insn >>> 20 &&& 1 = 1 ∧ insn >>> 15 &&& 1 = 1) :=
    fun h => by rw [h22] at h; exact absurd h.1 (by decide)
  obtain ⟨tk, et, htm, htr⟩ := ldm_at_ram insn (insn >>> 16 &&& 15)
    (ldm_stm_first_address insn (s.arm.reg (insn >>> 16 &&& 15)) (count_bits insn 16))
    (ldm_stm_written_base insn (s.arm.reg (insn >>> 16 &&& 15)) (count_bits insn 16)) s a20 a22
    hbl 15
  rw [ldm_stm_eq_spec ram_ops insn s hB, ldm_stm_spec_run ram_ops insn s _ hb et hS]
  generalize ldm_stm_first_address insn (s.arm.reg (insn >>> 16 &&& 15)) (count_bits insn 16) = L
    at htr ⊢
  by_cases h15 : insn >>> 15 &&& 1 = 1
  · rw [if_pos h15, if_pos h20]
    refine ⟨_, rfl, ?_, ?_, ?_, ?_⟩
    · show (set_reg_pc_bx 15 _ tk).mem = _
      rw [← htm]
      unfold set_reg_pc_bx
      split_ifs <;> rfl
    · intro i hi hbi
      have hib : i ≠ insn >>> 16 &&& 15 := fun h => by
        rw [h, hbl] at hbi; exact absurd hbi (by decide)
      show set_elem (set_reg_pc_bx 15 _ tk).arm.reg _ _ i = _
      have e : (set_reg_pc_bx 15 (load_le32 tk.mem ((L + 4 * count_bits insn 15) % 2 ^ 32))
          tk).arm.reg i = tk.arm.reg i := by
        unfold set_reg_pc_bx
        split_ifs <;> simp [set_elem, show i ≠ 15 by omega]
      have e2 : set_elem (set_reg_pc_bx 15 (load_le32 tk.mem
          ((L + 4 * count_bits insn 15) % 2 ^ 32)) tk).arm.reg (insn >>> 16 &&& 15)
          (ldm_stm_written_base insn (s.arm.reg (insn >>> 16 &&& 15)) (count_bits insn 16)) i
            = tk.arm.reg i := by
        show (if i = insn >>> 16 &&& 15 then _ else _) = tk.arm.reg i
        rw [if_neg hib]; exact e
      rw [e2, htr i, if_pos ⟨hi, hbi⟩]
    · intro _
      show set_elem (set_reg_pc_bx 15 _ tk).arm.reg _ _ 15 = _
      rw [htm]
      have e : ∀ v, set_elem (set_reg_pc_bx 15 v tk).arm.reg (insn >>> 16 &&& 15)
          (ldm_stm_written_base insn (s.arm.reg (insn >>> 16 &&& 15)) (count_bits insn 16)) 15
            = v - (if v &&& 1 ≠ 0 then 1 else 0) := by
        intro v
        unfold set_reg_pc_bx
        by_cases hv : v &&& 1 ≠ 0
        · rw [if_pos ⟨rfl, hv⟩, if_pos hv]
          simp [set_elem, Ne.symm hb]
        · rw [if_neg (fun h => hv h.2), if_neg hv]
          simp [set_elem, Ne.symm hb]
      exact e _
    · intro i hi hib hbi
      show set_elem (set_reg_pc_bx 15 _ tk).arm.reg _ _ i = _
      have hi15 : i ≠ 15 := fun h => by rw [h, h15] at hbi; exact absurd hbi (by decide)
      have e : (set_reg_pc_bx 15 (load_le32 tk.mem ((L + 4 * count_bits insn 15) % 2 ^ 32))
          tk).arm.reg i = tk.arm.reg i := by
        unfold set_reg_pc_bx
        split_ifs <;> simp [set_elem, hi15]
      have e2 : set_elem (set_reg_pc_bx 15 (load_le32 tk.mem
          ((L + 4 * count_bits insn 15) % 2 ^ 32)) tk).arm.reg (insn >>> 16 &&& 15)
          (ldm_stm_written_base insn (s.arm.reg (insn >>> 16 &&& 15)) (count_bits insn 16)) i
            = tk.arm.reg i := by
        show (if i = insn >>> 16 &&& 15 then _ else _) = tk.arm.reg i
        rw [if_neg hib]; exact e
      rw [e2, htr i, if_neg (fun h => by rw [hbi] at h; exact absurd h.2 (by decide))]
  · rw [if_neg h15]
    refine ⟨_, rfl, htm, ?_, fun h => absurd h h15, ?_⟩
    · intro i hi hbi
      have hib : i ≠ insn >>> 16 &&& 15 := fun h => by
        rw [h, hbl] at hbi; exact absurd hbi (by decide)
      show set_elem tk.arm.reg _ _ i = _
      have e2 : set_elem tk.arm.reg (insn >>> 16 &&& 15)
          (ldm_stm_written_base insn (s.arm.reg (insn >>> 16 &&& 15)) (count_bits insn 16)) i
            = tk.arm.reg i := by
        simp [set_elem, hib]
      rw [e2, htr i, if_pos ⟨hi, hbi⟩]
    · intro i hi hib hbi
      show set_elem tk.arm.reg _ _ i = _
      have e2 : set_elem tk.arm.reg (insn >>> 16 &&& 15)
          (ldm_stm_written_base insn (s.arm.reg (insn >>> 16 &&& 15)) (count_bits insn 16)) i
            = tk.arm.reg i := by
        simp [set_elem, hib]
      rw [e2, htr i, if_neg (fun h => by rw [hbi] at h; exact absurd h.2 (by decide))]

theorem set_cpsr_full_get_cpsr_round_trip_witness :
    cpsr_wf cpu_example
    ∧ ∃ s', set_cpsr_full (get_cpsr cpu_example) cpu_example = some s'
        ∧ s'.arm = cpu_example.arm :=
  ⟨by decide,
   set_cpsr_full_get_cpsr_round_trip cpu_example (by decide)⟩

theorem mode_switch_round_trip_restores_registers_witness :
    well_formed cpu_example ∧ is_mode MODE_SVC
    ∧ ∃ s1 s2, set_cpsr_full ((get_cpsr cpu_example &&& not32 0x1F) ||| MODE_SVC) cpu_example
          = some s1
        ∧ set_cpsr_full (get_cpsr cpu_example) s1 = some s2
        ∧ ∀ i, i < 16 → s2.arm.reg i = cpu_example.arm.reg i :=
  ⟨by decide, by decide,
   mode_switch_round_trip_restores_registers cpu_example MODE_SVC
     (by decide) (by decide)⟩

theorem condition_false_changes_nothing_witness :
    0x0A000000 >>> 28 ≤ 13
    ∧ condition_passed (0x0A000000 >>> 28) cpu_example.arm = false
    ∧ cpu_interpret_instruction (fun _ _ _ => none) 0x0A000000 cpu_example = some cpu_example :=
  ⟨by decide, by decide,
   condition_false_changes_nothing (fun _ _ _ => none) 0x0A000000 cpu_example (by decide)
     (by decide) (by decide) (by decide) (by decide) (by decide)⟩

theorem add_sets_carry_and_overflow_witness :
    (0x7FFFFFFF : Nat) < 2 ^ 32 ∧ (1 : Nat) < 2 ^ 32 ∧ (0 : Nat) ≤ 1
    ∧ (add 0x7FFFFFFF 1 0 1 cpu_example).1 = (0x7FFFFFFF + 1 + 0) % 2 ^ 32
    ∧ (add 0x7FFFFFFF 1 0 1 cpu_example).2.arm.cpsr_c
        = (if 2 ^ 32 ≤ 0x7FFFFFFF + 1 + 0 then 1 else 0)
    ∧ (add 0x7FFFFFFF 1 0 1 cpu_example).2.arm.cpsr_v
        = (if sint32 0x7FFFFFFF + sint32 1 + ((0 : Nat) : Int) < -(2 ^ 31)
              ∨ 2 ^ 31 - 1 < sint32 0x7FFFFFFF + sint32 1 + ((0 : Nat) : Int)
           then 1 else 0)
    ∧ (add 0x7FFFFFFF 1 0 0 cpu_example).1 = (0x7FFFFFFF + 1 + 0) % 2 ^ 32
    ∧ (add 0x7FFFFFFF 1 0 0 cpu_example).2 = cpu_example :=
  ⟨by decide, by decide, by decide,
   add_sets_carry_and_overflow 0x7FFFFFFF 1 0 cpu_example (by decide) (by decide) (by decide)⟩

theorem ecc_detects_single_bit_flip_witness :
    (∀ n, n < 512 → (fun _ : Nat => 0) n < 256) ∧ 0 < 4096
    ∧ ecc_calculate (flip_bit (fun _ => 0) 0) ≠ ecc_calculate (fun _ => 0)
    ∧ (∀ d' : Nat → Nat, (∀ n, n < 512 → d' n = (fun _ : Nat => 0) n)
        → ecc_calculate d' = ecc_calculate (fun _ => 0))
    ∧ ecc_calculate (fun _ => 0) < 2 ^ 24 :=
  ⟨fun _ _ => (by decide : (0 : Nat) < 256), by decide,
   ecc_detects_single_bit_flip (fun _ => 0) 0 (fun _ _ => (by decide : (0 : Nat) < 256))
     (by decide)⟩

theorem nand_erase_confirm_witness :
    nand_example.metrics = chips false ∧ nand_example.nand_writable = true
    ∧ nand_example.nand_state = 0x60 ∧ nand_example.nand_row < nand_example.metrics.num_pages
    ∧ ∃ d', nand_write_command_byte 0xD0 nand_example = some d'
      ∧ (∀ p j, 2 ^ nand_example.metrics.log2_pages_per_block
              * (nand_example.nand_row / 2 ^ nand_example.metrics.log2_pages_per_block) ≤ p
          → p < 2 ^ nand_example.metrics.log2_pages_per_block
                * (nand_example.nand_row / 2 ^ nand_example.metrics.log2_pages_per_block)
                + 2 ^ nand_example.metrics.log2_pages_per_block
          → j < nand_example.metrics.page_size
          → d'.nand_data (p * nand_example.metrics.page_size + j) = 0xFF)
      ∧ d'.nand_block_modified
          (nand_example.nand_row >>> nand_example.metrics.log2_pages_per_block) = true
      ∧ (∀ a, (a < 2 ^ nand_example.metrics.log2_pages_per_block
                  * (nand_example.nand_row / 2 ^ nand_example.metrics.log2_pages_per_block)
                  * nand_example.metrics.page_size
              ∨ (2 ^ nand_example.metrics.log2_pages_per_block
                  * (nand_example.nand_row / 2 ^ nand_example.metrics.log2_pages_per_block)
                  + 2 ^ nand_example.metrics.log2_pages_per_block)
                  * nand_example.metrics.page_size ≤ a)
          → d'.nand_data a = nand_example.nand_data a)
      ∧ d'.nand_state = 0xFF :=
  ⟨rfl, rfl, rfl, by decide,
   nand_erase_confirm nand_example false rfl rfl rfl (by decide)⟩

theorem get_cpsr_bit_layout_witness :
    cpsr_wf cpu_example
    ∧ get_cpsr cpu_example >>> 31 &&& 1 = cpu_example.arm.cpsr_n
    ∧ get_cpsr cpu_example >>> 30 &&& 1 = cpu_example.arm.cpsr_z
    ∧ get_cpsr cpu_example >>> 29 &&& 1 = cpu_example.arm.cpsr_c
    ∧ get_cpsr cpu_example >>> 28 &&& 1 = cpu_example.arm.cpsr_v
    ∧ get_cpsr cpu_example >>> 5 &&& 1 = cpu_example.arm.cpsr_low28 >>> 5 &&& 1
    ∧ get_cpsr cpu_example % 2 ^ 28 = cpu_example.arm.cpsr_low28 :=
  ⟨by decide, get_cpsr_bit_layout cpu_example (by decide)⟩

theorem cpu_exception_saves_cpsr_and_return_address_witness :
    well_formed cpu_example ∧ is_exception EX_SWI
    ∧ ∃ s' slot, cpu_exception EX_SWI cpu_example = some s'
      ∧ spsr_of_mode (exception_mode EX_SWI) = some slot
      ∧ ptr_spsr s' = some slot
      ∧ read_spsr s'.arm slot = get_cpsr cpu_example
      ∧ s'.arm.reg 14 = cpu_example.arm.reg 15 :=
  ⟨by decide, by decide,
   cpu_exception_saves_cpsr_and_return_address EX_SWI cpu_example
     (by decide)
     (by decide)⟩

theorem cpu_exception_entry_state_witness :
    well_formed cpu_example ∧ is_exception EX_SWI
    ∧ cpu_example.arm.reg 15 = 0x00008004 ∧ cpu_example.arm.control &&& 0x2000 ≠ 0
    ∧ (0xEF000000 : Nat) >>> 28 = 14 ∧ (0xEF000000 : Nat) &&& 0x0F000000 = 0x0F000000
    ∧ (∃ s', cpu_exception EX_SWI cpu_example = some s'
        ∧ get_cpsr s' &&& 0x1F = exception_mode EX_SWI
        ∧ get_cpsr s' &&& 0x20 = 0
        ∧ get_cpsr s' &&& 0x80 = 0x80
        ∧ get_cpsr s' &&& 0x40
            = (if EX_SWI = EX_RESET ∨ EX_SWI = EX_FIQ then 0x40 else get_cpsr cpu_example &&& 0x40)
        ∧ s'.arm.cpsr_n = cpu_example.arm.cpsr_n ∧ s'.arm.cpsr_z = cpu_example.arm.cpsr_z
        ∧ s'.arm.cpsr_c = cpu_example.arm.cpsr_c ∧ s'.arm.cpsr_v = cpu_example.arm.cpsr_v
        ∧ s'.arm.reg 15
            = (if cpu_example.arm.control &&& 0x2000 ≠ 0 then 4 * EX_SWI + 0xFFFF0000
               else 4 * EX_SWI))
    ∧ (∃ s', cpu_interpret_instruction (fun _ _ _ => none) 0xEF000000 cpu_example = some s'
        ∧ s'.arm.reg 14 = 0x00008004 ∧ get_cpsr s' &&& 0x1F = MODE_SVC
        ∧ get_cpsr s' &&& 0x80 = 0x80 ∧ s'.arm.reg 15 = 0xFFFF0008) :=
  ⟨by decide, by decide,
   by decide, by decide, by decide, by decide,
   (cpu_exception_entry_state EX_SWI cpu_example
     (by decide)
     (by decide)).1,
   (cpu_exception_entry_state EX_SWI cpu_example
     (by decide)
     (by decide)).2 (by decide) (by decide) (fun _ _ _ => none) 0xEF000000
     (by decide) (by decide)⟩

theorem msr_mode_switch_scenario_witness :
    well_formed svc_example ∧ svc_example.arm.cpsr_low28 &&& 0x1F = MODE_SVC
    ∧ svc_example.arm.reg 13 = 0x1000 ∧ svc_example.arm.r13_usr 0 = 0
    ∧ ∃ s1, cpu_interpret_instruction (arm_body ext_example) 0xE321F010 svc_example = some s1
      ∧ s1.arm.cpsr_low28 &&& 0x1F = MODE_USR
      ∧ s1.arm.reg 13 = 0
      ∧ s1.arm.r13_svc 0 = 0x1000
      ∧ ∃ s3, cpu_interpret_instruction (arm_body ext_example) 0xE321F013
            (set_reg_pc 13 0x2000 s1) = some s3
          ∧ s3.arm.cpsr_low28 &&& 0x1F = MODE_USR
          ∧ s3.arm.reg 13 = 0x2000
          ∧ s3.arm.r13_svc 0 = 0x1000 :=
  ⟨by decide, by decide, by decide, by decide,
   msr_mode_switch_scenario ext_example svc_example (by decide) (by decide) (by decide) (by decide)⟩

theorem set_cpsr_user_and_privileged_witness :
    well_formed cpu_example ∧ well_formed svc_example ∧ 0xF00000D3 < 2 ^ 32
    ∧ cpu_example.arm.cpsr_low28 &&& 0x3F = MODE_USR
    ∧ svc_example.arm.cpsr_low28 &&& 0x1F ≠ MODE_USR
    ∧ (∃ s', set_cpsr 0xF00000D3 0xFFFFFFFF cpu_example = some s'
        ∧ get_cpsr s' &&& 0x010000FF = get_cpsr cpu_example &&& 0x010000FF
        ∧ s'.arm.reg = cpu_example.arm.reg ∧ same_banks s'.arm cpu_example.arm
        ∧ get_cpsr s' &&& not32 (0xFFFFFFFF &&& not32 0x010000FF)
            = get_cpsr cpu_example &&& not32 (0xFFFFFFFF &&& not32 0x010000FF))
    ∧ (set_cpsr 0xF00000D3 0xFFFFFFFF svc_example = none ↔
          ((0xF00000D3 &&& 0xFFFFFFFF) ||| (get_cpsr svc_example &&& not32 0xFFFFFFFF)) &&& 0x20 ≠ 0
          ∨ ((0xF00000D3 &&& 0xFFFFFFFF) ||| (get_cpsr svc_example &&& not32 0xFFFFFFFF))
              &&& 0x01000000 ≠ 0
          ∨ ¬ is_mode (((0xF00000D3 &&& 0xFFFFFFFF)
              ||| (get_cpsr svc_example &&& not32 0xFFFFFFFF)) &&& 0x1F))
    ∧ (∀ s', set_cpsr 0xF00000D3 0xFFFFFFFF svc_example = some s' →
          get_cpsr s' = ((0xF00000D3 &&& 0xFFFFFFFF)
            ||| (get_cpsr svc_example &&& not32 0xFFFFFFFF)) &&& 0xF90000FF) :=
  ⟨by decide, by decide, by decide, by decide, by decide,
   (set_cpsr_user_and_privileged 0xF00000D3 0xFFFFFFFF cpu_example (by decide) (by decide)).1
     (by decide),
   ((set_cpsr_user_and_privileged 0xF00000D3 0xFFFFFFFF svc_example (by decide) (by decide)).2
     (by decide)).1,
   ((set_cpsr_user_and_privileged 0xF00000D3 0xFFFFFFFF svc_example (by decide) (by decide)).2
     (by decide)).2⟩

theorem bx_register_sets_pc_and_thumb_bit_witness :
    0 ≤ 14 ∧ bx_example.arm.cpsr_low28 &&& 0x20 = 0 ∧ bx_example.arm.reg 0 < 2 ^ 32
    ∧ ∃ s', cpu_interpret_instruction (arm_body ext_example) (0xE12FFF10 ||| 0) bx_example = some s'
      ∧ s'.arm.reg 15 = bx_example.arm.reg 0 - bx_example.arm.reg 0 % 2
      ∧ s'.arm.cpsr_low28 &&& 0x20 = (if bx_example.arm.reg 0 % 2 = 1 then 0x20 else 0)
      ∧ s'.arm.cpsr_low28 &&& not32 0x20 = bx_example.arm.cpsr_low28 &&& not32 0x20
      ∧ (∀ i, i ≠ 15 → s'.arm.reg i = bx_example.arm.reg i)
      ∧ s'.arm.cpsr_n = bx_example.arm.cpsr_n ∧ s'.arm.cpsr_z = bx_example.arm.cpsr_z
      ∧ s'.arm.cpsr_c = bx_example.arm.cpsr_c ∧ s'.arm.cpsr_v = bx_example.arm.cpsr_v :=
  ⟨by decide, by decide, by decide,
   bx_register_sets_pc_and_thumb_bit ext_example 0 bx_example (by decide) (by decide) (by decide)⟩

theorem adds_immediate_result_and_flags_witness :
    1 < 256 ∧ adds_example.arm.reg 0 < 2 ^ 32
    ∧ ∃ s', cpu_interpret_instruction (arm_body ext_example) (0xE2901000 ||| 1) adds_example
          = some s'
      ∧ s'.arm.reg 1 = (adds_example.arm.reg 0 + 1) % 2 ^ 32
      ∧ s'.arm.cpsr_n = ((adds_example.arm.reg 0 + 1) % 2 ^ 32) >>> 31 &&& 1
      ∧ s'.arm.cpsr_z = (if (adds_example.arm.reg 0 + 1) % 2 ^ 32 = 0 then 1 else 0)
      ∧ s'.arm.cpsr_c = (if 2 ^ 32 ≤ adds_example.arm.reg 0 + 1 then 1 else 0)
      ∧ s'.arm.cpsr_v
          = (if sint32 (adds_example.arm.reg 0) + sint32 1 < -(2 ^ 31)
                ∨ 2 ^ 31 - 1 < sint32 (adds_example.arm.reg 0) + sint32 1 then 1 else 0)
      ∧ (∀ j, j ≠ 1 → s'.arm.reg j = adds_example.arm.reg j)
      ∧ s'.arm.cpsr_low28 = adds_example.arm.cpsr_low28 :=
  ⟨by decide, by decide,
   adds_immediate_result_and_flags ext_example 1 adds_example (by decide) (by decide)⟩

theorem nand_small_page_read_sequence_witness :
    nand_example.metrics = chips false ∧ 0 < 256
    ∧ ∃ d1 d2, nand_write_command_byte 0x00 nand_example = some d1
      ∧ nand_write_address_byte 0 (nand_write_address_byte 0 (nand_write_address_byte 0 d1)) = d2
      ∧ d2.nand_column = 0 ∧ d2.nand_row = 0 ||| 0 <<< 8
      ∧ (∀ n, 0 + n ≤ 0x210 →
          (nand_read_bytes n d2).1
            = (List.range n).map (fun i => nand_example.nand_data ((0 ||| 0 <<< 8) * 0x210 + 0 + i))
          ∧ (nand_read_bytes n d2).2.nand_column = 0 + n)
      ∧ nand_read_data_byte (nand_read_bytes (0x210 - 0) d2).2
          = (0, (nand_read_bytes (0x210 - 0) d2).2) :=
  ⟨by decide, by decide,
   nand_small_page_read_sequence nand_example 0 0 0 (by decide) (by decide) (by decide)
     (by decide)⟩

theorem nand_program_sequence_witness :
    nand_erased_example.metrics = chips false ∧ nand_erased_example.nand_writable = true
    ∧ (false = false → nand_erased_example.nand_area_pointer = 0)
    ∧ ∃ d1 d3, nand_write_command_byte 0x80 nand_erased_example = some d1
      ∧ nand_write_command_byte 0x10
          (nand_write_bytes (fun i => i % 256) 512 (nand_write_address_bytes (fun _ => 0) 5 d1))
          = some d3
      ∧ (∀ i, i < 512 → d3.nand_data i = nand_erased_example.nand_data i &&& (fun i => i % 256) i)
      ∧ (∀ i, 512 ≤ i → d3.nand_data i = nand_erased_example.nand_data i)
      ∧ d3.nand_block_modified 0 = true
      ∧ d3.nand_state = 0xFF
      ∧ ((∀ i, i < nand_erased_example.metrics.page_size → nand_erased_example.nand_data i = 0xFF) →
          (∀ i, i < 512 → (fun i => i % 256) i < 256) →
          ∀ i, i < 512 → d3.nand_data i = (fun i => i % 256) i) :=
  ⟨by decide, by decide, fun _ => rfl,
   nand_program_sequence nand_erased_example false (fun i => i % 256) (by decide) (by decide)
     (fun _ => rfl)⟩

theorem coprocessor_other_than_15_is_fatal_witness :
    0xEE000A10 >>> 28 ≤ 14
    ∧ cpu_example.arm.cpsr_n ≤ 1 ∧ cpu_example.arm.cpsr_z ≤ 1
    ∧ cpu_example.arm.cpsr_c ≤ 1 ∧ cpu_example.arm.cpsr_v ≤ 1
    ∧ condition_passed (0xEE000A10 >>> 28) cpu_example.arm = true
    ∧ 0xEE000A10 &&& 0x0F000010 = 0x0E000010 ∧ 0xEE000A10 >>> 8 &&& 15 ≠ 15
    ∧ cpu_interpret_instruction ext_example 0xEE000A10 cpu_example = none :=
  ⟨by decide, by decide, by decide, by decide, by decide, by decide, by decide, by decide,
   coprocessor_other_than_15_is_fatal ext_example 0xEE000A10 cpu_example (by decide) (by decide)
     (by decide) (by decide) (by decide) (by decide) (by decide) (by decide)⟩

theorem mcr_c8_flushes_for_three_keys_witness :
    0xEE080F17 >>> 28 ≤ 14
    ∧ cpu_example.arm.cpsr_n ≤ 1 ∧ cpu_example.arm.cpsr_z ≤ 1
    ∧ cpu_example.arm.cpsr_c ≤ 1 ∧ cpu_example.arm.cpsr_v ≤ 1
    ∧ condition_passed (0xEE080F17 >>> 28) cpu_example.arm = true
    ∧ 0xEE080F17 &&& 0xF100F10 = 0xE000F10 ∧ 0xEE080F17 >>> 12 &&& 15 ≠ 15
    ∧ 0xEE080F17 &&& 0xEF0000 = 0x080000
    ∧ cpu_interpret_instruction (arm_body ext_example) 0xEE080F17 cpu_example
      = some (if 0xEE080F17 &&& 0xEF00EF = 0x080025 ∨ 0xEE080F17 &&& 0xEF00EF = 0x080026
                ∨ 0xEE080F17 &&& 0xEF00EF = 0x080007
              then { cpu_example with addr_cache_flushes := cpu_example.addr_cache_flushes + 1 }
              else cpu_example) :=
  ⟨by decide, by decide, by decide, by decide, by decide, by decide, by decide, by decide,
   by decide,
   mcr_c8_flushes_for_three_keys ext_example 0xEE080F17 cpu_example (by decide) (by decide)
     (by decide) (by decide) (by decide) (by decide) (by decide) (by decide) (by decide)⟩

/-- Counterexample to claim C11 as stated: from `svc_example` the second MSR leaves the
processor in USR mode with r13 = `0x2000`; the SVC bank keeps `0x1000`. -/
theorem msr_mode_switch_counterexample :
    ∃ s1 s3, cpu_interpret_instruction (arm_body ext_example) 0xE321F010 svc_example = some s1
      ∧ cpu_interpret_instruction (arm_body ext_example) 0xE321F013 (set_reg_pc 13 0x2000 s1)
          = some s3
      ∧ s3.arm.cpsr_low28 &&& 0x1F = MODE_USR
      ∧ s3.arm.reg 13 = 0x2000
      ∧ s3.arm.r13_svc 0 = 0x1000 :=
  ⟨_, _, rfl, rfl, rfl, rfl, rfl⟩

/-- Counterexample to claim C12 as stated: in SVC mode `set_cpsr(0, 0xFF)` composes a value
with T and J clear and is fatal all the same, because its mode bits are 0. -/
theorem set_cpsr_counterexample :
    svc_example.arm.cpsr_low28 &&& 0x1F = MODE_SVC
    ∧ ((0 &&& 0xFF) ||| (get_cpsr svc_example &&& not32 0xFF)) &&& 0x20 = 0
    ∧ ((0 &&& 0xFF) ||| (get_cpsr svc_example &&& not32 0xFF)) &&& 0x01000000 = 0
    ∧ set_cpsr 0 0xFF svc_example = none :=
  ⟨by decide, by decide, by decide, rfl⟩

/-- Counterexample to claim C16 as stated: after command `0x50` the area pointer of the
small-page chip is 2, the program sequence starts at column `0x200`, byte 0 of page 0 keeps
`0xFF` although `b 0 = 0`, and byte 512 is programmed to 0. -/
theorem nand_program_counterexample :
    ∃ d0 d1 d3, nand_write_command_byte 0x50 nand_erased_example = some d0
      ∧ nand_write_command_byte 0x80 d0 = some d1
      ∧ nand_write_command_byte 0x10
          (nand_write_bytes (fun _ => 0) 512 (nand_write_address_bytes (fun _ => 0) 5 d1)) = some d3
      ∧ d3.nand_data 0 = 0xFF
      ∧ d3.nand_data 512 = 0 := by
  have h3 : ∃ d3, nand_write_command_byte 0x10
          (nand_write_bytes (fun _ => 0) 512 (nand_write_address_bytes (fun _ => 0) 5
            { nand_erased_example with
              nand_area_pointer := 2, nand_addr_state := 0, nand_state := 0x80,
              nand_buffer_pos := 0 })) = some d3
      ∧ d3.nand_data 0 = 0xFF
      ∧ d3.nand_data 512 = 0 := by
    have hE : nand_write_address_bytes (fun _ => 0) 5
        { nand_erased_example with
          nand_area_pointer := 2, nand_addr_state := 0, nand_state := 0x80,
          nand_buffer_pos := 0 }
        = { nand_erased_example with
            nand_area_pointer := 2, nand_addr_state := 6, nand_state := 0x80,
            nand_buffer_pos := 0, nand_column := 0x200 } := rfl
    rw [hE, nand_write_bytes_clip _ _ rfl rfl (by decide) (by decide) 512]
    exact ⟨_, rfl, rfl, rfl⟩
  obtain ⟨d3, a, b, c⟩ := h3
  exact ⟨_, _, d3, rfl, rfl, a, b, c⟩

/-- Counterexample to claim C17 as stated: `MCR p14, 0, r0, c0, c0, 0` (`0xEE000E10`) with
condition AL aborts the emulator. -/
theorem coprocessor_other_than_15_counterexample :
    cpu_interpret_instruction ext_example 0xEE000E10 cpu_example = none :=
  interpret_cp_other _ _ _ (by decide) (by decide) (by decide) (by decide)

/-- Counterexample to claim C19 as stated: `MCR p15, 0, r0, c8, c5, 0` (`0xEE080F15`) returns
the state unchanged, without a call of `addr_cache_flush`, while `MCR p15, 0, r0, c8, c7, 0`
(`0xEE080F17`) makes one. -/
theorem mcr_c8_counterexample :
    cpu_interpret_instruction (arm_body ext_example) 0xEE080F15 cpu_example = some cpu_example
    ∧ (cpu_interpret_instruction (arm_body ext_example) 0xEE080F17 cpu_example).map
        Cpu.addr_cache_flushes = some (cpu_example.addr_cache_flushes + 1) := by
  constructor
  · obtain ⟨c1, c2⟩ := cond_al 0xEE080F15 cpu_example.arm (by decide)
    rw [interpret_mcr _ _ _ c1 c2 (by decide)]
    simp +decide [arm_body, arm_mcr_p15, get_reg]
  · obtain ⟨c1, c2⟩ := cond_al 0xEE080F17 cpu_example.arm (by decide)
    rw [interpret_mcr _ _ _ c1 c2 (by decide)]
    simp +decide [arm_body, arm_mcr_p15, get_reg, addr_cache_flush]

theorem mode_switch_moves_banks_witness :
    (is_mode (cpu_example.arm.cpsr_low28 &&& 0x1F))
    ∧ (is_mode (0x13 &&& 0x1F))
    ∧ (0x13 &&& 0x1F ≠ cpu_example.arm.cpsr_low28 &&& 0x1F)
    ∧ (0x13 &&& 0x01000000 = 0)
    ∧ (∃ s', set_cpsr_full 0x13 cpu_example = some s'
      ∧ (∀ j, j < 2 → r13_bank (cpu_example.arm.cpsr_low28 &&& 0x1F) s'.arm j = cpu_example.arm.reg (13 + j))
      ∧ (∀ j, j < 5 → r8_bank (cpu_example.arm.cpsr_low28 &&& 0x1F) s'.arm j = cpu_example.arm.reg (8 + j))
      ∧ (∀ j, j < 2 → s'.arm.reg (13 + j) = r13_bank (0x13 &&& 0x1F) s'.arm j)
      ∧ (∀ j, j < 5 → s'.arm.reg (8 + j) = r8_bank (0x13 &&& 0x1F) s'.arm j)
      ∧ (∀ j, j < 2 → s'.arm.reg (13 + j)
          = if same13 (0x13 &&& 0x1F) (cpu_example.arm.cpsr_low28 &&& 0x1F) then cpu_example.arm.reg (13 + j)
            else r13_bank (0x13 &&& 0x1F) cpu_example.arm j)
      ∧ (∀ j, j < 5 → s'.arm.reg (8 + j)
          = if same8 (0x13 &&& 0x1F) (cpu_example.arm.cpsr_low28 &&& 0x1F) then cpu_example.arm.reg (8 + j)
            else r8_bank (0x13 &&& 0x1F) cpu_example.arm j)
      ∧ (∀ i, i < 8 ∨ i = 15 → s'.arm.reg i = cpu_example.arm.reg i)
      ∧ (cpu_example.arm.cpsr_low28 &&& 0x1F ≠ MODE_FIQ → 0x13 &&& 0x1F ≠ MODE_FIQ →
          ∀ i, 8 ≤ i → i < 13 → s'.arm.reg i = cpu_example.arm.reg i)
      ∧ (same13 (0x13 &&& 0x1F) (cpu_example.arm.cpsr_low28 &&& 0x1F) →
          ∀ i, i < 16 → s'.arm.reg i = cpu_example.arm.reg i)) :=
  ⟨by decide, by decide, by decide, by decide,
   mode_switch_moves_banks 0x13 cpu_example (by decide) (by decide) (by decide) (by decide)⟩

theorem shift_agrees_with_arm_shifter_witness :
    (0x80000001 < 2 ^ 32)
    ∧ (33 ≤ 255)
    ∧ ((∀ type, shift type 0x80000001 0 1 cpu_example = (0x80000001, cpu_example))
    ∧ (1 ≤ 33 →
        shift 0 0x80000001 33 1 cpu_example
          = ((0x80000001 * 2 ^ 33) % 2 ^ 32,
             { cpu_example with arm := { cpu_example.arm with
                 cpsr_c := if 33 ≤ 32 then 0x80000001 >>> (32 - 33) &&& 1 else 0 } })
        ∧ shift 1 0x80000001 33 1 cpu_example
          = (0x80000001 / 2 ^ 33,
             { cpu_example with arm := { cpu_example.arm with
                 cpsr_c := if 33 ≤ 32 then 0x80000001 >>> (33 - 1) &&& 1 else 0 } })
        ∧ (shift 2 0x80000001 33 1 cpu_example).1 < 2 ^ 32
        ∧ sint32 (shift 2 0x80000001 33 1 cpu_example).1 = sint32 0x80000001 / 2 ^ min 33 31
        ∧ (shift 2 0x80000001 33 1 cpu_example).2
          = { cpu_example with arm := { cpu_example.arm with cpsr_c := 0x80000001 >>> (min 33 32 - 1) &&& 1 } }
        ∧ (shift 3 0x80000001 33 1 cpu_example).1 < 2 ^ 32
        ∧ (∀ i, i < 32 → (shift 3 0x80000001 33 1 cpu_example).1.testBit i = 0x80000001.testBit ((i + 33) % 32))
        ∧ (shift 3 0x80000001 33 1 cpu_example).2
          = { cpu_example with arm := { cpu_example.arm with cpsr_c := (shift 3 0x80000001 33 1 cpu_example).1 >>> 31 &&& 1 } })) :=
  ⟨by decide, by decide,
   shift_agrees_with_arm_shifter 0x80000001 33 cpu_example (by decide) (by decide)⟩

theorem subtract_instructions_result_and_carry_witness :
    (5 < 2 ^ 32)
    ∧ (7 < 2 ^ 32)
    ∧ (0 ≤ 1)
    ∧ (6 = 2 ∨ 6 = 3 ∨ 6 = 6 ∨ 6 = 7 ∨ 6 = 10)
    ∧ (((data_processing_alu 6 5 7 0 1 cpu_example).1 : Int) = sub_exact 6 5 7 0 % 2 ^ 32
    ∧ (data_processing_alu 6 5 7 0 1 cpu_example).2.arm.cpsr_c
        = (if 0 ≤ sub_exact 6 5 7 0 then 1 else 0)
    ∧ (0 ≤ sub_exact 6 5 7 0 ↔
        if 6 = 2 ∨ 6 = 10 then 7 ≤ 5
        else if 6 = 3 then 5 ≤ 7
        else if 6 = 6 then 7 + (1 - 0) ≤ 5
        else 5 + (1 - 0) ≤ 7)
    ∧ (∀ (ext : arm_class → Nat → Cpu → Option Cpu) (insn : Nat) (s0 : Cpu),
        insn >>> 28 ≤ 14 → s0.arm.cpsr_n ≤ 1 → s0.arm.cpsr_z ≤ 1 → s0.arm.cpsr_v ≤ 1
        → condition_passed (insn >>> 28) s0.arm = true
        → insn &&& 0xC000000 = 0 → insn &&& 0xE000090 ≠ 0x90 → insn >>> 20 &&& 1 = 1
        → insn >>> 21 &&& 15 = 6 → 6 ≠ 10 → insn >>> 12 &&& 15 ≠ 15
        → get_reg_pc (insn >>> 16 &&& 15) s0 = 5 → s0.arm.cpsr_c = 0
        → (if insn &&& (1 <<< 25) ≠ 0 then some (get_shifted_immed insn 1 s0)
            else get_shifted_reg insn 1 s0) = some (7, cpu_example)
        → ∃ s', cpu_interpret_instruction (arm_body ext) insn s0 = some s'
            ∧ (s'.arm.reg (insn >>> 12 &&& 15) : Int) = sub_exact 6 5 7 0 % 2 ^ 32
            ∧ s'.arm.cpsr_c = (if 0 ≤ sub_exact 6 5 7 0 then 1 else 0))) :=
  ⟨by decide, by decide, by decide, by decide,
   subtract_instructions_result_and_carry 6 5 7 0 cpu_example (by decide) (by decide) (by decide) (by decide)⟩

theorem nand_cx_write_word_command_sequence_witness :
    (0x81000000 ≤ 0x81768300)
    ∧ (0x81768300 < 0x82000000)
    ∧ (0x81768300 &&& 0x080000 = 0)
    ∧ (nand_cx_write_word bad_write_nand_example 0x81768300 0x20 nand_example = cx_command_sequence 0x81768300 0x20 nand_example
    ∧ (4 < 0x81768300 >>> 21 &&& 7 → nand_cx_write_word bad_write_nand_example 0x81768300 0x20 nand_example = none)
    ∧ (∀ large, nand_example.metrics = chips large → nand_example.nand_writable = true
        → 0x81768300 >>> 3 &&& 0xFF = 0x60 → 0x81768300 >>> 21 &&& 7 = 3 → 0x81768300 >>> 20 &&& 1 = 1
        → 0x81768300 >>> 11 &&& 0xFF = 0xD0
        → 0x20 < nand_example.metrics.num_pages → 0x20 % 2 ^ nand_example.metrics.log2_pages_per_block = 0
        → ∃ d', nand_cx_write_word bad_write_nand_example 0x81768300 0x20 nand_example = some d'
            ∧ (∀ p j, 0x20 ≤ p → p < 0x20 + 2 ^ nand_example.metrics.log2_pages_per_block
                → j < nand_example.metrics.page_size → d'.nand_data (p * nand_example.metrics.page_size + j) = 0xFF)
            ∧ d'.nand_block_modified (0x20 >>> nand_example.metrics.log2_pages_per_block) = true
            ∧ (∀ x, (x < 0x20 * nand_example.metrics.page_size
                  ∨ (0x20 + 2 ^ nand_example.metrics.log2_pages_per_block) * nand_example.metrics.page_size ≤ x)
                → d'.nand_data x = nand_example.nand_data x)
            ∧ d'.nand_state = 0xFF)) :=
  ⟨by decide, by decide, by decide,
   nand_cx_write_word_command_sequence bad_write_nand_example 0x81768300 0x20 nand_example (by decide) (by decide) (by decide)⟩

theorem flash_create_then_read_settings_witness :
    (∀ i : Nat, (fun _ : Nat => false) i = false)
    ∧ (0x0F0 ≤ 0x100)
    ∧ (0x100 < 2 ^ 20)
    ∧ (∃ dn, flash_create_new load_file_example preload_example true true (fun _ : Nat => (0 : Nat)) false (fun _ : Nat => false) 0x100 true nand_example
        = (true, dn)
      ∧ (flash_read_settings dn).ok = true
      ∧ (flash_read_settings dn).product = 0x100
      ∧ (flash_read_settings dn).sdram_size
          = (4 * 1024 * 1024) <<< ((load_le32 dn.nand_data (0x844 + 60) &&& 7)
              + (load_le32 dn.nand_data (0x844 + 60) >>> 3 &&& 7))
      ∧ (flash_read_settings dn).sdram_size
          = (if true then 64 * 1024 * 1024 else 32 * 1024 * 1024)
      ∧ (∀ cfg, cfg < 2 ^ 32 → (cfg &&& 7) + (cfg >>> 3 &&& 7) > 4 →
          (flash_read_settings { dn with nand_data := store_le32 dn.nand_data (0x844 + 60) cfg }).ok
            = false)) :=
  ⟨fun _ => rfl, by decide, by decide,
   flash_create_then_read_settings load_file_example preload_example (fun _ => 0) false (fun _ => false) 0x100 true nand_example (fun _ => rfl) (by decide) (by decide)⟩

theorem nand_buffer_position_bounded_witness :
    (nand_run ([nand_op.command 0x80, nand_op.write_byte 0xAB].take 2) (nand_initial false true (fun _ : Nat => (0 : Nat))) = some nand_program_example)
    ∧ (nand_program_example.nand_buffer_pos ≤ nand_program_example.metrics.page_size ∧ nand_program_example.metrics.page_size ≤ 0x840
      ∧ (∀ i, 0x840 ≤ i → nand_program_example.nand_buffer i = (nand_initial false true (fun _ : Nat => (0 : Nat))).nand_buffer i)
      ∧ (∀ v, nand_write_data_byte v nand_program_example = nand_program_example
            ∨ (nand_program_example.nand_buffer_pos < 0x840
                ∧ nand_write_data_byte v nand_program_example
                  = { nand_program_example with nand_buffer := set_elem nand_program_example.nand_buffer nand_program_example.nand_buffer_pos v, nand_buffer_pos := nand_program_example.nand_buffer_pos + 1 }))
      ∧ (∀ v, nand_write_data_word v nand_program_example = nand_program_example
            ∨ (nand_program_example.nand_buffer_pos + 4 ≤ 0x840
                ∧ nand_write_data_word v nand_program_example
                  = { nand_program_example with nand_buffer := store_le32 nand_program_example.nand_buffer nand_program_example.nand_buffer_pos v, nand_buffer_pos := nand_program_example.nand_buffer_pos + 4 }))
      ∧ (nand_program_example.nand_state = 0x80 → nand_program_example.nand_buffer_pos + nand_program_example.nand_column ≥ nand_program_example.metrics.page_size
            → ∀ v, nand_write_data_byte v nand_program_example = nand_program_example)
      ∧ (nand_program_example.nand_state = 0x80 → nand_program_example.nand_buffer_pos + nand_program_example.nand_column + 4 > nand_program_example.metrics.page_size
            → ∀ v, nand_write_data_word v nand_program_example = nand_program_example)) :=
  ⟨rfl,
   nand_buffer_position_bounded false true (fun _ => 0)
     [nand_op.command 0x80, nand_op.write_byte 0xAB] 2 nand_program_example rfl⟩


theorem cpsr_predicate_is_invariant_witness :
    mem_ops_keep_cpsr ram_ops ∧ cpsr_ok cpu_example
    ∧ ((∀ c s', set_cpsr_full c cpu_example = some s' → cpsr_ok s')
      ∧ (∀ c m s', set_cpsr c m cpu_example = some s' → cpsr_ok s')
      ∧ (∀ t s', cpu_exception t cpu_example = some s' → cpsr_ok s')
      ∧ (∀ insn s', cpu_interpret_instruction (arm_body (arm_ext ram_ops)) insn cpu_example = some s'
          → cpsr_ok s' ∧ get_cpsr s' &&& (0x090000FF ||| 0xF0000000) = get_cpsr s')
      ∧ (∀ insn s', regs32 cpu_example → cpu_thumb_instruction ram_ops insn cpu_example = some s'
          → cpsr_ok s' ∧ get_cpsr s' &&& (0x090000FF ||| 0xF0000000) = get_cpsr s')
      ∧ get_cpsr cpu_example &&& (0x090000FF ||| 0xF0000000) = get_cpsr cpu_example) :=
  ⟨ram_ops_keep_cpsr, by decide,
    cpsr_predicate_is_invariant ram_ops cpu_example ram_ops_keep_cpsr (by decide)⟩

theorem thumb_branch_condition_matches_arm_witness :
    (0 : Nat) ≤ 13 ∧ cpu_example.arm.cpsr_n ≤ 1 ∧ cpu_example.arm.cpsr_z ≤ 1
    ∧ cpu_example.arm.cpsr_c ≤ 1 ∧ cpu_example.arm.cpsr_v ≤ 1
    ∧ 0xD004 >>> 8 = 0xD0 + 0 ∧ 0x0A000000 >>> 28 = 0
    ∧ (thumb_switch ram_ops 0xD004 cpu_example
        = some (if thumb_branch_cond 0 cpu_example.arm = true then
            set_reg_pc 15 ((cpu_example.arm.reg 15 + 2 + (sext8 0xD004 <<< 1)) % 2 ^ 32)
              cpu_example else cpu_example)
      ∧ (thumb_branch_cond 0 cpu_example.arm = true
          ↔ ¬ (cond_exec 0x0A000000 cpu_example.arm ^^^ (0x0A000000 >>> 28 &&& 1) = 0))
      ∧ ¬ (7 ≤ 0x0A000000 >>> 29 ∧ 0x0A000000 &&& (1 <<< 28) ≠ 0)
      ∧ (thumb_branch_cond 0 cpu_example.arm = false
          → cpu_interpret_instruction (arm_body (arm_ext ram_ops)) 0x0A000000 cpu_example
            = some cpu_example)) :=
  ⟨by decide, by decide, by decide, by decide, by decide, by decide, by decide,
    thumb_branch_condition_matches_arm ram_ops (arm_body (arm_ext ram_ops)) 0 0xD004 0x0A000000
      cpu_example (by decide) (by decide) (by decide) (by decide) (by decide) (by decide)
      (by decide)⟩

/-- Claim C37 (what the code does at the failing input): the THUMB instruction
`LSR r0, r1, #0` (`0x0808`, the encoding of LSR #32) on a state with `r1 = 0x80000000` and C
clear leaves `r0 = 0x80000000`, N = 1, Z = 0 and C = 0, while the ARM instruction
`MOVS r0, r1, LSR #0` (`0xE1B00021`, the same 5-bit field) on that state leaves `r0 = 0`,
N = 0, Z = 1 and C = 1. -/
theorem thumb_lsr_zero_differs_from_arm :
    thumb_shift_insn 1 0 0 1 = 0x0808 ∧ arm_movs_shift_insn 1 0 0 1 = 0xE1B00021
    ∧ (cpu_thumb_instruction ram_ops 0x0808 lsr_example).map
        (fun t => (t.arm.reg 0, t.arm.cpsr_n, t.arm.cpsr_z, t.arm.cpsr_c))
      = some (0x80000000, 1, 0, 0)
    ∧ (cpu_interpret_instruction (arm_body (arm_ext ram_ops)) 0xE1B00021 lsr_example).map
        (fun t => (t.arm.reg 0, t.arm.cpsr_n, t.arm.cpsr_z, t.arm.cpsr_c))
      = some (0, 0, 1, 1) := by
  refine ⟨rfl, rfl, ?_, ?_⟩
  · rfl
  · rfl

theorem thumb_bl_blx_pair_witness :
    (0x8004 % 2 = 0)
    ∧ (1 < 2 ^ 11)
    ∧ (2 < 2 ^ 11)
    ∧ (cpu_example.arm.reg 15 = 0x8004)
    ∧ (∃ (s1 s2 s3 : Cpu) (t : Nat), cpu_thumb_instruction ram_ops (0xF000 ||| 1) cpu_example = some s1
      ∧ s1.arm.reg 15 = (0x8004 + 2) % 2 ^ 32
      ∧ (t : Int) = ((0x8004 : Int) + 4 + signext11 1 * 2 ^ 12 + (2 : Int) * 2) % 2 ^ 32
      ∧ cpu_thumb_instruction ram_ops (0xF800 ||| 2) s1 = some s2
      ∧ s2.arm.reg 15 = t
      ∧ s2.arm.reg 14 = (0x8004 + 4) % 2 ^ 32 ||| 1
      ∧ s2.arm.cpsr_low28 = cpu_example.arm.cpsr_low28
      ∧ cpu_thumb_instruction ram_ops (0xE800 ||| 2) s1 = some s3
      ∧ s3.arm.reg 15 = t &&& not32 3
      ∧ s3.arm.reg 15 = 4 * (t / 4)
      ∧ s3.arm.reg 14 = (0x8004 + 4) % 2 ^ 32 ||| 1
      ∧ s3.arm.cpsr_low28 &&& 0x20 = 0
      ∧ s3.arm.cpsr_low28 = cpu_example.arm.cpsr_low28 &&& not32 0x20) :=
  ⟨by decide, by decide, by decide, by decide,
   thumb_bl_blx_pair ram_ops 0x8004 1 2 cpu_example (by decide) (by decide) (by decide) (by decide)⟩

theorem thumb_alu_matches_arm_witness :
    (5 < 16)
    ∧ (0 < 8)
    ∧ (1 < 8)
    ∧ (regs32 cpu_example)
    ∧ (∃ sT sA, cpu_thumb_instruction ram_ops (thumb_alu_insn 5 0 1) cpu_example = some sT
      ∧ cpu_interpret_instruction (arm_body (arm_ext ram_ops)) (thumb_alu_arm_insn 5 0 1) cpu_example
          = some sA
      ∧ sT.arm.reg 0 = sA.arm.reg 0 ∧ sT.arm.cpsr_n = sA.arm.cpsr_n
      ∧ sT.arm.cpsr_z = sA.arm.cpsr_z ∧ sT.arm.cpsr_c = sA.arm.cpsr_c
      ∧ sT.arm.cpsr_v = sA.arm.cpsr_v) :=
  ⟨by decide, by decide, by decide, by decide,
   thumb_alu_matches_arm ram_ops 5 0 1 cpu_example (by decide) (by decide) (by decide) (by decide)⟩

/-- Claim C38 (what the code does at the failing input): on the writable small-page chip,
after READ C, PROGRAM, one data byte and three address bytes `0xFF`, the device is in state
PROGRAM with `nand_row = 0xFFFF`, `nand_column = 0x2FF` and `nand_buffer_pos = 1`, so
`nand_column + nand_buffer_pos = 0x300 > page_size = 0x210`; the program confirm `0x10` then
changes the byte at index `0xFFFF * 0x210 + 0x2FF` from `0xFF` to 0, an index beyond
`num_pages * page_size = 0x2100000`. -/
theorem nand_program_confirm_past_page :
    (nand_run nand_past_page_example (nand_initial false true (fun _ => 0xFF))).map
        (fun d => (d.nand_state, d.nand_row, d.nand_column, d.nand_buffer_pos,
          d.metrics.page_size, d.metrics.num_pages, d.nand_writable))
      = some (0x80, 0xFFFF, 0x2FF, 1, 0x210, 0x10000, true)
    ∧ (nand_run (nand_past_page_example ++ [.command 0x10])
          (nand_initial false true (fun _ => 0xFF))).map
        (fun d => (d.nand_data (0xFFFF * 0x210 + 0x2FF), d.nand_state))
      = some (0, 0xFF)
    ∧ (nand_initial false true (fun _ => 0xFF)).nand_data (0xFFFF * 0x210 + 0x2FF) = 0xFF
    ∧ 0x10000 * 0x210 ≤ 0xFFFF * 0x210 + 0x2FF
    ∧ ¬ (0x2FF + 1 ≤ 0x210) := by
  refine ⟨?_, ?_, rfl, by decide, by decide⟩
  · rfl
  · rfl

/-- Claim C40 (what the code does at the failing input): on a ZIP file with the entries
`boot.img` and `phoenix.img`, `load_zip_entry(offset, f, "phoenix.img")` loads the two data
bytes of `boot.img` (file offset 38), the first entry whose name differs from the one asked
for, and `load_zip_entry(offset, f, "boot.img")` loads the four data bytes of `phoenix.img`
(file offset 81); on a file that holds only the entry `phoenix.img`,
`load_zip_entry(offset, f, "phoenix.img")` calls `load_file_part` not at all and returns 0. -/
theorem load_zip_entry_loads_other_name
    (load_file_part : Nat → List Nat → Nat → Nat → Nand → Nat × Nand) (offset : Nat) (d : Nand) :
    load_zip_entry load_file_part offset zip_example name_phoenix_example d
      = load_file_part offset zip_example 38 2 d
    ∧ load_zip_entry load_file_part offset zip_example name_boot_example d
      = load_file_part offset zip_example 81 4 d
    ∧ load_zip_entry load_file_part offset
        (zip_entry_example name_phoenix_example [1, 2, 3, 4]) name_phoenix_example d = (0, d) := by
  refine ⟨?_, ?_, ?_⟩
  · rfl
  · rfl
  · rfl

theorem qadd_family_saturates_witness :
    (2 < 4)
    ∧ (1 < 15)
    ∧ (0 < 15)
    ∧ (2 < 15)
    ∧ (lsr_example.arm.reg 2 < 2 ^ 32)
    ∧ (lsr_example.arm.reg 1 < 2 ^ 32)
    ∧ (∃ u, cpu_interpret_instruction (arm_body (arm_ext ram_ops)) (qadd_insn 2 1 0 2) lsr_example = some u
      ∧ sint32 (u.arm.reg 0)
          = sat32 (qadd_exact 2 (sint32 (lsr_example.arm.reg 2)) (sint32 (lsr_example.arm.reg 1)))
      ∧ u.arm.reg 0 < 2 ^ 32
      ∧ u.arm.cpsr_low28 = lsr_example.arm.cpsr_low28
          ||| (if (2 ≤ 2 ∧ sat32 (2 * sint32 (lsr_example.arm.reg 1)) ≠ 2 * sint32 (lsr_example.arm.reg 1))
                ∨ sat32 (qadd_exact 2 (sint32 (lsr_example.arm.reg 2)) (sint32 (lsr_example.arm.reg 1)))
                    ≠ qadd_exact 2 (sint32 (lsr_example.arm.reg 2)) (sint32 (lsr_example.arm.reg 1))
               then 1 <<< 27 else 0)
      ∧ (∀ i, i ≠ 0 → u.arm.reg i = lsr_example.arm.reg i)
      ∧ u.arm.cpsr_n = lsr_example.arm.cpsr_n ∧ u.arm.cpsr_z = lsr_example.arm.cpsr_z
      ∧ u.arm.cpsr_c = lsr_example.arm.cpsr_c ∧ u.arm.cpsr_v = lsr_example.arm.cpsr_v) :=
  ⟨by decide, by decide, by decide, by decide, by decide, by decide,
   qadd_family_saturates ram_ops 2 1 0 2 lsr_example (by decide) (by decide) (by decide) (by decide) (by decide) (by decide)⟩

theorem exception_return_restores_witness :
    (well_formed cpu_example)
    ∧ (is_exception 2)
    ∧ (cpu_example.arm.cpsr_low28 &&& 0x1F ≠ exception_mode 2)
    ∧ (cpu_example.arm.reg 15 < 2 ^ 32)
    ∧ (∃ s1 s2, cpu_exception 2 cpu_example = some s1
      ∧ cpu_interpret_instruction (arm_body (arm_ext ram_ops)) 0xE1B0F00E s1 = some s2
      ∧ (∀ i, i < 16 → s2.arm.reg i = cpu_example.arm.reg i)
      ∧ s2.arm.cpsr_n = cpu_example.arm.cpsr_n ∧ s2.arm.cpsr_z = cpu_example.arm.cpsr_z
      ∧ s2.arm.cpsr_c = cpu_example.arm.cpsr_c ∧ s2.arm.cpsr_v = cpu_example.arm.cpsr_v
      ∧ s2.arm.cpsr_low28 = cpu_example.arm.cpsr_low28) :=
  ⟨by decide, by decide, by decide, by decide,
   exception_return_restores (arm_ext ram_ops) 2 cpu_example (by decide) (by decide) (by decide) (by decide)⟩

theorem ecc_locates_single_bit_flip_witness :
    (∀ n, n < 512 → (fun _ : Nat => 0) n < 256) ∧ 5 < 4096 ∧ 1000 < 4096 ∧ (5 : Nat) ≠ 1000
    ∧ ecc_calculate (flip_bit (fun _ => 0) 5) ≠ ecc_calculate (flip_bit (fun _ => 0) 1000)
    ∧ (∀ k, k < 12 →
      (ecc_calculate (flip_bit (fun _ => 0) 5) ^^^ ecc_calculate (fun _ => 0)).testBit (2 * k + 1)
        = Nat.testBit 5 k
      ∧ (ecc_calculate (flip_bit (fun _ => 0) 5) ^^^ ecc_calculate (fun _ => 0)).testBit (2 * k)
        = !Nat.testBit 5 k) :=
  ⟨fun _ _ => (by decide : (0 : Nat) < 256), by decide, by decide, by decide,
   ecc_locates_single_bit_flip (fun _ => 0) 5 1000 (fun _ _ => (by decide : (0 : Nat) < 256))
     (by decide) (by decide) (by decide)⟩

theorem stmdb_ldmia_restores_witness :
    (0x4003 < 2 ^ 16)
    ∧ (0x4003 >>> 13 &&& 1 = 0)
    ∧ (0x4003 >>> 15 &&& 1 = 0)
    ∧ (regs32 cpu_example)
    ∧ (∃ s1, cpu_interpret_instruction (arm_body (arm_ext ram_ops)) (0xE92D0000 ||| 0x4003) cpu_example
        = some s1
      ∧ ∀ s1x : Cpu, s1x.mem = s1.mem → s1x.arm.reg 13 = s1.arm.reg 13 →
        ∃ s2, cpu_interpret_instruction (arm_body (arm_ext ram_ops)) (0xE8BD0000 ||| 0x4003) s1x
            = some s2
          ∧ (∀ i, i < 16 → 0x4003 >>> i &&& 1 = 1 → s2.arm.reg i = cpu_example.arm.reg i)
          ∧ s2.arm.reg 13 = cpu_example.arm.reg 13) :=
  ⟨by decide, by decide, by decide, by decide,
   stmdb_ldmia_restores 0x4003 cpu_example (by decide) (by decide) (by decide) (by decide)⟩


end NspireEmu
